import Mathlib

/-!
OpenVR-SpaceCalibrator: calibration engine and pose ring.

A shallow embedding of `src/OpenVR-SpaceCalibrator/Calibration.cpp` and of the
shared-memory pose ring of `src/Protocol.h`, with the properties of the
specification proved (or refuted) over it.

Conventions of the embedding.

* `double` and `float` values are elements of an arbitrary field `α` (a linearly
  ordered field where the code compares them): exact arithmetic, which covers `ℝ`
  and is executable over `ℚ`.
* `uint64_t` values are natural numbers; every operation that can leave the range
  is reduced modulo `2 ^ 64`. `int`, `int32_t` and `time_t` values are integers.
* Functions of Eigen and of libm that are not rational (`sqrt`, `acos`, the SVD, the
  Euler-angle extraction, the least-squares solve) are fields of `Numerics`: every
  theorem holds for all of them, unless it states a hypothesis about one.
* Globals (`CalCtx`, `calibration`, `shmem`, `Driver`, function statics) are fields of
  an explicit `World`; what the environment answers during a tick is a `TickEnv`.
-/

namespace SpaceCalibrator

/-! ## Pose algebra (Calibration.cpp, lines 14-67) -/

/-- A vector of three scalars: `double[3]`, `vr::HmdVector3d_t`, `Eigen::Vector3d`. -/
abbrev Vec3 (α : Type) := Fin 3 → α

/-- A 3x3 matrix: `Eigen::Matrix3d`, indexed `(row, column)`. -/
abbrev Mat3 (α : Type) := Matrix (Fin 3) (Fin 3) α

/-- The quaternion `vr::HmdQuaternion_t`, fields in the order `(w, x, y, z)`;
`Eigen::Quaterniond(w, x, y, z)` carries the same four numbers. -/
structure HmdQuaternion (α : Type) where
  w : α
  x : α
  y : α
  z : α
deriving DecidableEq, Repr

/-- The `operator*` of lines 14-21: the Hamilton product in the `(w, x, y, z)` convention. -/
def HmdQuaternion.mul {α : Type} [CommRing α] (lhs rhs : HmdQuaternion α) : HmdQuaternion α :=
  { w := (lhs.w * rhs.w) - (lhs.x * rhs.x) - (lhs.y * rhs.y) - (lhs.z * rhs.z)
    x := (lhs.w * rhs.x) + (lhs.x * rhs.w) + (lhs.y * rhs.z) - (lhs.z * rhs.y)
    y := (lhs.w * rhs.y) + (lhs.y * rhs.w) + (lhs.z * rhs.x) - (lhs.x * rhs.z)
    z := (lhs.w * rhs.z) + (lhs.z * rhs.w) + (lhs.x * rhs.y) - (lhs.y * rhs.x) }

/-- The squared norm `w² + x² + y² + z²` of a quaternion. -/
def HmdQuaternion.normSq {α : Type} [CommRing α] (q : HmdQuaternion α) : α :=
  q.w * q.w + q.x * q.x + q.y * q.y + q.z * q.z

/-- A unit quaternion: its norm is 1, which is to say that its squared norm is 1. -/
def HmdQuaternion.IsUnitQuat {α : Type} [CommRing α] (q : HmdQuaternion α) : Prop :=
  q.normSq = 1

/-- The function `quaternionRotateVector` of lines 58-63: the vector part of `q · (0, v) · q*`. -/
def quaternionRotateVector {α : Type} [CommRing α] (quat : HmdQuaternion α) (vector : Vec3 α) :
    Vec3 α :=
  let vectorQuat : HmdQuaternion α := { w := 0, x := vector 0, y := vector 1, z := vector 2 }
  let conjugate : HmdQuaternion α := { w := quat.w, x := -quat.x, y := -quat.y, z := -quat.z }
  let rotatedVectorQuat := (quat.mul vectorQuat).mul conjugate
  ![rotatedVectorQuat.x, rotatedVectorQuat.y, rotatedVectorQuat.z]

/-- Eigen's product of two `Quaterniond` (`internal::quat_product`). -/
def eigenQuatProduct {α : Type} [CommRing α] (a b : HmdQuaternion α) : HmdQuaternion α :=
  { w := a.w * b.w - a.x * b.x - a.y * b.y - a.z * b.z
    x := a.w * b.x + a.x * b.w + a.y * b.z - a.z * b.y
    y := a.w * b.y + a.y * b.w + a.z * b.x - a.x * b.z
    z := a.w * b.z + a.z * b.w + a.x * b.y - a.y * b.x }

/-- The cross product of `Eigen::Vector3d`. -/
def cross3 {α : Type} [CommRing α] (a b : Vec3 α) : Vec3 α :=
  ![a 1 * b 2 - a 2 * b 1, a 2 * b 0 - a 0 * b 2, a 0 * b 1 - a 1 * b 0]

/-- Eigen's `Quaterniond * Vector3d` (`QuaternionBase::_transformVector`): with `u` the vector
part of `q`, `uv = 2 (u × v)` and the result is `v + w · uv + u × uv`. -/
def eigenTransformVector {α : Type} [CommRing α] (q : HmdQuaternion α) (v : Vec3 α) : Vec3 α :=
  let u : Vec3 α := ![q.x, q.y, q.z]
  let uv : Vec3 α := fun i => cross3 u v i + cross3 u v i
  fun i => v i + q.w * uv i + cross3 u uv i

/-- Eigen's `Quaterniond::toRotationMatrix`. -/
def toRotationMatrix {α : Type} [CommRing α] (q : HmdQuaternion α) : Mat3 α :=
  let tx := 2 * q.x
  let ty := 2 * q.y
  let tz := 2 * q.z
  let twx := tx * q.w
  let twy := ty * q.w
  let twz := tz * q.w
  let txx := tx * q.x
  let txy := ty * q.x
  let txz := tz * q.x
  let tyy := ty * q.y
  let tyz := tz * q.y
  let tzz := tz * q.z
  !![1 - (tyy + tzz), txy - twz, txz + twy;
     txy + twz, 1 - (txx + tzz), tyz - twx;
     txz - twy, tyz + twx, 1 - (txx + tyy)]

/-- The function `quaternionRotateMatrix` of lines 65-67. -/
def quaternionRotateMatrix {α : Type} [CommRing α] (quat : HmdQuaternion α) : Mat3 α :=
  toRotationMatrix { w := quat.w, x := quat.x, y := quat.y, z := quat.z }

/-- The fields of `vr::DriverPose_t` (Protocol.h, lines 26-44) that the calibration reads; the
velocities, accelerations and head-model fields are carried along by the driver and never read. -/
structure DriverPose (α : Type) where
  qWorldFromDriverRotation : HmdQuaternion α
  vecWorldFromDriverTranslation : Vec3 α
  vecPosition : Vec3 α
  qRotation : HmdQuaternion α
  poseIsValid : Bool

/-- The world-space `Pose` of Calibration.h as Calibration.cpp uses it: `rot` is a 3x3 matrix
(`s1.ref.rot * s2.ref.rot.transpose()`), `trans` a vector. -/
structure Pose (α : Type) where
  rot : Mat3 α
  trans : Vec3 α

/-- An `Eigen::AffineCompact3d`: linear part and translation. -/
structure Affine3 (α : Type) where
  linear : Mat3 α
  translation : Vec3 α

/-- Eigen's `Translation3d(t) * Quaterniond q`: the transform `x ↦ R(q) x + t`. -/
def translationTimesQuat {α : Type} [CommRing α] (t : Vec3 α) (q : HmdQuaternion α) : Affine3 α :=
  { linear := toRotationMatrix q, translation := t }

/-- Modelled from the spec: the constructor `Pose(const Eigen::AffineCompact3d&)` of
Calibration.h, which is not among the sources. A Pose is "a rigid transform represented by a
rotation and a translation": the rotation is the linear part of the transform, the translation its
translation. -/
def Pose.ofAffine {α : Type} (xform : Affine3 α) : Pose α :=
  { rot := xform.linear, trans := xform.translation }

/-- The function `ConvertPose` of lines 25-56. -/
def ConvertPose {α : Type} [CommRing α] (driverPose : DriverPose α) : Pose α :=
  let driverToWorldQ : HmdQuaternion α :=
    { w := driverPose.qWorldFromDriverRotation.w
      x := driverPose.qWorldFromDriverRotation.x
      y := driverPose.qWorldFromDriverRotation.y
      z := driverPose.qWorldFromDriverRotation.z }
  let driverToWorldV : Vec3 α :=
    ![driverPose.vecWorldFromDriverTranslation 0,
      driverPose.vecWorldFromDriverTranslation 1,
      driverPose.vecWorldFromDriverTranslation 2]
  let driverRot := eigenQuatProduct driverToWorldQ
    { w := driverPose.qRotation.w
      x := driverPose.qRotation.x
      y := driverPose.qRotation.y
      z := driverPose.qRotation.z }
  let driverPos : Vec3 α := fun i => driverToWorldV i + eigenTransformVector driverToWorldQ
    ![driverPose.vecPosition 0, driverPose.vecPosition 1, driverPose.vecPosition 2] i
  let xform := translationTimesQuat driverPos driverRot
  Pose.ofAffine xform

/-! ## The closed-form estimator of Calibration.cpp (lines 110-266) -/

/-- The functions of Eigen and libm that exact field arithmetic does not provide. They are
parameters of the model: a theorem holds for every choice of them, unless it states a hypothesis
about one. -/
structure Numerics (α : Type) where
  /-- The square root of `std::sqrt`, as used by `norm()` and `normalize()`. -/
  sqrt : α → α
  /-- The arc cosine of `acos`. -/
  acos : α → α
  /-- The cosine of `cos`, as used by the conversion of an `AngleAxisd` to a quaternion. -/
  cos : α → α
  /-- The sine of `sin`, as used by the same conversion. -/
  sin : α → α
  /-- The constant `EIGEN_PI`. -/
  pi : α
  /-- The factor `matrixU()` of `BDCSVD::compute(M, ComputeThinU | ComputeThinV)`. -/
  svdU : Mat3 α → Mat3 α
  /-- The factor `matrixV()` of the same decomposition. -/
  svdV : Mat3 α → Mat3 α
  /-- The Euler angles of `rot.eulerAngles(2, 1, 0)`. -/
  eulerAngles : Mat3 α → Vec3 α
  /-- The solution of `A.bdcSvd(ComputeThinU | ComputeThinV).solve(b)`, `A` given by its rows. -/
  lstsq : List (Vec3 α) → List α → Vec3 α

/-- The `Sample` of Calibration.h as Calibration.cpp uses it. -/
structure Sample (α : Type) where
  ref : Pose α
  target : Pose α
  timestamp : α
  valid : Bool

/-- Modelled from the spec: the default constructor `Sample()` of Calibration.h, which is not
among the sources. A Sample is "produced ... when both devices have valid driver poses", and the
one `CollectSample` returns when they have not is not valid; its poses are not initialised by the
constructor and stand here as zero. -/
def Sample.invalid {α : Type} [Zero α] : Sample α :=
  { ref := { rot := 0, trans := 0 }, target := { rot := 0, trans := 0 }, timestamp := 0,
    valid := false }

/-- Modelled from the spec: the constructor `Sample(ref, target, timestamp)` of Calibration.h,
which is not among the sources: the valid Sample of the two poses. -/
def Sample.make {α : Type} (ref target : Pose α) (timestamp : α) : Sample α :=
  { ref := ref, target := target, timestamp := timestamp, valid := true }

/-- The `DSample` of lines 110-114. -/
structure DSample (α : Type) where
  valid : Bool
  ref : Vec3 α
  target : Vec3 α

/-- The function `AxisFromRotationMatrix3` of lines 132-135. -/
def AxisFromRotationMatrix3 {α : Type} [CommRing α] (rot : Mat3 α) : Vec3 α :=
  ![rot 2 1 - rot 1 2, rot 0 2 - rot 2 0, rot 1 0 - rot 0 1]

/-- The argument that `AngleFromRotationMatrix3` passes to `acos` (line 139). -/
def angleArgument {α : Type} [Field α] (rot : Mat3 α) : α :=
  (rot 0 0 + rot 1 1 + rot 2 2 - 1) / 2

/-- The function `AngleFromRotationMatrix3` of lines 137-140. -/
def AngleFromRotationMatrix3 {α : Type} [Field α] (N : Numerics α) (rot : Mat3 α) : α :=
  N.acos (angleArgument rot)

/-- Eigen's `squaredNorm()` of a `Vector3d`. -/
def squaredNorm {α : Type} [CommRing α] (v : Vec3 α) : α :=
  v 0 * v 0 + v 1 * v 1 + v 2 * v 2

/-- Eigen's `norm()`: the square root of `squaredNorm()`. -/
def norm3 {α : Type} [CommRing α] (N : Numerics α) (v : Vec3 α) : α :=
  N.sqrt (squaredNorm v)

/-- Eigen's `normalize()`: divides by the norm when the squared norm is positive, and leaves
the vector alone otherwise. -/
def normalize3 {α : Type} [LinearOrderedField α] (N : Numerics α) (v : Vec3 α) : Vec3 α :=
  if 0 < squaredNorm v then fun i => v i / N.sqrt (squaredNorm v) else v

/-- The function `DeltaRotationSamples` of lines 142-162. -/
def DeltaRotationSamples {α : Type} [LinearOrderedField α] (N : Numerics α)
    (s1 s2 : Sample α) : DSample α :=
  let dref := s1.ref.rot * s2.ref.rot.transpose
  let dtarget := s1.target.rot * s2.target.rot.transpose
  let dsRef := AxisFromRotationMatrix3 dref
  let dsTarget := AxisFromRotationMatrix3 dtarget
  let refA := AngleFromRotationMatrix3 N dref
  let targetA := AngleFromRotationMatrix3 N dtarget
  let valid : Bool :=
    decide (refA > 2 / 5) && decide (targetA > 2 / 5) &&
      decide (norm3 N dsRef > 1 / 100) && decide (norm3 N dsTarget > 1 / 100)
  { valid := valid, ref := normalize3 N dsRef, target := normalize3 N dsTarget }

/-- What the estimator writes with `CalCtx.Log` (the `snprintf` formats of lines 178, 220, 263). -/
inductive SolveLog (α : Type) where
  /-- The line "Got %zd samples with %zd delta samples". -/
  | gotSamples (samples deltas : Nat)
  /-- The line "Calibrated rotation: yaw=%.2f pitch=%.2f roll=%.2f". -/
  | calibratedRotation (yaw pitch roll : α)
  /-- The line "Calibrated translation x=%.2f y=%.2f z=%.2f". -/
  | calibratedTranslation (x y z : α)

/-- The valid delta samples of lines 166-176, in the order the two loops push them: `i` from 0
to `samples.size()`, `j` from 0 to `i`. -/
def rotationDeltas {α : Type} [LinearOrderedField α] (N : Numerics α)
    (samples : List (Sample α)) : List (DSample α) :=
  (List.range samples.length).flatMap fun i =>
    (List.range i).flatMap fun j =>
      match samples[i]?, samples[j]? with
      | some si, some sj =>
        let delta := DeltaRotationSamples N si sj
        if delta.valid then [delta] else []
      | _, _ => []

/-- The sum of a list of vectors, starting from `(0, 0, 0)` (lines 184-193). -/
def sumVec {α : Type} [Field α] (vs : List (Vec3 α)) : Vec3 α :=
  vs.foldl (fun acc v => fun i => acc i + v i) (fun _ => 0)

/-- The determinant of a 3x3 matrix, as Eigen expands it along the first row. -/
def det3 {α : Type} [CommRing α] (m : Mat3 α) : α :=
  m 0 0 * (m 1 1 * m 2 2 - m 1 2 * m 2 1) - m 0 1 * (m 1 0 * m 2 2 - m 1 2 * m 2 0)
    + m 0 2 * (m 1 0 * m 2 1 - m 1 1 * m 2 0)

/-- The matrix `i` of lines 209-213: the identity, with `i(2,2) = -1` when
`(U * V^T).determinant() < 0`. -/
def kabschSign {α : Type} [LinearOrderedField α] (U V : Mat3 α) : Mat3 α :=
  if det3 (U * V.transpose) < 0 then !![1, 0, 0; 0, 1, 0; 0, 0, -1] else 1

/-- The matrix `rot` of lines 215-216: `V * i * U^T`, transposed in place. -/
def kabschRotation {α : Type} [LinearOrderedField α] (U V : Mat3 α) : Mat3 α :=
  (V * kabschSign U V * U.transpose).transpose

/-- The matrix `crossCV` of lines 183-204: `refPoints^T * targetPoints`, the rows of the two
matrices being the delta axes minus their centroids. -/
def crossCovariance {α : Type} [LinearOrderedField α] (deltas : List (DSample α)) : Mat3 α :=
  let refCentroid : Vec3 α := fun i => sumVec (deltas.map (·.ref)) i / (deltas.length : α)
  let targetCentroid : Vec3 α := fun i => sumVec (deltas.map (·.target)) i / (deltas.length : α)
  let refPoints : List (Vec3 α) := deltas.map fun d => fun i => d.ref i - refCentroid i
  let targetPoints : List (Vec3 α) := deltas.map fun d => fun i => d.target i - targetCentroid i
  Matrix.of fun i j => ((refPoints.zip targetPoints).map fun p => p.1 i * p.2 j).sum

/-- The function `CalibrateRotation` of lines 164-223: the lines it logs, in order, and the Euler
angles (in degrees) it returns. -/
def CalibrateRotation {α : Type} [LinearOrderedField α] (N : Numerics α)
    (samples : List (Sample α)) : List (SolveLog α) × Vec3 α :=
  let deltas := rotationDeltas N samples
  let log1 := SolveLog.gotSamples samples.length deltas.length
  let crossCV := crossCovariance deltas
  let rot := kabschRotation (N.svdU crossCV) (N.svdV crossCV)
  let euler : Vec3 α := fun i => N.eulerAngles rot i * 180 / N.pi
  ([log1, SolveLog.calibratedRotation (euler 1) (euler 2) (euler 0)], euler)

/-- What C4 calls a rejected solve, on the lines `CalibrateRotation` logs: no calibrated
rotation is reported. -/
def ReportsNoRotation {α : Type} (log : List (SolveLog α)) : Prop :=
  ∀ yaw pitch roll, SolveLog.calibratedRotation yaw pitch roll ∉ log

/-- The pairs `(C, dQ)` of lines 227-245, in the order the two loops push them: for each pair
`j < i` the block of the reference rotations, then the block of the target rotations. -/
def translationDeltas {α : Type} [CommRing α] (samples : List (Sample α)) :
    List (Vec3 α × Mat3 α) :=
  (List.range samples.length).flatMap fun i =>
    (List.range i).flatMap fun j =>
      match samples[i]?, samples[j]? with
      | some si, some sj =>
        let QAi := si.ref.rot.transpose
        let QAj := sj.ref.rot.transpose
        let dQA := QAj - QAi
        let CA := QAj.mulVec (sj.ref.trans - sj.target.trans)
          - QAi.mulVec (si.ref.trans - si.target.trans)
        let QBi := si.target.rot.transpose
        let QBj := sj.target.rot.transpose
        let dQB := QBj - QBi
        let CB := QBj.mulVec (sj.ref.trans - sj.target.trans)
          - QBi.mulVec (si.ref.trans - si.target.trans)
        [(CA, dQA), (CB, dQB)]
      | _, _ => []

/-- The pair `(CA, dQA)` that lines 233-237 push for the Samples `si = samples[i]` and
`sj = samples[j]` of a pair `j < i`: the reference block. -/
def referenceBlock {α : Type} [CommRing α] (si sj : Sample α) : Vec3 α × Mat3 α :=
  let QAi := si.ref.rot.transpose
  let QAj := sj.ref.rot.transpose
  let dQA := QAj - QAi
  let CA := QAj.mulVec (sj.ref.trans - sj.target.trans)
    - QAi.mulVec (si.ref.trans - si.target.trans)
  (CA, dQA)

/-- The pair `(CB, dQB)` that lines 239-243 push for the same Samples: the target block. -/
def targetBlock {α : Type} [CommRing α] (si sj : Sample α) : Vec3 α × Mat3 α :=
  let QBi := si.target.rot.transpose
  let QBj := sj.target.rot.transpose
  let dQB := QBj - QBi
  let CB := QBj.mulVec (sj.ref.trans - sj.target.trans)
    - QBi.mulVec (si.ref.trans - si.target.trans)
  (CB, dQB)

/-- The vector `constants` of lines 247-257: entry `i * 3 + axis` is `deltas[i].first(axis)`. -/
def stackedConstants {α : Type} (deltas : List (Vec3 α × Mat3 α)) : List α :=
  deltas.flatMap fun d => [d.1 0, d.1 1, d.1 2]

/-- The matrix `coefficients` of lines 248-257, as the list of its rows: row `i * 3 + axis` is
`deltas[i].second.row(axis)`. -/
def stackedCoefficients {α : Type} (deltas : List (Vec3 α × Mat3 α)) : List (Vec3 α) :=
  deltas.flatMap fun d => [d.2 0, d.2 1, d.2 2]

/-- The function `CalibrateTranslation` of lines 225-266: the line it logs and the translation,
in centimetres, it returns. -/
def CalibrateTranslation {α : Type} [LinearOrderedField α] (N : Numerics α)
    (samples : List (Sample α)) : List (SolveLog α) × Vec3 α :=
  let deltas := translationDeltas samples
  let constants := stackedConstants deltas
  let coefficients := stackedCoefficients deltas
  let trans := N.lstsq coefficients constants
  let transcm : Vec3 α := fun i => trans i * 100
  ([SolveLog.calibratedTranslation (transcm 0) (transcm 1) (transcm 2)], transcm)

/-- The dot product of a row of the stacked matrix with a candidate translation. -/
def dot3 {α : Type} [CommRing α] (r t : Vec3 α) : α :=
  r 0 * t 0 + r 1 * t 1 + r 2 * t 2

/-- The sum of the squared residuals `(row · t - c)²` of a stacked system, given by its rows and
its constants. -/
def residualSq {α : Type} [CommRing α] (rows : List (Vec3 α)) (consts : List α) (t : Vec3 α) : α :=
  ((rows.zip consts).map fun rc => (dot3 rc.1 t - rc.2) * (dot3 rc.1 t - rc.2)).sum

/-- A least-squares solution of the stacked system: no vector has a smaller sum of squared
residuals. This is what `bdcSvd(...).solve` returns in exact arithmetic. -/
def IsLeastSquares {α : Type} [LinearOrderedField α] (rows : List (Vec3 α)) (consts : List α)
    (t : Vec3 α) : Prop :=
  ∀ t', residualSq rows consts t ≤ residualSq rows consts t'

/-- The stacked matrix has full column rank: no nonzero vector is orthogonal to all its rows. -/
def FullColumnRank {α : Type} [CommRing α] (rows : List (Vec3 α)) : Prop :=
  ∀ v : Vec3 α, (∀ r ∈ rows, dot3 r v = 0) → v = 0

/-- A vector satisfies every equation `row · t = c` of a stacked system. -/
def SolvesAll {α : Type} [CommRing α] (rows : List (Vec3 α)) (consts : List α) (t : Vec3 α) :
    Prop :=
  ∀ rc ∈ rows.zip consts, dot3 rc.1 t = rc.2

/-! ## The pose ring in shared memory (Protocol.h, lines 154-319) -/

/-- The constant `BUFFERED_SAMPLES` of line 164. -/
def BUFFERED_SAMPLES : Nat := 64 * 1024

/-- The constant `vr::k_unMaxTrackedDeviceCount` of OpenVR: 64 devices, the ids `[0, 64)` of the
specification. -/
def k_unMaxTrackedDeviceCount : Nat := 64

/-- The number of values of a `uint64_t`: arithmetic on `index` and `cursor` is modulo this. -/
def UINT64_RANGE : Nat := 2 ^ 64

/-- The `timespec` of a record: seconds and nanoseconds, both signed. -/
structure timespec where
  tv_sec : Int
  tv_nsec : Int
deriving DecidableEq, Repr

/-- The record `AugmentedPose` of lines 157-161, over any type of pose. -/
structure AugmentedPose (P : Type) where
  sample_time : timespec
  deviceId : Int
  pose : P

/-- The segment `ShmemData` of lines 166-169: the write index and the 65536 slots. -/
structure ShmemData (P : Type) where
  index : Nat
  poses : Fin BUFFERED_SAMPLES → AugmentedPose P

/-- The private members of a `DriverPoseShmem` object (lines 171-175); `mapped` stands for
`pData != nullptr`, and the segment `pData` points to is passed to each operation. -/
structure DriverPoseShmem (P : Type) where
  mapped : Bool
  cursor : Nat
  lastPose : Fin k_unMaxTrackedDeviceCount → AugmentedPose P

/-- The slot of ring position `k`: `k % BUFFERED_SAMPLES` (lines 281 and 302). -/
def slotOf (k : Nat) : Fin BUFFERED_SAMPLES :=
  ⟨k % BUFFERED_SAMPLES, Nat.mod_lt k (by decide)⟩

/-- The constructor of lines 186-191: nothing mapped, cursor 0, `lastPose` filled with zero
bytes (`zero` is the all-zero pose). -/
def DriverPoseShmem.new {P : Type} (zero : P) : DriverPoseShmem P :=
  { mapped := false
    cursor := 0
    lastPose := fun _ => { sample_time := { tv_sec := 0, tv_nsec := 0 }, deviceId := 0,
                           pose := zero } }

/-- The method `Close` of lines 197-206. -/
def DriverPoseShmem.Close {P : Type} (self : DriverPoseShmem P) : DriverPoseShmem P :=
  { self with mapped := false }

/-- The method `Create` of lines 208-245 on the segment: a successful call resets `index` to 0
(line 242); the slots keep what the shared memory holds. -/
def ShmemData.Create {P : Type} (data : ShmemData P) : ShmemData P :=
  { data with index := 0 }

/-- The method `Open` of lines 247-275: `segment` is the shared segment when `shm_open` and
`mmap` succeed and `none` when one of them fails. Returns the object and the result. -/
def DriverPoseShmem.Open {P : Type} (segment : Option (ShmemData P)) (self : DriverPoseShmem P) :
    DriverPoseShmem P × Bool :=
  match segment with
  | none => (self.Close, false)
  | some data => ({ self.Close with mapped := true, cursor := data.index }, true)

/-- The method `WritePose` of lines 277-287 of a writer whose segment is mapped, the time that
`clock_gettime` stores being the argument `now`. -/
def WritePose {P : Type} (now : timespec) (deviceId : Int) (pose : P) (data : ShmemData P) :
    ShmemData P :=
  let writeIndex := data.index
  let slot := slotOf writeIndex
  { index := (data.index + 1) % UINT64_RANGE
    poses := Function.update data.poses slot
      { sample_time := now, deviceId := deviceId, pose := pose } }

/-- The test of lines 308-310: the time of `aug` is strictly later than the time of `last`. -/
def isNewer (aug last : timespec) : Bool :=
  decide (aug.tv_sec > last.tv_sec) ||
    (decide (aug.tv_sec = last.tv_sec) && decide (aug.tv_nsec > last.tv_nsec))

/-- The state of a run of `ReadNewPoses`: the reader object, the state `cb` the callback acts on,
and the list `examined` of the loop iterations made so far, each with the value of `cursor` and
the slot it read. The list is a record of the run; nothing reads it. -/
structure ReadState (P σ : Type) where
  self : DriverPoseShmem P
  cb : σ
  examined : List (Nat × Fin BUFFERED_SAMPLES)

/-- The test of line 305 on a device id, with the index into `lastPose` that it licenses. -/
def deviceSlot (deviceId : Int) : Option (Fin k_unMaxTrackedDeviceCount) :=
  if h : 0 ≤ deviceId ∧ deviceId < (k_unMaxTrackedDeviceCount : Int) then
    some ⟨deviceId.toNat, by
      have h2 := h.2
      have h1 := h.1
      simp only [k_unMaxTrackedDeviceCount] at h2 ⊢
      omega⟩
  else none

/-- Lines 305-314: what one record does to `lastPose` and to the state of the callback. -/
def deliver {P σ : Type} (callback : σ → AugmentedPose P → σ)
    (acc : (Fin k_unMaxTrackedDeviceCount → AugmentedPose P) × σ) (aug : AugmentedPose P) :
    (Fin k_unMaxTrackedDeviceCount → AugmentedPose P) × σ :=
  match deviceSlot aug.deviceId with
  | some d =>
    let last := acc.1 d
    if isNewer aug.sample_time last.sample_time then
      (Function.update acc.1 d aug, callback acc.2 aug)
    else acc
  | none => acc

/-- The body of the loop of lines 301-317. -/
def readBody {P σ : Type} (callback : σ → AugmentedPose P → σ) (data : ShmemData P)
    (st : ReadState P σ) : ReadState P σ :=
  let slot := slotOf st.self.cursor
  let aug := data.poses slot
  let r := deliver callback (st.self.lastPose, st.cb) aug
  { self := { st.self with lastPose := r.1, cursor := (st.self.cursor + 1) % UINT64_RANGE }
    cb := r.2
    examined := st.examined ++ [(st.self.cursor, slot)] }

/-- The loop `while (cursor < latestIndex)` of lines 301-317. It terminates because
`latestIndex` is a `uint64_t`: the increment of a cursor below it does not wrap. -/
def readLoop {P σ : Type} (callback : σ → AugmentedPose P → σ) (data : ShmemData P)
    (latestIndex : Nat) (hl : latestIndex < UINT64_RANGE) (st : ReadState P σ) : ReadState P σ :=
  if _h : st.self.cursor < latestIndex then
    readLoop callback data latestIndex hl (readBody callback data st)
  else st
termination_by latestIndex - st.self.cursor
decreasing_by
  simp only [readBody]
  have h1 : (st.self.cursor + 1) % UINT64_RANGE = st.self.cursor + 1 :=
    Nat.mod_eq_of_lt (by omega)
  rw [h1]
  omega

/-- The method `ReadNewPoses` of lines 289-318, on the segment `data` the object has mapped.
The callback is a function on a state `σ` (what the C++ lambda captures by reference). -/
def ReadNewPoses {P σ : Type} (callback : σ → AugmentedPose P → σ) (data : ShmemData P)
    (self : DriverPoseShmem P) (s : σ) : ReadState P σ :=
  if !self.mapped then { self := self, cb := s, examined := [] }
  else
    let latestIndex := data.index % UINT64_RANGE
    let self1 :=
      if latestIndex > (self.cursor + BUFFERED_SAMPLES) % UINT64_RANGE then
        { self with cursor := (latestIndex + UINT64_RANGE - BUFFERED_SAMPLES) % UINT64_RANGE }
      else self
    readLoop callback data latestIndex (Nat.mod_lt _ (by decide))
      { self := self1, cb := s, examined := [] }

/-- The callback that records the records it is given, in order. -/
def recordCallback {P : Type} (acc : List (AugmentedPose P)) (aug : AugmentedPose P) :
    List (AugmentedPose P) :=
  acc ++ [aug]

/-- A record to write: the time `clock_gettime` returns, the device id and the pose. -/
structure WriteRequest (P : Type) where
  now : timespec
  deviceId : Int
  pose : P

/-- The record that `WritePose` stores for a write request. -/
def WriteRequest.record {P : Type} (r : WriteRequest P) : AugmentedPose P :=
  { sample_time := r.now, deviceId := r.deviceId, pose := r.pose }

/-- A sequence of calls of `WritePose`, in order. -/
def writeAll {P : Type} (reqs : List (WriteRequest P)) (data : ShmemData P) : ShmemData P :=
  reqs.foldl (fun d r => WritePose r.now r.deviceId r.pose d) data

/-- A sequence of calls of `ReadNewPoses` with the recording callback, the segment holding
`datas[i]` at the time of call `i`: the reader and the records delivered so far. -/
def readAll {P : Type} (datas : List (ShmemData P))
    (start : DriverPoseShmem P × List (AugmentedPose P)) :
    DriverPoseShmem P × List (AugmentedPose P) :=
  datas.foldl (fun acc data =>
    let r := ReadNewPoses recordCallback data acc.1 acc.2
    (r.self, r.cb)) start

/-- The value of `cursor` when the loop of `ReadNewPoses` starts: after the fast-forward of
lines 296-298, if it is taken. -/
def readStart {P : Type} (data : ShmemData P) (self : DriverPoseShmem P) : Nat :=
  if data.index % UINT64_RANGE > (self.cursor + BUFFERED_SAMPLES) % UINT64_RANGE then
    (data.index % UINT64_RANGE + UINT64_RANGE - BUFFERED_SAMPLES) % UINT64_RANGE
  else self.cursor

/-- The ring positions `start, start + 1, ..., start + n - 1`, each with its slot. -/
def examinedOf (start n : Nat) : List (Nat × Fin BUFFERED_SAMPLES) :=
  (List.range' start n).map fun k => (k, slotOf k)

/-- The records the segment holds at the ring positions `start, ..., start + n - 1`. -/
def ringRecords {P : Type} (data : ShmemData P) (start n : Nat) : List (AugmentedPose P) :=
  (List.range' start n).map fun k => data.poses (slotOf k)

/-- The time order of lines 308-310 as a relation: `a` is strictly earlier than `b`. -/
def timespec.lt (a b : timespec) : Prop :=
  isNewer b a = true

instance timespec.decidableLt (a b : timespec) : Decidable (timespec.lt a b) :=
  inferInstanceAs (Decidable (isNewer b a = true))

/-- The records of a list that carry the device id `d`. -/
def forDevice {P : Type} (d : Int) (l : List (AugmentedPose P)) : List (AugmentedPose P) :=
  l.filter fun a => decide (a.deviceId = d)

/-- The invariant of a reader whose `lastPose` was `lastPose0` before any of the records `out`
was delivered: for each device, the records delivered for it have strictly increasing times,
`lastPose` holds the last of them, and it still holds its initial value when there is none. -/
def DeliveryInvariant {P : Type} (lastPose0 lastPose : Fin k_unMaxTrackedDeviceCount → AugmentedPose P)
    (out : List (AugmentedPose P)) : Prop :=
  ∀ d : Fin k_unMaxTrackedDeviceCount,
    ((forDevice (d.val : Int) out).map fun a => a.sample_time).Pairwise timespec.lt ∧
      (∀ a, (forDevice (d.val : Int) out).getLast? = some a → lastPose d = a) ∧
      (forDevice (d.val : Int) out = [] → lastPose d = lastPose0 d)

/-! ## The driver protocol (Protocol.h, lines 48-152) -/

/-- The `AlignmentSpeedParams` of lines 73-94. -/
structure AlignmentSpeedParams (α : Type) where
  thr_trans_tiny : α
  thr_trans_small : α
  thr_trans_large : α
  thr_rot_tiny : α
  thr_rot_small : α
  thr_rot_large : α
  align_speed_tiny : α
  align_speed_small : α
  align_speed_large : α

/-- The payload `SetDeviceTransform` of lines 96-126. -/
structure SetDeviceTransform (α : Type) where
  openVRID : Nat
  enabled : Bool
  updateTranslation : Bool
  updateRotation : Bool
  updateScale : Bool
  translation : Vec3 α
  rotation : HmdQuaternion α
  scale : α
  lerp : Bool
  quash : Bool

/-- The constructor of lines 124-125: id, enabled, translation, rotation and scale; the three
update flags are set, `lerp` and `quash` are false. -/
def SetDeviceTransform.full {α : Type} (id : Nat) (enabled : Bool) (translation : Vec3 α)
    (rotation : HmdQuaternion α) (scale : α) : SetDeviceTransform α :=
  { openVRID := id, enabled := enabled, updateTranslation := true, updateRotation := true,
    updateScale := true, translation := translation, rotation := rotation, scale := scale,
    lerp := false, quash := false }

/-- A `Request` of lines 128-140 as the calibration sends it: the type tag and its payload. -/
inductive Request (α : Type) where
  /-- The tag `RequestSetDeviceTransform` with its payload. -/
  | setDeviceTransform (payload : SetDeviceTransform α)
  /-- The tag `RequestSetAlignmentSpeedParams` with its payload. -/
  | setAlignmentSpeedParams (payload : AlignmentSpeedParams α)

/-! ## The calibration context and the tick (Calibration.cpp, lines 70-108 and 268-747) -/

/-- The enumeration `CalibrationState` of Calibration.h, with the states Calibration.cpp names. -/
inductive CalibrationState where
  | None
  | Begin
  | Rotation
  | Translation
  | Editing
  | Continuous
  | ContinuousStandby
deriving DecidableEq, Repr

/-- The fields of `vr::TrackedDevicePose_t` the tick reads: the validity flag and the 3x4 matrix
`mDeviceToAbsoluteTracking.m`. -/
structure TrackedDevicePose (α : Type) where
  bPoseIsValid : Bool
  m : Fin 3 → Fin 4 → α

/-- What Calibration.cpp passes to `CalCtx.Log` and `CalCtx.Progress`, one constructor for each
message text. -/
inductive LogMsg where
  /-- The message "Reference device is not tracking". -/
  | referenceNotTracking
  /-- The message "Target device is not tracking". -/
  | targetNotTracking
  /-- The message "Aborting calibration!". -/
  | aborting
  /-- The message "[DIAGNOSTIC] Calibration started with Reference ID: %d, Target ID: %d". -/
  | diagnosticStarted (referenceID targetID : Int)
  /-- The message "[DIAGNOSTIC WARNING] Device IDs changed during calibration!" with the old
  ids, the new ids and the sample count. -/
  | diagnosticChanged (oldRef oldTarget newRef newTarget : Int) (sampleCount : Nat)
  /-- The message "Reference device ID: %d, serial: %s". -/
  | referenceSerial (id : Int) (serial : String)
  /-- The message "Target device ID: %d, serial %s". -/
  | targetSerial (id : Int) (serial : String)
  /-- The message "Missing reference device". -/
  | missingReference
  /-- The message "Missing target device". -/
  | missingTarget
  /-- The message "Reference device tracking is too jittery". -/
  | referenceJittery
  /-- The message "Target device tracking is too jittery". -/
  | targetJittery
  /-- The message "Starting calibration...". -/
  | starting
  /-- The empty line logged before a solve (line 683). -/
  | newline
  /-- The message "Continuous calibration updated". -/
  | continuousUpdated
  /-- The message "Finished calibration, profile saved". -/
  | finished
  /-- The message "Calibration failed!". -/
  | failed
  /-- The message "Relative position locked". -/
  | relativePositionLocked
  /-- The message "Collecting initial samples...". -/
  | collectingInitial
  /-- The message "Continuous calibration stopped, profile saved". -/
  | continuousStopped
  /-- A call `Progress(current, target)`. -/
  | progress (current target : Nat)
deriving DecidableEq, Repr

/-- The chaperone fields `ScanAndApplyProfile` reads: validity, the auto-apply option and the
number of quads of the stored geometry. -/
structure ChaperoneInfo where
  valid : Bool
  autoApply : Bool
  geometrySize : Nat

/-- The `CalibrationContext` of Calibration.h, with the fields Calibration.cpp reads or writes.
`sampleCount` is the value of the method `SampleCount()`; `messages` and `clearOnLog` are the
state of the log. -/
structure CalibrationContext (α : Type) where
  state : CalibrationState
  referenceID : Int
  targetID : Int
  driverPoses : Fin k_unMaxTrackedDeviceCount → DriverPose α
  devicePoses : Fin k_unMaxTrackedDeviceCount → TrackedDevicePose α
  timeLastTick : α
  timeLastScan : α
  timeLastAssign : α
  wantedUpdateInterval : α
  requireTriggerPressToApply : Bool
  xprev : α
  yprev : α
  zprev : α
  jitterThreshold : α
  continuousCalibrationOffset : Vec3 α
  continuousCalibrationThreshold : α
  maxRelativeErrorThreshold : α
  ignoreOutliers : Bool
  enableStaticRecalibration : Bool
  lockRelativePosition : Bool
  quashTargetInContinuous : Bool
  calibratedRotation : Vec3 α
  calibratedTranslation : Vec3 α
  calibratedScale : α
  refToTargetPose : Affine3 α
  relativePosCalibrated : Bool
  validProfile : Bool
  enabled : Bool
  hasAppliedCalibrationResult : Bool
  referenceTrackingSystem : String
  targetTrackingSystem : String
  alignmentSpeedParams : AlignmentSpeedParams α
  chaperone : ChaperoneInfo
  sampleCount : Nat
  messages : List LogMsg
  clearOnLog : Bool

/-- Modelled from the spec: the method `Log` of Calibration.h, which is not among the sources.
"All user-visible messages go through `Context.Log()`; continuous mode coalesces log spam via
`ClearLogOnMessage()`": a message is appended, after the log is emptied when a clear is pending.
No other field of the context changes. -/
def CalibrationContext.Log {α : Type} (ctx : CalibrationContext α) (msg : LogMsg) :
    CalibrationContext α :=
  if ctx.clearOnLog then { ctx with messages := [msg], clearOnLog := false }
  else { ctx with messages := ctx.messages ++ [msg] }

/-- Modelled from the spec: the method `ClearLogOnMessage` of Calibration.h, which is not among
the sources: the next message empties the log first. -/
def CalibrationContext.ClearLogOnMessage {α : Type} (ctx : CalibrationContext α) :
    CalibrationContext α :=
  { ctx with clearOnLog := true }

/-- Modelled from the spec: the method `Progress` of Calibration.h, which is not among the
sources: a progress report goes where the messages go. -/
def CalibrationContext.Progress {α : Type} (ctx : CalibrationContext α) (current target : Nat) :
    CalibrationContext α :=
  ctx.Log (LogMsg.progress current target)

/-- What the accessors of the estimator return: `isValid()`, `EulerRotation()`,
`Transformation()`, `RelativeTransformation()`, `isRelativeTransformationCalibrated()`. -/
structure CalcEstimate (α : Type) where
  isValid : Bool
  EulerRotation : Vec3 α
  Transformation : Affine3 α
  RelativeTransformation : Affine3 α
  isRelativeTransformationCalibrated : Bool

/-- Modelled from the spec: the class `CalibrationCalc` of CalibrationCalc.h, which is not among
the sources. The estimator "maintains a bounded window of Samples" (the list `samples`, oldest
first), has the two public flags the tick sets, and holds its current estimate. -/
structure CalibrationCalc (α : Type) where
  samples : List (Sample α)
  enableStaticRecalibration : Bool
  lockRelativePosition : Bool
  estimate : CalcEstimate α

/-- Modelled from the spec: `CalibrationCalc::SampleCount`, the number of Samples in the
window. -/
def CalibrationCalc.SampleCount {α : Type} (c : CalibrationCalc α) : Nat :=
  c.samples.length

/-- Modelled from the spec: `CalibrationCalc::PushSample`, which adds a Sample as the newest of
the window. -/
def CalibrationCalc.PushSample {α : Type} (c : CalibrationCalc α) (s : Sample α) :
    CalibrationCalc α :=
  { c with samples := c.samples ++ [s] }

/-- Modelled from the spec: `CalibrationCalc::ShiftSample`, which "shifts out the oldest"
Sample of the window, if there is one. -/
def CalibrationCalc.ShiftSample {α : Type} (c : CalibrationCalc α) : CalibrationCalc α :=
  { c with samples := c.samples.tail }

/-- Modelled from the spec: `CalibrationCalc::setRelativeTransformation`, which stores the
relative pose and whether it is calibrated. -/
def CalibrationCalc.setRelativeTransformation {α : Type} (c : CalibrationCalc α)
    (pose : Affine3 α) (calibrated : Bool) : CalibrationCalc α :=
  { c with estimate := { c.estimate with RelativeTransformation := pose,
                                         isRelativeTransformationCalibrated := calibrated } }

/-- What the world outside Calibration.cpp answers during one call: the VR runtime, the shared
segment, the clock, and the solver of `CalibrationCalc` (none of them among the sources). The
theorems about the tick hold for all such answers. -/
structure TickEnv (α : Type) where
  /-- Whether `vr::VRSystem()` is not null. -/
  vrSystem : Bool
  /-- The content of the shared segment when `ReadNewPoses` runs. -/
  shmemData : ShmemData (DriverPose α)
  /-- The poses `GetDeviceToAbsoluteTrackingPose` writes into `ctx.devicePoses`. -/
  rawPoses : Fin k_unMaxTrackedDeviceCount → TrackedDevicePose α
  /-- Whether `GetTrackedDeviceClass(id)` differs from `TrackedDeviceClass_Invalid`. -/
  devicePresent : Nat → Bool
  /-- The tracking-system name of a device, `none` when the property read fails. -/
  trackingSystemName : Nat → Option String
  /-- The serial number `GetStringTrackedDeviceProperty` writes for a device id. -/
  serialNumber : Int → String
  /-- The quad count `GetLiveCollisionBoundsInfo` reports. -/
  liveQuadCount : Nat
  /-- The value of `glfwGetTime()`. -/
  glfwGetTime : α
  /-- The value of `calibration.ReferenceJitter()`. -/
  ReferenceJitter : CalibrationCalc α → α
  /-- The value of `calibration.TargetJitter()`. -/
  TargetJitter : CalibrationCalc α → α
  /-- The result of `calibration.ComputeOneshot(ignoreOutliers)` and the estimate it leaves. -/
  ComputeOneshot : CalibrationCalc α → Bool → Bool × CalcEstimate α
  /-- The result of `calibration.ComputeIncremental(lerp, threshold, maxError, ignoreOutliers)`,
  the value it leaves in `lerp` and the estimate it leaves. -/
  ComputeIncremental : CalibrationCalc α → α → α → Bool → Bool × Bool × CalcEstimate α
  /-- The estimate `calibration.Clear()` leaves. -/
  clearedEstimate : CalcEstimate α → CalcEstimate α

/-- Modelled from the spec: `CalibrationCalc::Clear`, which empties the window; the estimate it
leaves is an answer of the environment. -/
def CalibrationCalc.Clear {α : Type} (env : TickEnv α) (c : CalibrationCalc α) :
    CalibrationCalc α :=
  { c with samples := [], estimate := env.clearedEstimate c.estimate }

/-- The globals of Calibration.cpp (lines 70-73), the statics of `CalibrationTick` (lines
533-535 and 665), and a record of the calls that leave the process: the requests `Driver` has
sent, oldest first, and the numbers of calls of `SaveProfile` and `ApplyChaperoneBounds`.
`lastReferenceID` and `lastTargetID` are read only after `deviceIDsInitialized` has been set,
which assigns them: the value of their static initialiser is never observed. -/
structure World (α : Type) where
  CalCtx : CalibrationContext α
  calibration : CalibrationCalc α
  shmem : DriverPoseShmem (DriverPose α)
  sent : List (Request α)
  savedProfiles : Nat
  chaperoneApplied : Nat
  lastReferenceID : Int
  lastTargetID : Int
  deviceIDsInitialized : Bool
  samples : List (Sample α)

/-- Appends a message to the log of the global context. -/
def World.Log {α : Type} (w : World α) (msg : LogMsg) : World α :=
  { w with CalCtx := w.CalCtx.Log msg }

/-- Modelled from the spec: `IPCClient::SendBlocking`, which is not among the sources, for a
request the driver answers: the request is written to the socket and the call returns. -/
def World.SendBlocking {α : Type} (w : World α) (req : Request α) : World α :=
  { w with sent := w.sent ++ [req] }

/-- The element of a 64-element array at a signed index, `none` outside `[0, 64)`, where the
C++ read or write has no defined behaviour. -/
def arrayAt {X : Type} (arr : Fin k_unMaxTrackedDeviceCount → X) (i : Int) : Option X :=
  (deviceSlot i).map arr

/-- The value of an `int32_t` converted to `uint32_t`. -/
def toUInt32 (i : Int) : Int := i % 2 ^ 32

/-- The function `AssignTargets` of lines 78-92. -/
def AssignTargets {α : Type} (CalCtx : CalibrationContext α) : Bool :=
  if CalCtx.referenceID < 0 ∨ CalCtx.referenceID ≥ (k_unMaxTrackedDeviceCount : Int) then false
  else if CalCtx.targetID < 0 ∨ CalCtx.targetID ≥ (k_unMaxTrackedDeviceCount : Int) then false
  else true

/-- The function `CollectSample` of lines 268-308, called with the global context (`ctx` and
`CalCtx` are the same object). The result is `none` when `referenceID` or `targetID` is not an
index of `driverPoses`. -/
def CollectSample {α : Type} [LinearOrderedField α] (env : TickEnv α)
    (CalCtx : CalibrationContext α) : Option (CalibrationContext α × Sample α) :=
  match arrayAt CalCtx.driverPoses CalCtx.referenceID,
      arrayAt CalCtx.driverPoses CalCtx.targetID with
  | some reference, some target =>
    let ok0 := true
    let (c1, ok1) :=
      if !reference.poseIsValid then (CalCtx.Log LogMsg.referenceNotTracking, false)
      else (CalCtx, ok0)
    let (c2, ok2) :=
      if !target.poseIsValid then (c1.Log LogMsg.targetNotTracking, false)
      else (c1, ok1)
    if !ok2 then
      if c2.state ≠ CalibrationState.Continuous then
        let c3 := c2.Log LogMsg.aborting
        some ({ c3 with state := CalibrationState.None }, Sample.invalid)
      else some (c2, Sample.invalid)
    else
      let reference1 : DriverPose α :=
        if c2.state = CalibrationState.Continuous ∨ c2.state = CalibrationState.ContinuousStandby
        then
          { reference with vecPosition :=
              ![reference.vecPosition 0 + c2.continuousCalibrationOffset 0,
                reference.vecPosition 1 + c2.continuousCalibrationOffset 1,
                reference.vecPosition 2 + c2.continuousCalibrationOffset 2] }
        else reference
      some (c2, Sample.make (ConvertPose reference1) (ConvertPose target) env.glfwGetTime)
  | _, _ => none

/-- Eigen's conversion of `AngleAxisd(angle, axis)` to a quaternion: `w = cos(angle / 2)` and
vector part `sin(angle / 2) * axis`. -/
def angleAxisQuat {α : Type} [Field α] (N : Numerics α) (angle : α) (axis : Vec3 α) :
    HmdQuaternion α :=
  { w := N.cos (angle / 2)
    x := N.sin (angle / 2) * axis 0
    y := N.sin (angle / 2) * axis 1
    z := N.sin (angle / 2) * axis 2 }

/-- The function `VRRotationQuat` of lines 310-325. -/
def VRRotationQuat {α : Type} [Field α] (N : Numerics α) (eulerdeg : Vec3 α) : HmdQuaternion α :=
  let euler : Vec3 α := fun i => eulerdeg i * N.pi / 180
  let rotQuat :=
    eigenQuatProduct
      (eigenQuatProduct (angleAxisQuat N (euler 0) ![0, 0, 1]) (angleAxisQuat N (euler 1) ![0, 1, 0]))
      (angleAxisQuat N (euler 2) ![1, 0, 0])
  { w := rotQuat.w, x := rotQuat.x, y := rotQuat.y, z := rotQuat.z }

/-- The function `VRTranslationVec` of lines 327-335: centimetres to metres. -/
def VRTranslationVec {α : Type} [Field α] (transcm : Vec3 α) : Vec3 α :=
  let trans : Vec3 α := fun i => transcm i * (1 / 100)
  ![trans 0, trans 1, trans 2]

/-- The function `ResetAndDisableOffsets` of lines 337-348. -/
def ResetAndDisableOffsets {α : Type} [Field α] (id : Nat) (w : World α) : World α :=
  let zeroV : Vec3 α := ![0, 0, 0]
  let zeroQ : HmdQuaternion α := { w := 1, x := 0, y := 0, z := 0 }
  w.SendBlocking (Request.setDeviceTransform (SetDeviceTransform.full id false zeroV zeroQ 1))

/-- The body of the loop of lines 362-428 for one device id. -/
def scanDevice {α : Type} [Field α] (N : Numerics α) (env : TickEnv α) (w : World α) (id : Nat) :
    World α :=
  if !env.devicePresent id then w
  else if !w.CalCtx.enabled then ResetAndDisableOffsets id w
  else
    match env.trackingSystemName id with
    | none => ResetAndDisableOffsets id w
    | some trackingSystem =>
      if id = 0 then
        let w1 :=
          if trackingSystem ≠ w.CalCtx.referenceTrackingSystem then
            { w with CalCtx := { w.CalCtx with enabled := false } }
          else w
        ResetAndDisableOffsets id w1
      else if trackingSystem ≠ w.CalCtx.targetTrackingSystem then ResetAndDisableOffsets id w
      else
        let req := SetDeviceTransform.full id true (VRTranslationVec w.CalCtx.calibratedTranslation)
          (VRRotationQuat N w.CalCtx.calibratedRotation) w.CalCtx.calibratedScale
        let req1 := { req with lerp := decide (w.CalCtx.state = CalibrationState.Continuous) }
        let quash : Bool :=
          decide (w.CalCtx.state = CalibrationState.Continuous) &&
            decide ((id : Int) = toUInt32 w.CalCtx.targetID) && w.CalCtx.quashTargetInContinuous
        let req2 := { req1 with quash := quash }
        w.SendBlocking (Request.setDeviceTransform req2)

/-- The function `ScanAndApplyProfile` of lines 352-442, called with the global context. -/
def ScanAndApplyProfile {α : Type} [Field α] (N : Numerics α) (env : TickEnv α) (w : World α) :
    World α :=
  let w1 := { w with CalCtx := { w.CalCtx with enabled := w.CalCtx.validProfile } }
  let w2 := w1.SendBlocking (Request.setAlignmentSpeedParams w1.CalCtx.alignmentSpeedParams)
  let w3 := (List.range k_unMaxTrackedDeviceCount).foldl (scanDevice N env) w2
  if w3.CalCtx.enabled && w3.CalCtx.chaperone.valid && w3.CalCtx.chaperone.autoApply then
    if env.liveQuadCount ≠ w3.CalCtx.chaperone.geometrySize then
      { w3 with chaperoneApplied := w3.chaperoneApplied + 1 }
    else w3
  else w3

/-- The function `StartCalibration` of lines 444-450. -/
def StartCalibration {α : Type} [Field α] (env : TickEnv α) (w : World α) : World α :=
  { w with
    CalCtx := { w.CalCtx with state := CalibrationState.Begin, wantedUpdateInterval := 0,
                              messages := [] }
    calibration := w.calibration.Clear env }

/-- The function `StartContinuousCalibration` of lines 452-471. The result of `AssignTargets()`
(line 455) is not used. -/
def StartContinuousCalibration {α : Type} [Field α] (env : TickEnv α) (w : World α) : World α :=
  let w1 := { w with CalCtx := { w.CalCtx with hasAppliedCalibrationResult := false } }
  let _unused := AssignTargets w1.CalCtx
  let w2 := StartCalibration env w1
  let w3 := { w2 with CalCtx := { w2.CalCtx with state := CalibrationState.Continuous } }
  let calc1 := w3.calibration.setRelativeTransformation w3.CalCtx.refToTargetPose
    w3.CalCtx.relativePosCalibrated
  let w4 := { w3 with calibration :=
    { calc1 with lockRelativePosition := w3.CalCtx.lockRelativePosition } }
  if w4.CalCtx.lockRelativePosition then w4.Log LogMsg.relativePositionLocked
  else w4.Log LogMsg.collectingInitial

/-- The function `EndContinuousCalibration` of lines 473-480. -/
def EndContinuousCalibration {α : Type} (w : World α) : World α :=
  let w1 := { w with CalCtx := { w.CalCtx with state := CalibrationState.None,
                                               relativePosCalibrated := false } }
  let w2 := { w1 with savedProfiles := w1.savedProfiles + 1 }
  w2.Log LogMsg.continuousStopped

/-- The lambda of lines 505-509 on `ctx.driverPoses`; `none` once it has written outside the
array, which the guard `deviceId <= k_unMaxTrackedDeviceCount` allows for the id 64. -/
def tickCallback {α : Type}
    (acc : Option (Fin k_unMaxTrackedDeviceCount → DriverPose α))
    (augmented_pose : AugmentedPose (DriverPose α)) :
    Option (Fin k_unMaxTrackedDeviceCount → DriverPose α) :=
  acc.bind fun driverPoses =>
    if 0 ≤ augmented_pose.deviceId ∧
        augmented_pose.deviceId ≤ (k_unMaxTrackedDeviceCount : Int) then
      (deviceSlot augmented_pose.deviceId).map fun d =>
        Function.update driverPoses d augmented_pose.pose
    else some driverPoses

/-- Lines 491-502 of `CalibrationTick`: the log is marked for clearing in the continuous
states, the targets are re-assigned every 10 seconds when a trigger press is required, and
`timeLastTick` is set. -/
def tickPrologue {α : Type} [LinearOrderedField α] (time : α) (w : World α) : World α :=
  let ctx := w.CalCtx
  let ctx1 :=
    if ctx.state = CalibrationState.Continuous ∨ ctx.state = CalibrationState.ContinuousStandby
    then
      let c := ctx.ClearLogOnMessage
      if c.requireTriggerPressToApply ∧ (time - c.timeLastAssign) > 10 then
        let c1 := { c with timeLastAssign := time }
        let _unused := AssignTargets c1
        c1
      else c
    else ctx
  { w with CalCtx := { ctx1 with timeLastTick := time } }

/-- Lines 532-563 of `CalibrationTick`: the diagnostic of a change of the device ids. -/
def tickDiagnostic {α : Type} (w : World α) : World α :=
  let ctx := w.CalCtx
  if ctx.state = CalibrationState.Continuous ∨ ctx.state = CalibrationState.Rotation ∨
      ctx.state = CalibrationState.Translation then
    if !w.deviceIDsInitialized then
      let w1 := { w with lastReferenceID := toUInt32 ctx.referenceID,
                         lastTargetID := toUInt32 ctx.targetID,
                         deviceIDsInitialized := true }
      w1.Log (LogMsg.diagnosticStarted ctx.referenceID ctx.targetID)
    else if w.lastReferenceID ≠ toUInt32 ctx.referenceID ∨
        w.lastTargetID ≠ toUInt32 ctx.targetID then
      let w1 := w.Log (LogMsg.diagnosticChanged w.lastReferenceID w.lastTargetID ctx.referenceID
        ctx.targetID w.calibration.SampleCount)
      { w1 with lastReferenceID := toUInt32 ctx.referenceID,
                lastTargetID := toUInt32 ctx.targetID }
    else w
  else if ctx.state = CalibrationState.None then
    { w with deviceIDsInitialized := false }
  else w

/-- The scan of lines 568-572, 579-583 and 591-595: when `interval` has passed since the last
scan, `ScanAndApplyProfile` runs and `timeLastScan` is set. -/
def tickScan {α : Type} [LinearOrderedField α] (N : Numerics α) (env : TickEnv α) (time : α)
    (interval : α) (w : World α) : World α :=
  if (time - w.CalCtx.timeLastScan) ≥ interval then
    let w1 := ScanAndApplyProfile N env w
    { w1 with CalCtx := { w1.CalCtx with timeLastScan := time } }
  else w

/-- Lines 599-654 of `CalibrationTick`: the state `Begin`. The result is `none` when an id
other than -1 is not an index of `devicePoses`. -/
def tickBegin {α : Type} [LinearOrderedField α] (env : TickEnv α) (w : World α) :
    Option (World α) :=
  let ctx := w.CalCtx
  let w1 := w.Log (LogMsg.referenceSerial ctx.referenceID (env.serialNumber ctx.referenceID))
  let w2 := w1.Log (LogMsg.targetSerial ctx.targetID (env.serialNumber ctx.targetID))
  let refStep : Option (World α × Bool) :=
    if ctx.referenceID = -1 then some (w2.Log LogMsg.missingReference, false)
    else
      (arrayAt ctx.devicePoses ctx.referenceID).map fun p =>
        if !p.bPoseIsValid then (w2.Log LogMsg.referenceNotTracking, false) else (w2, true)
  refStep.bind fun (w3, ok3) =>
    let targetStep : Option (World α × Bool) :=
      if ctx.targetID = -1 then some (w3.Log LogMsg.missingTarget, false)
      else
        (arrayAt ctx.devicePoses ctx.targetID).map fun p =>
          if !p.bPoseIsValid then (w3.Log LogMsg.targetNotTracking, false) else (w3, ok3)
    targetStep.map fun (w4, ok4) =>
      let (w5, ok5) :=
        if env.ReferenceJitter w4.calibration > ctx.jitterThreshold then
          (w4.Log LogMsg.referenceJittery, false)
        else (w4, ok4)
      let (w6, ok6) :=
        if env.TargetJitter w5.calibration > ctx.jitterThreshold then
          (w5.Log LogMsg.targetJittery, false)
        else (w5, ok5)
      if !ok6 then
        if w6.CalCtx.state ≠ CalibrationState.Continuous then
          let w7 := { w6 with CalCtx := { w6.CalCtx with state := CalibrationState.None } }
          w7.Log LogMsg.aborting
        else w6
      else
        let w7 := ResetAndDisableOffsets (toUInt32 ctx.targetID).toNat w6
        let w8 := { w7 with CalCtx := { w7.CalCtx with state := CalibrationState.Rotation,
                                                        wantedUpdateInterval := 0 } }
        w8.Log LogMsg.starting

/-- The loop of lines 676-679: the oldest Samples leave the window while it holds more than
`n`. -/
def dropExcess {α : Type} (n : Nat) (c : CalibrationCalc α) : CalibrationCalc α :=
  if _h : c.SampleCount > n then dropExcess n c.ShiftSample else c
termination_by c.SampleCount
decreasing_by
  simp only [CalibrationCalc.SampleCount, CalibrationCalc.ShiftSample, List.length_tail] at *
  omega

/-- The loop of lines 722-726: at most `dropSamples` times, and while `samples` is not empty,
the oldest element of `samples` is erased and the oldest Sample leaves the window. -/
def dropStride {α : Type} : Nat → World α → World α
  | 0, w => w
  | n + 1, w =>
    if w.samples.isEmpty then w
    else dropStride n { w with samples := w.samples.tail,
                               calibration := w.calibration.ShiftSample }

/-- Lines 685-699 of `CalibrationTick`: the incremental solve in the state `Continuous`, after
the two flags of the estimator are set, and the one-shot solve otherwise. Returns
`calibrationSuccess` and the globals. -/
def tickCompute {α : Type} (env : TickEnv α) (w1 : World α) : Bool × World α :=
  let ctx := w1.CalCtx
  if ctx.state = CalibrationState.Continuous then
    let calc1 := { w1.calibration with
      enableStaticRecalibration := ctx.enableStaticRecalibration,
      lockRelativePosition := ctx.lockRelativePosition }
    let r := env.ComputeIncremental calc1 ctx.continuousCalibrationThreshold
      ctx.maxRelativeErrorThreshold ctx.ignoreOutliers
    (r.1, { w1 with calibration := { calc1 with estimate := r.2.2 } })
  else
    let r := env.ComputeOneshot w1.calibration ctx.ignoreOutliers
    (r.1, { w1 with calibration := { w1.calibration with estimate := r.2 } })

/-- Lines 703-710 of `CalibrationTick`: the results of the solve are stored in the context,
`validProfile` is set and the profile is saved. -/
def tickStoreResult {α : Type} [Field α] (w2 : World α) : World α :=
  let est := w2.calibration.estimate
  let w3 := { w2 with CalCtx := { w2.CalCtx with
    calibratedRotation := est.EulerRotation,
    calibratedTranslation := fun i => est.Transformation.translation i * 100,
    refToTargetPose := est.RelativeTransformation,
    relativePosCalibrated := est.isRelativeTransformationCalibrated,
    validProfile := true } }
  { w3 with savedProfiles := w3.savedProfiles + 1 }

/-- Lines 701-735 of `CalibrationTick`: the branch of a successful and valid solve. -/
def tickAccept {α : Type} [LinearOrderedField α] (N : Numerics α) (env : TickEnv α)
    (w2 : World α) : World α :=
  let w4 := tickStoreResult w2
  let w5 := ScanAndApplyProfile N env w4
  let w6 := { w5 with CalCtx := { w5.CalCtx with hasAppliedCalibrationResult := true } }
  if w6.CalCtx.state = CalibrationState.Continuous then
    let w7 := w6.Log LogMsg.continuousUpdated
    let dropSamples := w7.CalCtx.sampleCount / 10
    dropStride dropSamples w7
  else
    let w7 := w6.Log LogMsg.finished
    { w7 with CalCtx := { w7.CalCtx with state := CalibrationState.None },
              samples := [],
              calibration := w7.calibration.Clear env }

/-- Lines 736-745 of `CalibrationTick`: the branch of a failed or invalid solve. -/
def tickReject {α : Type} (env : TickEnv α) (w2 : World α) : World α :=
  if w2.CalCtx.state ≠ CalibrationState.Continuous then
    let w3 := w2.Log LogMsg.failed
    { w3 with CalCtx := { w3.CalCtx with state := CalibrationState.None },
              samples := [],
              calibration := w3.calibration.Clear env }
  else w2

/-- Lines 681-746 of `CalibrationTick`: the solve, once `samples` holds as many Samples as the
configured count. -/
def tickSolve {α : Type} [LinearOrderedField α] (N : Numerics α) (env : TickEnv α)
    (w : World α) : World α :=
  if w.samples.length ≥ w.CalCtx.sampleCount then
    let w1 := w.Log LogMsg.newline
    let r := tickCompute env w1
    if r.1 && r.2.calibration.estimate.isValid then tickAccept N env r.2
    else tickReject env r.2
  else w

/-- Lines 656-746 of `CalibrationTick`: a Sample is collected, pushed into the window and into
`samples`, and the solve runs when the window is full. The result is `none` when
`CollectSample` reads outside `driverPoses`. -/
def tickCollect {α : Type} [LinearOrderedField α] (N : Numerics α) (env : TickEnv α)
    (w : World α) : Option (World α) :=
  (CollectSample env w.CalCtx).map fun (ctx1, sample) =>
    let w1 := { w with CalCtx := ctx1 }
    if !sample.valid then w1
    else
      let w2 := { w1 with calibration := w1.calibration.PushSample sample,
                          samples := w1.samples ++ [sample] }
      let w3 := { w2 with CalCtx :=
        w2.CalCtx.Progress w2.calibration.SampleCount w2.CalCtx.sampleCount }
      if w3.calibration.SampleCount < w3.CalCtx.sampleCount then w3
      else
        let w4 := { w3 with calibration := dropExcess w3.CalCtx.sampleCount w3.calibration }
        tickSolve N env w4

/-- Lines 504-512 of `CalibrationTick`: the new records of the ring are copied into
`ctx.driverPoses` by the callback, and the poses of the VR runtime are read into
`ctx.devicePoses`. The result is `none` when the callback writes outside `driverPoses`. -/
def tickReadPoses {α : Type} (env : TickEnv α) (w : World α) : Option (World α) :=
  let r := ReadNewPoses tickCallback env.shmemData w.shmem (some w.CalCtx.driverPoses)
  r.cb.map fun driverPoses =>
    { w with shmem := r.self,
             CalCtx := { w.CalCtx with driverPoses := driverPoses, devicePoses := env.rawPoses } }

/-- The test of lines 516-522: the pose of the HMD is valid and its position is the origin or
the position stored by the previous tick. -/
def hmdStalled {α : Type} [DecidableEq α] [Zero α] (w3 : World α) : Bool :=
  let hmdPose := w3.CalCtx.devicePoses ⟨0, by decide⟩
  let px := hmdPose.m 0 3
  let py := hmdPose.m 1 3
  let pz := hmdPose.m 2 3
  hmdPose.bPoseIsValid &&
    ((decide (px = 0) && decide (py = 0) && decide (pz = 0)) ||
      (decide (w3.CalCtx.xprev = px) && decide (w3.CalCtx.yprev = py) &&
        decide (w3.CalCtx.zprev = pz)))

/-- Lines 527-529: the position of a valid HMD pose is stored for the next tick. -/
def tickStoreHmd {α : Type} (w3 : World α) : World α :=
  let hmdPose := w3.CalCtx.devicePoses ⟨0, by decide⟩
  let px := hmdPose.m 0 3
  let py := hmdPose.m 1 3
  let pz := hmdPose.m 2 3
  if hmdPose.bPoseIsValid then
    { w3 with CalCtx := { w3.CalCtx with xprev := px, yprev := py, zprev := pz } }
  else w3

/-- Lines 565-746 of `CalibrationTick`: the work of the current state. -/
def tickStateWork {α : Type} [LinearOrderedField α] (N : Numerics α) (env : TickEnv α)
    (time : α) (w5 : World α) : Option (World α) :=
  let w6 :=
    if w5.CalCtx.state = CalibrationState.Continuous ∨
        w5.CalCtx.state = CalibrationState.ContinuousStandby then
      tickScan N env time 1 w5
    else w5
  if w6.CalCtx.state = CalibrationState.None then
    let w7 := { w6 with CalCtx := { w6.CalCtx with wantedUpdateInterval := 1 } }
    some (tickScan N env time 1 w7)
  else if w6.CalCtx.state = CalibrationState.Editing then
    let w7 := { w6 with CalCtx := { w6.CalCtx with wantedUpdateInterval := 1 / 10 } }
    some (tickScan N env time (1 / 10) w7)
  else if w6.CalCtx.state = CalibrationState.Begin then tickBegin env w6
  else tickCollect N env w6

/-- Lines 514-746 of `CalibrationTick`: the tick stops when the HMD has not moved; otherwise
its position is stored, the diagnostic runs, and the work of the current state is done. -/
def tickDispatch {α : Type} [LinearOrderedField α] (N : Numerics α) (env : TickEnv α)
    (time : α) (w3 : World α) : Option (World α) :=
  if hmdStalled w3 then some w3
  else tickStateWork N env time (tickDiagnostic (tickStoreHmd w3))

/-- The function `CalibrationTick` of lines 482-747 on the globals. The result is `none` when
the tick reads or writes outside one of the 64-element arrays of the context. -/
def CalibrationTick {α : Type} [LinearOrderedField α] (N : Numerics α) (env : TickEnv α)
    (time : α) (w : World α) : Option (World α) :=
  if !env.vrSystem then some w
  else if (time - w.CalCtx.timeLastTick) < 1 / 20 then some w
  else (tickReadPoses env (tickPrologue time w)).bind (tickDispatch N env time)

/-- The fields of the context that select what a tick does and on which devices: the state
and the two device ids. -/
def CalibrationContext.selection {α : Type} (ctx : CalibrationContext α) :
    CalibrationState × Int × Int :=
  (ctx.state, ctx.referenceID, ctx.targetID)

/-! ## Properties of the requests of a scan -/

/-- What C17 states of a request: a `SetDeviceTransform` with `enabled = true` has
`lerp == (state == Continuous)` and
`quash == (state == Continuous && id == targetID && quashTargetInContinuous)`, and one with
`enabled = false` has neither flag. -/
def LerpQuashCoupled {α : Type} (ctx : CalibrationContext α) : Request α → Prop
  | Request.setDeviceTransform p =>
    (p.enabled = true →
      p.lerp = decide (ctx.state = CalibrationState.Continuous) ∧
      p.quash = (decide (ctx.state = CalibrationState.Continuous) &&
        decide ((p.openVRID : Int) = ctx.targetID) && ctx.quashTargetInContinuous)) ∧
    (p.enabled = false → p.lerp = false ∧ p.quash = false)
  | Request.setAlignmentSpeedParams _ => True

/-- The zero/identity request with `enabled = false` that `ResetAndDisableOffsets` sends to a
device. -/
def disableRequest {α : Type} [Field α] (id : Nat) : Request α :=
  Request.setDeviceTransform
    (SetDeviceTransform.full id false ![0, 0, 0] { w := 1, x := 0, y := 0, z := 0 } 1)

/-- The `SetDeviceTransform` payloads addressed to the device `id` in a list of requests. -/
def requestsFor {α : Type} (id : Nat) (l : List (Request α)) : List (SetDeviceTransform α) :=
  l.filterMap fun r =>
    match r with
    | Request.setDeviceTransform p => if p.openVRID = id then some p else none
    | Request.setAlignmentSpeedParams _ => none

/-- The payload of lines 415-427, which `ScanAndApplyProfile` sends to a device of the target
tracking system. -/
def profileRequest {α : Type} [Field α] (N : Numerics α) (ctx : CalibrationContext α)
    (id : Nat) : SetDeviceTransform α :=
  { openVRID := id, enabled := true, updateTranslation := true, updateRotation := true,
    updateScale := true,
    translation := VRTranslationVec ctx.calibratedTranslation,
    rotation := VRRotationQuat N ctx.calibratedRotation,
    scale := ctx.calibratedScale,
    lerp := decide (ctx.state = CalibrationState.Continuous),
    quash := decide (ctx.state = CalibrationState.Continuous) &&
      decide ((id : Int) = toUInt32 ctx.targetID) && ctx.quashTargetInContinuous }

/-! ## The rotation about an axis by an angle -/

/-- What C22 calls the rotation matrix about the axis `a` by the angle `theta`, the Rodrigues
formula `cos(theta) I + sin(theta) [a]x + (1 - cos(theta)) a a^T`, with the sine and the cosine
of `Numerics`. -/
def rodriguesRotation {α : Type} [CommRing α] (N : Numerics α) (a : Vec3 α) (theta : α) :
    Mat3 α :=
  let c := N.cos theta
  let s := N.sin theta
  !![c + (1 - c) * (a 0 * a 0), (1 - c) * (a 0 * a 1) - s * a 2, (1 - c) * (a 0 * a 2) + s * a 1;
     (1 - c) * (a 1 * a 0) + s * a 2, c + (1 - c) * (a 1 * a 1), (1 - c) * (a 1 * a 2) - s * a 0;
     (1 - c) * (a 2 * a 0) - s * a 1, (1 - c) * (a 2 * a 1) + s * a 0, c + (1 - c) * (a 2 * a 2)]

/-! ## Concrete inputs on which the model is run -/

/-- The matrix `A^T A` of the normal equations of a stacked system given by its rows. -/
def normalMatrix {α : Type} [Field α] (rows : List (Vec3 α)) : Mat3 α :=
  Matrix.of fun i j => (rows.map fun r => r i * r j).sum

/-- The right-hand side `A^T c` of the normal equations. -/
def normalRhs {α : Type} [Field α] (rows : List (Vec3 α)) (consts : List α) : Vec3 α :=
  fun i => ((rows.zip consts).map fun rc => rc.1 i * rc.2).sum

/-- A least-squares solver in exact arithmetic: Cramer's rule on the normal equations. For a
matrix of full column rank it computes the least-squares solution. -/
def normalEquationsSolve {α : Type} [Field α] (rows : List (Vec3 α)) (consts : List α) : Vec3 α :=
  let M := normalMatrix rows
  let b := normalRhs rows consts
  fun i => det3 (M.updateColumn i b) / det3 M

/-- Rational stand-ins for the functions of `Numerics`, to run the model on rational inputs: the
square root is exact on squares of rationals, the solver is `normalEquationsSolve`, the
trigonometric functions are low-order approximations and the SVD factors are identities. -/
def ratNumerics : Numerics ℚ :=
  { sqrt := fun x => (Nat.sqrt x.num.toNat : ℚ) / (Nat.sqrt x.den : ℚ)
    acos := fun x => 3 / 2 * (1 - x)
    cos := fun x => 1 - x * x / 2
    sin := fun x => x
    pi := 22 / 7
    svdU := fun _ => 1
    svdV := fun _ => 1
    eulerAngles := fun _ => 0
    lstsq := normalEquationsSolve }

/-- A driver pose over the rationals: the driver frame is turned by half a turn about `x` and
moved by `(10, 20, 30)`, the device sits at `(1, 2, 3)` with the identity rotation. -/
def exampleDriverPose : DriverPose ℚ :=
  { qWorldFromDriverRotation := { w := 0, x := 1, y := 0, z := 0 }
    vecWorldFromDriverTranslation := ![10, 20, 30]
    vecPosition := ![1, 2, 3]
    qRotation := { w := 1, x := 0, y := 0, z := 0 }
    poseIsValid := true }

/-- The quarter turn about the `z` axis. -/
def quarterTurnZ : Mat3 ℚ := !![0, -1, 0; 1, 0, 0; 0, 0, 1]

/-- The quarter turn about the `x` axis. -/
def quarterTurnX : Mat3 ℚ := !![1, 0, 0; 0, 0, -1; 0, 1, 0]

/-- A Sample whose reference and target share the rotation `R`, the target being the reference
moved by `(1/2, 0, 0)`. -/
def shiftedSample (R : Mat3 ℚ) (p : Vec3 ℚ) : Sample ℚ :=
  Sample.make { rot := R, trans := p } { rot := R, trans := p + ![1 / 2, 0, 0] } 0

/-- Three Samples of the pure-translation scenario: the identity and two quarter turns. -/
def pureTranslationSamples : List (Sample ℚ) :=
  [shiftedSample 1 ![0, 0, 0], shiftedSample quarterTurnZ ![1, 0, 0],
   shiftedSample quarterTurnX ![0, 1, 0]]

/-- The record of all-zero bytes, over the one-element pose type. -/
def zeroRecord : AugmentedPose Unit :=
  { sample_time := { tv_sec := 0, tv_nsec := 0 }, deviceId := 0, pose := () }

/-- A segment of zero bytes whose index is `index`. -/
def zeroSegment (index : Nat) : ShmemData Unit :=
  { index := index, poses := fun _ => zeroRecord }

/-- A reader that has the segment mapped, with the given cursor and a zero `lastPose`. -/
def readerAt (cursor : Nat) : DriverPoseShmem Unit :=
  { mapped := true, cursor := cursor, lastPose := fun _ => zeroRecord }

/-- Three write requests with strictly increasing times, for the devices 0, 1 and 0. -/
def exampleWrites : List (WriteRequest Unit) :=
  [{ now := { tv_sec := 1, tv_nsec := 0 }, deviceId := 0, pose := () },
   { now := { tv_sec := 1, tv_nsec := 5 }, deviceId := 1, pose := () },
   { now := { tv_sec := 2, tv_nsec := 0 }, deviceId := 0, pose := () }]

/-- The driver pose `exampleDriverPose`, marked as not valid. -/
def lostDriverPose : DriverPose ℚ :=
  { exampleDriverPose with poseIsValid := false }

/-- A context in the state `Continuous` with reference device 0 and target device 1; the
driver pose of device 0 is valid and no other is. -/
def exampleContext : CalibrationContext ℚ :=
  { state := CalibrationState.Continuous
    referenceID := 0
    targetID := 1
    driverPoses := fun d => if d.val = 0 then exampleDriverPose else lostDriverPose
    devicePoses := fun _ => { bPoseIsValid := false, m := fun _ _ => 0 }
    timeLastTick := 0
    timeLastScan := 0
    timeLastAssign := 0
    wantedUpdateInterval := 0
    requireTriggerPressToApply := false
    xprev := 0
    yprev := 0
    zprev := 0
    jitterThreshold := 1 / 10
    continuousCalibrationOffset := 0
    continuousCalibrationThreshold := 1 / 100
    maxRelativeErrorThreshold := 1 / 100
    ignoreOutliers := false
    enableStaticRecalibration := false
    lockRelativePosition := false
    quashTargetInContinuous := false
    calibratedRotation := 0
    calibratedTranslation := 0
    calibratedScale := 1
    refToTargetPose := { linear := 1, translation := 0 }
    relativePosCalibrated := false
    validProfile := false
    enabled := false
    hasAppliedCalibrationResult := false
    referenceTrackingSystem := "lighthouse"
    targetTrackingSystem := "oculus"
    alignmentSpeedParams :=
      { thr_trans_tiny := 0, thr_trans_small := 0, thr_trans_large := 0, thr_rot_tiny := 0,
        thr_rot_small := 0, thr_rot_large := 0, align_speed_tiny := 0, align_speed_small := 0,
        align_speed_large := 0 }
    chaperone := { valid := false, autoApply := false, geometrySize := 0 }
    sampleCount := 100
    messages := []
    clearOnLog := false }

/-- An estimate that is not valid. -/
def noEstimate : CalcEstimate ℚ :=
  { isValid := false
    EulerRotation := 0
    Transformation := { linear := 1, translation := 0 }
    RelativeTransformation := { linear := 1, translation := 0 }
    isRelativeTransformationCalibrated := false }

/-- An environment with a VR runtime, an empty ring, no device, and a solver that fails. -/
def exampleEnv : TickEnv ℚ :=
  { vrSystem := true
    shmemData := { index := 0, poses := fun _ =>
      { sample_time := { tv_sec := 0, tv_nsec := 0 }, deviceId := 0, pose := lostDriverPose } }
    rawPoses := fun _ => { bPoseIsValid := false, m := fun _ _ => 0 }
    devicePresent := fun _ => false
    trackingSystemName := fun _ => none
    serialNumber := fun _ => ""
    liveQuadCount := 0
    glfwGetTime := 1
    ReferenceJitter := fun _ => 0
    TargetJitter := fun _ => 0
    ComputeOneshot := fun _ _ => (false, noEstimate)
    ComputeIncremental := fun _ _ _ _ => (false, false, noEstimate)
    clearedEstimate := fun _ => noEstimate }

/-- The globals with the context `exampleContext`, an empty window and a reader that has
nothing mapped. -/
def exampleWorld : World ℚ :=
  { CalCtx := exampleContext
    calibration := { samples := [], enableStaticRecalibration := false,
                     lockRelativePosition := false, estimate := noEstimate }
    shmem := DriverPoseShmem.new lostDriverPose
    sent := []
    savedProfiles := 0
    chaperoneApplied := 0
    lastReferenceID := 0
    lastTargetID := 0
    deviceIDsInitialized := false
    samples := [] }

/-- A static stream: two Samples with the same rotations. -/
def staticSamples : List (Sample ℚ) :=
  [shiftedSample 1 ![0, 0, 0], shiftedSample 1 ![0, 0, 1]]

/-- The context `exampleContext` in a given state and with a given configured sample count,
with every driver pose valid. -/
def contextIn (state : CalibrationState) (sampleCount : Nat) : CalibrationContext ℚ :=
  { exampleContext with state := state, sampleCount := sampleCount,
                        driverPoses := fun _ => exampleDriverPose }

/-- The globals `exampleWorld` with the context `contextIn state sampleCount`. -/
def worldIn (state : CalibrationState) (sampleCount : Nat) : World ℚ :=
  { exampleWorld with CalCtx := contextIn state sampleCount }

/-- The globals `exampleWorld` in the state `ContinuousStandby`: the driver pose of the target
device 1 is not valid. -/
def standbyLostWorld : World ℚ :=
  { exampleWorld with
    CalCtx := { exampleContext with state := CalibrationState.ContinuousStandby } }

/-- The environment `exampleEnv` with a runtime that reports every device pose as valid, at the
position `(1, 1, 1)`. -/
def trackingEnv : TickEnv ℚ :=
  { exampleEnv with rawPoses := fun _ => { bPoseIsValid := true, m := fun _ _ => 1 } }

/-- The environment `exampleEnv` with a runtime that reports a valid HMD pose at the origin. -/
def stalledEnv : TickEnv ℚ :=
  { exampleEnv with rawPoses := fun _ => { bPoseIsValid := true, m := fun _ _ => 0 } }

/-- The environment `exampleEnv` with two devices: the HMD (id 0), of the tracking system
`hmdSystem`, and the device 1 of the tracking system "oculus". -/
def deviceEnv (hmdSystem : String) : TickEnv ℚ :=
  { exampleEnv with
    devicePresent := fun id => decide (id < 2),
    trackingSystemName := fun id => if id = 0 then some hmdSystem else some "oculus" }

/-- The globals `exampleWorld` with a valid profile. -/
def profiledWorld : World ℚ :=
  { exampleWorld with CalCtx := { exampleContext with validProfile := true } }

/-- The globals `exampleWorld` with a valid profile whose reference and target tracking
systems are both "lighthouse". -/
def sameSystemWorld : World ℚ :=
  { exampleWorld with CalCtx := { exampleContext with validProfile := true,
                                                      targetTrackingSystem := "lighthouse" } }

/-- The globals `exampleWorld` in the state `None` with no device selected: both ids are -1. -/
def unselectedWorld : World ℚ :=
  { exampleWorld with CalCtx := { exampleContext with state := CalibrationState.None,
                                                      referenceID := -1, targetID := -1 } }

/-- A matrix whose trace exceeds 3 by a slack of one thousandth. -/
def slackMatrix : Mat3 ℚ := !![1, 0, 0; 0, 1, 0; 0, 0, 1001 / 1000]

/-- The functions `ratNumerics` with an arc cosine that returns its argument, so that the value
passed to `acos` can be read off the result. -/
def echoNumerics : Numerics ℚ :=
  { ratNumerics with acos := fun x => x }

/-- The reflection in the plane `z = 0`: an orthogonal matrix of determinant -1. -/
def mirrorZ : Mat3 ℚ := !![1, 0, 0; 0, 1, 0; 0, 0, -1]

/-- Two Samples of a rigid attachment with `t = (1, 2, 3)` and `c = (1, 0, 0)`: the reference
and the target share their rotation, and `ref.trans - target.trans = t + R c`. -/
def rigidSamples : List (Sample ℚ) :=
  [Sample.make { rot := 1, trans := ![2, 2, 3] } { rot := 1, trans := ![0, 0, 0] } 0,
   Sample.make { rot := quarterTurnZ, trans := ![1, 3, 3] }
     { rot := quarterTurnZ, trans := ![0, 0, 0] } 1]

/-- The record of device 0 with the sample time `(1, 0)`, over the one-element pose type. -/
def stampedRecord : AugmentedPose Unit :=
  { sample_time := { tv_sec := 1, tv_nsec := 0 }, deviceId := 0, pose := () }

/-- A segment whose index is `index` and whose slots all hold `stampedRecord`. -/
def stampedSegment (index : Nat) : ShmemData Unit :=
  { index := index, poses := fun _ => stampedRecord }

/-- An estimate that is valid. -/
def validEstimate : CalcEstimate ℚ :=
  { noEstimate with isValid := true }

/-- The environment `exampleEnv` with an incremental solver that succeeds and leaves a valid
estimate. -/
def acceptingEnv : TickEnv ℚ :=
  { exampleEnv with ComputeIncremental := fun _ _ _ _ => (true, false, validEstimate) }

/-- The globals `worldIn Continuous 10` after nine Samples: the window and `samples` both hold
nine Samples, one less than the configured count. -/
def nineSamplesWorld : World ℚ :=
  { worldIn CalibrationState.Continuous 10 with
    calibration := { samples := List.replicate 9 (shiftedSample 1 ![0, 0, 0]),
                     enableStaticRecalibration := false, lockRelativePosition := false,
                     estimate := noEstimate },
    samples := List.replicate 9 (shiftedSample 1 ![0, 0, 0]) }

/-! # Theorems -/

set_option linter.unusedSectionVars false

/-! ## Theorems: pose algebra -/

theorem vec3_eta {α : Type} (v : Vec3 α) : ![v 0, v 1, v 2] = v := by
  funext i; fin_cases i <;> rfl

section PoseAlgebra
variable {α : Type} [CommRing α]

theorem eigenQuatProduct_eq_mul (a b : HmdQuaternion α) : eigenQuatProduct a b = a.mul b := rfl

theorem toRotationMatrix_mul_transpose (q : HmdQuaternion α) (h : q.IsUnitQuat) :
    toRotationMatrix q * (toRotationMatrix q).transpose = 1 := by
  have h' : q.w * q.w + q.x * q.x + q.y * q.y + q.z * q.z = 1 := h
  ext i j
  simp only [Matrix.mul_apply, Matrix.transpose_apply, Fin.sum_univ_three]
  fin_cases i <;> fin_cases j <;>
    simp [toRotationMatrix] <;>
    first
    | linear_combination (4 * (q.y * q.y + q.z * q.z)) * h'
    | linear_combination (4 * (q.x * q.x + q.z * q.z)) * h'
    | linear_combination (4 * (q.x * q.x + q.y * q.y)) * h'
    | linear_combination (-4 * (q.x * q.y)) * h'
    | linear_combination (-4 * (q.x * q.z)) * h'
    | linear_combination (-4 * (q.y * q.z)) * h'

theorem toRotationMatrix_det (q : HmdQuaternion α) (h : q.IsUnitQuat) :
    (toRotationMatrix q).det = 1 := by
  have h' : q.w * q.w + q.x * q.x + q.y * q.y + q.z * q.z = 1 := h
  rw [Matrix.det_fin_three]
  simp [toRotationMatrix]
  linear_combination (4 * (q.x * q.x + q.y * q.y + q.z * q.z)) * h'

theorem mul_normSq (a b : HmdQuaternion α) : (a.mul b).normSq = a.normSq * b.normSq := by
  simp only [HmdQuaternion.mul, HmdQuaternion.normSq]; ring

theorem mul_isUnitQuat (a b : HmdQuaternion α) (ha : a.IsUnitQuat) (hb : b.IsUnitQuat) :
    (a.mul b).IsUnitQuat := by
  unfold HmdQuaternion.IsUnitQuat at *
  rw [mul_normSq, ha, hb, one_mul]

theorem eigenTransformVector_eq (q : HmdQuaternion α) (h : q.IsUnitQuat) (v : Vec3 α) :
    eigenTransformVector q v = quaternionRotateVector q v := by
  have h' : q.w * q.w + q.x * q.x + q.y * q.y + q.z * q.z = 1 := h
  funext i
  fin_cases i <;>
    simp [eigenTransformVector, quaternionRotateVector, cross3, HmdQuaternion.mul] <;>
    first
    | linear_combination (-(v 0)) * h'
    | linear_combination (-(v 1)) * h'
    | linear_combination (-(v 2)) * h'

/-- For a unit quaternion, the matrix of Eigen's `toRotationMatrix` acts on a vector as the
quaternion does: `R(q) v` is the vector part of `q · (0, v) · q*`. -/
theorem toRotationMatrix_mulVec (q : HmdQuaternion α) (h : q.IsUnitQuat) (v : Vec3 α) :
    (toRotationMatrix q).mulVec v = quaternionRotateVector q v := by
  have h' : q.w * q.w + q.x * q.x + q.y * q.y + q.z * q.z = 1 := h
  funext i
  fin_cases i <;>
    simp [toRotationMatrix, quaternionRotateVector, HmdQuaternion.mul, Matrix.mulVec,
      Matrix.dotProduct, Fin.sum_univ_three] <;>
    first
    | linear_combination (-(v 0)) * h'
    | linear_combination (-(v 1)) * h'
    | linear_combination (-(v 2)) * h'

/-- The rotation by a Hamilton product is the composition of the two rotations:
`(a b) · v · (a b)* = a · (b · v · b*) · a*`. -/
theorem quaternionRotateVector_mul (a b : HmdQuaternion α) (v : Vec3 α) :
    quaternionRotateVector (a.mul b) v
      = quaternionRotateVector a (quaternionRotateVector b v) := by
  funext i
  fin_cases i <;>
    simp [quaternionRotateVector, HmdQuaternion.mul] <;>
    ring

/-- C1: for a DriverPose whose two quaternions are unit quaternions, the Pose that `ConvertPose`
returns has as rotation the rotation matrix of the Hamilton product
`qWorldFromDriverRotation * qRotation`, that product has unit norm, the rotation matrix is
orthogonal with determinant 1, and the translation is `vecWorldFromDriverTranslation` plus
`vecPosition` rotated by `qWorldFromDriverRotation` (as `q · v · q*`); in exact arithmetic over
any commutative ring, the reals among them. The rotation matrix is the rotation of the product
in the sense of the specification: it sends every vector `v` to the vector part of
`q · (0, v) · q*` with `q` the Hamilton product, which is `v` rotated by `qRotation` and then by
`qWorldFromDriverRotation`. -/
theorem ConvertPose_of_unit_quaternions (driverPose : DriverPose α)
    (hW : driverPose.qWorldFromDriverRotation.IsUnitQuat)
    (hR : driverPose.qRotation.IsUnitQuat) :
    (ConvertPose driverPose).rot
        = toRotationMatrix (driverPose.qWorldFromDriverRotation.mul driverPose.qRotation) ∧
      (driverPose.qWorldFromDriverRotation.mul driverPose.qRotation).IsUnitQuat ∧
      (ConvertPose driverPose).rot * (ConvertPose driverPose).rot.transpose = 1 ∧
      (ConvertPose driverPose).rot.transpose * (ConvertPose driverPose).rot = 1 ∧
      (ConvertPose driverPose).rot.det = 1 ∧
      (ConvertPose driverPose).trans
        = driverPose.vecWorldFromDriverTranslation
          + quaternionRotateVector driverPose.qWorldFromDriverRotation driverPose.vecPosition ∧
      (∀ v : Vec3 α, (ConvertPose driverPose).rot.mulVec v
        = quaternionRotateVector
            (driverPose.qWorldFromDriverRotation.mul driverPose.qRotation) v) ∧
      (∀ v : Vec3 α, (ConvertPose driverPose).rot.mulVec v
        = quaternionRotateVector driverPose.qWorldFromDriverRotation
            (quaternionRotateVector driverPose.qRotation v)) := by
  have hq := mul_isUnitQuat _ _ hW hR
  have hrot : (ConvertPose driverPose).rot
      = toRotationMatrix (driverPose.qWorldFromDriverRotation.mul driverPose.qRotation) := rfl
  have horth := toRotationMatrix_mul_transpose _ hq
  refine ⟨hrot, hq, ?_, ?_, ?_, ?_, ?_, ?_⟩
  · rw [hrot]; exact horth
  · rw [hrot]; exact Matrix.mul_eq_one_comm.mp horth
  · rw [hrot]; exact toRotationMatrix_det _ hq
  rotate_left
  · intro v
    rw [hrot]
    exact toRotationMatrix_mulVec _ hq v
  · intro v
    rw [hrot, toRotationMatrix_mulVec _ hq v]
    exact quaternionRotateVector_mul _ _ v
  · have ht : (ConvertPose driverPose).trans
        = fun i => ![driverPose.vecWorldFromDriverTranslation 0,
            driverPose.vecWorldFromDriverTranslation 1,
            driverPose.vecWorldFromDriverTranslation 2] i
          + eigenTransformVector driverPose.qWorldFromDriverRotation
              ![driverPose.vecPosition 0, driverPose.vecPosition 1, driverPose.vecPosition 2] i :=
      rfl
    rw [ht, vec3_eta, vec3_eta, eigenTransformVector_eq _ hW]
    rfl

end PoseAlgebra

/-- C1, on a concrete pose: a driver frame turned by half a turn about `x`. -/
theorem ConvertPose_of_unit_quaternions_witness :
    exampleDriverPose.qWorldFromDriverRotation.IsUnitQuat ∧
      exampleDriverPose.qRotation.IsUnitQuat ∧
      (ConvertPose exampleDriverPose).rot.det = 1 ∧
      (ConvertPose exampleDriverPose).trans
        = exampleDriverPose.vecWorldFromDriverTranslation
          + quaternionRotateVector exampleDriverPose.qWorldFromDriverRotation
              exampleDriverPose.vecPosition ∧
      (ConvertPose exampleDriverPose).rot.mulVec ![1, 2, 3]
        = quaternionRotateVector
            (exampleDriverPose.qWorldFromDriverRotation.mul exampleDriverPose.qRotation)
            ![1, 2, 3] :=
  have hW : exampleDriverPose.qWorldFromDriverRotation.IsUnitQuat := by
    norm_num [HmdQuaternion.IsUnitQuat, HmdQuaternion.normSq, exampleDriverPose]
  have hR : exampleDriverPose.qRotation.IsUnitQuat := by
    norm_num [HmdQuaternion.IsUnitQuat, HmdQuaternion.normSq, exampleDriverPose]
  ⟨hW, hR, (ConvertPose_of_unit_quaternions exampleDriverPose hW hR).2.2.2.2.1,
    (ConvertPose_of_unit_quaternions exampleDriverPose hW hR).2.2.2.2.2.1,
    (ConvertPose_of_unit_quaternions exampleDriverPose hW hR).2.2.2.2.2.2.1 ![1, 2, 3]⟩

/-! ## Theorems: the closed-form estimator -/

section Estimator
variable {α : Type} [LinearOrderedField α]

theorem axis_mul_transpose_self (R : Mat3 α) :
    AxisFromRotationMatrix3 (R * R.transpose) = 0 := by
  funext i
  fin_cases i <;>
    simp [AxisFromRotationMatrix3, Matrix.mul_apply, Fin.sum_univ_three] <;> ring

theorem mul_transpose_self_isSymm (R : Mat3 α) : (R * R.transpose).IsSymm := by
  unfold Matrix.IsSymm
  rw [Matrix.transpose_mul, Matrix.transpose_transpose]

theorem squaredNorm_zero : squaredNorm (0 : Vec3 α) = 0 := by
  simp [squaredNorm]

theorem deltaRotationSamples_valid_false (N : Numerics α) (hsqrt : N.sqrt 0 = 0)
    (s1 s2 : Sample α) (href : s1.ref.rot = s2.ref.rot) :
    (DeltaRotationSamples N s1 s2).valid = false := by
  have hax : AxisFromRotationMatrix3 (s1.ref.rot * s2.ref.rot.transpose) = 0 := by
    rw [href]; exact axis_mul_transpose_self _
  have hn : norm3 N (AxisFromRotationMatrix3 (s1.ref.rot * s2.ref.rot.transpose)) = 0 := by
    rw [hax, norm3, squaredNorm_zero, hsqrt]
  have hlt : ¬ ((0 : α) > 1 / 100) := by norm_num
  simp only [DeltaRotationSamples, hn, hlt, decide_False, Bool.and_false, Bool.false_and]

/-- C3: two Samples with the same reference rotation and the same target rotation give an
invalid DSample: both delta matrices `R * R^T` are symmetric, both axes before normalisation are
the zero vector, and the test `norm() > 0.01` fails (the square root of 0 being 0). -/
theorem DeltaRotationSamples_identical_rotations (N : Numerics α) (hsqrt : N.sqrt 0 = 0)
    (s1 s2 : Sample α) (href : s1.ref.rot = s2.ref.rot)
    (htarget : s1.target.rot = s2.target.rot) :
    (DeltaRotationSamples N s1 s2).valid = false ∧
      (s1.ref.rot * s2.ref.rot.transpose).IsSymm ∧
      (s1.target.rot * s2.target.rot.transpose).IsSymm ∧
      AxisFromRotationMatrix3 (s1.ref.rot * s2.ref.rot.transpose) = 0 ∧
      AxisFromRotationMatrix3 (s1.target.rot * s2.target.rot.transpose) = 0 ∧
      ¬ (norm3 N (AxisFromRotationMatrix3 (s1.ref.rot * s2.ref.rot.transpose)) > 1 / 100) ∧
      ¬ (norm3 N (AxisFromRotationMatrix3 (s1.target.rot * s2.target.rot.transpose))
          > 1 / 100) := by
  have hax : AxisFromRotationMatrix3 (s1.ref.rot * s2.ref.rot.transpose) = 0 := by
    rw [href]; exact axis_mul_transpose_self _
  have hat : AxisFromRotationMatrix3 (s1.target.rot * s2.target.rot.transpose) = 0 := by
    rw [htarget]; exact axis_mul_transpose_self _
  refine ⟨deltaRotationSamples_valid_false N hsqrt s1 s2 href, ?_, ?_, hax, hat, ?_, ?_⟩
  · rw [href]; exact mul_transpose_self_isSymm _
  · rw [htarget]; exact mul_transpose_self_isSymm _
  · rw [hax, norm3, squaredNorm_zero, hsqrt]; norm_num
  · rw [hat, norm3, squaredNorm_zero, hsqrt]; norm_num

theorem rotationDeltas_static (N : Numerics α) (hsqrt : N.sqrt 0 = 0) (samples : List (Sample α))
    (hstatic : ∀ s1 ∈ samples, ∀ s2 ∈ samples, s1.ref.rot = s2.ref.rot) :
    rotationDeltas N samples = [] := by
  unfold rotationDeltas
  rw [List.flatMap_eq_nil_iff]
  intro i _
  rw [List.flatMap_eq_nil_iff]
  intro j _
  cases hi : samples[i]? with
  | none => rfl
  | some si =>
    cases hj : samples[j]? with
    | none => rfl
    | some sj =>
      have hv := deltaRotationSamples_valid_false N hsqrt si sj
        (hstatic si (List.getElem?_mem hi) sj (List.getElem?_mem hj))
      simp [hv]

theorem crossCovariance_nil : crossCovariance ([] : List (DSample α)) = 0 := by
  ext i j
  simp [crossCovariance]

/-- C4 (amended): `CalibrateRotation` has no rejection for `K < 4`. For every list of Samples it
logs the two counts and then the calibrated rotation, and returns the Euler angles, in degrees,
of the rotation `(V * D * U^T)^T` built from the SVD of the cross-covariance of the `K` valid
deltas, whatever `K` is. In particular for a static stream (all rotations equal, the square root
of 0 being 0) `K = 0`, the cross-covariance is the zero matrix and a rotation is still reported
and returned. -/
theorem CalibrateRotation_never_rejects (N : Numerics α) (samples : List (Sample α)) :
    (CalibrateRotation N samples).1
        = [SolveLog.gotSamples samples.length (rotationDeltas N samples).length,
           SolveLog.calibratedRotation ((CalibrateRotation N samples).2 1)
             ((CalibrateRotation N samples).2 2) ((CalibrateRotation N samples).2 0)] ∧
      (CalibrateRotation N samples).2
        = (fun i => N.eulerAngles (kabschRotation
            (N.svdU (crossCovariance (rotationDeltas N samples)))
            (N.svdV (crossCovariance (rotationDeltas N samples)))) i * 180 / N.pi) ∧
      ¬ ReportsNoRotation (CalibrateRotation N samples).1 ∧
      (N.sqrt 0 = 0 → (∀ s1 ∈ samples, ∀ s2 ∈ samples, s1.ref.rot = s2.ref.rot) →
        (rotationDeltas N samples).length = 0 ∧
        (CalibrateRotation N samples).2
          = (fun i => N.eulerAngles (kabschRotation (N.svdU 0) (N.svdV 0)) i * 180 / N.pi)) := by
  refine ⟨rfl, rfl, ?_, ?_⟩
  · intro h
    exact h ((CalibrateRotation N samples).2 1) ((CalibrateRotation N samples).2 2)
      ((CalibrateRotation N samples).2 0)
      (List.mem_cons_of_mem _ (List.mem_singleton.mpr rfl))
  · intro hsqrt hstatic
    have hnil := rotationDeltas_static N hsqrt samples hstatic
    refine ⟨by rw [hnil]; rfl, ?_⟩
    simp only [CalibrateRotation, hnil, crossCovariance_nil]

end Estimator

/-- C4, the claim as stated fails: the static stream `staticSamples` yields `K = 0 < 4` valid
deltas, and `CalibrateRotation` does not reject: it reports and returns a calibrated rotation. -/
theorem CalibrateRotation_rejects_counterexample :
    (rotationDeltas ratNumerics staticSamples).length < 4 ∧
      ¬ ReportsNoRotation (CalibrateRotation ratNumerics staticSamples).1 ∧
      (CalibrateRotation ratNumerics staticSamples).1
        = [SolveLog.gotSamples 2 0, SolveLog.calibratedRotation 0 0 0] := by
  have hsqrt : ratNumerics.sqrt 0 = 0 := by simp [ratNumerics]
  have hnil : rotationDeltas ratNumerics staticSamples = [] := by
    apply rotationDeltas_static ratNumerics hsqrt
    intro s1 h1 s2 h2
    simp only [staticSamples, List.mem_cons, List.mem_singleton, List.not_mem_nil, or_false] at h1 h2
    rcases h1 with rfl | rfl <;> rcases h2 with rfl | rfl <;> rfl
  refine ⟨by rw [hnil]; decide, ?_, ?_⟩
  · intro h
    exact h ((CalibrateRotation ratNumerics staticSamples).2 1)
      ((CalibrateRotation ratNumerics staticSamples).2 2)
      ((CalibrateRotation ratNumerics staticSamples).2 0)
      (List.mem_cons_of_mem _ (List.mem_singleton.mpr rfl))
  · simp only [CalibrateRotation, hnil]
    simp [staticSamples, ratNumerics]

/-- C4 (amended), on the static stream `staticSamples`. -/
theorem CalibrateRotation_never_rejects_witness :
    ratNumerics.sqrt 0 = 0 ∧
      (∀ s1 ∈ staticSamples, ∀ s2 ∈ staticSamples, s1.ref.rot = s2.ref.rot) ∧
      (rotationDeltas ratNumerics staticSamples).length = 0 :=
  have hsqrt : ratNumerics.sqrt 0 = 0 := by simp [ratNumerics]
  have hstatic : ∀ s1 ∈ staticSamples, ∀ s2 ∈ staticSamples, s1.ref.rot = s2.ref.rot := by
    intro s1 h1 s2 h2
    simp only [staticSamples, List.mem_cons, List.mem_singleton, List.not_mem_nil, or_false] at h1 h2
    rcases h1 with rfl | rfl <;> rcases h2 with rfl | rfl <;> rfl
  ⟨hsqrt, hstatic,
    ((CalibrateRotation_never_rejects ratNumerics staticSamples).2.2.2 hsqrt hstatic).1⟩

/-- C3, on two Samples with the identity rotation. -/
theorem DeltaRotationSamples_identical_rotations_witness :
    ratNumerics.sqrt 0 = 0 ∧
      (shiftedSample 1 ![0, 0, 0]).ref.rot = (shiftedSample 1 ![0, 0, 1]).ref.rot ∧
      (shiftedSample 1 ![0, 0, 0]).target.rot = (shiftedSample 1 ![0, 0, 1]).target.rot ∧
      (DeltaRotationSamples ratNumerics (shiftedSample 1 ![0, 0, 0])
        (shiftedSample 1 ![0, 0, 1])).valid = false :=
  have hsqrt : ratNumerics.sqrt 0 = 0 := by simp [ratNumerics]
  ⟨hsqrt, rfl, rfl,
    (DeltaRotationSamples_identical_rotations ratNumerics hsqrt _ _ rfl rfl).1⟩

section Translation
variable {α : Type} [LinearOrderedField α]

theorem dot3_row_eq_mulVec (M : Mat3 α) (t : Vec3 α) (k : Fin 3) :
    dot3 (M k) t = M.mulVec t k := by
  simp [dot3, Matrix.mulVec, Matrix.dotProduct, Fin.sum_univ_three]

theorem zip_stacked (ds : List (Vec3 α × Mat3 α)) :
    (stackedCoefficients ds).zip (stackedConstants ds)
      = ds.flatMap fun d => [(d.2 0, d.1 0), (d.2 1, d.1 1), (d.2 2, d.1 2)] := by
  induction ds with
  | nil => rfl
  | cons d ds ih =>
    have h1 : stackedCoefficients (d :: ds) = [d.2 0, d.2 1, d.2 2] ++ stackedCoefficients ds := rfl
    have h2 : stackedConstants (d :: ds) = [d.1 0, d.1 1, d.1 2] ++ stackedConstants ds := rfl
    rw [h1, h2, @List.zip_append _ _ [d.2 0, d.2 1, d.2 2] (stackedCoefficients ds)
      [d.1 0, d.1 1, d.1 2] (stackedConstants ds) rfl, ih, List.flatMap_cons]
    rfl

theorem mem_stackedCoefficients (ds : List (Vec3 α × Mat3 α)) (r : Vec3 α) :
    r ∈ stackedCoefficients ds ↔ ∃ d ∈ ds, ∃ k : Fin 3, r = d.2 k := by
  unfold stackedCoefficients
  rw [List.mem_flatMap]
  constructor
  · rintro ⟨d, hd, hr⟩
    simp only [List.mem_cons, List.mem_singleton, List.not_mem_nil, or_false] at hr
    rcases hr with h | h | h
    · exact ⟨d, hd, 0, h⟩
    · exact ⟨d, hd, 1, h⟩
    · exact ⟨d, hd, 2, h⟩
  · rintro ⟨d, hd, k, hr⟩
    refine ⟨d, hd, ?_⟩
    fin_cases k <;> simp [hr]

theorem mem_zip_stacked (ds : List (Vec3 α × Mat3 α)) (rc : Vec3 α × α) :
    rc ∈ (stackedCoefficients ds).zip (stackedConstants ds)
      ↔ ∃ d ∈ ds, ∃ k : Fin 3, rc = (d.2 k, d.1 k) := by
  rw [zip_stacked, List.mem_flatMap]
  constructor
  · rintro ⟨d, hd, hr⟩
    simp only [List.mem_cons, List.mem_singleton, List.not_mem_nil, or_false] at hr
    rcases hr with h | h | h
    · exact ⟨d, hd, 0, h⟩
    · exact ⟨d, hd, 1, h⟩
    · exact ⟨d, hd, 2, h⟩
  · rintro ⟨d, hd, k, hr⟩
    refine ⟨d, hd, ?_⟩
    fin_cases k <;> simp [hr]

theorem solvesAll_iff_blocks (ds : List (Vec3 α × Mat3 α)) (t : Vec3 α) :
    SolvesAll (stackedCoefficients ds) (stackedConstants ds) t ↔ ∀ d ∈ ds, d.2.mulVec t = d.1 := by
  unfold SolvesAll
  constructor
  · intro h d hd
    funext k
    have := h (d.2 k, d.1 k) ((mem_zip_stacked ds _).mpr ⟨d, hd, k, rfl⟩)
    rw [← dot3_row_eq_mulVec]
    exact this
  · intro h rc hrc
    obtain ⟨d, hd, k, rfl⟩ := (mem_zip_stacked ds rc).mp hrc
    rw [dot3_row_eq_mulVec, h d hd]

theorem sum_sq_nonneg {β : Type} (l : List β) (f : β → α) :
    0 ≤ (l.map fun x => f x * f x).sum := by
  induction l with
  | nil => simp
  | cons a l ih =>
    simp only [List.map_cons, List.sum_cons]
    exact add_nonneg (mul_self_nonneg _) ih

theorem sum_sq_eq_zero_iff {β : Type} (l : List β) (f : β → α) :
    (l.map fun x => f x * f x).sum = 0 ↔ ∀ x ∈ l, f x = 0 := by
  induction l with
  | nil => simp
  | cons a l ih =>
    simp only [List.map_cons, List.sum_cons, List.mem_cons, forall_eq_or_imp]
    constructor
    · intro h
      have h1 := mul_self_nonneg (f a)
      have h2 := sum_sq_nonneg l f
      have ha : f a * f a = 0 := by linarith
      have hl : (l.map fun x => f x * f x).sum = 0 := by linarith
      exact ⟨mul_self_eq_zero.mp ha, ih.mp hl⟩
    · rintro ⟨ha, hl⟩
      rw [ha, ih.mpr hl]; simp

theorem residualSq_nonneg (rows : List (Vec3 α)) (consts : List α) (t : Vec3 α) :
    0 ≤ residualSq rows consts t :=
  sum_sq_nonneg _ _

theorem residualSq_eq_zero_iff (rows : List (Vec3 α)) (consts : List α) (t : Vec3 α) :
    residualSq rows consts t = 0 ↔ SolvesAll rows consts t := by
  unfold residualSq SolvesAll
  rw [sum_sq_eq_zero_iff]
  constructor
  · intro h rc hrc; have := h rc hrc; linarith
  · intro h rc hrc; rw [h rc hrc]; ring

theorem isLeastSquares_of_solvesAll (rows : List (Vec3 α)) (consts : List α) (t : Vec3 α)
    (h : SolvesAll rows consts t) : IsLeastSquares rows consts t := by
  intro t'
  rw [(residualSq_eq_zero_iff rows consts t).mpr h]
  exact residualSq_nonneg _ _ _

theorem dot3_sub (r t u : Vec3 α) : dot3 r (t - u) = dot3 r t - dot3 r u := by
  simp only [dot3, Pi.sub_apply]; ring

/-- When some vector solves every equation of a stacked system of full column rank, it is the
only least-squares solution. -/
theorem leastSquares_unique (ds : List (Vec3 α × Mat3 α)) (t0 t : Vec3 α)
    (hrank : FullColumnRank (stackedCoefficients ds))
    (h0 : SolvesAll (stackedCoefficients ds) (stackedConstants ds) t0)
    (ht : IsLeastSquares (stackedCoefficients ds) (stackedConstants ds) t) : t = t0 := by
  have hz : residualSq (stackedCoefficients ds) (stackedConstants ds) t = 0 := by
    have h1 := ht t0
    rw [(residualSq_eq_zero_iff _ _ t0).mpr h0] at h1
    exact le_antisymm h1 (residualSq_nonneg _ _ _)
  have hsol := (residualSq_eq_zero_iff _ _ t).mp hz
  have hb := (solvesAll_iff_blocks ds t).mp hsol
  have hb0 := (solvesAll_iff_blocks ds t0).mp h0
  have hker : t - t0 = 0 := by
    apply hrank
    intro r hr
    obtain ⟨d, hd, k, rfl⟩ := (mem_stackedCoefficients ds r).mp hr
    rw [dot3_sub, dot3_row_eq_mulVec, dot3_row_eq_mulVec, hb d hd, hb0 d hd, sub_self]
  exact sub_eq_zero.mp hker

/-- In the pure-translation scenario every block `(C, dQ)` that `CalibrateTranslation` stacks
satisfies `dQ * (-1/2, 0, 0) = C`. -/
theorem translationDeltas_pure_translation (samples : List (Sample α))
    (hs : ∀ s ∈ samples, s.target.trans = s.ref.trans + ![1 / 2, 0, 0]) :
    ∀ d ∈ translationDeltas samples, d.2.mulVec ![-1 / 2, 0, 0] = d.1 := by
  intro d hd
  unfold translationDeltas at hd
  rw [List.mem_flatMap] at hd
  obtain ⟨i, _, hd⟩ := hd
  rw [List.mem_flatMap] at hd
  obtain ⟨j, _, hd⟩ := hd
  cases hi : samples[i]? with
  | none => simp [hi] at hd
  | some si =>
    cases hj : samples[j]? with
    | none => simp [hi, hj] at hd
    | some sj =>
      have hsi := hs si (List.getElem?_mem hi)
      have hsj := hs sj (List.getElem?_mem hj)
      have di : si.ref.trans - si.target.trans = ![-1 / 2, 0, 0] := by
        rw [hsi]; funext k
        fin_cases k <;> simp [Matrix.vecHead, Matrix.vecTail]
        ring
      have dj : sj.ref.trans - sj.target.trans = ![-1 / 2, 0, 0] := by
        rw [hsj]; funext k
        fin_cases k <;> simp [Matrix.vecHead, Matrix.vecTail]
        ring
      simp only [hi, hj, di, dj, List.mem_cons, List.mem_singleton, List.not_mem_nil,
        or_false] at hd
      rcases hd with rfl | rfl <;> simp only [Matrix.sub_mulVec]

/-- C2 (amended): in the pure-translation scenario (each Sample's target rotation equals its
reference rotation and `target.trans = reference.trans + (0.5, 0, 0)`), with a stacked
coefficient matrix of full column rank and a solver that returns a least-squares solution,
`t = (-0.5, 0, 0)` m satisfies every stacked equation `dQ * t = C`, it is the only least-squares
solution, and the translation `CalibrateTranslation` returns is `(-50, 0, 0)` cm. -/
theorem CalibrateTranslation_pure_translation (N : Numerics α) (samples : List (Sample α))
    (hs : ∀ s ∈ samples,
      s.target.rot = s.ref.rot ∧ s.target.trans = s.ref.trans + ![1 / 2, 0, 0])
    (hrank : FullColumnRank (stackedCoefficients (translationDeltas samples)))
    (hls : IsLeastSquares (stackedCoefficients (translationDeltas samples))
      (stackedConstants (translationDeltas samples))
      (N.lstsq (stackedCoefficients (translationDeltas samples))
        (stackedConstants (translationDeltas samples)))) :
    SolvesAll (stackedCoefficients (translationDeltas samples))
        (stackedConstants (translationDeltas samples)) ![-1 / 2, 0, 0] ∧
      (∀ t, IsLeastSquares (stackedCoefficients (translationDeltas samples))
        (stackedConstants (translationDeltas samples)) t → t = ![-1 / 2, 0, 0]) ∧
      (CalibrateTranslation N samples).2 = ![-50, 0, 0] := by
  have h0 : SolvesAll (stackedCoefficients (translationDeltas samples))
      (stackedConstants (translationDeltas samples)) ![-1 / 2, 0, 0] :=
    (solvesAll_iff_blocks _ _).mpr
      (translationDeltas_pure_translation samples fun s h => (hs s h).2)
  have huniq := fun t => leastSquares_unique (translationDeltas samples) ![-1 / 2, 0, 0] t hrank h0
  refine ⟨h0, huniq, ?_⟩
  have ht := huniq _ hls
  have hr : (CalibrateTranslation N samples).2
      = fun i => N.lstsq (stackedCoefficients (translationDeltas samples))
          (stackedConstants (translationDeltas samples)) i * 100 := rfl
  rw [hr, ht]
  funext i
  fin_cases i <;> simp
  norm_num

end Translation

theorem pureTranslationSamples_shifted :
    ∀ s ∈ pureTranslationSamples,
      s.target.rot = s.ref.rot ∧ s.target.trans = s.ref.trans + ![1 / 2, 0, 0] := by
  intro s h
  simp only [pureTranslationSamples, List.mem_cons, List.mem_singleton, List.not_mem_nil,
    or_false] at h
  rcases h with rfl | rfl | rfl <;> exact ⟨rfl, rfl⟩

theorem mem_translationDeltas (samples : List (Sample ℚ)) (i j : Nat) (si sj : Sample ℚ)
    (hi : samples[i]? = some si) (hj : samples[j]? = some sj) (hji : j < i) :
    (sj.ref.rot.transpose.mulVec (sj.ref.trans - sj.target.trans)
        - si.ref.rot.transpose.mulVec (si.ref.trans - si.target.trans),
      sj.ref.rot.transpose - si.ref.rot.transpose) ∈ translationDeltas samples := by
  unfold translationDeltas
  rw [List.mem_flatMap]
  have hil : i < samples.length := by
    by_contra hc
    rw [List.getElem?_eq_none (by omega)] at hi
    exact Option.noConfusion hi
  refine ⟨i, List.mem_range.mpr hil, ?_⟩
  rw [List.mem_flatMap]
  refine ⟨j, List.mem_range.mpr hji, ?_⟩
  simp [hi, hj]

theorem pureTranslationSamples_fullColumnRank :
    FullColumnRank (stackedCoefficients (translationDeltas pureTranslationSamples)) := by
  intro v hv
  have m10 := mem_translationDeltas pureTranslationSamples 1 0
    (shiftedSample quarterTurnZ ![1, 0, 0]) (shiftedSample 1 ![0, 0, 0]) rfl rfl (by decide)
  have m20 := mem_translationDeltas pureTranslationSamples 2 0
    (shiftedSample quarterTurnX ![0, 1, 0]) (shiftedSample 1 ![0, 0, 0]) rfl rfl (by decide)
  have e1 := hv _ ((mem_stackedCoefficients _ _).mpr ⟨_, m10, 0, rfl⟩)
  have e2 := hv _ ((mem_stackedCoefficients _ _).mpr ⟨_, m10, 1, rfl⟩)
  have e3 := hv _ ((mem_stackedCoefficients _ _).mpr ⟨_, m20, 1, rfl⟩)
  simp only [dot3, shiftedSample, Sample.make, Matrix.sub_apply, Matrix.transpose_apply]
    at e1 e2 e3
  simp [quarterTurnZ, quarterTurnX, Matrix.one_apply, Matrix.vecHead, Matrix.vecTail] at e1 e2 e3
  funext k
  fin_cases k
  · show v 0 = 0
    linarith
  · show v 1 = 0
    linarith
  · show v 2 = 0
    linarith

theorem pureTranslationSamples_not_solved :
    ¬ SolvesAll (stackedCoefficients (translationDeltas pureTranslationSamples))
      (stackedConstants (translationDeltas pureTranslationSamples)) ![1 / 2, 0, 0] := by
  intro h
  have m10 := mem_translationDeltas pureTranslationSamples 1 0
    (shiftedSample quarterTurnZ ![1, 0, 0]) (shiftedSample 1 ![0, 0, 0]) rfl rfl (by decide)
  have hb := (solvesAll_iff_blocks _ _).mp h _ m10
  have h0 := congrFun hb 0
  simp only [shiftedSample, Sample.make, Matrix.mulVec, Matrix.dotProduct, Fin.sum_univ_three,
    Matrix.sub_apply, Matrix.transpose_apply, Pi.sub_apply, Pi.add_apply] at h0
  simp [quarterTurnZ, Matrix.one_apply, Matrix.vecHead, Matrix.vecTail] at h0
  norm_num at h0

section NormalEquations
variable {α : Type} [LinearOrderedField α]

theorem det3_eq_det (M : Mat3 α) : det3 M = M.det := by
  rw [Matrix.det_fin_three]
  simp only [det3]
  ring

theorem normalMatrix_cons (r : Vec3 α) (rows : List (Vec3 α)) (i j : Fin 3) :
    normalMatrix (r :: rows) i j = r i * r j + normalMatrix rows i j := by
  simp [normalMatrix]

theorem normalMatrix_mulVec (rows : List (Vec3 α)) (v : Vec3 α) (i : Fin 3) :
    (normalMatrix rows).mulVec v i = (rows.map fun r => r i * dot3 r v).sum := by
  induction rows with
  | nil => simp [normalMatrix, Matrix.mulVec, Matrix.dotProduct]
  | cons r rows ih =>
    simp only [List.map_cons, List.sum_cons, ← ih]
    simp only [Matrix.mulVec, Matrix.dotProduct, Fin.sum_univ_three, normalMatrix_cons, dot3]
    ring

theorem normalMatrix_quadratic (rows : List (Vec3 α)) (v : Vec3 α) :
    Matrix.dotProduct v ((normalMatrix rows).mulVec v)
      = (rows.map fun r => dot3 r v * dot3 r v).sum := by
  induction rows with
  | nil => simp [normalMatrix, Matrix.mulVec, Matrix.dotProduct]
  | cons r rows ih =>
    simp only [List.map_cons, List.sum_cons, ← ih]
    simp only [Matrix.mulVec, Matrix.dotProduct, Fin.sum_univ_three, normalMatrix_cons, dot3]
    ring

theorem det_normalMatrix_ne_zero (rows : List (Vec3 α)) (h : FullColumnRank rows) :
    (normalMatrix rows).det ≠ 0 := by
  intro hdet
  obtain ⟨v, hv0, hv⟩ := Matrix.exists_mulVec_eq_zero_iff.mpr hdet
  have hq := normalMatrix_quadratic rows v
  rw [hv, Matrix.dotProduct_zero] at hq
  exact hv0 (h v ((sum_sq_eq_zero_iff rows fun r => dot3 r v).mp hq.symm))

theorem normalRhs_of_solvesAll (t : Vec3 α) :
    ∀ (rows : List (Vec3 α)) (consts : List α), rows.length = consts.length →
      SolvesAll rows consts t → normalRhs rows consts = (normalMatrix rows).mulVec t := by
  intro rows
  induction rows with
  | nil =>
    intro consts _ _
    funext i
    simp [normalRhs, normalMatrix, Matrix.mulVec, Matrix.dotProduct]
  | cons r rows ih =>
    intro consts hlen hsol
    cases consts with
    | nil => simp at hlen
    | cons c consts =>
      have hlen' : rows.length = consts.length := by simpa using hlen
      have hsol' : SolvesAll rows consts t := fun rc hrc =>
        hsol rc (by simp only [List.zip_cons_cons, List.mem_cons]; exact Or.inr hrc)
      have hc : dot3 r t = c := hsol (r, c) (by simp)
      have ih' := ih consts hlen' hsol'
      funext i
      have hi := congrFun ih' i
      rw [normalMatrix_mulVec] at hi ⊢
      simp only [normalRhs, List.zip_cons_cons, List.map_cons, List.sum_cons] at hi ⊢
      rw [hi, hc]

theorem stacked_length (ds : List (Vec3 α × Mat3 α)) :
    (stackedCoefficients ds).length = (stackedConstants ds).length := by
  induction ds with
  | nil => rfl
  | cons d ds ih =>
    have h1 : stackedCoefficients (d :: ds) = [d.2 0, d.2 1, d.2 2] ++ stackedCoefficients ds := rfl
    have h2 : stackedConstants (d :: ds) = [d.1 0, d.1 1, d.1 2] ++ stackedConstants ds := rfl
    rw [h1, h2, List.length_append, List.length_append, ih]
    rfl

/-- Cramer's rule on the normal equations returns the vector that solves every equation, when
the matrix has full column rank. -/
theorem normalEquationsSolve_eq (rows : List (Vec3 α)) (consts : List α) (t0 : Vec3 α)
    (hlen : rows.length = consts.length) (hrank : FullColumnRank rows)
    (h0 : SolvesAll rows consts t0) : normalEquationsSolve rows consts = t0 := by
  have hdet := det_normalMatrix_ne_zero rows hrank
  funext i
  simp only [normalEquationsSolve, det3_eq_det]
  rw [normalRhs_of_solvesAll t0 rows consts hlen h0, ← Matrix.cramer_apply,
    Matrix.cramer_eq_adjugate_mulVec, Matrix.mulVec_mulVec, Matrix.adjugate_mul,
    Matrix.smul_mulVec_assoc, Matrix.one_mulVec]
  simp only [Pi.smul_apply, smul_eq_mul]
  field_simp

end NormalEquations

/-- C2, the claim as stated fails: the three Samples of `pureTranslationSamples` are in the
pure-translation scenario and their stacked matrix has full column rank, yet `(0.5, 0, 0)` m
does not satisfy the stacked equations and is not a least-squares solution; the least-squares
solution is `(-0.5, 0, 0)` m, and the translation returned (with the exact solver) is
`(-50, 0, 0)` cm, not `(50, 0, 0)` cm. -/
theorem CalibrateTranslation_pure_translation_counterexample :
    (∀ s ∈ pureTranslationSamples,
        s.target.rot = s.ref.rot ∧ s.target.trans = s.ref.trans + ![1 / 2, 0, 0]) ∧
      FullColumnRank (stackedCoefficients (translationDeltas pureTranslationSamples)) ∧
      ¬ SolvesAll (stackedCoefficients (translationDeltas pureTranslationSamples))
        (stackedConstants (translationDeltas pureTranslationSamples)) ![1 / 2, 0, 0] ∧
      ¬ IsLeastSquares (stackedCoefficients (translationDeltas pureTranslationSamples))
        (stackedConstants (translationDeltas pureTranslationSamples)) ![1 / 2, 0, 0] ∧
      IsLeastSquares (stackedCoefficients (translationDeltas pureTranslationSamples))
        (stackedConstants (translationDeltas pureTranslationSamples)) ![-1 / 2, 0, 0] ∧
      (CalibrateTranslation ratNumerics pureTranslationSamples).2 = ![-50, 0, 0] ∧
      (CalibrateTranslation ratNumerics pureTranslationSamples).2 ≠ ![50, 0, 0] := by
  have hs := pureTranslationSamples_shifted
  have hrank := pureTranslationSamples_fullColumnRank
  have h0 : SolvesAll (stackedCoefficients (translationDeltas pureTranslationSamples))
      (stackedConstants (translationDeltas pureTranslationSamples)) ![-1 / 2, 0, 0] :=
    (solvesAll_iff_blocks _ _).mpr
      (translationDeltas_pure_translation pureTranslationSamples fun s h => (hs s h).2)
  have hls := isLeastSquares_of_solvesAll _ _ _ h0
  have hsolve := normalEquationsSolve_eq _ _ _ (stacked_length _) hrank h0
  have hres : (CalibrateTranslation ratNumerics pureTranslationSamples).2 = ![-50, 0, 0] := by
    have hr : (CalibrateTranslation ratNumerics pureTranslationSamples).2
        = fun i => normalEquationsSolve
            (stackedCoefficients (translationDeltas pureTranslationSamples))
            (stackedConstants (translationDeltas pureTranslationSamples)) i * 100 := rfl
    rw [hr, hsolve]
    funext i
    fin_cases i <;> simp
    norm_num
  refine ⟨hs, hrank, pureTranslationSamples_not_solved, ?_, hls, hres, ?_⟩
  · intro h
    have := leastSquares_unique _ _ _ hrank h0 h
    have h1 := congrFun this 0
    norm_num at h1
  · rw [hres]
    intro h
    have h1 := congrFun h 0
    norm_num at h1

/-- C2 (amended), on the three Samples of `pureTranslationSamples` and the exact solver. -/
theorem CalibrateTranslation_pure_translation_witness :
    (∀ s ∈ pureTranslationSamples,
        s.target.rot = s.ref.rot ∧ s.target.trans = s.ref.trans + ![1 / 2, 0, 0]) ∧
      FullColumnRank (stackedCoefficients (translationDeltas pureTranslationSamples)) ∧
      IsLeastSquares (stackedCoefficients (translationDeltas pureTranslationSamples))
        (stackedConstants (translationDeltas pureTranslationSamples))
        (ratNumerics.lstsq (stackedCoefficients (translationDeltas pureTranslationSamples))
          (stackedConstants (translationDeltas pureTranslationSamples))) ∧
      (CalibrateTranslation ratNumerics pureTranslationSamples).2 = ![-50, 0, 0] :=
  have hs := pureTranslationSamples_shifted
  have hrank := pureTranslationSamples_fullColumnRank
  have h0 : SolvesAll (stackedCoefficients (translationDeltas pureTranslationSamples))
      (stackedConstants (translationDeltas pureTranslationSamples)) ![-1 / 2, 0, 0] :=
    (solvesAll_iff_blocks _ _).mpr
      (translationDeltas_pure_translation pureTranslationSamples fun s h => (hs s h).2)
  have hls : IsLeastSquares (stackedCoefficients (translationDeltas pureTranslationSamples))
      (stackedConstants (translationDeltas pureTranslationSamples))
      (ratNumerics.lstsq (stackedCoefficients (translationDeltas pureTranslationSamples))
        (stackedConstants (translationDeltas pureTranslationSamples))) := by
    have hsolve := normalEquationsSolve_eq _ _ _ (stacked_length _) hrank h0
    show IsLeastSquares _ _ (normalEquationsSolve _ _)
    rw [hsolve]
    exact isLeastSquares_of_solvesAll _ _ _ h0
  ⟨hs, hrank, hls,
    (CalibrateTranslation_pure_translation ratNumerics pureTranslationSamples hs hrank hls).2.2⟩

/-! ## Theorems: the pose ring -/

section Ring
variable {P σ : Type}

theorem readLoop_of_not_lt (callback : σ → AugmentedPose P → σ) (data : ShmemData P)
    (latest : Nat) (hl : latest < UINT64_RANGE) (st : ReadState P σ)
    (h : ¬ st.self.cursor < latest) : readLoop callback data latest hl st = st := by
  rw [readLoop]
  simp [h]

theorem readLoop_of_lt (callback : σ → AugmentedPose P → σ) (data : ShmemData P)
    (latest : Nat) (hl : latest < UINT64_RANGE) (st : ReadState P σ)
    (h : st.self.cursor < latest) :
    readLoop callback data latest hl st
      = readLoop callback data latest hl (readBody callback data st) := by
  rw [readLoop]
  simp [h]

/-- The loop of `ReadNewPoses` from a cursor `n` positions below `latestIndex`: the cursor ends
at `latestIndex`, the positions examined are the `n` positions from the cursor on, in order,
and `lastPose` and the state of the callback are those of `deliver` folded over the records at
these positions. -/
theorem readLoop_eq (callback : σ → AugmentedPose P → σ) (data : ShmemData P)
    (latest : Nat) (hl : latest < UINT64_RANGE) :
    ∀ (n : Nat) (st : ReadState P σ), st.self.cursor + n = latest →
      readLoop callback data latest hl st
        = { self := { st.self with
                cursor := latest
                lastPose := ((ringRecords data st.self.cursor n).foldl (deliver callback)
                  (st.self.lastPose, st.cb)).1 }
            cb := ((ringRecords data st.self.cursor n).foldl (deliver callback)
                  (st.self.lastPose, st.cb)).2
            examined := st.examined ++ examinedOf st.self.cursor n } := by
  intro n
  induction n with
  | zero =>
    intro st h
    rw [readLoop_of_not_lt _ _ _ _ _ (by omega)]
    obtain ⟨⟨m, c, lp⟩, cb, ex⟩ := st
    simp only [Nat.add_zero] at h
    simp [ringRecords, examinedOf, h]
  | succ n ih =>
    intro st h
    rw [readLoop_of_lt _ _ _ _ _ (by omega)]
    have hc : (st.self.cursor + 1) % UINT64_RANGE = st.self.cursor + 1 :=
      Nat.mod_eq_of_lt (by omega)
    have hb : (readBody callback data st).self.cursor = st.self.cursor + 1 := hc
    rw [ih (readBody callback data st) (by rw [hb]; omega)]
    simp only [hb]
    simp only [readBody, ringRecords, examinedOf, List.range'_succ, List.map_cons,
      List.foldl_cons, List.append_assoc, List.singleton_append]


theorem uint64_range_pos : 0 < UINT64_RANGE := by decide

theorem buffered_lt_uint64 : BUFFERED_SAMPLES < UINT64_RANGE := by decide

/-- A run of `ReadNewPoses` of a reader that has the segment mapped, when the cursor the loop
starts from is not above the index. -/
theorem ReadNewPoses_eq (callback : σ → AugmentedPose P → σ) (data : ShmemData P)
    (self : DriverPoseShmem P) (s : σ) (hm : self.mapped = true)
    (hstart : readStart data self ≤ data.index % UINT64_RANGE) :
    ReadNewPoses callback data self s
      = { self := { self with
              cursor := data.index % UINT64_RANGE
              lastPose := ((ringRecords data (readStart data self)
                (data.index % UINT64_RANGE - readStart data self)).foldl (deliver callback)
                  (self.lastPose, s)).1 }
          cb := ((ringRecords data (readStart data self)
                (data.index % UINT64_RANGE - readStart data self)).foldl (deliver callback)
                  (self.lastPose, s)).2
          examined := examinedOf (readStart data self)
            (data.index % UINT64_RANGE - readStart data self) } := by
  have hu : ReadNewPoses callback data self s
      = readLoop callback data (data.index % UINT64_RANGE) (Nat.mod_lt _ uint64_range_pos)
          { self := { self with cursor := readStart data self }, cb := s, examined := [] } := by
    unfold ReadNewPoses readStart
    rw [if_neg (by simp [hm])]
    by_cases hff : data.index % UINT64_RANGE > (self.cursor + BUFFERED_SAMPLES) % UINT64_RANGE
    · simp only [hff, ↓reduceIte]
    · simp only [hff, ↓reduceIte]
  rw [hu, readLoop_eq callback data _ _ (data.index % UINT64_RANGE - readStart data self) _
    (by simp only; omega)]
  simp

/-- A run of `ReadNewPoses` when the cursor the loop starts from is above the index: the loop
body does not run. -/
theorem ReadNewPoses_eq_of_gt (callback : σ → AugmentedPose P → σ) (data : ShmemData P)
    (self : DriverPoseShmem P) (s : σ) (hm : self.mapped = true)
    (hstart : data.index % UINT64_RANGE < readStart data self) :
    ReadNewPoses callback data self s
      = { self := { self with cursor := readStart data self }, cb := s, examined := [] } := by
  have hu : ReadNewPoses callback data self s
      = readLoop callback data (data.index % UINT64_RANGE) (Nat.mod_lt _ uint64_range_pos)
          { self := { self with cursor := readStart data self }, cb := s, examined := [] } := by
    unfold ReadNewPoses readStart
    rw [if_neg (by simp [hm])]
    by_cases hff : data.index % UINT64_RANGE > (self.cursor + BUFFERED_SAMPLES) % UINT64_RANGE
    · simp only [hff, ↓reduceIte]
    · simp only [hff, ↓reduceIte]
  rw [hu, readLoop_of_not_lt _ _ _ _ _ (by simp only; omega)]

/-- Without wrap-around (`cursor + 65536 < 2^64`) and with the cursor not above the index, the
loop starts from `max(cursor, index - 65536)`. -/
theorem readStart_eq_max (data : ShmemData P) (self : DriverPoseShmem P)
    (hidx : data.index < UINT64_RANGE)
    (hno : self.cursor + BUFFERED_SAMPLES < UINT64_RANGE) :
    readStart data self = max self.cursor (data.index - BUFFERED_SAMPLES) := by
  have h1 : data.index % UINT64_RANGE = data.index := Nat.mod_eq_of_lt hidx
  have h2 : (self.cursor + BUFFERED_SAMPLES) % UINT64_RANGE = self.cursor + BUFFERED_SAMPLES :=
    Nat.mod_eq_of_lt hno
  unfold readStart
  rw [h1, h2]
  by_cases hff : data.index > self.cursor + BUFFERED_SAMPLES
  · simp only [hff, ↓reduceIte]
    have h3 : data.index + UINT64_RANGE - BUFFERED_SAMPLES
        = (data.index - BUFFERED_SAMPLES) + UINT64_RANGE := by omega
    rw [h3, Nat.add_mod_right, Nat.mod_eq_of_lt (by omega)]
    omega
  · simp only [hff, ↓reduceIte]
    omega

theorem mem_examinedOf (start n : Nat) (e : Nat × Fin BUFFERED_SAMPLES) :
    e ∈ examinedOf start n ↔ start ≤ e.1 ∧ e.1 < start + n ∧ e.2 = slotOf e.1 := by
  unfold examinedOf
  rw [List.mem_map]
  constructor
  · rintro ⟨k, hk, rfl⟩
    rw [List.mem_range'_1] at hk
    exact ⟨hk.1, hk.2, rfl⟩
  · rintro ⟨h1, h2, h3⟩
    exact ⟨e.1, List.mem_range'_1.mpr ⟨h1, h2⟩, by rw [← h3]⟩

theorem examinedOf_positions (start n : Nat) :
    (examinedOf start n).map Prod.fst = List.range' start n := by
  unfold examinedOf
  rw [List.map_map]
  exact List.map_id _

/-- C5: for every reader that has the segment mapped, with `cursor <= index`, `ReadNewPoses`
returns (the model is a total function) with `cursor = index`; the positions it examines are
exactly the `k` with `max(cursor, index - 65536) <= k < index`, each once and in increasing
order, position `k` at slot `k mod 65536`; `lastPose` and the callback see the records of
exactly these positions, so no position below `index - 65536` is delivered. The hypothesis
`hidx` says that the index is a `uint64_t`. The hypothesis `hno` says that the `uint64_t` sum
`cursor + 65536` of line 296 does not wrap around; it holds in every state the code reaches
with fewer than `2^64 - 65536` records written since `Create`, because the index is written
only by `Create` (line 242) and by the increment of `WritePose` (line 280), and the cursor is
only given 0 or values up to the index (lines 189, 273, 297 and 316). -/
theorem ReadNewPoses_examines (callback : σ → AugmentedPose P → σ) (data : ShmemData P)
    (self : DriverPoseShmem P) (s : σ) (hm : self.mapped = true)
    (hidx : data.index < UINT64_RANGE) (hc : self.cursor ≤ data.index)
    (hno : self.cursor + BUFFERED_SAMPLES < UINT64_RANGE) :
    (ReadNewPoses callback data self s).self.cursor = data.index ∧
      (ReadNewPoses callback data self s).examined.map Prod.fst
        = List.range' (max self.cursor (data.index - BUFFERED_SAMPLES))
            (data.index - max self.cursor (data.index - BUFFERED_SAMPLES)) ∧
      (∀ e : Nat × Fin BUFFERED_SAMPLES, e ∈ (ReadNewPoses callback data self s).examined ↔
        (max self.cursor (data.index - BUFFERED_SAMPLES) ≤ e.1 ∧ e.1 < data.index ∧
          e.2.val = e.1 % BUFFERED_SAMPLES)) ∧
      ((ReadNewPoses callback data self s).examined.map Prod.fst).Sorted (· < ·) ∧
      ((ReadNewPoses callback data self s).self.lastPose, (ReadNewPoses callback data self s).cb)
        = ((ReadNewPoses callback data self s).examined.map fun e => data.poses e.2).foldl
            (deliver callback) (self.lastPose, s) ∧
      (∀ e ∈ (ReadNewPoses callback data self s).examined, data.index - BUFFERED_SAMPLES ≤ e.1) := by
  have h1 : data.index % UINT64_RANGE = data.index := Nat.mod_eq_of_lt hidx
  have hs := readStart_eq_max data self hidx hno
  have hle : readStart data self ≤ data.index % UINT64_RANGE := by rw [hs, h1]; omega
  have hr := ReadNewPoses_eq callback data self s hm hle
  rw [h1, hs] at hr
  have hmem : ∀ e : Nat × Fin BUFFERED_SAMPLES, e ∈ (ReadNewPoses callback data self s).examined ↔
      (max self.cursor (data.index - BUFFERED_SAMPLES) ≤ e.1 ∧ e.1 < data.index ∧
        e.2.val = e.1 % BUFFERED_SAMPLES) := by
    intro e
    rw [hr, mem_examinedOf]
    constructor
    · rintro ⟨a, b, c⟩
      exact ⟨a, by omega, by rw [c]; rfl⟩
    · rintro ⟨a, b, c⟩
      exact ⟨a, by omega, Fin.ext c⟩
  refine ⟨by rw [hr], by rw [hr, examinedOf_positions], hmem, ?_, ?_, ?_⟩
  · rw [hr, examinedOf_positions]
    exact (List.pairwise_lt_range' _ _)
  · rw [hr]
    simp only [ringRecords, examinedOf, List.map_map]
    rfl
  · intro e he
    have := (hmem e).mp he
    omega

end Ring

section Delivery
variable {P σ : Type}

theorem deviceSlot_eq_some (deviceId : Int) (d : Fin k_unMaxTrackedDeviceCount) :
    deviceSlot deviceId = some d ↔
      (0 ≤ deviceId ∧ deviceId < (k_unMaxTrackedDeviceCount : Int)) ∧ (d.val : Int) = deviceId := by
  unfold deviceSlot
  split
  · rename_i h
    simp only [Option.some.injEq, h, true_and]
    constructor
    · intro hd
      rw [← hd]
      simp only [Int.toNat_of_nonneg h.1]
    · intro hd
      apply Fin.ext
      simp only
      omega
  · rename_i h
    simp only [false_iff, reduceCtorEq]
    rintro ⟨h1, _⟩
    exact h h1

theorem deviceSlot_eq_none (deviceId : Int) :
    deviceSlot deviceId = none ↔
      ¬ (0 ≤ deviceId ∧ deviceId < (k_unMaxTrackedDeviceCount : Int)) := by
  unfold deviceSlot
  split <;> simp_all

theorem timespec_lt_iff (a b : timespec) :
    timespec.lt a b ↔ a.tv_sec < b.tv_sec ∨ (a.tv_sec = b.tv_sec ∧ a.tv_nsec < b.tv_nsec) := by
  unfold timespec.lt isNewer
  simp only [Bool.or_eq_true, Bool.and_eq_true, decide_eq_true_eq, gt_iff_lt]
  constructor
  · rintro (h | ⟨h1, h2⟩)
    · exact Or.inl h
    · exact Or.inr ⟨h1.symm, h2⟩
  · rintro (h | ⟨h1, h2⟩)
    · exact Or.inl h
    · exact Or.inr ⟨h1.symm, h2⟩

theorem timespec_lt_iff_lex (a b : timespec) :
    timespec.lt a b ↔ toLex (a.tv_sec, a.tv_nsec) < toLex (b.tv_sec, b.tv_nsec) := by
  rw [timespec_lt_iff, Prod.Lex.lt_iff]

theorem timespec_lt_irrefl (a : timespec) : ¬ timespec.lt a a := by
  rw [timespec_lt_iff]; omega

theorem timespec_lt_trans {a b c : timespec} (h1 : timespec.lt a b) (h2 : timespec.lt b c) :
    timespec.lt a c := by
  rw [timespec_lt_iff] at *; omega

theorem deliver_of_newer (callback : σ → AugmentedPose P → σ)
    (lastPose : Fin k_unMaxTrackedDeviceCount → AugmentedPose P) (cb : σ) (aug : AugmentedPose P)
    (d : Fin k_unMaxTrackedDeviceCount) (hd : deviceSlot aug.deviceId = some d)
    (hn : timespec.lt (lastPose d).sample_time aug.sample_time) :
    deliver callback (lastPose, cb) aug = (Function.update lastPose d aug, callback cb aug) := by
  unfold timespec.lt at hn
  simp [deliver, hd, hn]

theorem deliver_of_not_newer (callback : σ → AugmentedPose P → σ)
    (lastPose : Fin k_unMaxTrackedDeviceCount → AugmentedPose P) (cb : σ) (aug : AugmentedPose P)
    (h : ∀ d, deviceSlot aug.deviceId = some d →
      ¬ timespec.lt (lastPose d).sample_time aug.sample_time) :
    deliver callback (lastPose, cb) aug = (lastPose, cb) := by
  unfold deliver
  cases hd : deviceSlot aug.deviceId with
  | none => rfl
  | some d =>
    have := h d hd
    unfold timespec.lt at this
    simp [this]

theorem forDevice_append (d : Int) (l1 l2 : List (AugmentedPose P)) :
    forDevice d (l1 ++ l2) = forDevice d l1 ++ forDevice d l2 := by
  simp [forDevice]

theorem pairwise_le_last {β : Type} (R : β → β → Prop) (l : List β) (x : β)
    (hp : l.Pairwise R) (hl : l.getLast? = some x) : ∀ a ∈ l, a = x ∨ R a x := by
  have hx := List.dropLast_append_getLast? x hl
  intro a ha
  rw [← hx] at ha hp
  rw [List.mem_append] at ha
  rcases ha with ha | ha
  · exact Or.inr ((List.pairwise_append.mp hp).2.2 a ha x (List.mem_singleton.mpr rfl))
  · exact Or.inl (List.mem_singleton.mp ha)

/-- One step of `deliver` with the recording callback keeps the invariant of the reader. -/
theorem deliver_invariant (lastPose0 lastPose : Fin k_unMaxTrackedDeviceCount → AugmentedPose P)
    (out : List (AugmentedPose P)) (aug : AugmentedPose P)
    (hinv : DeliveryInvariant lastPose0 lastPose out) :
    DeliveryInvariant lastPose0 (deliver recordCallback (lastPose, out) aug).1
      (deliver recordCallback (lastPose, out) aug).2 := by
  by_cases hex : ∃ d0, deviceSlot aug.deviceId = some d0 ∧
      timespec.lt (lastPose d0).sample_time aug.sample_time
  · obtain ⟨d0, hd0, hn⟩ := hex
    rw [deliver_of_newer _ _ _ _ d0 hd0 hn]
    have hid : (d0.val : Int) = aug.deviceId := ((deviceSlot_eq_some _ _).mp hd0).2
    intro d
    obtain ⟨h1, h2, h3⟩ := hinv d
    simp only [recordCallback, forDevice_append]
    by_cases hdd : d = d0
    · subst hdd
      have hf : forDevice (d.val : Int) [aug] = [aug] := by simp [forDevice, hid]
      rw [hf]
      refine ⟨?_, ?_, ?_⟩
      · rw [List.map_append, List.pairwise_append]
        refine ⟨h1, List.pairwise_singleton _ _, ?_⟩
        intro a ha b hb
        simp only [List.map_cons, List.map_nil, List.mem_singleton] at hb
        subst hb
        cases hlast : (forDevice (d.val : Int) out).getLast? with
        | none =>
          rw [List.getLast?_eq_none_iff] at hlast
          rw [hlast] at ha
          simp at ha
        | some x =>
          have hx := h2 x hlast
          have hlast' : ((forDevice (d.val : Int) out).map fun a => a.sample_time).getLast?
              = some x.sample_time := by
            rw [List.getLast?_map, hlast]; rfl
          rcases pairwise_le_last _ _ _ h1 hlast' a ha with h | h
          · rw [h, ← hx]; exact hn
          · exact timespec_lt_trans h (by rw [← hx]; exact hn)
      · intro a ha
        rw [List.getLast?_append, List.getLast?_singleton] at ha
        simp only [Option.or_some, Option.some.injEq] at ha
        rw [Function.update_same]
        exact ha
      · intro hnil
        simp at hnil
    · have hne : aug.deviceId ≠ (d.val : Int) := by
        intro h
        apply hdd
        apply Fin.ext
        have : (d0.val : Int) = (d.val : Int) := by rw [hid, h]
        exact_mod_cast this.symm
      have hf : forDevice (d.val : Int) [aug] = [] := by simp [forDevice, hne]
      rw [hf, List.append_nil, Function.update_noteq hdd]
      exact ⟨h1, h2, h3⟩
  · rw [deliver_of_not_newer]
    · exact hinv
    · intro d hd hn
      exact hex ⟨d, hd, hn⟩

theorem foldl_deliver_invariant (lastPose0 : Fin k_unMaxTrackedDeviceCount → AugmentedPose P)
    (recs : List (AugmentedPose P)) :
    ∀ (acc : (Fin k_unMaxTrackedDeviceCount → AugmentedPose P) × List (AugmentedPose P)),
      DeliveryInvariant lastPose0 acc.1 acc.2 →
      DeliveryInvariant lastPose0 (recs.foldl (deliver recordCallback) acc).1
        (recs.foldl (deliver recordCallback) acc).2 := by
  induction recs with
  | nil => intro acc h; exact h
  | cons a recs ih =>
    intro acc h
    rw [List.foldl_cons]
    exact ih _ (deliver_invariant lastPose0 acc.1 acc.2 a h)

/-- Whatever the state of the reader and of the segment, the effect of `ReadNewPoses` on
`lastPose` and on the state of the callback is that of `deliver` on the records at the slots it
examined, in order. -/
theorem ReadNewPoses_fold (callback : σ → AugmentedPose P → σ) (data : ShmemData P)
    (self : DriverPoseShmem P) (s : σ) :
    ((ReadNewPoses callback data self s).self.lastPose, (ReadNewPoses callback data self s).cb)
      = ((ReadNewPoses callback data self s).examined.map fun e => data.poses e.2).foldl
          (deliver callback) (self.lastPose, s) := by
  by_cases hm : self.mapped = true
  · by_cases hs : readStart data self ≤ data.index % UINT64_RANGE
    · rw [ReadNewPoses_eq callback data self s hm hs]
      simp only [ringRecords, examinedOf, List.map_map]
      rfl
    · rw [ReadNewPoses_eq_of_gt callback data self s hm (by omega)]
      rfl
  · have : ReadNewPoses callback data self s = { self := self, cb := s, examined := [] } := by
      unfold ReadNewPoses
      simp [hm]
    rw [this]
    rfl

theorem readAll_invariant (lastPose0 : Fin k_unMaxTrackedDeviceCount → AugmentedPose P)
    (datas : List (ShmemData P)) :
    ∀ (acc : DriverPoseShmem P × List (AugmentedPose P)),
      DeliveryInvariant lastPose0 acc.1.lastPose acc.2 →
      DeliveryInvariant lastPose0 (readAll datas acc).1.lastPose (readAll datas acc).2 := by
  induction datas with
  | nil => intro acc h; exact h
  | cons data datas ih =>
    intro acc h
    have hstep : readAll (data :: datas) acc
        = readAll datas ((ReadNewPoses recordCallback data acc.1 acc.2).self,
            (ReadNewPoses recordCallback data acc.1 acc.2).cb) := rfl
    rw [hstep]
    apply ih
    have hf := ReadNewPoses_fold recordCallback data acc.1 acc.2
    have := foldl_deliver_invariant lastPose0
      ((ReadNewPoses recordCallback data acc.1 acc.2).examined.map fun e => data.poses e.2)
      (acc.1.lastPose, acc.2) h
    rw [← hf] at this
    exact this

theorem deliveryInvariant_nil (lastPose0 : Fin k_unMaxTrackedDeviceCount → AugmentedPose P) :
    DeliveryInvariant lastPose0 lastPose0 ([] : List (AugmentedPose P)) := by
  intro d
  simp [forDevice]

/-- C7: a record that `ReadNewPoses` examines is passed to the callback iff its device id is in
`[0, 64)` and its time is strictly greater, in the lexicographic order of `(sec, nsec)`, than
that of `lastPose[deviceId]` (in which case `lastPose[deviceId]` becomes the record); and over
any sequence of calls on any ring contents, the times delivered for one device are strictly
increasing and `lastPose[deviceId]` is the last record delivered for the device. -/
theorem ReadNewPoses_delivers_newer_only :
    (∀ (callback : σ → AugmentedPose P → σ)
        (lastPose : Fin k_unMaxTrackedDeviceCount → AugmentedPose P) (cb : σ)
        (aug : AugmentedPose P),
        (∀ d : Fin k_unMaxTrackedDeviceCount,
          (0 ≤ aug.deviceId ∧ aug.deviceId < 64) → (d.val : Int) = aug.deviceId →
          toLex ((lastPose d).sample_time.tv_sec, (lastPose d).sample_time.tv_nsec)
            < toLex (aug.sample_time.tv_sec, aug.sample_time.tv_nsec) →
          deliver callback (lastPose, cb) aug
            = (Function.update lastPose d aug, callback cb aug)) ∧
        ((¬ ∃ d : Fin k_unMaxTrackedDeviceCount,
            (0 ≤ aug.deviceId ∧ aug.deviceId < 64) ∧ (d.val : Int) = aug.deviceId ∧
            toLex ((lastPose d).sample_time.tv_sec, (lastPose d).sample_time.tv_nsec)
              < toLex (aug.sample_time.tv_sec, aug.sample_time.tv_nsec)) →
          deliver callback (lastPose, cb) aug = (lastPose, cb))) ∧
      (∀ (callback : σ → AugmentedPose P → σ) (data : ShmemData P) (self : DriverPoseShmem P)
        (s : σ),
        ((ReadNewPoses callback data self s).self.lastPose,
            (ReadNewPoses callback data self s).cb)
          = ((ReadNewPoses callback data self s).examined.map fun e => data.poses e.2).foldl
              (deliver callback) (self.lastPose, s)) ∧
      (∀ (datas : List (ShmemData P)) (reader : DriverPoseShmem P)
        (d : Fin k_unMaxTrackedDeviceCount),
        ((forDevice (d.val : Int) (readAll datas (reader, [])).2).map
            fun a => a.sample_time).Pairwise timespec.lt ∧
          (∀ a, (forDevice (d.val : Int) (readAll datas (reader, [])).2).getLast? = some a →
            (readAll datas (reader, [])).1.lastPose d = a) ∧
          (forDevice (d.val : Int) (readAll datas (reader, [])).2 = [] →
            (readAll datas (reader, [])).1.lastPose d = reader.lastPose d)) := by
  refine ⟨?_, ReadNewPoses_fold, ?_⟩
  · intro callback lastPose cb aug
    constructor
    · intro d hr hd hlt
      exact deliver_of_newer callback lastPose cb aug d
        ((deviceSlot_eq_some _ _).mpr ⟨hr, hd⟩) ((timespec_lt_iff_lex _ _).mpr hlt)
    · intro hno
      apply deliver_of_not_newer
      intro d hd hlt
      have := (deviceSlot_eq_some _ _).mp hd
      exact hno ⟨d, this.1, this.2, (timespec_lt_iff_lex _ _).mp hlt⟩
  · intro datas reader d
    exact readAll_invariant reader.lastPose datas (reader, []) (deliveryInvariant_nil _) d

end Delivery

section Writes
variable {P : Type}

theorem slotOf_ne (a b : Nat) (h : a % BUFFERED_SAMPLES ≠ b % BUFFERED_SAMPLES) :
    slotOf a ≠ slotOf b := by
  intro hs
  exact h (congrArg Fin.val hs)

theorem writeAll_cons (r : WriteRequest P) (rs : List (WriteRequest P)) (data : ShmemData P) :
    writeAll (r :: rs) data = writeAll rs (WritePose r.now r.deviceId r.pose data) := rfl

theorem WritePose_index (now : timespec) (deviceId : Int) (pose : P) (data : ShmemData P)
    (h : data.index + 1 < UINT64_RANGE) :
    (WritePose now deviceId pose data).index = data.index + 1 :=
  Nat.mod_eq_of_lt h

theorem writeAll_index (reqs : List (WriteRequest P)) :
    ∀ data : ShmemData P, data.index + reqs.length < UINT64_RANGE →
      (writeAll reqs data).index = data.index + reqs.length := by
  induction reqs with
  | nil => intro data _; rfl
  | cons r rs ih =>
    intro data h
    simp only [List.length_cons] at h
    have h1 := WritePose_index r.now r.deviceId r.pose data (by omega)
    rw [writeAll_cons, ih _ (by rw [h1]; omega), h1, List.length_cons]
    omega

theorem writeAll_poses_other (reqs : List (WriteRequest P)) (s : Fin BUFFERED_SAMPLES) :
    ∀ data : ShmemData P, data.index + reqs.length < UINT64_RANGE →
      (∀ j, j < reqs.length → slotOf (data.index + j) ≠ s) →
      (writeAll reqs data).poses s = data.poses s := by
  induction reqs with
  | nil => intro data _ _; rfl
  | cons r rs ih =>
    intro data h hs
    simp only [List.length_cons] at h hs
    have h1 := WritePose_index r.now r.deviceId r.pose data (by omega)
    rw [writeAll_cons, ih _ (by rw [h1]; omega)]
    · have h0 := hs 0 (by omega)
      simp only [Nat.add_zero] at h0
      simp only [WritePose]
      rw [Function.update_noteq (Ne.symm h0)]
    · intro j hj
      rw [h1]
      have := hs (j + 1) (by omega)
      rw [show data.index + 1 + j = data.index + (j + 1) by omega]
      exact this

/-- After at most 65536 writes that do not wrap the index, record number `k` of the sequence is
in slot `(index + k) mod 65536`. -/
theorem writeAll_poses (reqs : List (WriteRequest P)) :
    ∀ data : ShmemData P, reqs.length ≤ BUFFERED_SAMPLES →
      data.index + reqs.length < UINT64_RANGE →
      ∀ (k : Nat) (hk : k < reqs.length),
        (writeAll reqs data).poses (slotOf (data.index + k)) = (reqs.get ⟨k, hk⟩).record := by
  induction reqs with
  | nil => intro data _ _ k hk; simp at hk
  | cons r rs ih =>
    intro data hn h k hk
    simp only [List.length_cons] at h hn hk
    have h1 := WritePose_index r.now r.deviceId r.pose data (by omega)
    rw [writeAll_cons]
    cases k with
    | zero =>
      rw [writeAll_poses_other rs _ _ (by rw [h1]; omega)]
      · simp only [WritePose, Nat.add_zero, Function.update_same]
        rfl
      · intro j hj
        rw [h1]
        apply slotOf_ne
        simp only [BUFFERED_SAMPLES] at hn ⊢
        omega
    | succ k =>
      have := ih (WritePose r.now r.deviceId r.pose data) (by omega) (by rw [h1]; omega) k
        (by omega)
      rw [h1, show data.index + 1 + k = data.index + (k + 1) by omega] at this
      rw [this]
      rfl

theorem ringRecords_writeAll (reqs : List (WriteRequest P)) (data : ShmemData P)
    (hn : reqs.length ≤ BUFFERED_SAMPLES) (h : data.index + reqs.length < UINT64_RANGE) :
    ringRecords (writeAll reqs data) data.index reqs.length = reqs.map WriteRequest.record := by
  apply List.ext_getElem
  · simp [ringRecords]
  · intro k h1 h2
    simp only [ringRecords, List.getElem_map, List.getElem_range', Nat.one_mul]
    have hk : k < reqs.length := by simpa using h2
    exact writeAll_poses reqs data hn h k hk

/-- The read that follows at most 65536 writes, by a reader that was caught up before them,
without wrap-around: `deliver` runs over the records written, in write order. -/
theorem ReadNewPoses_after_writes (σ : Type) (callback : σ → AugmentedPose P → σ)
    (reqs : List (WriteRequest P)) (data : ShmemData P) (reader : DriverPoseShmem P) (s : σ)
    (hm : reader.mapped = true) (hc : reader.cursor = data.index)
    (hn : reqs.length ≤ BUFFERED_SAMPLES)
    (hno : data.index + BUFFERED_SAMPLES < UINT64_RANGE) :
    ReadNewPoses callback (writeAll reqs data) reader s
      = { self := { reader with
              cursor := data.index + reqs.length
              lastPose := ((reqs.map WriteRequest.record).foldl (deliver callback)
                (reader.lastPose, s)).1 }
          cb := ((reqs.map WriteRequest.record).foldl (deliver callback)
                (reader.lastPose, s)).2
          examined := examinedOf data.index reqs.length } := by
  have hidx := writeAll_index reqs data (by omega)
  have hmod : (writeAll reqs data).index % UINT64_RANGE = data.index + reqs.length := by
    rw [hidx]; exact Nat.mod_eq_of_lt (by omega)
  have hstart : readStart (writeAll reqs data) reader = data.index := by
    unfold readStart
    rw [hmod, hc, Nat.mod_eq_of_lt hno, if_neg (by omega)]
  rw [ReadNewPoses_eq callback _ reader s hm (by rw [hstart, hmod]; omega), hstart, hmod,
    Nat.add_sub_cancel_left, ringRecords_writeAll reqs data hn (by omega)]

/-- When every record of a list is for a device in `[0, 64)`, is newer than `lastPose` of its
device and the times increase strictly along the list, every record is delivered, in order. -/
theorem foldl_deliver_all (recs : List (AugmentedPose P)) :
    ∀ (lastPose : Fin k_unMaxTrackedDeviceCount → AugmentedPose P) (out : List (AugmentedPose P)),
      (∀ a ∈ recs, ∃ d, deviceSlot a.deviceId = some d ∧
        timespec.lt (lastPose d).sample_time a.sample_time) →
      recs.Pairwise (fun a b => timespec.lt a.sample_time b.sample_time) →
      (recs.foldl (deliver recordCallback) (lastPose, out)).2 = out ++ recs := by
  induction recs with
  | nil => intro lastPose out _ _; simp
  | cons a recs ih =>
    intro lastPose out hnew hp
    obtain ⟨d, hd, hlt⟩ := hnew a (List.mem_cons_self _ _)
    rw [List.foldl_cons, deliver_of_newer _ _ _ _ d hd hlt]
    rw [List.pairwise_cons] at hp
    rw [ih _ _ _ hp.2]
    · simp [recordCallback]
    · intro b hb
      obtain ⟨d', hd', hlt'⟩ := hnew b (List.mem_cons_of_mem _ hb)
      refine ⟨d', hd', ?_⟩
      by_cases hdd : d' = d
      · subst hdd
        rw [Function.update_same]
        exact hp.1 b hb
      · rw [Function.update_noteq hdd]
        exact hlt'

/-- The read that follows two writes of the same `(deviceId, sampleTime)` by a freshly opened
reader, without wrap-around: the first record is delivered when the time is later than the zero
time, and nothing is delivered otherwise. -/
theorem read_after_same_record_twice (zero : P) (data : ShmemData P) (deviceId : Int)
    (t : timespec) (pose1 pose2 : P)
    (hd : 0 ≤ deviceId ∧ deviceId < (k_unMaxTrackedDeviceCount : Int))
    (hno : data.index + BUFFERED_SAMPLES < UINT64_RANGE) :
    (ReadNewPoses recordCallback
        (WritePose t deviceId pose2 (WritePose t deviceId pose1 data))
        ((DriverPoseShmem.new zero).Open (some data)).1 []).cb
      = if timespec.lt { tv_sec := 0, tv_nsec := 0 } t then
          ([{ sample_time := t, deviceId := deviceId, pose := pose1 }] : List (AugmentedPose P))
        else [] := by
  have hw : WritePose t deviceId pose2 (WritePose t deviceId pose1 data)
      = writeAll [{ now := t, deviceId := deviceId, pose := pose1 },
          { now := t, deviceId := deviceId, pose := pose2 }] data := rfl
  rw [hw, ReadNewPoses_after_writes _ recordCallback _ data _ [] rfl rfl
    (by simp [BUFFERED_SAMPLES]) hno]
  obtain ⟨d, hds⟩ : ∃ d, deviceSlot deviceId = some d := by
    cases h : deviceSlot deviceId with
    | none => exact absurd hd ((deviceSlot_eq_none _).mp h)
    | some d => exact ⟨d, rfl⟩
  simp only [List.map_cons, List.map_nil, List.foldl_cons, List.foldl_nil, WriteRequest.record]
  by_cases ht : timespec.lt { tv_sec := 0, tv_nsec := 0 } t
  · have h1 := deliver_of_newer recordCallback
      ((DriverPoseShmem.new zero).Open (some data)).1.lastPose []
      { sample_time := t, deviceId := deviceId, pose := pose1 } d hds ht
    rw [if_pos ht, h1, deliver_of_not_newer]
    · rfl
    · intro d' hd' hlt
      have hdd : d' = d := by
        have h2 : deviceSlot deviceId = some d' := hd'
        rw [hds] at h2
        exact (Option.some.inj h2).symm
      subst hdd
      rw [Function.update_same] at hlt
      exact timespec_lt_irrefl _ hlt
  · have h1 := deliver_of_not_newer recordCallback
      ((DriverPoseShmem.new zero).Open (some data)).1.lastPose []
      { sample_time := t, deviceId := deviceId, pose := pose1 } (fun d' _ hlt => ht hlt)
    rw [if_neg ht, h1, deliver_of_not_newer]
    intro d' _ hlt
    exact ht hlt

/-- C6 (amended): for a device id in `[0, 64)` and a sample time strictly later than the zero
time `(0, 0)` of the zero-initialised `lastPose`, when the writer writes a record with that
`(deviceId, sampleTime)` twice into a ring whose reader is freshly opened and caught up, and
`index + 65536 < 2^64`, the next `ReadNewPoses` invokes its callback exactly once, with the
first of the two records. -/
theorem ReadNewPoses_same_record_twice (zero : P) (data : ShmemData P) (deviceId : Int)
    (t : timespec) (pose1 pose2 : P)
    (hd : 0 ≤ deviceId ∧ deviceId < 64)
    (ht : timespec.lt { tv_sec := 0, tv_nsec := 0 } t)
    (hno : data.index + BUFFERED_SAMPLES < UINT64_RANGE) :
    (ReadNewPoses recordCallback
        (WritePose t deviceId pose2 (WritePose t deviceId pose1 data))
        ((DriverPoseShmem.new zero).Open (some data)).1 []).cb
      = [{ sample_time := t, deviceId := deviceId, pose := pose1 }] := by
  rw [read_after_same_record_twice zero data deviceId t pose1 pose2 hd hno, if_pos ht]

/-- C8 (amended): in the sequential model where `WritePose` takes its time as an input, for a
reader with the segment mapped and `cursor = index`, `index + 65536 < 2^64`, and `n <= 65536`
records whose device ids are in `[0, 64)` and whose times increase strictly and are later than
the time of `lastPose[deviceId]` of the reader (the last time delivered for the device, and
the zero time while none has been): record number `k` is stored in slot `(index + k) mod 65536`,
the index grows by exactly `n`, and the next `ReadNewPoses` invokes the callback exactly `n`
times, with exactly those records in write order. -/
theorem WritePose_then_ReadNewPoses (reqs : List (WriteRequest P)) (data : ShmemData P)
    (reader : DriverPoseShmem P)
    (hm : reader.mapped = true) (hc : reader.cursor = data.index)
    (hn : reqs.length ≤ 65536)
    (hno : data.index + BUFFERED_SAMPLES < UINT64_RANGE)
    (hdev : ∀ r ∈ reqs, 0 ≤ r.deviceId ∧ r.deviceId < 64)
    (hnew : ∀ r ∈ reqs, ∀ d : Fin k_unMaxTrackedDeviceCount, (d.val : Int) = r.deviceId →
      timespec.lt (reader.lastPose d).sample_time r.now)
    (hinc : reqs.Pairwise (fun a b => timespec.lt a.now b.now)) :
    (∀ (k : Nat) (hk : k < reqs.length),
        (writeAll reqs data).poses (slotOf (data.index + k)) = (reqs.get ⟨k, hk⟩).record ∧
        (slotOf (data.index + k)).val = (data.index + k) % 65536) ∧
      (writeAll reqs data).index = data.index + reqs.length ∧
      (ReadNewPoses recordCallback (writeAll reqs data) reader []).cb
        = reqs.map WriteRequest.record ∧
      (ReadNewPoses recordCallback (writeAll reqs data) reader []).cb.length = reqs.length := by
  have hn' : reqs.length ≤ BUFFERED_SAMPLES := hn
  have hcb : (ReadNewPoses recordCallback (writeAll reqs data) reader []).cb
      = reqs.map WriteRequest.record := by
    rw [ReadNewPoses_after_writes _ recordCallback reqs data reader [] hm hc hn' hno]
    simp only
    rw [foldl_deliver_all]
    · simp
    · intro a ha
      rw [List.mem_map] at ha
      obtain ⟨r, hr, rfl⟩ := ha
      cases h : deviceSlot r.deviceId with
      | none => exact absurd (hdev r hr) ((deviceSlot_eq_none _).mp h)
      | some d =>
        exact ⟨d, h, hnew r hr d ((deviceSlot_eq_some _ _).mp h).2⟩
    · rw [List.pairwise_map]
      exact hinc
  refine ⟨?_, writeAll_index reqs data (by omega), hcb, ?_⟩
  · intro k hk
    exact ⟨writeAll_poses reqs data hn' (by omega) k hk, rfl⟩
  · rw [hcb, List.length_map]

end Writes

/-- The model at the top of the `uint64_t` range, in a state that takes `2^64 - 65536` writes
to reach: a reader with `cursor = index = 2^64 - 65536` is mapped and caught up, so no position
lies in `max(cursor, index - 65536) <= k < index`; the sum `cursor + 65536` of line 296 wraps
to 0, the test "too far behind" succeeds, the cursor is moved back to `index - 65536`, and the
65536 positions `2^64 - 131072 .. 2^64 - 65537` below the old cursor are examined. The
properties of the ring are therefore stated for cursors with `cursor + 65536 < 2^64`. -/
theorem ReadNewPoses_rewinds_at_wrap :
    (readerAt (2 ^ 64 - 65536)).mapped = true ∧
      (readerAt (2 ^ 64 - 65536)).cursor ≤ (zeroSegment (2 ^ 64 - 65536)).index ∧
      List.range' (max (readerAt (2 ^ 64 - 65536)).cursor
          ((zeroSegment (2 ^ 64 - 65536)).index - BUFFERED_SAMPLES))
        ((zeroSegment (2 ^ 64 - 65536)).index - max (readerAt (2 ^ 64 - 65536)).cursor
          ((zeroSegment (2 ^ 64 - 65536)).index - BUFFERED_SAMPLES)) = [] ∧
      (ReadNewPoses recordCallback (zeroSegment (2 ^ 64 - 65536)) (readerAt (2 ^ 64 - 65536))
          []).examined.map Prod.fst = List.range' (2 ^ 64 - 131072) 65536 ∧
      (ReadNewPoses recordCallback (zeroSegment (2 ^ 64 - 65536)) (readerAt (2 ^ 64 - 65536))
          []).examined.length = 65536 := by
  have hs : readStart (zeroSegment (2 ^ 64 - 65536)) (readerAt (2 ^ 64 - 65536))
      = 2 ^ 64 - 131072 := by
    simp [readStart, zeroSegment, readerAt, UINT64_RANGE, BUFFERED_SAMPLES]
  have hi : (zeroSegment (2 ^ 64 - 65536)).index % UINT64_RANGE = 2 ^ 64 - 65536 := by
    simp [zeroSegment, UINT64_RANGE]
  have hr := ReadNewPoses_eq recordCallback (zeroSegment (2 ^ 64 - 65536))
    (readerAt (2 ^ 64 - 65536)) [] rfl (by rw [hs, hi]; norm_num)
  rw [hs, hi] at hr
  have hn : 2 ^ 64 - 65536 - (2 ^ 64 - 131072) = 65536 := by norm_num
  rw [hn] at hr
  refine ⟨rfl, le_refl _, ?_, ?_, ?_⟩
  · simp [zeroSegment, readerAt, BUFFERED_SAMPLES]
  · rw [hr, examinedOf_positions]
  · rw [hr]
    simp [examinedOf]

/-- C5, on a reader three positions behind the index. -/
theorem ReadNewPoses_examines_witness :
    (readerAt 5).mapped = true ∧ (zeroSegment 8).index < UINT64_RANGE ∧
      (readerAt 5).cursor ≤ (zeroSegment 8).index ∧
      (readerAt 5).cursor + BUFFERED_SAMPLES < UINT64_RANGE ∧
      (ReadNewPoses recordCallback (zeroSegment 8) (readerAt 5) []).self.cursor = 8 :=
  have h1 : (zeroSegment 8).index < UINT64_RANGE := by
    simp [zeroSegment, UINT64_RANGE]
  have h2 : (readerAt 5).cursor ≤ (zeroSegment 8).index := by
    simp [zeroSegment, readerAt]
  have h3 : (readerAt 5).cursor + BUFFERED_SAMPLES < UINT64_RANGE := by
    simp [readerAt, UINT64_RANGE, BUFFERED_SAMPLES]
  ⟨rfl, h1, h2, h3,
    (ReadNewPoses_examines recordCallback (zeroSegment 8) (readerAt 5) [] rfl h1 h2 h3).1⟩

/-- C6, the claim as stated fails in two ways. With the sample time `(0, 0)` the first record is
not later than the zero-initialised `lastPose`, and the callback is not invoked at all. With
`index = 2^64 - 1` the second write wraps the index to 1, below the cursor of the reader, and
the callback is not invoked either. -/
theorem ReadNewPoses_same_record_twice_counterexample :
    (ReadNewPoses recordCallback
        (WritePose { tv_sec := 0, tv_nsec := 0 } 0 ()
          (WritePose { tv_sec := 0, tv_nsec := 0 } 0 () (zeroSegment 0)))
        ((DriverPoseShmem.new ()).Open (some (zeroSegment 0))).1 []).cb = [] ∧
      (ReadNewPoses recordCallback
        (WritePose { tv_sec := 1, tv_nsec := 0 } 0 ()
          (WritePose { tv_sec := 1, tv_nsec := 0 } 0 () (zeroSegment (2 ^ 64 - 1))))
        ((DriverPoseShmem.new ()).Open (some (zeroSegment (2 ^ 64 - 1)))).1 []).cb = [] := by
  constructor
  · rw [read_after_same_record_twice () (zeroSegment 0) 0 { tv_sec := 0, tv_nsec := 0 } () ()
      (by simp [k_unMaxTrackedDeviceCount])
      (by simp [zeroSegment, UINT64_RANGE, BUFFERED_SAMPLES])]
    rfl
  · have hi : (WritePose { tv_sec := 1, tv_nsec := 0 } 0 ()
          (WritePose { tv_sec := 1, tv_nsec := 0 } 0 () (zeroSegment (2 ^ 64 - 1)))).index = 1 := by
      simp [WritePose, zeroSegment, UINT64_RANGE]
    have hc : ((DriverPoseShmem.new ()).Open (some (zeroSegment (2 ^ 64 - 1)))).1.cursor
        = 2 ^ 64 - 1 := rfl
    have hs : readStart (WritePose { tv_sec := 1, tv_nsec := 0 } 0 ()
          (WritePose { tv_sec := 1, tv_nsec := 0 } 0 () (zeroSegment (2 ^ 64 - 1))))
        ((DriverPoseShmem.new ()).Open (some (zeroSegment (2 ^ 64 - 1)))).1 = 2 ^ 64 - 1 := by
      unfold readStart
      rw [hi, hc]
      simp [UINT64_RANGE, BUFFERED_SAMPLES]
    rw [ReadNewPoses_eq_of_gt _ _ _ _ rfl (by rw [hs, hi]; simp [UINT64_RANGE])]

/-- C6 (amended), for device 3 and the time `(1, 0)`. -/
theorem ReadNewPoses_same_record_twice_witness :
    ((0 : Int) ≤ 3 ∧ (3 : Int) < 64) ∧
      timespec.lt { tv_sec := 0, tv_nsec := 0 } { tv_sec := 1, tv_nsec := 0 } ∧
      (zeroSegment 0).index + BUFFERED_SAMPLES < UINT64_RANGE ∧
      (ReadNewPoses recordCallback
        (WritePose { tv_sec := 1, tv_nsec := 0 } 3 ()
          (WritePose { tv_sec := 1, tv_nsec := 0 } 3 () (zeroSegment 0)))
        ((DriverPoseShmem.new ()).Open (some (zeroSegment 0))).1 []).cb
        = [{ sample_time := { tv_sec := 1, tv_nsec := 0 }, deviceId := 3, pose := () }] :=
  have h1 : (0 : Int) ≤ 3 ∧ (3 : Int) < 64 := by decide
  have h2 : timespec.lt { tv_sec := 0, tv_nsec := 0 } { tv_sec := 1, tv_nsec := 0 } := by decide
  have h3 : (zeroSegment 0).index + BUFFERED_SAMPLES < UINT64_RANGE := by
    simp [zeroSegment, UINT64_RANGE, BUFFERED_SAMPLES]
  ⟨h1, h2, h3, ReadNewPoses_same_record_twice () (zeroSegment 0) 3 _ () () h1 h2 h3⟩

/-- C8, the claim as stated fails in two ways. A freshly opened reader has delivered nothing, so
a single record with the time `(0, 0)` for device 0 is later than every time delivered before;
it is not later than the zero-initialised `lastPose`, and the callback is not invoked. With
`index = 2^64 - 1` one write wraps the index to 0: the index does not grow by 1 and the callback
is not invoked. -/
theorem WritePose_then_ReadNewPoses_counterexample :
    (ReadNewPoses recordCallback
        (writeAll [{ now := { tv_sec := 0, tv_nsec := 0 }, deviceId := 0, pose := () }]
          (zeroSegment 0))
        ((DriverPoseShmem.new ()).Open (some (zeroSegment 0))).1 []).cb = [] ∧
      (writeAll [{ now := { tv_sec := 1, tv_nsec := 0 }, deviceId := 0, pose := () }]
          (zeroSegment (2 ^ 64 - 1))).index = 0 ∧
      (ReadNewPoses recordCallback
        (writeAll [{ now := { tv_sec := 1, tv_nsec := 0 }, deviceId := 0, pose := () }]
          (zeroSegment (2 ^ 64 - 1)))
        ((DriverPoseShmem.new ()).Open (some (zeroSegment (2 ^ 64 - 1)))).1 []).cb = [] := by
  have hi : (writeAll [{ now := { tv_sec := 1, tv_nsec := 0 }, deviceId := 0, pose := () }]
      (zeroSegment (2 ^ 64 - 1))).index = 0 := by
    simp [writeAll, WritePose, zeroSegment, UINT64_RANGE]
  refine ⟨?_, hi, ?_⟩
  · rw [ReadNewPoses_after_writes _ recordCallback _ (zeroSegment 0) _ [] rfl rfl
      (by simp [BUFFERED_SAMPLES]) (by simp [zeroSegment, UINT64_RANGE, BUFFERED_SAMPLES])]
    simp only [List.map_cons, List.map_nil, List.foldl_cons, List.foldl_nil]
    rw [deliver_of_not_newer]
    intro d _ hlt
    exact timespec_lt_irrefl _ hlt
  · have hc : ((DriverPoseShmem.new ()).Open (some (zeroSegment (2 ^ 64 - 1)))).1.cursor
        = 2 ^ 64 - 1 := rfl
    have hs : readStart
        (writeAll [{ now := { tv_sec := 1, tv_nsec := 0 }, deviceId := 0, pose := () }]
          (zeroSegment (2 ^ 64 - 1)))
        ((DriverPoseShmem.new ()).Open (some (zeroSegment (2 ^ 64 - 1)))).1 = 2 ^ 64 - 1 := by
      unfold readStart
      rw [hi, hc]
      simp [UINT64_RANGE, BUFFERED_SAMPLES]
    rw [ReadNewPoses_eq_of_gt _ _ _ _ rfl (by rw [hs, hi]; simp [UINT64_RANGE])]

/-- C8 (amended), on three writes for the devices 0, 1 and 0 from index 10. -/
theorem WritePose_then_ReadNewPoses_witness :
    (readerAt 10).mapped = true ∧ (readerAt 10).cursor = (zeroSegment 10).index ∧
      exampleWrites.length ≤ 65536 ∧
      (zeroSegment 10).index + BUFFERED_SAMPLES < UINT64_RANGE ∧
      (∀ r ∈ exampleWrites, 0 ≤ r.deviceId ∧ r.deviceId < 64) ∧
      exampleWrites.Pairwise (fun a b => timespec.lt a.now b.now) ∧
      (ReadNewPoses recordCallback (writeAll exampleWrites (zeroSegment 10)) (readerAt 10) []).cb
        = exampleWrites.map WriteRequest.record :=
  have h1 : exampleWrites.length ≤ 65536 := by decide
  have h2 : (zeroSegment 10).index + BUFFERED_SAMPLES < UINT64_RANGE := by
    simp [zeroSegment, UINT64_RANGE, BUFFERED_SAMPLES]
  have h3 : ∀ r ∈ exampleWrites, 0 ≤ r.deviceId ∧ r.deviceId < 64 := by decide
  have h0 : ∀ r ∈ exampleWrites, timespec.lt { tv_sec := 0, tv_nsec := 0 } r.now := by decide
  have h4 : ∀ r ∈ exampleWrites, ∀ d : Fin k_unMaxTrackedDeviceCount, (d.val : Int) = r.deviceId →
      timespec.lt ((readerAt 10).lastPose d).sample_time r.now :=
    fun r hr _ _ => h0 r hr
  have h5 : exampleWrites.Pairwise (fun a b => timespec.lt a.now b.now) := by decide
  ⟨rfl, rfl, h1, h2, h3, h5,
    (WritePose_then_ReadNewPoses exampleWrites (zeroSegment 10) (readerAt 10) rfl rfl h1 h2 h3 h4
      h5).2.2.1⟩

/-! ## Theorems: sample collection and the tick -/

section Tick
variable {α : Type}

theorem Log_selection (ctx : CalibrationContext α) (msg : LogMsg) :
    (ctx.Log msg).selection = ctx.selection := by
  unfold CalibrationContext.Log
  split <;> rfl

theorem Log_state (ctx : CalibrationContext α) (msg : LogMsg) :
    (ctx.Log msg).state = ctx.state :=
  congrArg Prod.fst (Log_selection ctx msg)

theorem World_Log_selection (w : World α) (msg : LogMsg) :
    (w.Log msg).CalCtx.selection = w.CalCtx.selection :=
  Log_selection _ _

theorem World_Log_state (w : World α) (msg : LogMsg) :
    (w.Log msg).CalCtx.state = w.CalCtx.state :=
  Log_state _ _

theorem arrayAt_isSome {X : Type} (arr : Fin k_unMaxTrackedDeviceCount → X) (i : Int)
    (h : 0 ≤ i ∧ i < 64) : ∃ x, arrayAt arr i = some x := by
  unfold arrayAt
  cases hd : deviceSlot i with
  | none => exact absurd h ((deviceSlot_eq_none i).mp hd)
  | some d => exact ⟨arr d, rfl⟩

theorem tickDiagnostic_selection (w : World α) :
    (tickDiagnostic w).CalCtx.selection = w.CalCtx.selection := by
  unfold tickDiagnostic
  simp only
  split
  · split
    · exact World_Log_selection _ _
    · split
      · exact World_Log_selection _ _
      · rfl
  · split <;> rfl

theorem dropStride_CalCtx (n : Nat) : ∀ w : World α, (dropStride n w).CalCtx = w.CalCtx := by
  induction n with
  | zero => intro w; rfl
  | succ n ih =>
    intro w
    unfold dropStride
    split
    · rfl
    · rw [ih]

end Tick

section TickField
variable {α : Type} [LinearOrderedField α]

/-- What `CollectSample` returns when one of the two driver poses is not valid. -/
theorem CollectSample_of_invalid (env : TickEnv α) (CalCtx : CalibrationContext α)
    (reference target : DriverPose α)
    (href : arrayAt CalCtx.driverPoses CalCtx.referenceID = some reference)
    (htarget : arrayAt CalCtx.driverPoses CalCtx.targetID = some target)
    (hinv : reference.poseIsValid = false ∨ target.poseIsValid = false) :
    ∃ ctx1, CollectSample env CalCtx = some (ctx1, Sample.invalid) ∧
      ctx1.referenceID = CalCtx.referenceID ∧ ctx1.targetID = CalCtx.targetID ∧
      (CalCtx.state = CalibrationState.Continuous → ctx1.state = CalibrationState.Continuous) ∧
      (CalCtx.state ≠ CalibrationState.Continuous → ctx1.state = CalibrationState.None) := by
  have key : ∀ c2 : CalibrationContext α, c2.selection = CalCtx.selection →
      ∃ ctx1,
        (if c2.state ≠ CalibrationState.Continuous then
          some ({ (c2.Log LogMsg.aborting) with state := CalibrationState.None },
            (Sample.invalid : Sample α))
        else some (c2, Sample.invalid)) = some (ctx1, Sample.invalid) ∧
        ctx1.referenceID = CalCtx.referenceID ∧ ctx1.targetID = CalCtx.targetID ∧
        (CalCtx.state = CalibrationState.Continuous →
          ctx1.state = CalibrationState.Continuous) ∧
        (CalCtx.state ≠ CalibrationState.Continuous → ctx1.state = CalibrationState.None) := by
    intro c2 hsel
    have hs : c2.state = CalCtx.state := congrArg Prod.fst hsel
    have hr : c2.referenceID = CalCtx.referenceID := congrArg (fun p => p.2.1) hsel
    have ht : c2.targetID = CalCtx.targetID := congrArg (fun p => p.2.2) hsel
    have hl := Log_selection c2 LogMsg.aborting
    by_cases hc : CalCtx.state = CalibrationState.Continuous
    · rw [if_neg (by rw [hs]; simp [hc])]
      exact ⟨c2, rfl, hr, ht, fun _ => by rw [hs, hc], fun h => absurd hc h⟩
    · rw [if_pos (by rw [hs]; exact hc)]
      refine ⟨_, rfl, ?_, ?_, fun h => absurd h hc, fun _ => rfl⟩
      · exact (congrArg (fun p => p.2.1) hl).trans hr
      · exact (congrArg (fun p => p.2.2) hl).trans ht
  unfold CollectSample
  rw [href, htarget]
  cases hr : reference.poseIsValid <;> cases ht : target.poseIsValid
  · simp only [hr, ht, Bool.not_false, ↓reduceIte, Bool.not_true]
    exact key _ ((Log_selection _ _).trans (Log_selection _ _))
  · simp only [hr, ht, Bool.not_false, ↓reduceIte, Bool.not_true, Bool.false_eq_true]
    exact key _ (Log_selection _ _)
  · simp only [hr, ht, Bool.not_false, ↓reduceIte, Bool.not_true, Bool.false_eq_true]
    exact key _ (Log_selection _ _)
  · rw [hr, ht] at hinv
    simp at hinv

/-- C9: when the reference or the target driver pose is not valid, `CollectSample` returns an
invalid Sample; the state stays `Continuous` when it was `Continuous`, and becomes `None` when
the calibration was one-shot (state `Rotation` or `Translation`; in fact for every state other
than `Continuous`). -/
theorem CollectSample_invalid_pose (env : TickEnv α) (CalCtx : CalibrationContext α)
    (reference target : DriverPose α)
    (href : arrayAt CalCtx.driverPoses CalCtx.referenceID = some reference)
    (htarget : arrayAt CalCtx.driverPoses CalCtx.targetID = some target)
    (hinv : reference.poseIsValid = false ∨ target.poseIsValid = false) :
    ∃ ctx1 sample, CollectSample env CalCtx = some (ctx1, sample) ∧ sample.valid = false ∧
      (CalCtx.state = CalibrationState.Continuous → ctx1.state = CalibrationState.Continuous) ∧
      (CalCtx.state = CalibrationState.Rotation ∨ CalCtx.state = CalibrationState.Translation →
        ctx1.state = CalibrationState.None) ∧
      (CalCtx.state ≠ CalibrationState.Continuous → ctx1.state = CalibrationState.None) := by
  obtain ⟨ctx1, h1, _, _, h2, h3⟩ :=
    CollectSample_of_invalid env CalCtx reference target href htarget hinv
  refine ⟨ctx1, Sample.invalid, h1, rfl, h2, ?_, h3⟩
  rintro (h | h) <;> exact h3 (by rw [h]; decide)

/-- In the state `Continuous`, `CollectSample` leaves the state and the device ids alone,
whatever it returns. -/
theorem CollectSample_continuous (env : TickEnv α) (CalCtx : CalibrationContext α)
    (hc : CalCtx.state = CalibrationState.Continuous) (r : CalibrationContext α × Sample α)
    (h : CollectSample env CalCtx = some r) : r.1.selection = CalCtx.selection := by
  unfold CollectSample at h
  cases href : arrayAt CalCtx.driverPoses CalCtx.referenceID with
  | none => rw [href] at h; simp at h
  | some reference =>
    cases htarget : arrayAt CalCtx.driverPoses CalCtx.targetID with
    | none => rw [href, htarget] at h; simp at h
    | some target =>
      rw [href, htarget] at h
      have hl1 := Log_selection CalCtx LogMsg.referenceNotTracking
      have hl2 := Log_selection CalCtx LogMsg.targetNotTracking
      have hl3 := Log_selection (CalCtx.Log LogMsg.referenceNotTracking) LogMsg.targetNotTracking
      have hs1 : (CalCtx.Log LogMsg.referenceNotTracking).state = CalibrationState.Continuous := by
        rw [Log_state, hc]
      have hs2 : (CalCtx.Log LogMsg.targetNotTracking).state = CalibrationState.Continuous := by
        rw [Log_state, hc]
      have hs3 : ((CalCtx.Log LogMsg.referenceNotTracking).Log LogMsg.targetNotTracking).state
          = CalibrationState.Continuous := by
        rw [Log_state, Log_state, hc]
      cases hr : reference.poseIsValid <;> cases ht : target.poseIsValid <;>
        simp only [hr, ht, hc, hs1, hs2, hs3, Bool.not_false, ↓reduceIte, Bool.not_true,
          Bool.false_eq_true, ne_eq, not_true_eq_false, Option.some.injEq] at h <;>
        rw [← h] <;>
        first
          | exact hl3.trans hl1
          | exact hl1
          | exact hl2

theorem CollectSample_isSome (env : TickEnv α) (CalCtx : CalibrationContext α)
    (href : 0 ≤ CalCtx.referenceID ∧ CalCtx.referenceID < 64)
    (htarget : 0 ≤ CalCtx.targetID ∧ CalCtx.targetID < 64) :
    ∃ r, CollectSample env CalCtx = some r := by
  obtain ⟨reference, h1⟩ := arrayAt_isSome CalCtx.driverPoses _ href
  obtain ⟨target, h2⟩ := arrayAt_isSome CalCtx.driverPoses _ htarget
  unfold CollectSample
  rw [h1, h2]
  cases hr : reference.poseIsValid <;> cases ht : target.poseIsValid <;>
    simp only [hr, ht, Bool.not_false, ↓reduceIte, Bool.not_true, Bool.false_eq_true] <;>
    first
      | exact ⟨_, rfl⟩
      | (split <;> exact ⟨_, rfl⟩)

theorem ResetAndDisableOffsets_CalCtx (id : Nat) (w : World α) :
    (ResetAndDisableOffsets id w).CalCtx = w.CalCtx := rfl

theorem scanDevice_selection (N : Numerics α) (env : TickEnv α) (w : World α) (id : Nat) :
    (scanDevice N env w id).CalCtx.selection = w.CalCtx.selection := by
  unfold scanDevice
  split
  · rfl
  · split
    · rfl
    · split
      · rfl
      · split
        · split <;> rfl
        · split <;> rfl

theorem foldl_scanDevice_selection (N : Numerics α) (env : TickEnv α) (ids : List Nat) :
    ∀ w : World α, (ids.foldl (scanDevice N env) w).CalCtx.selection = w.CalCtx.selection := by
  induction ids with
  | nil => intro w; rfl
  | cons id ids ih =>
    intro w
    rw [List.foldl_cons, ih, scanDevice_selection]

theorem ScanAndApplyProfile_selection (N : Numerics α) (env : TickEnv α) (w : World α) :
    (ScanAndApplyProfile N env w).CalCtx.selection = w.CalCtx.selection := by
  unfold ScanAndApplyProfile
  simp only
  split
  · split
    · exact foldl_scanDevice_selection N env _ _
    · exact foldl_scanDevice_selection N env _ _
  · exact foldl_scanDevice_selection N env _ _

theorem tickScan_selection (N : Numerics α) (env : TickEnv α) (time interval : α)
    (w : World α) : (tickScan N env time interval w).CalCtx.selection = w.CalCtx.selection := by
  unfold tickScan
  split
  · exact ScanAndApplyProfile_selection N env w
  · rfl

theorem tickPrologue_selection (time : α) (w : World α) :
    (tickPrologue time w).CalCtx.selection = w.CalCtx.selection := by
  unfold tickPrologue
  simp only
  split
  · split <;> rfl
  · rfl

theorem tickCompute_CalCtx (env : TickEnv α) (w : World α) :
    (tickCompute env w).2.CalCtx = w.CalCtx := by
  unfold tickCompute
  simp only
  split <;> rfl

theorem tickAccept_continuous (N : Numerics α) (env : TickEnv α) (w : World α)
    (hc : w.CalCtx.state = CalibrationState.Continuous) :
    (tickAccept N env w).CalCtx.selection = w.CalCtx.selection := by
  have h5 : (ScanAndApplyProfile N env (tickStoreResult w)).CalCtx.selection
      = w.CalCtx.selection := ScanAndApplyProfile_selection N env (tickStoreResult w)
  have h5s : (ScanAndApplyProfile N env (tickStoreResult w)).CalCtx.state
      = CalibrationState.Continuous := (congrArg Prod.fst h5).trans hc
  unfold tickAccept
  simp only
  split
  · rw [dropStride_CalCtx, World_Log_selection]
    exact h5
  · rename_i hne
    exact absurd h5s hne

theorem tickReject_continuous (env : TickEnv α) (w : World α)
    (hc : w.CalCtx.state = CalibrationState.Continuous) : tickReject env w = w := by
  unfold tickReject
  simp [hc]

theorem tickSolve_continuous (N : Numerics α) (env : TickEnv α) (w : World α)
    (hc : w.CalCtx.state = CalibrationState.Continuous) :
    (tickSolve N env w).CalCtx.selection = w.CalCtx.selection := by
  have h1 : (tickCompute env (w.Log LogMsg.newline)).2.CalCtx.selection = w.CalCtx.selection := by
    rw [tickCompute_CalCtx, World_Log_selection]
  have h1s : (tickCompute env (w.Log LogMsg.newline)).2.CalCtx.state
      = CalibrationState.Continuous := (congrArg Prod.fst h1).trans hc
  unfold tickSolve
  split
  · simp only
    split
    · rw [tickAccept_continuous N env _ h1s, h1]
    · rw [tickReject_continuous env _ h1s, h1]
  · rfl

theorem tickCollect_continuous (N : Numerics α) (env : TickEnv α) (w w' : World α)
    (hc : w.CalCtx.state = CalibrationState.Continuous)
    (h : tickCollect N env w = some w') : w'.CalCtx.selection = w.CalCtx.selection := by
  unfold tickCollect at h
  cases hcs : CollectSample env w.CalCtx with
  | none => rw [hcs] at h; simp at h
  | some r =>
    have hsel := CollectSample_continuous env w.CalCtx hc r hcs
    rw [hcs] at h
    simp only [Option.map_some', Option.some.injEq] at h
    rw [← h]
    split
    · exact hsel
    · have hp : (r.1.Progress (w.calibration.PushSample r.2).SampleCount r.1.sampleCount).selection
          = w.CalCtx.selection := (Log_selection _ _).trans hsel
      split
      · exact hp
      · rw [tickSolve_continuous]
        · exact hp
        · exact (congrArg Prod.fst hp).trans hc

theorem tickCollect_isSome (N : Numerics α) (env : TickEnv α) (w : World α)
    (href : 0 ≤ w.CalCtx.referenceID ∧ w.CalCtx.referenceID < 64)
    (htarget : 0 ≤ w.CalCtx.targetID ∧ w.CalCtx.targetID < 64) :
    ∃ w', tickCollect N env w = some w' := by
  obtain ⟨r, hr⟩ := CollectSample_isSome env w.CalCtx href htarget
  unfold tickCollect
  rw [hr]
  exact ⟨_, rfl⟩

theorem tickCallback_some (driverPoses : Fin k_unMaxTrackedDeviceCount → DriverPose α)
    (aug : AugmentedPose (DriverPose α)) (d : Fin k_unMaxTrackedDeviceCount)
    (hd : deviceSlot aug.deviceId = some d) :
    tickCallback (some driverPoses) aug = some (Function.update driverPoses d aug.pose) := by
  have h := ((deviceSlot_eq_some _ _).mp hd).1
  have hle : 0 ≤ aug.deviceId ∧ aug.deviceId ≤ (k_unMaxTrackedDeviceCount : Int) :=
    ⟨h.1, le_of_lt h.2⟩
  simp [tickCallback, hle, hd]

/-- The callback of the tick never writes outside `driverPoses` on the records that
`ReadNewPoses` passes to it. -/
theorem foldl_deliver_tickCallback (recs : List (AugmentedPose (DriverPose α))) :
    ∀ (lastPose : Fin k_unMaxTrackedDeviceCount → AugmentedPose (DriverPose α))
      (driverPoses : Fin k_unMaxTrackedDeviceCount → DriverPose α),
      ∃ driverPoses1,
        (recs.foldl (deliver tickCallback) (lastPose, some driverPoses)).2 = some driverPoses1 := by
  induction recs with
  | nil => intro lastPose driverPoses; exact ⟨driverPoses, rfl⟩
  | cons a recs ih =>
    intro lastPose driverPoses
    rw [List.foldl_cons]
    by_cases hex : ∃ d, deviceSlot a.deviceId = some d ∧
        timespec.lt (lastPose d).sample_time a.sample_time
    · obtain ⟨d, hd, hn⟩ := hex
      rw [deliver_of_newer _ _ _ _ d hd hn, tickCallback_some _ _ d hd]
      exact ih _ _
    · rw [deliver_of_not_newer]
      · exact ih _ _
      · intro d hd hn
        exact hex ⟨d, hd, hn⟩

theorem tickReadPoses_some (env : TickEnv α) (w : World α) :
    ∃ w', tickReadPoses env w = some w' ∧ w'.CalCtx.selection = w.CalCtx.selection := by
  have hf := ReadNewPoses_fold tickCallback env.shmemData w.shmem (some w.CalCtx.driverPoses)
  obtain ⟨dp, hdp⟩ := foldl_deliver_tickCallback
    ((ReadNewPoses tickCallback env.shmemData w.shmem
      (some w.CalCtx.driverPoses)).examined.map fun e => env.shmemData.poses e.2)
    w.shmem.lastPose w.CalCtx.driverPoses
  have hcb : (ReadNewPoses tickCallback env.shmemData w.shmem (some w.CalCtx.driverPoses)).cb
      = some dp := by
    rw [← hdp, ← hf]
  unfold tickReadPoses
  simp only [hcb, Option.map_some']
  exact ⟨_, rfl, rfl⟩

theorem tickStoreHmd_selection (w : World α) :
    (tickStoreHmd w).CalCtx.selection = w.CalCtx.selection := by
  unfold tickStoreHmd
  simp only
  split <;> rfl

theorem tickStateWork_continuous (N : Numerics α) (env : TickEnv α) (time : α) (w w' : World α)
    (hc : w.CalCtx.state = CalibrationState.Continuous)
    (h : tickStateWork N env time w = some w') : w'.CalCtx.selection = w.CalCtx.selection := by
  have h6 := tickScan_selection N env time 1 w
  have h6s : (tickScan N env time 1 w).CalCtx.state = CalibrationState.Continuous :=
    (congrArg Prod.fst h6).trans hc
  unfold tickStateWork at h
  simp only [hc, true_or, ↓reduceIte, h6s, reduceCtorEq] at h
  rw [tickCollect_continuous N env _ w' h6s h, h6]

theorem tickStateWork_isSome (N : Numerics α) (env : TickEnv α) (time : α) (w : World α)
    (hc : w.CalCtx.state = CalibrationState.Continuous)
    (href : 0 ≤ w.CalCtx.referenceID ∧ w.CalCtx.referenceID < 64)
    (htarget : 0 ≤ w.CalCtx.targetID ∧ w.CalCtx.targetID < 64) :
    ∃ w', tickStateWork N env time w = some w' := by
  have h6 := tickScan_selection N env time 1 w
  have h6s : (tickScan N env time 1 w).CalCtx.state = CalibrationState.Continuous :=
    (congrArg Prod.fst h6).trans hc
  have h6r : (tickScan N env time 1 w).CalCtx.referenceID = w.CalCtx.referenceID :=
    congrArg (fun p => p.2.1) h6
  have h6t : (tickScan N env time 1 w).CalCtx.targetID = w.CalCtx.targetID :=
    congrArg (fun p => p.2.2) h6
  unfold tickStateWork
  simp only [hc, true_or, ↓reduceIte, h6s, reduceCtorEq]
  exact tickCollect_isSome N env _ (by rw [h6r]; exact href) (by rw [h6t]; exact htarget)

theorem tickDispatch_continuous (N : Numerics α) (env : TickEnv α) (time : α) (w w' : World α)
    (hc : w.CalCtx.state = CalibrationState.Continuous)
    (h : tickDispatch N env time w = some w') : w'.CalCtx.selection = w.CalCtx.selection := by
  have h5 : (tickDiagnostic (tickStoreHmd w)).CalCtx.selection = w.CalCtx.selection :=
    (tickDiagnostic_selection _).trans (tickStoreHmd_selection w)
  unfold tickDispatch at h
  split at h
  · rw [← Option.some.inj h]
  · rw [tickStateWork_continuous N env time _ w' ((congrArg Prod.fst h5).trans hc) h, h5]

theorem tickDispatch_isSome (N : Numerics α) (env : TickEnv α) (time : α) (w : World α)
    (hc : w.CalCtx.state = CalibrationState.Continuous)
    (href : 0 ≤ w.CalCtx.referenceID ∧ w.CalCtx.referenceID < 64)
    (htarget : 0 ≤ w.CalCtx.targetID ∧ w.CalCtx.targetID < 64) :
    ∃ w', tickDispatch N env time w = some w' := by
  have h5 : (tickDiagnostic (tickStoreHmd w)).CalCtx.selection = w.CalCtx.selection :=
    (tickDiagnostic_selection _).trans (tickStoreHmd_selection w)
  unfold tickDispatch
  split
  · exact ⟨_, rfl⟩
  · exact tickStateWork_isSome N env time _ ((congrArg Prod.fst h5).trans hc)
      (by rw [show (tickDiagnostic (tickStoreHmd w)).CalCtx.referenceID = w.CalCtx.referenceID
            from congrArg (fun p => p.2.1) h5]; exact href)
      (by rw [show (tickDiagnostic (tickStoreHmd w)).CalCtx.targetID = w.CalCtx.targetID
            from congrArg (fun p => p.2.2) h5]; exact htarget)

/-- C10: in the state `Continuous`, for every tick time, every content of the pose ring and of
the device poses and every answer of the environment (the result of `ComputeIncremental`
among them), the state after `CalibrationTick` is `Continuous`. The tick has a result whenever
the two device ids are indices of the pose arrays; when one is not, `CollectSample` reads
outside `driverPoses` and the C++ tick has no defined result. -/
theorem CalibrationTick_continuous_persists (N : Numerics α) (env : TickEnv α) (time : α)
    (w : World α) (hc : w.CalCtx.state = CalibrationState.Continuous) :
    (∀ w', CalibrationTick N env time w = some w' →
        w'.CalCtx.state = CalibrationState.Continuous) ∧
      ((0 ≤ w.CalCtx.referenceID ∧ w.CalCtx.referenceID < 64) →
        (0 ≤ w.CalCtx.targetID ∧ w.CalCtx.targetID < 64) →
        ∃ w', CalibrationTick N env time w = some w' ∧
          w'.CalCtx.state = CalibrationState.Continuous) := by
  have hp := tickPrologue_selection time w
  obtain ⟨w3, hr, hsel3⟩ := tickReadPoses_some env (tickPrologue time w)
  have hsel : w3.CalCtx.selection = w.CalCtx.selection := hsel3.trans hp
  have hc3 : w3.CalCtx.state = CalibrationState.Continuous := (congrArg Prod.fst hsel).trans hc
  have hmain : ∀ w', CalibrationTick N env time w = some w' →
      w'.CalCtx.state = CalibrationState.Continuous := by
    intro w' h
    unfold CalibrationTick at h
    split at h
    · rw [← Option.some.inj h]; exact hc
    · split at h
      · rw [← Option.some.inj h]; exact hc
      · rw [hr, Option.some_bind] at h
        exact (congrArg Prod.fst (tickDispatch_continuous N env time w3 w' hc3 h)).trans hc3
  refine ⟨hmain, ?_⟩
  intro href htarget
  have hex : ∃ w', CalibrationTick N env time w = some w' := by
    unfold CalibrationTick
    split
    · exact ⟨_, rfl⟩
    · split
      · exact ⟨_, rfl⟩
      · rw [hr, Option.some_bind]
        exact tickDispatch_isSome N env time w3 hc3
          (by rw [show w3.CalCtx.referenceID = w.CalCtx.referenceID
                from congrArg (fun p => p.2.1) hsel]; exact href)
          (by rw [show w3.CalCtx.targetID = w.CalCtx.targetID
                from congrArg (fun p => p.2.2) hsel]; exact htarget)
  obtain ⟨w', hw'⟩ := hex
  exact ⟨w', hw', hmain w' hw'⟩

end TickField

/-- C9, on a context in the state `Continuous` whose target driver pose is not valid. -/
theorem CollectSample_invalid_pose_witness :
    arrayAt exampleContext.driverPoses exampleContext.referenceID = some exampleDriverPose ∧
      arrayAt exampleContext.driverPoses exampleContext.targetID = some lostDriverPose ∧
      (exampleDriverPose.poseIsValid = false ∨ lostDriverPose.poseIsValid = false) ∧
      ∃ ctx1 sample, CollectSample exampleEnv exampleContext = some (ctx1, sample) ∧
        sample.valid = false ∧ ctx1.state = CalibrationState.Continuous :=
  have h1 : arrayAt exampleContext.driverPoses exampleContext.referenceID
      = some exampleDriverPose := rfl
  have h2 : arrayAt exampleContext.driverPoses exampleContext.targetID
      = some lostDriverPose := rfl
  have h3 : exampleDriverPose.poseIsValid = false ∨ lostDriverPose.poseIsValid = false :=
    Or.inr rfl
  ⟨h1, h2, h3,
    (CollectSample_invalid_pose exampleEnv exampleContext exampleDriverPose lostDriverPose h1 h2
      h3).imp fun _ h => h.imp fun _ h' => ⟨h'.1, h'.2.1, h'.2.2.1 rfl⟩⟩

/-- C10, on the globals `exampleWorld` at time 1. -/
theorem CalibrationTick_continuous_persists_witness :
    exampleWorld.CalCtx.state = CalibrationState.Continuous ∧
      ∃ w', CalibrationTick ratNumerics exampleEnv 1 exampleWorld = some w' ∧
        w'.CalCtx.state = CalibrationState.Continuous :=
  ⟨rfl, (CalibrationTick_continuous_persists ratNumerics exampleEnv 1 exampleWorld rfl).2
    (by decide) (by decide)⟩

/-! ## Theorems: the gates of the tick and the state `Begin` -/

section TickShape
variable {α : Type} [LinearOrderedField α]

/-- The prologue of the tick writes `clearOnLog`, `timeLastAssign` and `timeLastTick` and nothing
else. -/
theorem tickPrologue_eq (time : α) (w : World α) :
    ∃ (c : Bool) (a : α), tickPrologue time w =
      { w with CalCtx := { w.CalCtx with clearOnLog := c, timeLastAssign := a,
                                         timeLastTick := time } } := by
  unfold tickPrologue
  simp only
  split
  · split
    · exact ⟨true, time, rfl⟩
    · exact ⟨true, w.CalCtx.timeLastAssign, rfl⟩
  · exact ⟨w.CalCtx.clearOnLog, w.CalCtx.timeLastAssign, rfl⟩

/-- Reading the poses writes the reader, `driverPoses` and `devicePoses` and nothing else, and
always has a result. -/
theorem tickReadPoses_eq (env : TickEnv α) (w : World α) :
    ∃ (sh : DriverPoseShmem (DriverPose α)) (dp : Fin k_unMaxTrackedDeviceCount → DriverPose α),
      tickReadPoses env w = some
        { w with shmem := sh,
                 CalCtx := { w.CalCtx with driverPoses := dp, devicePoses := env.rawPoses } } := by
  have hf := ReadNewPoses_fold tickCallback env.shmemData w.shmem (some w.CalCtx.driverPoses)
  obtain ⟨dp, hdp⟩ := foldl_deliver_tickCallback
    ((ReadNewPoses tickCallback env.shmemData w.shmem
      (some w.CalCtx.driverPoses)).examined.map fun e => env.shmemData.poses e.2)
    w.shmem.lastPose w.CalCtx.driverPoses
  have hcb : (ReadNewPoses tickCallback env.shmemData w.shmem (some w.CalCtx.driverPoses)).cb
      = some dp := by
    rw [← hdp, ← hf]
  unfold tickReadPoses
  simp only [hcb, Option.map_some']
  exact ⟨_, dp, rfl⟩

/-- What the prologue and the reading of the poses leave of the globals: they write the
reader, `clearOnLog`, `timeLastAssign`, `timeLastTick`, `driverPoses` and `devicePoses`. -/
theorem tickReadPoses_prologue_eq (env : TickEnv α) (time : α) (w w3 : World α)
    (hread : tickReadPoses env (tickPrologue time w) = some w3) :
    ∃ (c : Bool) (a : α), w3 =
      { w with shmem := w3.shmem,
               CalCtx := { w.CalCtx with clearOnLog := c, timeLastAssign := a,
                                         timeLastTick := time,
                                         driverPoses := w3.CalCtx.driverPoses,
                                         devicePoses := env.rawPoses } } := by
  obtain ⟨c, a, hp⟩ := tickPrologue_eq time w
  obtain ⟨sh, dp, hr⟩ := tickReadPoses_eq env (tickPrologue time w)
  rw [hr] at hread
  rw [← Option.some.inj hread, hp]
  exact ⟨c, a, rfl⟩

/-- A tick that passes the two tests of lines 484-489 reads the poses and dispatches. -/
theorem CalibrationTick_of_running (N : Numerics α) (env : TickEnv α) (time : α) (w : World α)
    (hvr : env.vrSystem = true) (hgate : ¬ (time - w.CalCtx.timeLastTick) < 1 / 20) :
    CalibrationTick N env time w
      = (tickReadPoses env (tickPrologue time w)).bind (tickDispatch N env time) := by
  unfold CalibrationTick
  rw [if_neg (by simp [hvr]), if_neg hgate]

end TickShape

section TickGates
variable {α : Type} [LinearOrderedField α]

/-- C14: a tick that arrives less than 0.05 s after `timeLastTick` returns at line 489 and
leaves the globals as they are: the whole context (state, `timeLastTick`, `timeLastScan`,
`driverPoses`, the log, the profile), the estimator with its window, the reader of the ring with
its cursor, and the list of requests sent to the driver. This holds with or without a VR
system. -/
theorem CalibrationTick_time_gated (N : Numerics α) (env : TickEnv α) (time : α) (w : World α)
    (hgate : (time - w.CalCtx.timeLastTick) < 1 / 20) :
    CalibrationTick N env time w = some w ∧
      ∀ w', CalibrationTick N env time w = some w' →
        w'.CalCtx = w.CalCtx ∧ w'.calibration = w.calibration ∧
          w'.shmem.cursor = w.shmem.cursor ∧ w'.sent = w.sent := by
  have h : CalibrationTick N env time w = some w := by
    unfold CalibrationTick
    by_cases hv : (!env.vrSystem) = true
    · rw [if_pos hv]
    · rw [if_neg hv, if_pos hgate]
  refine ⟨h, ?_⟩
  intro w' hw'
  rw [h] at hw'
  rw [← Option.some.inj hw']
  exact ⟨rfl, rfl, rfl, rfl⟩

/-- The test of lines 516-522 after the poses have been read: it looks at the pose of the HMD
the runtime answers and at the position stored by the previous tick. -/
theorem hmdStalled_after_read (env : TickEnv α) (time : α) (w w3 : World α)
    (hread : tickReadPoses env (tickPrologue time w) = some w3) :
    hmdStalled w3
      = hmdStalled { w with CalCtx := { w.CalCtx with devicePoses := env.rawPoses } } := by
  obtain ⟨c, a, hp⟩ := tickPrologue_eq time w
  obtain ⟨sh, dp, hr⟩ := tickReadPoses_eq env (tickPrologue time w)
  rw [hr] at hread
  rw [← Option.some.inj hread, hp]
  rfl

/-- C15: a tick that is not time-gated and finds a valid HMD pose whose position is exactly the
origin, or exactly the position `(xprev, yprev, zprev)` stored by the previous tick, returns at
line 522: the state, the device ids, the estimator with its window, the list `samples`,
`timeLastScan` and the calibrated profile are unchanged, no profile is saved, no chaperone is
applied and no request is sent to the driver. -/
theorem CalibrationTick_hmd_stalled (N : Numerics α) (env : TickEnv α) (time : α) (w : World α)
    (hvr : env.vrSystem = true) (hgate : ¬ (time - w.CalCtx.timeLastTick) < 1 / 20)
    (hvalid : (env.rawPoses ⟨0, by decide⟩).bPoseIsValid = true)
    (hpos : ((env.rawPoses ⟨0, by decide⟩).m 0 3 = 0 ∧ (env.rawPoses ⟨0, by decide⟩).m 1 3 = 0 ∧
          (env.rawPoses ⟨0, by decide⟩).m 2 3 = 0) ∨
        (w.CalCtx.xprev = (env.rawPoses ⟨0, by decide⟩).m 0 3 ∧
          w.CalCtx.yprev = (env.rawPoses ⟨0, by decide⟩).m 1 3 ∧
          w.CalCtx.zprev = (env.rawPoses ⟨0, by decide⟩).m 2 3)) :
    ∃ w', CalibrationTick N env time w = some w' ∧
      w'.CalCtx.state = w.CalCtx.state ∧
      w'.CalCtx.referenceID = w.CalCtx.referenceID ∧ w'.CalCtx.targetID = w.CalCtx.targetID ∧
      w'.calibration = w.calibration ∧ w'.samples = w.samples ∧
      w'.CalCtx.timeLastScan = w.CalCtx.timeLastScan ∧
      w'.CalCtx.calibratedRotation = w.CalCtx.calibratedRotation ∧
      w'.CalCtx.calibratedTranslation = w.CalCtx.calibratedTranslation ∧
      w'.CalCtx.calibratedScale = w.CalCtx.calibratedScale ∧
      w'.CalCtx.refToTargetPose = w.CalCtx.refToTargetPose ∧
      w'.CalCtx.relativePosCalibrated = w.CalCtx.relativePosCalibrated ∧
      w'.CalCtx.validProfile = w.CalCtx.validProfile ∧
      w'.CalCtx.enabled = w.CalCtx.enabled ∧
      w'.CalCtx.hasAppliedCalibrationResult = w.CalCtx.hasAppliedCalibrationResult ∧
      w'.sent = w.sent ∧ w'.savedProfiles = w.savedProfiles ∧
      w'.chaperoneApplied = w.chaperoneApplied := by
  obtain ⟨c, a, hp⟩ := tickPrologue_eq time w
  obtain ⟨sh, dp, hr⟩ := tickReadPoses_eq env (tickPrologue time w)
  have hst := hmdStalled_after_read env time w _ hr
  have hstall : hmdStalled { w with CalCtx := { w.CalCtx with devicePoses := env.rawPoses } }
      = true := by
    unfold hmdStalled
    simp only [hvalid, Bool.true_and, Bool.or_eq_true, Bool.and_eq_true, decide_eq_true_eq]
    rcases hpos with h | h
    · exact Or.inl ⟨⟨h.1, h.2.1⟩, h.2.2⟩
    · exact Or.inr ⟨⟨h.1, h.2.1⟩, h.2.2⟩
  rw [hstall] at hst
  rw [CalibrationTick_of_running N env time w hvr hgate, hr, Option.some_bind]
  unfold tickDispatch
  rw [if_pos hst, hp]
  exact ⟨_, rfl, rfl, rfl, rfl, rfl, rfl, rfl, rfl, rfl, rfl, rfl, rfl, rfl, rfl, rfl, rfl, rfl,
    rfl⟩

end TickGates

section TickBegin
variable {α : Type} [LinearOrderedField α]

theorem World_Log_calibration (w : World α) (msg : LogMsg) :
    (w.Log msg).calibration = w.calibration := rfl

theorem World_Log_samples (w : World α) (msg : LogMsg) : (w.Log msg).samples = w.samples := rfl

theorem World_Log_sent (w : World α) (msg : LogMsg) : (w.Log msg).sent = w.sent := rfl

/-- The condition under which the state `Begin` starts the calibration (lines 613-637): both
ids differ from -1, both entries of `devicePoses` are valid, and neither jitter exceeds the
threshold. -/
theorem tickBegin_spec (env : TickEnv α) (w w' : World α)
    (hs : w.CalCtx.state = CalibrationState.Begin) (h : tickBegin env w = some w') :
    w'.calibration = w.calibration ∧ w'.samples = w.samples ∧
      ((w.CalCtx.referenceID ≠ -1 ∧ w.CalCtx.targetID ≠ -1 ∧
          (∃ p, arrayAt w.CalCtx.devicePoses w.CalCtx.referenceID = some p ∧
            p.bPoseIsValid = true) ∧
          (∃ q, arrayAt w.CalCtx.devicePoses w.CalCtx.targetID = some q ∧
            q.bPoseIsValid = true) ∧
          env.ReferenceJitter w.calibration ≤ w.CalCtx.jitterThreshold ∧
          env.TargetJitter w.calibration ≤ w.CalCtx.jitterThreshold) →
        w'.CalCtx.state = CalibrationState.Rotation) ∧
      (¬ (w.CalCtx.referenceID ≠ -1 ∧ w.CalCtx.targetID ≠ -1 ∧
          (∃ p, arrayAt w.CalCtx.devicePoses w.CalCtx.referenceID = some p ∧
            p.bPoseIsValid = true) ∧
          (∃ q, arrayAt w.CalCtx.devicePoses w.CalCtx.targetID = some q ∧
            q.bPoseIsValid = true) ∧
          env.ReferenceJitter w.calibration ≤ w.CalCtx.jitterThreshold ∧
          env.TargetJitter w.calibration ≤ w.CalCtx.jitterThreshold) →
        w'.CalCtx.state = CalibrationState.None) := by
  unfold tickBegin at h
  simp only [Option.bind_eq_some, Option.map_eq_some'] at h
  obtain ⟨⟨w3, ok3⟩, h3, ⟨w4, ok4⟩, h4, htail⟩ := h
  -- the reference step
  have f3 : w3.calibration = w.calibration ∧ w3.samples = w.samples ∧
      w3.CalCtx.state = CalibrationState.Begin ∧
      (ok3 = true ↔ (w.CalCtx.referenceID ≠ -1 ∧
        ∃ p, arrayAt w.CalCtx.devicePoses w.CalCtx.referenceID = some p ∧
          p.bPoseIsValid = true)) := by
    split at h3
    · rename_i hr
      simp only [Option.some.injEq, Prod.mk.injEq] at h3
      obtain ⟨h3w, h3o⟩ := h3
      subst h3w h3o
      refine ⟨rfl, rfl, ?_, ?_⟩
      · rw [World_Log_state, World_Log_state, World_Log_state, hs]
      · simp [hr]
    · rename_i hr
      cases hp : arrayAt w.CalCtx.devicePoses w.CalCtx.referenceID with
      | none => rw [hp] at h3; simp at h3
      | some p =>
        rw [hp] at h3
        simp only [Option.map_some', Option.some.injEq] at h3
        cases hv : p.bPoseIsValid
        · simp only [hv, Bool.not_false, ↓reduceIte, Prod.mk.injEq] at h3
          obtain ⟨h3w, h3o⟩ := h3
          subst h3w h3o
          refine ⟨rfl, rfl, ?_, ?_⟩
          · rw [World_Log_state, World_Log_state, World_Log_state, hs]
          · simp [hv]
        · simp only [hv, Bool.not_true, Bool.false_eq_true, ↓reduceIte, Prod.mk.injEq] at h3
          obtain ⟨h3w, h3o⟩ := h3
          subst h3w h3o
          refine ⟨rfl, rfl, ?_, ?_⟩
          · rw [World_Log_state, World_Log_state, hs]
          · simp [hr, hv]
  obtain ⟨f3c, f3s, f3st, f3ok⟩ := f3
  -- the target step
  simp only at h4
  have f4 : w4.calibration = w.calibration ∧ w4.samples = w.samples ∧
      w4.CalCtx.state = CalibrationState.Begin ∧
      (ok4 = true ↔ (ok3 = true ∧ w.CalCtx.targetID ≠ -1 ∧
        ∃ q, arrayAt w.CalCtx.devicePoses w.CalCtx.targetID = some q ∧
          q.bPoseIsValid = true)) := by
    split at h4
    · rename_i hr
      simp only [Option.some.injEq, Prod.mk.injEq] at h4
      obtain ⟨h4w, h4o⟩ := h4
      subst h4w h4o
      refine ⟨f3c, f3s, ?_, ?_⟩
      · rw [World_Log_state, f3st]
      · simp [hr]
    · rename_i hr
      cases hp : arrayAt w.CalCtx.devicePoses w.CalCtx.targetID with
      | none => rw [hp] at h4; simp at h4
      | some q =>
        rw [hp] at h4
        simp only [Option.map_some', Option.some.injEq] at h4
        cases hv : q.bPoseIsValid
        · simp only [hv, Bool.not_false, ↓reduceIte, Prod.mk.injEq] at h4
          obtain ⟨h4w, h4o⟩ := h4
          subst h4w h4o
          refine ⟨f3c, f3s, ?_, ?_⟩
          · rw [World_Log_state, f3st]
          · simp [hv]
        · simp only [hv, Bool.not_true, Bool.false_eq_true, ↓reduceIte, Prod.mk.injEq] at h4
          obtain ⟨h4w, h4o⟩ := h4
          subst h4w h4o
          refine ⟨f3c, f3s, f3st, ?_⟩
          simp [hr, hv]
  obtain ⟨f4c, f4s, f4st, f4ok⟩ := f4
  -- the jitter gate and the decision
  simp only at htail
  have hcond : (w.CalCtx.referenceID ≠ -1 ∧ w.CalCtx.targetID ≠ -1 ∧
          (∃ p, arrayAt w.CalCtx.devicePoses w.CalCtx.referenceID = some p ∧
            p.bPoseIsValid = true) ∧
          (∃ q, arrayAt w.CalCtx.devicePoses w.CalCtx.targetID = some q ∧
            q.bPoseIsValid = true) ∧
          env.ReferenceJitter w.calibration ≤ w.CalCtx.jitterThreshold ∧
          env.TargetJitter w.calibration ≤ w.CalCtx.jitterThreshold) ↔
      (ok4 = true ∧ ¬ env.ReferenceJitter w4.calibration > w.CalCtx.jitterThreshold ∧
        ¬ env.TargetJitter w4.calibration > w.CalCtx.jitterThreshold) := by
    rw [f4ok, f3ok, f4c]
    simp only [gt_iff_lt, not_lt]
    tauto
  rw [hcond]
  by_cases hjr : env.ReferenceJitter w4.calibration > w.CalCtx.jitterThreshold
  · by_cases hjt : env.TargetJitter w4.calibration > w.CalCtx.jitterThreshold
    · simp only [hjr, hjt, ↓reduceIte, World_Log_calibration, Bool.not_false, World_Log_state,
        f4st, ne_eq, reduceCtorEq, not_false_eq_true] at htail
      subst htail
      refine ⟨f4c, f4s, fun hc => absurd hjr hc.2.1, fun _ => ?_⟩
      rw [World_Log_state]
    · simp only [hjr, hjt, ↓reduceIte, World_Log_calibration, Bool.not_false, World_Log_state,
        f4st, ne_eq, reduceCtorEq, not_false_eq_true] at htail
      subst htail
      refine ⟨f4c, f4s, fun hc => absurd hjr hc.2.1, fun _ => ?_⟩
      rw [World_Log_state]
  · by_cases hjt : env.TargetJitter w4.calibration > w.CalCtx.jitterThreshold
    · simp only [hjr, hjt, ↓reduceIte, World_Log_calibration, Bool.not_false, World_Log_state,
        f4st, ne_eq, reduceCtorEq, not_false_eq_true] at htail
      subst htail
      refine ⟨f4c, f4s, fun hc => absurd hjt hc.2.2, fun _ => ?_⟩
      rw [World_Log_state]
    · cases hok : ok4
      · simp only [hjr, hjt, ↓reduceIte, hok, Bool.not_false, f4st, ne_eq, reduceCtorEq,
          not_false_eq_true] at htail
        subst htail
        refine ⟨f4c, f4s, fun hc => absurd hc.1 (by simp), fun _ => ?_⟩
        rw [World_Log_state]
      · simp only [hjr, hjt, ↓reduceIte, hok, Bool.not_true, Bool.false_eq_true] at htail
        subst htail
        refine ⟨f4c, f4s, fun _ => ?_, fun hc => absurd ⟨rfl, hjr, hjt⟩ hc⟩
        rw [World_Log_state]

end TickBegin

section TickBeginTick
variable {α : Type} [LinearOrderedField α]

/-- Storing the position of the HMD writes `xprev`, `yprev` and `zprev` and nothing else. -/
theorem tickStoreHmd_eq (w : World α) :
    ∃ x y z : α, tickStoreHmd w =
      { w with CalCtx := { w.CalCtx with xprev := x, yprev := y, zprev := z } } := by
  unfold tickStoreHmd
  simp only
  split
  · exact ⟨_, _, _, rfl⟩
  · exact ⟨w.CalCtx.xprev, w.CalCtx.yprev, w.CalCtx.zprev, rfl⟩

/-- The globals when the work of the current state starts (line 565), in terms of the globals
at the start of the tick: the prologue, the reading of the poses and the test of the HMD have
written the reader, `clearOnLog`, `timeLastAssign`, `timeLastTick`, `driverPoses`,
`devicePoses`, `xprev`, `yprev` and `zprev`, and nothing else. -/
theorem tick_entry (env : TickEnv α) (time : α) (w w3 : World α)
    (hread : tickReadPoses env (tickPrologue time w) = some w3) :
    ∃ (c : Bool) (a x y z : α), tickStoreHmd w3 =
      { w with shmem := w3.shmem,
               CalCtx := { w.CalCtx with clearOnLog := c, timeLastAssign := a,
                                         timeLastTick := time,
                                         driverPoses := w3.CalCtx.driverPoses,
                                         devicePoses := env.rawPoses,
                                         xprev := x, yprev := y, zprev := z } } := by
  obtain ⟨c, a, hp⟩ := tickPrologue_eq time w
  obtain ⟨sh, dp, hr⟩ := tickReadPoses_eq env (tickPrologue time w)
  rw [hr] at hread
  have h3 := (Option.some.inj hread).symm
  rw [hp] at h3
  subst h3
  obtain ⟨x, y, z, hh⟩ := tickStoreHmd_eq
    ({ w with shmem := sh,
              CalCtx := { w.CalCtx with clearOnLog := c, timeLastAssign := a,
                                        timeLastTick := time, driverPoses := dp,
                                        devicePoses := env.rawPoses } } : World α)
  rw [hh]
  exact ⟨c, a, x, y, z, rfl⟩

theorem tickBegin_isSome (env : TickEnv α) (w : World α)
    (href : w.CalCtx.referenceID = -1 ∨ (0 ≤ w.CalCtx.referenceID ∧ w.CalCtx.referenceID < 64))
    (htarget : w.CalCtx.targetID = -1 ∨ (0 ≤ w.CalCtx.targetID ∧ w.CalCtx.targetID < 64)) :
    ∃ w', tickBegin env w = some w' := by
  unfold tickBegin
  simp only
  have h3 : ∃ a, (if w.CalCtx.referenceID = -1 then
        some (((w.Log (LogMsg.referenceSerial w.CalCtx.referenceID
            (env.serialNumber w.CalCtx.referenceID))).Log
          (LogMsg.targetSerial w.CalCtx.targetID (env.serialNumber w.CalCtx.targetID))).Log
            LogMsg.missingReference, false)
      else
        (arrayAt w.CalCtx.devicePoses w.CalCtx.referenceID).map fun p =>
          if !p.bPoseIsValid then
            (((w.Log (LogMsg.referenceSerial w.CalCtx.referenceID
                (env.serialNumber w.CalCtx.referenceID))).Log
              (LogMsg.targetSerial w.CalCtx.targetID (env.serialNumber w.CalCtx.targetID))).Log
                LogMsg.referenceNotTracking, false)
          else
            ((w.Log (LogMsg.referenceSerial w.CalCtx.referenceID
                (env.serialNumber w.CalCtx.referenceID))).Log
              (LogMsg.targetSerial w.CalCtx.targetID (env.serialNumber w.CalCtx.targetID)),
              true)) = some a := by
    rcases href with h | h
    · exact ⟨_, by rw [if_pos h]⟩
    · obtain ⟨p, hp⟩ := arrayAt_isSome w.CalCtx.devicePoses _ h
      have hne : w.CalCtx.referenceID ≠ -1 := by omega
      rw [if_neg hne, hp]
      exact ⟨_, rfl⟩
  obtain ⟨a, ha⟩ := h3
  rw [ha, Option.some_bind]
  rcases htarget with h | h
  · rw [if_pos h]
    exact ⟨_, rfl⟩
  · obtain ⟨q, hq⟩ := arrayAt_isSome w.CalCtx.devicePoses _ h
    have hne : w.CalCtx.targetID ≠ -1 := by omega
    rw [if_neg hne, hq]
    exact ⟨_, rfl⟩

end TickBeginTick

section TickBeginClaim
variable {α : Type} [LinearOrderedField α]

/-- In the state `Begin` the tick, once past the test of the HMD, is the work of lines
599-654 on the poses just read. -/
theorem tickDispatch_begin (N : Numerics α) (env : TickEnv α) (time : α) (w3 : World α)
    (hs : w3.CalCtx.state = CalibrationState.Begin) (hmove : hmdStalled w3 = false) :
    tickDispatch N env time w3 = tickBegin env (tickStoreHmd w3) := by
  have h4 : (tickStoreHmd w3).CalCtx.state = CalibrationState.Begin :=
    (congrArg Prod.fst (tickStoreHmd_selection w3)).trans hs
  have hd : tickDiagnostic (tickStoreHmd w3) = tickStoreHmd w3 := by
    unfold tickDiagnostic
    simp [h4]
  unfold tickDispatch
  rw [if_neg (by simp [hmove]), hd]
  unfold tickStateWork
  simp [h4]

/-- C11: a tick in the state `Begin` that is not skipped (a VR system, not time-gated, the HMD
not stalled) ends in the state `Rotation` when both ids differ from -1, both entries of
`devicePoses` (as the runtime has just written them) are valid, and `ReferenceJitter()` and
`TargetJitter()` are both at most `jitterThreshold`; in every other case it ends in the state
`None`. In both cases the estimator with its window and the list `samples` are unchanged. The
tick has a result whenever each id is -1 or an index of `devicePoses`. The hypothesis `hmove`
says that the test of lines 516-522 does not skip the tick. -/
theorem CalibrationTick_begin (N : Numerics α) (env : TickEnv α) (time : α) (w : World α)
    (hvr : env.vrSystem = true) (hgate : ¬ (time - w.CalCtx.timeLastTick) < 1 / 20)
    (hmove : hmdStalled { w with CalCtx := { w.CalCtx with devicePoses := env.rawPoses } }
      = false)
    (hs : w.CalCtx.state = CalibrationState.Begin) :
    (∀ w', CalibrationTick N env time w = some w' →
        w'.calibration = w.calibration ∧ w'.samples = w.samples ∧
        ((w.CalCtx.referenceID ≠ -1 ∧ w.CalCtx.targetID ≠ -1 ∧
            (∃ p, arrayAt env.rawPoses w.CalCtx.referenceID = some p ∧ p.bPoseIsValid = true) ∧
            (∃ q, arrayAt env.rawPoses w.CalCtx.targetID = some q ∧ q.bPoseIsValid = true) ∧
            env.ReferenceJitter w.calibration ≤ w.CalCtx.jitterThreshold ∧
            env.TargetJitter w.calibration ≤ w.CalCtx.jitterThreshold) →
          w'.CalCtx.state = CalibrationState.Rotation) ∧
        (¬ (w.CalCtx.referenceID ≠ -1 ∧ w.CalCtx.targetID ≠ -1 ∧
            (∃ p, arrayAt env.rawPoses w.CalCtx.referenceID = some p ∧ p.bPoseIsValid = true) ∧
            (∃ q, arrayAt env.rawPoses w.CalCtx.targetID = some q ∧ q.bPoseIsValid = true) ∧
            env.ReferenceJitter w.calibration ≤ w.CalCtx.jitterThreshold ∧
            env.TargetJitter w.calibration ≤ w.CalCtx.jitterThreshold) →
          w'.CalCtx.state = CalibrationState.None)) ∧
      ((w.CalCtx.referenceID = -1 ∨ (0 ≤ w.CalCtx.referenceID ∧ w.CalCtx.referenceID < 64)) →
        (w.CalCtx.targetID = -1 ∨ (0 ≤ w.CalCtx.targetID ∧ w.CalCtx.targetID < 64)) →
        ∃ w', CalibrationTick N env time w = some w') := by
  obtain ⟨w3, hr, hsel⟩ := tickReadPoses_some env (tickPrologue time w)
  obtain ⟨c, a, x, y, z, h4⟩ := tick_entry env time w w3 hr
  have hst := hmdStalled_after_read env time w w3 hr
  rw [hmove] at hst
  have hs3 : w3.CalCtx.state = CalibrationState.Begin :=
    (congrArg Prod.fst (hsel.trans (tickPrologue_selection time w))).trans hs
  have htick : CalibrationTick N env time w = tickBegin env (tickStoreHmd w3) := by
    rw [CalibrationTick_of_running N env time w hvr hgate, hr, Option.some_bind,
      tickDispatch_begin N env time _ hs3 hst]
  have e_cal : (tickStoreHmd w3).calibration = w.calibration := by rw [h4]
  have e_smp : (tickStoreHmd w3).samples = w.samples := by rw [h4]
  have e_st : (tickStoreHmd w3).CalCtx.state = w.CalCtx.state := by rw [h4]
  have e_ref : (tickStoreHmd w3).CalCtx.referenceID = w.CalCtx.referenceID := by rw [h4]
  have e_tgt : (tickStoreHmd w3).CalCtx.targetID = w.CalCtx.targetID := by rw [h4]
  have e_dev : (tickStoreHmd w3).CalCtx.devicePoses = env.rawPoses := by rw [h4]
  have e_thr : (tickStoreHmd w3).CalCtx.jitterThreshold = w.CalCtx.jitterThreshold := by
    rw [h4]
  rw [htick]
  constructor
  · intro w' hw'
    have hspec := tickBegin_spec env (tickStoreHmd w3) w' (e_st.trans hs) hw'
    rw [e_cal, e_smp, e_ref, e_tgt, e_dev, e_thr] at hspec
    exact hspec
  · intro href htarget
    exact tickBegin_isSome env (tickStoreHmd w3) (by rw [e_ref]; exact href)
      (by rw [e_tgt]; exact htarget)

end TickBeginClaim

/-! ## Theorems: the scan of the devices -/

section Scan
variable {α : Type} [Field α]

/-- One step of the scan writes the flag `enabled` and nothing else in the context. -/
theorem scanDevice_CalCtx (N : Numerics α) (env : TickEnv α) (w : World α) (id : Nat) :
    (scanDevice N env w id).CalCtx
      = { w.CalCtx with enabled := (scanDevice N env w id).CalCtx.enabled } := by
  unfold scanDevice
  split
  · rfl
  · split
    · rfl
    · split
      · rfl
      · split
        · split <;> rfl
        · split <;> rfl

theorem foldl_scanDevice_CalCtx (N : Numerics α) (env : TickEnv α) (ids : List Nat) :
    ∀ w : World α, (ids.foldl (scanDevice N env) w).CalCtx
      = { w.CalCtx with enabled := (ids.foldl (scanDevice N env) w).CalCtx.enabled } := by
  induction ids with
  | nil => intro w; rfl
  | cons id ids ih =>
    intro w
    rw [List.foldl_cons]
    have h1 := ih (scanDevice N env w id)
    have h2 := scanDevice_CalCtx N env w id
    rw [h2] at h1
    exact h1

/-- The requests and the context `ScanAndApplyProfile` leaves are those of the loop of lines
362-428, run after `enabled` is set and the alignment speed parameters are sent. -/
theorem ScanAndApplyProfile_sent_CalCtx (N : Numerics α) (env : TickEnv α) (w : World α) :
    (ScanAndApplyProfile N env w).sent
        = ((List.range k_unMaxTrackedDeviceCount).foldl (scanDevice N env)
            { w with CalCtx := { w.CalCtx with enabled := w.CalCtx.validProfile },
                     sent := w.sent ++
                       [Request.setAlignmentSpeedParams w.CalCtx.alignmentSpeedParams] }).sent ∧
      (ScanAndApplyProfile N env w).CalCtx
        = ((List.range k_unMaxTrackedDeviceCount).foldl (scanDevice N env)
            { w with CalCtx := { w.CalCtx with enabled := w.CalCtx.validProfile },
                     sent := w.sent ++
                       [Request.setAlignmentSpeedParams w.CalCtx.alignmentSpeedParams] }).CalCtx := by
  unfold ScanAndApplyProfile
  simp only
  split
  · split
    · exact ⟨rfl, rfl⟩
    · exact ⟨rfl, rfl⟩
  · exact ⟨rfl, rfl⟩

/-- Unsigned comparison of a device id below 64 with a 32-bit signed id. -/
theorem toUInt32_eq_iff (id : Nat) (t : Int) (hid : id < 64)
    (ht : -2 ^ 31 ≤ t ∧ t < 2 ^ 31) : ((id : Int) = toUInt32 t) ↔ ((id : Int) = t) := by
  unfold toUInt32
  have h1 : (2 : Int) ^ 32 = 4294967296 := by norm_num
  have h2 : (2 : Int) ^ 31 = 2147483648 := by norm_num
  rw [h1]
  rw [h2] at ht
  constructor
  · intro h; omega
  · intro h; omega

/-- The requests one step of the scan sends are coupled as C17 states. -/
theorem scanDevice_coupled (N : Numerics α) (env : TickEnv α) (w : World α) (id : Nat)
    (hid : id < 64) (ht : -2 ^ 31 ≤ w.CalCtx.targetID ∧ w.CalCtx.targetID < 2 ^ 31) :
    ∃ l, (scanDevice N env w id).sent = w.sent ++ l ∧ ∀ r ∈ l, LerpQuashCoupled w.CalCtx r := by
  have hdis : ∀ w1 : World α, w1.sent = w.sent →
      ∃ l, (ResetAndDisableOffsets id w1).sent = w.sent ++ l ∧
        ∀ r ∈ l, LerpQuashCoupled w.CalCtx r := by
    intro w1 h1
    refine ⟨[disableRequest id], ?_, ?_⟩
    · show w1.sent ++ _ = _
      rw [h1]; rfl
    · intro r hr
      rw [List.mem_singleton] at hr
      subst hr
      exact ⟨fun h => absurd h (by simp [SetDeviceTransform.full]), fun _ => ⟨rfl, rfl⟩⟩
  unfold scanDevice
  split
  · exact ⟨[], (List.append_nil _).symm, fun r hr => absurd hr (List.not_mem_nil r)⟩
  · split
    · exact hdis w rfl
    · split
      · exact hdis w rfl
      · split
        · split
          · exact hdis _ rfl
          · exact hdis w rfl
        · split
          · exact hdis w rfl
          · refine ⟨[_], rfl, ?_⟩
            intro r hr
            rw [List.mem_singleton] at hr
            subst hr
            refine ⟨fun _ => ⟨rfl, ?_⟩, fun h => absurd h (by simp [SetDeviceTransform.full])⟩
            show (_ && decide ((id : Int) = toUInt32 w.CalCtx.targetID) && _) = _
            rw [decide_eq_decide.mpr (toUInt32_eq_iff id _ hid ht)]
            rfl

end Scan

section ScanCoupled
variable {α : Type} [Field α]

theorem LerpQuashCoupled_congr (c1 c2 : CalibrationContext α) (r : Request α)
    (hs : c1.state = c2.state) (ht : c1.targetID = c2.targetID)
    (hq : c1.quashTargetInContinuous = c2.quashTargetInContinuous)
    (h : LerpQuashCoupled c1 r) : LerpQuashCoupled c2 r := by
  cases r with
  | setDeviceTransform p =>
    unfold LerpQuashCoupled at h ⊢
    rw [← hs, ← ht, ← hq]
    exact h
  | setAlignmentSpeedParams p => trivial

theorem foldl_scanDevice_coupled (N : Numerics α) (env : TickEnv α) (ids : List Nat)
    (hids : ∀ id ∈ ids, id < 64) :
    ∀ w : World α, (-2 ^ 31 ≤ w.CalCtx.targetID ∧ w.CalCtx.targetID < 2 ^ 31) →
      ∃ l, (ids.foldl (scanDevice N env) w).sent = w.sent ++ l ∧
        ∀ r ∈ l, LerpQuashCoupled w.CalCtx r := by
  induction ids with
  | nil =>
    intro w _
    exact ⟨[], (List.append_nil _).symm, fun r hr => absurd hr (List.not_mem_nil r)⟩
  | cons id ids ih =>
    intro w ht
    have hc := scanDevice_CalCtx N env w id
    have hst : (scanDevice N env w id).CalCtx.state = w.CalCtx.state := by rw [hc]
    have htg : (scanDevice N env w id).CalCtx.targetID = w.CalCtx.targetID := by rw [hc]
    have hqu : (scanDevice N env w id).CalCtx.quashTargetInContinuous
        = w.CalCtx.quashTargetInContinuous := by rw [hc]
    obtain ⟨l1, hl1, hp1⟩ := scanDevice_coupled N env w id (hids id (List.mem_cons_self _ _)) ht
    obtain ⟨l2, hl2, hp2⟩ := ih (fun i hi => hids i (List.mem_cons_of_mem _ hi))
      (scanDevice N env w id) (by rw [htg]; exact ht)
    refine ⟨l1 ++ l2, ?_, ?_⟩
    · rw [List.foldl_cons, hl2, hl1, List.append_assoc]
    · intro r hr
      rcases List.mem_append.mp hr with h | h
      · exact hp1 r h
      · exact LerpQuashCoupled_congr _ _ r hst htg hqu (hp2 r h)

/-- C17: every `SetDeviceTransform` request `ScanAndApplyProfile` sends with `enabled = true`
has `lerp == (state == Continuous)` and
`quash == (state == Continuous && id == targetID && quashTargetInContinuous)`; every one it
sends with `enabled = false` has `lerp == false` and `quash == false`; so outside the state
`Continuous` no request of the scan carries `lerp` or `quash`. `targetID` is a 32-bit signed
integer, which line 426 compares with the unsigned device id. -/
theorem ScanAndApplyProfile_lerp_quash (N : Numerics α) (env : TickEnv α) (w : World α)
    (ht : -2 ^ 31 ≤ w.CalCtx.targetID ∧ w.CalCtx.targetID < 2 ^ 31) :
    ∃ new, (ScanAndApplyProfile N env w).sent = w.sent ++ new ∧
      ∀ p, Request.setDeviceTransform p ∈ new →
        (p.enabled = true →
          p.lerp = decide (w.CalCtx.state = CalibrationState.Continuous) ∧
          p.quash = (decide (w.CalCtx.state = CalibrationState.Continuous) &&
            decide ((p.openVRID : Int) = w.CalCtx.targetID) &&
            w.CalCtx.quashTargetInContinuous)) ∧
        (p.enabled = false → p.lerp = false ∧ p.quash = false) ∧
        (w.CalCtx.state ≠ CalibrationState.Continuous → p.lerp = false ∧ p.quash = false) := by
  obtain ⟨l, hl, hp⟩ := foldl_scanDevice_coupled N env (List.range k_unMaxTrackedDeviceCount)
    (fun id hid => List.mem_range.mp hid)
    { w with CalCtx := { w.CalCtx with enabled := w.CalCtx.validProfile },
             sent := w.sent ++ [Request.setAlignmentSpeedParams w.CalCtx.alignmentSpeedParams] }
    ht
  refine ⟨Request.setAlignmentSpeedParams w.CalCtx.alignmentSpeedParams :: l, ?_, ?_⟩
  · rw [(ScanAndApplyProfile_sent_CalCtx N env w).1, hl]
    simp
  · intro p hmem
    rcases List.mem_cons.mp hmem with h | h
    · exact absurd h (by simp)
    · have hc : LerpQuashCoupled w.CalCtx (Request.setDeviceTransform p) :=
        LerpQuashCoupled_congr _ _ _ rfl rfl rfl (hp _ h)
      obtain ⟨h1, h2⟩ := hc
      refine ⟨h1, h2, ?_⟩
      intro hne
      cases he : p.enabled
      · exact h2 he
      · obtain ⟨h3, h4⟩ := h1 he
        rw [h3, h4]
        simp [hne]

end ScanCoupled

section ScanDisabled
variable {α : Type} [Field α]

theorem range_devices : List.range k_unMaxTrackedDeviceCount = 0 :: List.range' 1 63 := by
  decide

/-- While calibration is disabled every present device is sent the zero/identity request. -/
theorem foldl_scanDevice_disabled (N : Numerics α) (env : TickEnv α) (ids : List Nat) :
    ∀ w : World α, w.CalCtx.enabled = false →
      (ids.foldl (scanDevice N env) w).sent
          = w.sent ++ (ids.filter env.devicePresent).map disableRequest ∧
        (ids.foldl (scanDevice N env) w).CalCtx.enabled = false := by
  induction ids with
  | nil => intro w hw; exact ⟨(List.append_nil _).symm, hw⟩
  | cons id ids ih =>
    intro w hw
    rw [List.foldl_cons]
    cases hp : env.devicePresent id
    · have h1 : scanDevice N env w id = w := by
        unfold scanDevice
        simp [hp]
      rw [h1, List.filter_cons_of_neg (by simp [hp])]
      exact ih w hw
    · have h1 : scanDevice N env w id = ResetAndDisableOffsets id w := by
        unfold scanDevice
        simp [hp, hw]
      obtain ⟨h2, h3⟩ := ih (ResetAndDisableOffsets id w) hw
      rw [h1, List.filter_cons_of_pos (by simp [hp]), List.map_cons]
      refine ⟨?_, h3⟩
      rw [h2]
      show (w.sent ++ [disableRequest id]) ++ _ = _
      rw [List.append_assoc]
      rfl

/-- The step of the scan for an HMD whose tracking system is not the reference tracking
system: calibration is disabled and the HMD is sent the zero/identity request. -/
theorem scanDevice_hmd_mismatch (N : Numerics α) (env : TickEnv α) (w : World α) (ts : String)
    (hpres : env.devicePresent 0 = true) (hname : env.trackingSystemName 0 = some ts)
    (hne : ts ≠ w.CalCtx.referenceTrackingSystem) :
    (scanDevice N env w 0).sent = w.sent ++ [disableRequest 0] ∧
      (scanDevice N env w 0).CalCtx.enabled = false := by
  unfold scanDevice
  rw [if_neg (by simp [hpres])]
  cases he : w.CalCtx.enabled
  · rw [if_pos (by simp)]
    exact ⟨rfl, he⟩
  · rw [if_neg (by simp), hname]
    simp only [↓reduceIte, ne_eq, hne, not_false_eq_true]
    exact ⟨rfl, rfl⟩

/-- C18: when the HMD (id 0) is present, its tracking-system name is read and differs from
`referenceTrackingSystem`, `ScanAndApplyProfile` ends with `enabled == false`; after the
alignment speed parameters it sends exactly one request to each present device, in the order
of the ids, and each is the zero/identity `SetDeviceTransform` with `enabled = false`: the
HMD receives it, every other present device receives it, and no request of the scan has
`enabled = true`. -/
theorem ScanAndApplyProfile_hmd_mismatch (N : Numerics α) (env : TickEnv α) (w : World α)
    (ts : String) (hpres : env.devicePresent 0 = true)
    (hname : env.trackingSystemName 0 = some ts)
    (hne : ts ≠ w.CalCtx.referenceTrackingSystem) :
    (ScanAndApplyProfile N env w).CalCtx.enabled = false ∧
      ∃ new, (ScanAndApplyProfile N env w).sent = w.sent ++ new ∧
        new = Request.setAlignmentSpeedParams w.CalCtx.alignmentSpeedParams ::
          ((List.range k_unMaxTrackedDeviceCount).filter env.devicePresent).map disableRequest ∧
        disableRequest 0 ∈ new ∧
        (∀ id, id < 64 → env.devicePresent id = true → disableRequest id ∈ new) ∧
        (∀ p, Request.setDeviceTransform p ∈ new → p.enabled = false) := by
  obtain ⟨hs, hc⟩ := ScanAndApplyProfile_sent_CalCtx N env w
  obtain ⟨h0s, h0e⟩ := scanDevice_hmd_mismatch N env
    { w with CalCtx := { w.CalCtx with enabled := w.CalCtx.validProfile },
             sent := w.sent ++ [Request.setAlignmentSpeedParams w.CalCtx.alignmentSpeedParams] }
    ts hpres hname hne
  obtain ⟨hrs, hre⟩ := foldl_scanDevice_disabled N env (List.range' 1 63) _ h0e
  rw [range_devices, List.foldl_cons] at hs hc
  have hmem : ∀ id, id < 64 → env.devicePresent id = true →
      disableRequest id ∈ (Request.setAlignmentSpeedParams w.CalCtx.alignmentSpeedParams ::
        ((List.range k_unMaxTrackedDeviceCount).filter env.devicePresent).map disableRequest :
          List (Request α)) := by
    intro id hid hp
    refine List.mem_cons_of_mem _ (List.mem_map.mpr ⟨id, ?_, rfl⟩)
    exact List.mem_filter.mpr ⟨List.mem_range.mpr hid, hp⟩
  refine ⟨by rw [hc]; exact hre, _, ?_, rfl, hmem 0 (by decide) hpres, hmem, ?_⟩
  · rw [hs, hrs, h0s, range_devices, List.filter_cons_of_pos (by simp [hpres]), List.map_cons]
    simp
  · intro p hp
    rcases List.mem_cons.mp hp with h | h
    · exact absurd h (by simp)
    · obtain ⟨id, -, hid⟩ := List.mem_map.mp h
      have hp' : p = SetDeviceTransform.full id false (![0, 0, 0] : Vec3 α)
          { w := 1, x := 0, y := 0, z := 0 } 1 := by
        unfold disableRequest at hid
        exact (Request.setDeviceTransform.inj hid).symm
      rw [hp']
      rfl

end ScanDisabled

section ScanEnabled
variable {α : Type} [Field α]

theorem requestsFor_cons (id : Nat) (p : SetDeviceTransform α) (l : List (Request α)) :
    requestsFor id (Request.setDeviceTransform p :: l)
      = (if p.openVRID = id then [p] else []) ++ requestsFor id l := by
  unfold requestsFor
  by_cases h : p.openVRID = id
  · simp [List.filterMap_cons, h]
  · simp [List.filterMap_cons, h]

theorem requestsFor_params (id : Nat) (p : AlignmentSpeedParams α) (l : List (Request α)) :
    requestsFor id (Request.setAlignmentSpeedParams p :: l) = requestsFor id l := by
  unfold requestsFor
  simp [List.filterMap_cons]

/-- Among requests sent one to each device of a list without repetition, the device `id` is
addressed by its own request and no other. -/
theorem requestsFor_map (f : Nat → Request α) (g : Nat → SetDeviceTransform α)
    (hf : ∀ i, f i = Request.setDeviceTransform (g i)) (hg : ∀ i, (g i).openVRID = i)
    (id : Nat) :
    ∀ ids : List Nat, ids.Nodup →
      requestsFor id (ids.map f) = if id ∈ ids then [g id] else [] := by
  intro ids
  induction ids with
  | nil => intro _; rfl
  | cons i ids ih =>
    intro hnd
    rw [List.nodup_cons] at hnd
    rw [List.map_cons, hf i, requestsFor_cons, hg i, ih hnd.2]
    by_cases hi : i = id
    · subst hi
      simp [hnd.1]
    · have hi' : ¬ id = i := fun h => hi h.symm
      simp [hi, hi']

/-- What one step of the scan sends while calibration is enabled and the HMD, if it is reached
with a readable name, is of the reference tracking system: the flag stays set, and the device,
if present, is sent one request: the payload of lines 415-427 when it is not the HMD and its
tracking system is read and is the target tracking system, the zero/identity request
otherwise. -/
theorem scanDevice_enabled (N : Numerics α) (env : TickEnv α) (w : World α) (id : Nat)
    (he : w.CalCtx.enabled = true)
    (hhmd : ∀ ts, env.devicePresent 0 = true → env.trackingSystemName 0 = some ts →
      ts = w.CalCtx.referenceTrackingSystem) :
    (scanDevice N env w id).CalCtx = w.CalCtx ∧
      (scanDevice N env w id).sent = w.sent ++
        (if env.devicePresent id = true then
          [if id ≠ 0 ∧ env.trackingSystemName id = some w.CalCtx.targetTrackingSystem then
            Request.setDeviceTransform (profileRequest N w.CalCtx id)
          else disableRequest id]
        else []) := by
  unfold scanDevice
  cases hp : env.devicePresent id
  · simp
  · simp only [Bool.not_true, Bool.false_eq_true, ↓reduceIte, he]
    cases hn : env.trackingSystemName id with
    | none =>
      simp only [reduceCtorEq, and_false, ↓reduceIte]
      exact ⟨rfl, rfl⟩
    | some ts =>
      simp only
      by_cases h0 : id = 0
      · subst h0
        have hts := hhmd ts hp hn
        simp only [↓reduceIte, hts, ne_eq, not_true_eq_false, false_and]
        exact ⟨rfl, rfl⟩
      · simp only [h0, ↓reduceIte, ne_eq, not_false_eq_true, true_and, Option.some.injEq]
        by_cases ht : ts = w.CalCtx.targetTrackingSystem
        · simp only [ht, not_true_eq_false, ↓reduceIte]
          exact ⟨rfl, rfl⟩
        · simp only [ht, not_false_eq_true, ↓reduceIte]
          exact ⟨rfl, rfl⟩

theorem foldl_scanDevice_enabled (N : Numerics α) (env : TickEnv α) (ids : List Nat) :
    ∀ w : World α, w.CalCtx.enabled = true →
      (∀ ts, env.devicePresent 0 = true → env.trackingSystemName 0 = some ts →
        ts = w.CalCtx.referenceTrackingSystem) →
      (ids.foldl (scanDevice N env) w).CalCtx = w.CalCtx ∧
        (ids.foldl (scanDevice N env) w).sent = w.sent ++
          (ids.filter env.devicePresent).map fun id =>
            if id ≠ 0 ∧ env.trackingSystemName id = some w.CalCtx.targetTrackingSystem then
              Request.setDeviceTransform (profileRequest N w.CalCtx id)
            else disableRequest id := by
  induction ids with
  | nil => intro w _ _; exact ⟨rfl, (List.append_nil _).symm⟩
  | cons id ids ih =>
    intro w he hhmd
    obtain ⟨h1c, h1s⟩ := scanDevice_enabled N env w id he hhmd
    obtain ⟨h2c, h2s⟩ := ih (scanDevice N env w id) (by rw [h1c]; exact he)
      (by rw [h1c]; exact hhmd)
    rw [List.foldl_cons]
    refine ⟨h2c.trans h1c, ?_⟩
    rw [h2s, h1s, h1c, List.append_assoc]
    congr 1
    cases hp : env.devicePresent id
    · rw [List.filter_cons_of_neg (by simp [hp])]
      simp
    · rw [List.filter_cons_of_pos (by simp [hp])]
      simp

end ScanEnabled

section ScanPerDevice
variable {α : Type} [Field α]

theorem range_devices_nodup : (List.range k_unMaxTrackedDeviceCount).Nodup :=
  List.nodup_range _

theorem VRTranslationVec_apply (t : Vec3 α) (i : Fin 3) : VRTranslationVec t i = t i / 100 := by
  unfold VRTranslationVec
  fin_cases i <;> simp [div_eq_mul_inv]

/-- With a valid profile and an HMD that, if present with a readable name, is of the reference
tracking system, the scan sends the alignment speed parameters and then one request to each
present device: the payload of lines 415-427 to a device other than the HMD whose tracking
system is read and is the target tracking system, the zero/identity request to any other. -/
theorem ScanAndApplyProfile_enabled (N : Numerics α) (env : TickEnv α) (w : World α)
    (hvalid : w.CalCtx.validProfile = true)
    (hhmd : ∀ ts, env.devicePresent 0 = true → env.trackingSystemName 0 = some ts →
      ts = w.CalCtx.referenceTrackingSystem) :
    (ScanAndApplyProfile N env w).sent = w.sent ++
      Request.setAlignmentSpeedParams w.CalCtx.alignmentSpeedParams ::
        ((List.range k_unMaxTrackedDeviceCount).filter env.devicePresent).map fun id =>
          if id ≠ 0 ∧ env.trackingSystemName id = some w.CalCtx.targetTrackingSystem then
            Request.setDeviceTransform (profileRequest N w.CalCtx id)
          else disableRequest id := by
  obtain ⟨hs, -⟩ := ScanAndApplyProfile_sent_CalCtx N env w
  obtain ⟨-, h2⟩ := foldl_scanDevice_enabled N env (List.range k_unMaxTrackedDeviceCount)
    { w with CalCtx := { w.CalCtx with enabled := w.CalCtx.validProfile },
             sent := w.sent ++ [Request.setAlignmentSpeedParams w.CalCtx.alignmentSpeedParams] }
    hvalid hhmd
  rw [hs, h2]
  simp [profileRequest]

/-- The request the scan of `ScanAndApplyProfile_enabled` addresses to a present device. -/
theorem ScanAndApplyProfile_requestsFor (N : Numerics α) (env : TickEnv α) (w : World α)
    (hvalid : w.CalCtx.validProfile = true)
    (hhmd : ∀ ts, env.devicePresent 0 = true → env.trackingSystemName 0 = some ts →
      ts = w.CalCtx.referenceTrackingSystem)
    (id : Nat) (hid : id < 64) (hpres : env.devicePresent id = true) :
    ∃ new, (ScanAndApplyProfile N env w).sent = w.sent ++ new ∧
      requestsFor id new =
        [if id ≠ 0 ∧ env.trackingSystemName id = some w.CalCtx.targetTrackingSystem then
          profileRequest N w.CalCtx id
        else SetDeviceTransform.full id false ![0, 0, 0] { w := 1, x := 0, y := 0, z := 0 } 1] := by
  refine ⟨_, ScanAndApplyProfile_enabled N env w hvalid hhmd, ?_⟩
  rw [requestsFor_params]
  rw [requestsFor_map _
    (fun i => if i ≠ 0 ∧ env.trackingSystemName i = some w.CalCtx.targetTrackingSystem then
        profileRequest N w.CalCtx i
      else SetDeviceTransform.full i false ![0, 0, 0] { w := 1, x := 0, y := 0, z := 0 } 1)
    ?_ ?_ id _ (range_devices_nodup.filter _)]
  · exact if_pos (List.mem_filter.mpr ⟨List.mem_range.mpr hid, hpres⟩)
  · intro i
    beta_reduce
    by_cases h : i ≠ 0 ∧ env.trackingSystemName i = some w.CalCtx.targetTrackingSystem
    · rw [if_pos h, if_pos h]
    · rw [if_neg h, if_neg h]
      rfl
  · intro i
    beta_reduce
    by_cases h : i ≠ 0 ∧ env.trackingSystemName i = some w.CalCtx.targetTrackingSystem
    · rw [if_pos h]
      rfl
    · rw [if_neg h]
      rfl

/-- C19 (amended): with a valid profile and an HMD that has passed the check of the reference
tracking system, every present device id in `[0, 64)` whose tracking-system name is read is
sent exactly one `SetDeviceTransform`. For a device other than the HMD whose tracking system
is `targetTrackingSystem` it has `enabled = true` and carries the calibrated translation in
metres, the calibrated rotation and the calibrated scale; for a device of another tracking
system, and for the HMD whatever its tracking system, it is the zero/identity request with
`enabled = false`. -/
theorem ScanAndApplyProfile_per_device (N : Numerics α) (env : TickEnv α) (w : World α)
    (hvalid : w.CalCtx.validProfile = true)
    (hhmd : ∀ ts, env.devicePresent 0 = true → env.trackingSystemName 0 = some ts →
      ts = w.CalCtx.referenceTrackingSystem)
    (id : Nat) (hid : id < 64) (hpres : env.devicePresent id = true) (ts : String)
    (hname : env.trackingSystemName id = some ts) :
    ∃ new p, (ScanAndApplyProfile N env w).sent = w.sent ++ new ∧
      requestsFor id new = [p] ∧ p.openVRID = id ∧
      (id ≠ 0 ∧ ts = w.CalCtx.targetTrackingSystem →
        p.enabled = true ∧ p.updateTranslation = true ∧ p.updateRotation = true ∧
        p.updateScale = true ∧
        (∀ i, p.translation i = w.CalCtx.calibratedTranslation i / 100) ∧
        p.rotation = VRRotationQuat N w.CalCtx.calibratedRotation ∧
        p.scale = w.CalCtx.calibratedScale) ∧
      (id = 0 ∨ ts ≠ w.CalCtx.targetTrackingSystem →
        p = SetDeviceTransform.full id false (![0, 0, 0] : Vec3 α)
          { w := 1, x := 0, y := 0, z := 0 } 1) := by
  obtain ⟨new, hs, hr⟩ := ScanAndApplyProfile_requestsFor N env w hvalid hhmd id hid hpres
  rw [hname] at hr
  by_cases h : id ≠ 0 ∧ ts = w.CalCtx.targetTrackingSystem
  · have h' : id ≠ 0 ∧ some ts = some w.CalCtx.targetTrackingSystem := ⟨h.1, by rw [h.2]⟩
    rw [if_pos h'] at hr
    refine ⟨new, _, hs, hr, rfl, fun _ => ⟨rfl, rfl, rfl, rfl, ?_, rfl, rfl⟩, fun hn => ?_⟩
    · intro i
      exact VRTranslationVec_apply _ i
    · rcases hn with h0 | hne
      · exact absurd h0 h.1
      · exact absurd h.2 hne
  · have h' : ¬ (id ≠ 0 ∧ some ts = some w.CalCtx.targetTrackingSystem) := by
      intro hc
      exact h ⟨hc.1, Option.some.inj hc.2⟩
    rw [if_neg h'] at hr
    exact ⟨new, _, hs, hr, rfl, fun hc => absurd hc h, fun _ => rfl⟩

end ScanPerDevice

/-! ## Theorems: collection and solve in the tick -/

section Shapes
variable {α : Type} [LinearOrderedField α]

/-- A message writes the log and nothing else. -/
theorem Log_eq (ctx : CalibrationContext α) (msg : LogMsg) :
    ∃ (ms : List LogMsg) (c : Bool), ctx.Log msg = { ctx with messages := ms, clearOnLog := c } := by
  unfold CalibrationContext.Log
  split
  · exact ⟨_, _, rfl⟩
  · exact ⟨_, ctx.clearOnLog, rfl⟩

theorem World_Log_eq (w : World α) (msg : LogMsg) :
    ∃ (ms : List LogMsg) (c : Bool),
      w.Log msg = { w with CalCtx := { w.CalCtx with messages := ms, clearOnLog := c } } := by
  obtain ⟨ms, c, h⟩ := Log_eq w.CalCtx msg
  exact ⟨ms, c, by unfold World.Log; rw [h]⟩

/-- The diagnostic of lines 532-563 writes the log and its three statics and nothing else. -/
theorem tickDiagnostic_eq (w : World α) :
    ∃ (ms : List LogMsg) (c : Bool) (lr lt : Int) (di : Bool), tickDiagnostic w =
      { w with CalCtx := { w.CalCtx with messages := ms, clearOnLog := c },
               lastReferenceID := lr, lastTargetID := lt, deviceIDsInitialized := di } := by
  unfold tickDiagnostic
  simp only
  split
  · split
    · obtain ⟨ms, c, h⟩ := World_Log_eq
        ({ w with lastReferenceID := toUInt32 w.CalCtx.referenceID,
                  lastTargetID := toUInt32 w.CalCtx.targetID,
                  deviceIDsInitialized := true } : World α)
        (LogMsg.diagnosticStarted w.CalCtx.referenceID w.CalCtx.targetID)
      rw [h]
      exact ⟨ms, c, _, _, _, rfl⟩
    · split
      · obtain ⟨ms, c, h⟩ := World_Log_eq w
          (LogMsg.diagnosticChanged w.lastReferenceID w.lastTargetID w.CalCtx.referenceID
            w.CalCtx.targetID w.calibration.SampleCount)
        rw [h]
        exact ⟨ms, c, _, _, w.deviceIDsInitialized, rfl⟩
      · exact ⟨w.CalCtx.messages, w.CalCtx.clearOnLog, w.lastReferenceID, w.lastTargetID,
          w.deviceIDsInitialized, rfl⟩
  · split
    · exact ⟨w.CalCtx.messages, w.CalCtx.clearOnLog, w.lastReferenceID, w.lastTargetID, false, rfl⟩
    · exact ⟨w.CalCtx.messages, w.CalCtx.clearOnLog, w.lastReferenceID, w.lastTargetID,
        w.deviceIDsInitialized, rfl⟩

end Shapes

section ScanShapes
variable {α : Type} [Field α]

theorem ResetAndDisableOffsets_eq (id : Nat) (w : World α) :
    ResetAndDisableOffsets id w = { w with sent := w.sent ++ [disableRequest id] } := rfl

/-- One step of the scan writes the flag `enabled` and the list of requests sent, and nothing
else. -/
theorem scanDevice_eq (N : Numerics α) (env : TickEnv α) (w : World α) (id : Nat) :
    ∃ (e : Bool) (s : List (Request α)), scanDevice N env w id =
      { w with CalCtx := { w.CalCtx with enabled := e }, sent := s } := by
  unfold scanDevice
  split
  · exact ⟨w.CalCtx.enabled, w.sent, rfl⟩
  · split
    · exact ⟨w.CalCtx.enabled, _, rfl⟩
    · split
      · exact ⟨w.CalCtx.enabled, _, rfl⟩
      · split
        · split
          · exact ⟨false, _, rfl⟩
          · exact ⟨w.CalCtx.enabled, _, rfl⟩
        · split
          · exact ⟨w.CalCtx.enabled, _, rfl⟩
          · exact ⟨w.CalCtx.enabled, _, rfl⟩

theorem foldl_scanDevice_eq (N : Numerics α) (env : TickEnv α) (ids : List Nat) :
    ∀ w : World α, ∃ (e : Bool) (s : List (Request α)), ids.foldl (scanDevice N env) w =
      { w with CalCtx := { w.CalCtx with enabled := e }, sent := s } := by
  induction ids with
  | nil => intro w; exact ⟨w.CalCtx.enabled, w.sent, rfl⟩
  | cons id ids ih =>
    intro w
    obtain ⟨e1, s1, h1⟩ := scanDevice_eq N env w id
    obtain ⟨e2, s2, h2⟩ := ih
      ({ w with CalCtx := { w.CalCtx with enabled := e1 }, sent := s1 } : World α)
    rw [List.foldl_cons, h1, h2]
    exact ⟨e2, s2, rfl⟩

/-- `ScanAndApplyProfile` writes the flag `enabled`, the list of requests sent and the count of
applied chaperone bounds, and nothing else. -/
theorem ScanAndApplyProfile_eq (N : Numerics α) (env : TickEnv α) (w : World α) :
    ∃ (e : Bool) (s : List (Request α)) (ch : Nat), ScanAndApplyProfile N env w =
      { w with CalCtx := { w.CalCtx with enabled := e }, sent := s, chaperoneApplied := ch } := by
  obtain ⟨e, s, h⟩ := foldl_scanDevice_eq N env (List.range k_unMaxTrackedDeviceCount)
    ({ w with CalCtx := { w.CalCtx with enabled := w.CalCtx.validProfile },
              sent := w.sent ++
                [Request.setAlignmentSpeedParams w.CalCtx.alignmentSpeedParams] } : World α)
  unfold ScanAndApplyProfile
  simp only
  unfold World.SendBlocking
  simp only
  rw [h]
  split
  · split
    · exact ⟨e, s, _, rfl⟩
    · exact ⟨e, s, w.chaperoneApplied, rfl⟩
  · exact ⟨e, s, w.chaperoneApplied, rfl⟩

end ScanShapes

section ScanShapes2
variable {α : Type} [LinearOrderedField α]

/-- The periodic scan writes `enabled`, `timeLastScan`, the list of requests sent and the count
of applied chaperone bounds, and nothing else. -/
theorem tickScan_eq (N : Numerics α) (env : TickEnv α) (time interval : α) (w : World α) :
    ∃ (e : Bool) (t : α) (s : List (Request α)) (ch : Nat), tickScan N env time interval w =
      { w with CalCtx := { w.CalCtx with enabled := e, timeLastScan := t }, sent := s,
               chaperoneApplied := ch } := by
  unfold tickScan
  split
  · obtain ⟨e, s, ch, h⟩ := ScanAndApplyProfile_eq N env w
    simp only
    rw [h]
    exact ⟨e, time, s, ch, rfl⟩
  · exact ⟨w.CalCtx.enabled, w.CalCtx.timeLastScan, w.sent, w.chaperoneApplied, rfl⟩

end ScanShapes2

section Collecting
variable {α : Type} [LinearOrderedField α]

/-- A tick that is not skipped, in a state other than `None`, `Editing` and `Begin`, is the
collection of a Sample (lines 656-746) on globals that differ from those at the start of the
tick in the reader, the log, the statics of the diagnostic, the requests sent by the periodic
scan, and the fields `timeLastAssign`, `timeLastTick`, `driverPoses`, `devicePoses`, `xprev`,
`yprev`, `zprev`, `enabled` and `timeLastScan` of the context. -/
theorem tick_collecting (N : Numerics α) (env : TickEnv α) (time : α) (w w3 : World α)
    (hvr : env.vrSystem = true) (hgate : ¬ (time - w.CalCtx.timeLastTick) < 1 / 20)
    (hread : tickReadPoses env (tickPrologue time w) = some w3)
    (hmove : hmdStalled { w with CalCtx := { w.CalCtx with devicePoses := env.rawPoses } }
      = false)
    (hn : w.CalCtx.state ≠ CalibrationState.None)
    (he : w.CalCtx.state ≠ CalibrationState.Editing)
    (hb : w.CalCtx.state ≠ CalibrationState.Begin) :
    ∃ (w5 : World α) (c : Bool) (a x y z : α) (ms : List LogMsg) (lr lt : Int) (di e : Bool)
      (t : α) (s : List (Request α)) (ch : Nat),
      CalibrationTick N env time w = tickCollect N env w5 ∧ w5 =
        { w with shmem := w3.shmem, sent := s, chaperoneApplied := ch, lastReferenceID := lr,
                 lastTargetID := lt, deviceIDsInitialized := di,
                 CalCtx := { w.CalCtx with clearOnLog := c, timeLastAssign := a,
                                           timeLastTick := time,
                                           driverPoses := w3.CalCtx.driverPoses,
                                           devicePoses := env.rawPoses,
                                           xprev := x, yprev := y, zprev := z,
                                           messages := ms, enabled := e, timeLastScan := t } } := by
  obtain ⟨c0, a, x, y, z, h4⟩ := tick_entry env time w w3 hread
  have hst := hmdStalled_after_read env time w w3 hread
  rw [hmove] at hst
  obtain ⟨ms, c, lr, lt, di, h5⟩ := tickDiagnostic_eq (tickStoreHmd w3)
  conv_rhs at h5 => rw [h4]
  obtain ⟨e, t, s, ch, h6⟩ := tickScan_eq N env time 1 (tickDiagnostic (tickStoreHmd w3))
  conv_rhs at h6 => rw [h5]
  have hstate : (tickDiagnostic (tickStoreHmd w3)).CalCtx.state = w.CalCtx.state := by rw [h5]
  have hstate6 : (tickScan N env time 1 (tickDiagnostic (tickStoreHmd w3))).CalCtx.state
      = w.CalCtx.state := by rw [h6]
  rw [CalibrationTick_of_running N env time w hvr hgate, hread, Option.some_bind]
  unfold tickDispatch
  rw [if_neg (by simp [hst])]
  unfold tickStateWork
  simp only
  by_cases hcs : (tickDiagnostic (tickStoreHmd w3)).CalCtx.state = CalibrationState.Continuous ∨
      (tickDiagnostic (tickStoreHmd w3)).CalCtx.state = CalibrationState.ContinuousStandby
  · rw [if_pos hcs, hstate6, if_neg hn, if_neg he, if_neg hb, h6]
    exact ⟨_, c, a, x, y, z, ms, lr, lt, di, e, t, s, ch, rfl, rfl⟩
  · rw [if_neg hcs, hstate, if_neg hn, if_neg he, if_neg hb, h5]
    exact ⟨_, c, a, x, y, z, ms, lr, lt, di, w.CalCtx.enabled, w.CalCtx.timeLastScan, w.sent,
      w.chaperoneApplied, rfl, rfl⟩

end Collecting

section Solve
variable {α : Type} [LinearOrderedField α]

/-- The one-shot solve of lines 697-699. -/
theorem tickCompute_oneshot (env : TickEnv α) (w : World α)
    (hnc : w.CalCtx.state ≠ CalibrationState.Continuous) :
    tickCompute env w = ((env.ComputeOneshot w.calibration w.CalCtx.ignoreOutliers).1,
      { w with calibration := { w.calibration with
          estimate := (env.ComputeOneshot w.calibration w.CalCtx.ignoreOutliers).2 } }) := by
  unfold tickCompute
  simp only
  rw [if_neg hnc]

/-- The incremental solve of lines 689-695. -/
theorem tickCompute_incremental (env : TickEnv α) (w : World α)
    (hc : w.CalCtx.state = CalibrationState.Continuous) :
    tickCompute env w =
      ((env.ComputeIncremental
          { w.calibration with
            enableStaticRecalibration := w.CalCtx.enableStaticRecalibration,
            lockRelativePosition := w.CalCtx.lockRelativePosition }
          w.CalCtx.continuousCalibrationThreshold w.CalCtx.maxRelativeErrorThreshold
          w.CalCtx.ignoreOutliers).1,
        { w with calibration :=
          { samples := w.calibration.samples,
            enableStaticRecalibration := w.CalCtx.enableStaticRecalibration,
            lockRelativePosition := w.CalCtx.lockRelativePosition,
            estimate := (env.ComputeIncremental
              { w.calibration with
                enableStaticRecalibration := w.CalCtx.enableStaticRecalibration,
                lockRelativePosition := w.CalCtx.lockRelativePosition }
              w.CalCtx.continuousCalibrationThreshold w.CalCtx.maxRelativeErrorThreshold
              w.CalCtx.ignoreOutliers).2.2 } }) := by
  unfold tickCompute
  simp only
  rw [if_pos hc]

/-- A one-shot solve that is accepted (lines 701-735): the state becomes `None`, `validProfile`
is set, and the window and `samples` are emptied. -/
theorem tickAccept_oneshot (N : Numerics α) (env : TickEnv α) (w : World α)
    (hnc : w.CalCtx.state ≠ CalibrationState.Continuous) :
    (tickAccept N env w).CalCtx.state = CalibrationState.None ∧
      (tickAccept N env w).calibration.samples = [] ∧ (tickAccept N env w).samples = [] ∧
      (tickAccept N env w).CalCtx.validProfile = true := by
  obtain ⟨e, s, ch, h5⟩ := ScanAndApplyProfile_eq N env (tickStoreResult w)
  have h5s : (ScanAndApplyProfile N env (tickStoreResult w)).CalCtx.state = w.CalCtx.state := by
    rw [h5]; rfl
  have h5v : (ScanAndApplyProfile N env (tickStoreResult w)).CalCtx.validProfile = true := by
    rw [h5]; rfl
  unfold tickAccept
  simp only
  rw [if_neg (by rw [h5s]; exact hnc)]
  obtain ⟨ms, c, h7⟩ := World_Log_eq
    ({ ScanAndApplyProfile N env (tickStoreResult w) with
        CalCtx := { (ScanAndApplyProfile N env (tickStoreResult w)).CalCtx with
          hasAppliedCalibrationResult := true } } : World α) LogMsg.finished
  rw [h7]
  exact ⟨rfl, rfl, rfl, h5v⟩

/-- A one-shot solve that is rejected (lines 736-745): the state becomes `None`, the window and
`samples` are emptied, and `validProfile` is left as it is. -/
theorem tickReject_oneshot (env : TickEnv α) (w : World α)
    (hnc : w.CalCtx.state ≠ CalibrationState.Continuous) :
    (tickReject env w).CalCtx.state = CalibrationState.None ∧
      (tickReject env w).calibration.samples = [] ∧ (tickReject env w).samples = [] ∧
      (tickReject env w).CalCtx.validProfile = w.CalCtx.validProfile := by
  unfold tickReject
  rw [if_pos hnc]
  obtain ⟨ms, c, h⟩ := World_Log_eq w LogMsg.failed
  simp only
  rw [h]
  refine ⟨?_, ?_, ?_, ?_⟩ <;> first | rfl | trivial

/-- The solve of lines 681-746 in a state other than `Continuous`, once `samples` holds as many
Samples as the configured count: `ComputeOneshot` runs on the window, the state becomes `None`,
the window and `samples` are emptied, and `validProfile` is set when the solve succeeds and the
estimate is valid, and left as it is otherwise. -/
theorem tickSolve_oneshot (N : Numerics α) (env : TickEnv α) (w : World α)
    (hnc : w.CalCtx.state ≠ CalibrationState.Continuous)
    (hlen : w.samples.length ≥ w.CalCtx.sampleCount) :
    (tickSolve N env w).CalCtx.state = CalibrationState.None ∧
      (tickSolve N env w).calibration.samples = [] ∧ (tickSolve N env w).samples = [] ∧
      (((env.ComputeOneshot w.calibration w.CalCtx.ignoreOutliers).1 = true ∧
          (env.ComputeOneshot w.calibration w.CalCtx.ignoreOutliers).2.isValid = true) →
        (tickSolve N env w).CalCtx.validProfile = true) ∧
      (¬ ((env.ComputeOneshot w.calibration w.CalCtx.ignoreOutliers).1 = true ∧
          (env.ComputeOneshot w.calibration w.CalCtx.ignoreOutliers).2.isValid = true) →
        (tickSolve N env w).CalCtx.validProfile = w.CalCtx.validProfile) := by
  obtain ⟨ms, c, h1⟩ := World_Log_eq w LogMsg.newline
  have hnc1 : (w.Log LogMsg.newline).CalCtx.state ≠ CalibrationState.Continuous := by
    rw [World_Log_state]; exact hnc
  have hcomp := tickCompute_oneshot env (w.Log LogMsg.newline) hnc1
  rw [h1] at hcomp
  unfold tickSolve
  rw [if_pos hlen]
  simp only
  rw [h1, hcomp]
  simp only
  by_cases hok : (env.ComputeOneshot w.calibration w.CalCtx.ignoreOutliers).1 = true ∧
      (env.ComputeOneshot w.calibration w.CalCtx.ignoreOutliers).2.isValid = true
  · rw [if_pos (by simp only [Bool.and_eq_true]; exact hok)]
    obtain ⟨a1, a2, a3, a4⟩ := tickAccept_oneshot N env
      ({ w with CalCtx := { w.CalCtx with messages := ms, clearOnLog := c },
                calibration := { w.calibration with
                  estimate := (env.ComputeOneshot w.calibration w.CalCtx.ignoreOutliers).2 } } :
        World α) hnc
    exact ⟨a1, a2, a3, fun _ => a4, fun h => absurd hok h⟩
  · rw [if_neg (by simp only [Bool.and_eq_true]; exact hok)]
    obtain ⟨a1, a2, a3, a4⟩ := tickReject_oneshot env
      ({ w with CalCtx := { w.CalCtx with messages := ms, clearOnLog := c },
                calibration := { w.calibration with
                  estimate := (env.ComputeOneshot w.calibration w.CalCtx.ignoreOutliers).2 } } :
        World α) hnc
    exact ⟨a1, a2, a3, fun h => absurd h hok, fun _ => a4⟩

end Solve

section CollectValid
variable {α : Type} [LinearOrderedField α]

/-- What `CollectSample` returns when both driver poses are valid: the context as it is and
the Sample of lines 297-307, the reference moved by `continuousCalibrationOffset` in the states
`Continuous` and `ContinuousStandby`. -/
theorem CollectSample_valid (env : TickEnv α) (CalCtx : CalibrationContext α)
    (reference target : DriverPose α)
    (href : arrayAt CalCtx.driverPoses CalCtx.referenceID = some reference)
    (htarget : arrayAt CalCtx.driverPoses CalCtx.targetID = some target)
    (hrv : reference.poseIsValid = true) (htv : target.poseIsValid = true) :
    CollectSample env CalCtx = some (CalCtx,
      Sample.make
        (ConvertPose
          (if CalCtx.state = CalibrationState.Continuous ∨
              CalCtx.state = CalibrationState.ContinuousStandby then
            { reference with vecPosition :=
                ![reference.vecPosition 0 + CalCtx.continuousCalibrationOffset 0,
                  reference.vecPosition 1 + CalCtx.continuousCalibrationOffset 1,
                  reference.vecPosition 2 + CalCtx.continuousCalibrationOffset 2] }
          else reference))
        (ConvertPose target) env.glfwGetTime) := by
  unfold CollectSample
  rw [href, htarget]
  simp only [hrv, htv, Bool.not_true, Bool.false_eq_true, ↓reduceIte]

/-- The collection of lines 656-679 when both driver poses are valid: the Sample is pushed
into the window and into `samples`, the progress is reported, and the solve follows once the
window holds the configured count. -/
theorem tickCollect_valid (N : Numerics α) (env : TickEnv α) (w : World α)
    (reference target : DriverPose α)
    (href : arrayAt w.CalCtx.driverPoses w.CalCtx.referenceID = some reference)
    (htarget : arrayAt w.CalCtx.driverPoses w.CalCtx.targetID = some target)
    (hrv : reference.poseIsValid = true) (htv : target.poseIsValid = true)
    (sample : Sample α)
    (hsample : sample = Sample.make
        (ConvertPose
          (if w.CalCtx.state = CalibrationState.Continuous ∨
              w.CalCtx.state = CalibrationState.ContinuousStandby then
            { reference with vecPosition :=
                ![reference.vecPosition 0 + w.CalCtx.continuousCalibrationOffset 0,
                  reference.vecPosition 1 + w.CalCtx.continuousCalibrationOffset 1,
                  reference.vecPosition 2 + w.CalCtx.continuousCalibrationOffset 2] }
          else reference))
        (ConvertPose target) env.glfwGetTime) :
    ∃ (wpush wfull : World α) (ms : List LogMsg) (c : Bool),
      tickCollect N env w = some
        (if (w.calibration.PushSample sample).SampleCount < w.CalCtx.sampleCount then wpush
        else tickSolve N env wfull) ∧
      wpush = { w with CalCtx := { w.CalCtx with messages := ms, clearOnLog := c },
                       calibration := w.calibration.PushSample sample,
                       samples := w.samples ++ [sample] } ∧
      wfull = { w with CalCtx := { w.CalCtx with messages := ms, clearOnLog := c },
                       calibration :=
                         dropExcess w.CalCtx.sampleCount (w.calibration.PushSample sample),
                       samples := w.samples ++ [sample] } := by
  have hcs := CollectSample_valid env w.CalCtx reference target href htarget hrv htv
  rw [← hsample] at hcs
  have hv : sample.valid = true := by rw [hsample]; rfl
  obtain ⟨ms, c, hl⟩ := Log_eq w.CalCtx
    (LogMsg.progress (w.calibration.PushSample sample).SampleCount w.CalCtx.sampleCount)
  refine ⟨_, _, ms, c, ?_, rfl, rfl⟩
  unfold tickCollect
  rw [hcs]
  simp only [Option.map_some', hv, Bool.not_true, Bool.false_eq_true, ↓reduceIte]
  unfold CalibrationContext.Progress
  rw [hl]

/-- The collection of lines 656-660 when a driver pose is not valid, in a state other than
`Continuous`: the state becomes `None` and nothing is pushed. -/
theorem tickCollect_invalid (N : Numerics α) (env : TickEnv α) (w : World α)
    (reference target : DriverPose α)
    (href : arrayAt w.CalCtx.driverPoses w.CalCtx.referenceID = some reference)
    (htarget : arrayAt w.CalCtx.driverPoses w.CalCtx.targetID = some target)
    (hinv : reference.poseIsValid = false ∨ target.poseIsValid = false)
    (hnc : w.CalCtx.state ≠ CalibrationState.Continuous) :
    ∃ w', tickCollect N env w = some w' ∧ w'.CalCtx.state = CalibrationState.None ∧
      w'.calibration = w.calibration ∧ w'.samples = w.samples ∧ w'.sent = w.sent := by
  obtain ⟨ctx1, h1, -, -, -, h3⟩ :=
    CollectSample_of_invalid env w.CalCtx reference target href htarget hinv
  unfold tickCollect
  rw [h1]
  refine ⟨_, rfl, ?_, ?_, ?_, ?_⟩
  · simp only [Sample.invalid, Bool.not_false, ↓reduceIte]
    exact h3 hnc
  · simp only [Sample.invalid, Bool.not_false, ↓reduceIte]
  · simp only [Sample.invalid, Bool.not_false, ↓reduceIte]
  · simp only [Sample.invalid, Bool.not_false, ↓reduceIte]

end CollectValid

section OneshotClaim
variable {α : Type} [LinearOrderedField α]

/-- C12: a tick in the state `Rotation` or `Translation` that is not skipped, collects a valid
Sample (both driver poses, as read in this tick, are valid) and reaches the solve (with the new
Sample the window holds at least the configured `sampleCount`) ends in the state `None` with an
empty window and an empty `samples`, whether the solve succeeds or fails: `validProfile` is
set when `ComputeOneshot` returns true and `isValid()` holds, and is left unchanged otherwise.
The hypothesis `hinv` holds in every state the tick can reach: the list `samples` of line 665 is
never shorter than the window. Here `w3` are the globals after lines 491-512 (the prologue and
the reading of the poses), so that `w3.CalCtx.driverPoses` are the driver poses the tick
collects from, and `hmove` says that the test of lines 516-522 does not skip the tick. -/
theorem CalibrationTick_oneshot_solve (N : Numerics α) (env : TickEnv α) (time : α)
    (w w3 : World α) (reference target : DriverPose α)
    (hvr : env.vrSystem = true) (hgate : ¬ (time - w.CalCtx.timeLastTick) < 1 / 20)
    (hmove : hmdStalled { w with CalCtx := { w.CalCtx with devicePoses := env.rawPoses } }
      = false)
    (hs : w.CalCtx.state = CalibrationState.Rotation ∨
      w.CalCtx.state = CalibrationState.Translation)
    (hread : tickReadPoses env (tickPrologue time w) = some w3)
    (href : arrayAt w3.CalCtx.driverPoses w.CalCtx.referenceID = some reference)
    (htarget : arrayAt w3.CalCtx.driverPoses w.CalCtx.targetID = some target)
    (hrv : reference.poseIsValid = true) (htv : target.poseIsValid = true)
    (hinv : w.calibration.SampleCount ≤ w.samples.length)
    (hfull : w.CalCtx.sampleCount ≤ w.calibration.SampleCount + 1) :
    ∃ w', CalibrationTick N env time w = some w' ∧
      w'.CalCtx.state = CalibrationState.None ∧
      w'.calibration.samples = [] ∧ w'.samples = [] ∧
      (((env.ComputeOneshot
            (dropExcess w.CalCtx.sampleCount (w.calibration.PushSample
              (Sample.make (ConvertPose reference) (ConvertPose target) env.glfwGetTime)))
            w.CalCtx.ignoreOutliers).1 = true ∧
          (env.ComputeOneshot
            (dropExcess w.CalCtx.sampleCount (w.calibration.PushSample
              (Sample.make (ConvertPose reference) (ConvertPose target) env.glfwGetTime)))
            w.CalCtx.ignoreOutliers).2.isValid = true) →
        w'.CalCtx.validProfile = true) ∧
      (¬ ((env.ComputeOneshot
            (dropExcess w.CalCtx.sampleCount (w.calibration.PushSample
              (Sample.make (ConvertPose reference) (ConvertPose target) env.glfwGetTime)))
            w.CalCtx.ignoreOutliers).1 = true ∧
          (env.ComputeOneshot
            (dropExcess w.CalCtx.sampleCount (w.calibration.PushSample
              (Sample.make (ConvertPose reference) (ConvertPose target) env.glfwGetTime)))
            w.CalCtx.ignoreOutliers).2.isValid = true) →
        w'.CalCtx.validProfile = w.CalCtx.validProfile) := by
  have hn : w.CalCtx.state ≠ CalibrationState.None := by
    rcases hs with h | h <;> rw [h] <;> decide
  have he : w.CalCtx.state ≠ CalibrationState.Editing := by
    rcases hs with h | h <;> rw [h] <;> decide
  have hb : w.CalCtx.state ≠ CalibrationState.Begin := by
    rcases hs with h | h <;> rw [h] <;> decide
  have hnc : w.CalCtx.state ≠ CalibrationState.Continuous := by
    rcases hs with h | h <;> rw [h] <;> decide
  have hns : ¬ (w.CalCtx.state = CalibrationState.Continuous ∨
      w.CalCtx.state = CalibrationState.ContinuousStandby) := by
    rcases hs with h | h <;> rw [h] <;> decide
  obtain ⟨w5, c, a, x, y, z, ms, lr, lt, di, e, t, s, ch, htick, hw5⟩ :=
    tick_collecting N env time w w3 hvr hgate hread hmove hn he hb
  have e_cal : w5.calibration = w.calibration := by rw [hw5]
  have e_smp : w5.samples = w.samples := by rw [hw5]
  have e_st : w5.CalCtx.state = w.CalCtx.state := by rw [hw5]
  have e_ref : w5.CalCtx.referenceID = w.CalCtx.referenceID := by rw [hw5]
  have e_tgt : w5.CalCtx.targetID = w.CalCtx.targetID := by rw [hw5]
  have e_drv : w5.CalCtx.driverPoses = w3.CalCtx.driverPoses := by rw [hw5]
  have e_cnt : w5.CalCtx.sampleCount = w.CalCtx.sampleCount := by rw [hw5]
  have e_ign : w5.CalCtx.ignoreOutliers = w.CalCtx.ignoreOutliers := by rw [hw5]
  have e_val : w5.CalCtx.validProfile = w.CalCtx.validProfile := by rw [hw5]
  obtain ⟨wpush, wfull, ms2, c2, hcol, -, hwf⟩ := tickCollect_valid N env w5 reference target
    (by rw [e_drv, e_ref]; exact href) (by rw [e_drv, e_tgt]; exact htarget) hrv htv
    (Sample.make (ConvertPose reference) (ConvertPose target) env.glfwGetTime)
    (by rw [e_st, if_neg hns])
  have f_st : wfull.CalCtx.state = w.CalCtx.state := by rw [hwf]; exact e_st
  have f_cnt : wfull.CalCtx.sampleCount = w.CalCtx.sampleCount := by rw [hwf]; exact e_cnt
  have f_ign : wfull.CalCtx.ignoreOutliers = w.CalCtx.ignoreOutliers := by rw [hwf]; exact e_ign
  have f_val : wfull.CalCtx.validProfile = w.CalCtx.validProfile := by rw [hwf]; exact e_val
  have f_smp : wfull.samples = w.samples ++
      [Sample.make (ConvertPose reference) (ConvertPose target) env.glfwGetTime] := by
    rw [hwf, ← e_smp]
  have f_cal : wfull.calibration = dropExcess w.CalCtx.sampleCount (w.calibration.PushSample
      (Sample.make (ConvertPose reference) (ConvertPose target) env.glfwGetTime)) := by
    rw [hwf, ← e_cal, ← e_cnt]
  have hcount : ¬ (w5.calibration.PushSample
      (Sample.make (ConvertPose reference) (ConvertPose target) env.glfwGetTime)).SampleCount
        < w5.CalCtx.sampleCount := by
    rw [e_cal, e_cnt]
    simp only [CalibrationCalc.SampleCount, CalibrationCalc.PushSample, List.length_append,
      List.length_singleton, not_lt] at hfull ⊢
    exact hfull
  rw [htick, hcol, if_neg hcount]
  have hlen : wfull.samples.length ≥ wfull.CalCtx.sampleCount := by
    simp only [CalibrationCalc.SampleCount] at hinv hfull
    rw [f_smp, f_cnt, List.length_append, List.length_singleton]
    omega
  obtain ⟨a1, a2, a3, a4, a5⟩ := tickSolve_oneshot N env wfull (by rw [f_st]; exact hnc) hlen
  rw [f_cal, f_ign] at a4 a5
  rw [f_val] at a5
  exact ⟨_, rfl, a1, a2, a3, a4, a5⟩

end OneshotClaim

section ContinuousRejected
variable {α : Type} [LinearOrderedField α]

/-- The solve of lines 681-746 in the state `Continuous` when `ComputeIncremental` returns
false or the estimate is not valid: the log, the two flags of the estimator and its estimate
are written, and nothing else. -/
theorem tickSolve_continuous_rejected (N : Numerics α) (env : TickEnv α) (w : World α)
    (hc : w.CalCtx.state = CalibrationState.Continuous)
    (hfail : (env.ComputeIncremental
          { w.calibration with
            enableStaticRecalibration := w.CalCtx.enableStaticRecalibration,
            lockRelativePosition := w.CalCtx.lockRelativePosition }
          w.CalCtx.continuousCalibrationThreshold w.CalCtx.maxRelativeErrorThreshold
          w.CalCtx.ignoreOutliers).1 = false ∨
        (env.ComputeIncremental
          { w.calibration with
            enableStaticRecalibration := w.CalCtx.enableStaticRecalibration,
            lockRelativePosition := w.CalCtx.lockRelativePosition }
          w.CalCtx.continuousCalibrationThreshold w.CalCtx.maxRelativeErrorThreshold
          w.CalCtx.ignoreOutliers).2.2.isValid = false) :
    ∃ (ms : List LogMsg) (c es lk : Bool) (est : CalcEstimate α), tickSolve N env w =
      { w with CalCtx := { w.CalCtx with messages := ms, clearOnLog := c },
               calibration := { w.calibration with enableStaticRecalibration := es,
                                                   lockRelativePosition := lk,
                                                   estimate := est } } := by
  obtain ⟨ms, c, h1⟩ := World_Log_eq w LogMsg.newline
  have hc1 : (w.Log LogMsg.newline).CalCtx.state = CalibrationState.Continuous := by
    rw [World_Log_state]; exact hc
  have hcomp := tickCompute_incremental env (w.Log LogMsg.newline) hc1
  rw [h1] at hcomp
  unfold tickSolve
  by_cases hlen : w.samples.length ≥ w.CalCtx.sampleCount
  · rw [if_pos hlen]
    simp only
    rw [h1, hcomp]
    simp only
    have hno : ¬ (((env.ComputeIncremental
          { w.calibration with
            enableStaticRecalibration := w.CalCtx.enableStaticRecalibration,
            lockRelativePosition := w.CalCtx.lockRelativePosition }
          w.CalCtx.continuousCalibrationThreshold w.CalCtx.maxRelativeErrorThreshold
          w.CalCtx.ignoreOutliers).1 &&
        (env.ComputeIncremental
          { w.calibration with
            enableStaticRecalibration := w.CalCtx.enableStaticRecalibration,
            lockRelativePosition := w.CalCtx.lockRelativePosition }
          w.CalCtx.continuousCalibrationThreshold w.CalCtx.maxRelativeErrorThreshold
          w.CalCtx.ignoreOutliers).2.2.isValid) = true) := by
      rcases hfail with h | h <;> simp [h]
    rw [if_neg hno]
    unfold tickReject
    rw [if_neg (not_not.mpr hc)]
    exact ⟨ms, c, _, _, _, rfl⟩
  · rw [if_neg hlen]
    exact ⟨w.CalCtx.messages, w.CalCtx.clearOnLog, w.calibration.enableStaticRecalibration,
      w.calibration.lockRelativePosition, w.calibration.estimate, rfl⟩

theorem ShiftSample_eq (c : CalibrationCalc α) :
    c.ShiftSample = { c with samples := c.samples.tail } := rfl

theorem dropExcess_eq_aux (n : Nat) :
    ∀ (k : Nat) (c : CalibrationCalc α), c.SampleCount = k →
      dropExcess n c = { c with samples := (dropExcess n c).samples } := by
  intro k
  induction k using Nat.strong_induction_on with
  | _ k ih =>
    intro c hk
    by_cases h : c.SampleCount > n
    · have hlt : c.ShiftSample.SampleCount < k := by
        rw [← hk]
        simp only [CalibrationCalc.SampleCount, CalibrationCalc.ShiftSample,
          List.length_tail] at h ⊢
        omega
      have hstep : dropExcess n c = dropExcess n c.ShiftSample := by
        rw [dropExcess, dif_pos h]
      have h2 := ih _ hlt c.ShiftSample rfl
      rw [hstep, h2]
      rfl
    · have hstep : dropExcess n c = c := by
        rw [dropExcess, dif_neg h]
      rw [hstep]

/-- Dropping the excess Samples writes the window and nothing else. -/
theorem dropExcess_eq (n : Nat) (c : CalibrationCalc α) :
    dropExcess n c = { c with samples := (dropExcess n c).samples } :=
  dropExcess_eq_aux n _ c rfl

/-- A window that holds at most the configured count loses no Sample to the loop of lines
676-679. -/
theorem dropExcess_of_le (n : Nat) (c : CalibrationCalc α) (h : c.SampleCount ≤ n) :
    dropExcess n c = c := by
  rw [dropExcess, dif_neg (by omega)]

end ContinuousRejected

section ContinuousRejectedClaim
variable {α : Type} [LinearOrderedField α]

/-- C13: a tick in the state `Continuous` that is not skipped and collects a valid Sample, and
in which `ComputeIncremental` (called on the window after the new Sample is pushed and the
excess dropped, with the two flags set from the context) returns false or leaves an estimate
that is not valid, leaves `calibratedRotation`, `calibratedTranslation`, `refToTargetPose`,
`relativePosCalibrated`, `validProfile` and `hasAppliedCalibrationResult` as they were; the
drop stride removes nothing: the window after the tick is the window on which the solve ran,
and `samples` has only gained the new Sample. The state is still `Continuous`, and no profile
is saved. Here `w3` are the globals after lines 491-512, `sample` is the Sample of lines
296-307 and `window` is the window of the estimator when line 694 is reached. -/
theorem CalibrationTick_continuous_rejected (N : Numerics α) (env : TickEnv α) (time : α)
    (w w3 : World α) (reference target : DriverPose α) (sample : Sample α)
    (window : CalibrationCalc α)
    (hvr : env.vrSystem = true) (hgate : ¬ (time - w.CalCtx.timeLastTick) < 1 / 20)
    (hmove : hmdStalled { w with CalCtx := { w.CalCtx with devicePoses := env.rawPoses } }
      = false)
    (hc : w.CalCtx.state = CalibrationState.Continuous)
    (hread : tickReadPoses env (tickPrologue time w) = some w3)
    (href : arrayAt w3.CalCtx.driverPoses w.CalCtx.referenceID = some reference)
    (htarget : arrayAt w3.CalCtx.driverPoses w.CalCtx.targetID = some target)
    (hrv : reference.poseIsValid = true) (htv : target.poseIsValid = true)
    (hsample : sample = Sample.make
      (ConvertPose
        { reference with vecPosition :=
            ![reference.vecPosition 0 + w.CalCtx.continuousCalibrationOffset 0,
              reference.vecPosition 1 + w.CalCtx.continuousCalibrationOffset 1,
              reference.vecPosition 2 + w.CalCtx.continuousCalibrationOffset 2] })
      (ConvertPose target) env.glfwGetTime)
    (hwindow : window = dropExcess w.CalCtx.sampleCount (w.calibration.PushSample sample))
    (hfail : (env.ComputeIncremental
          { window with
            enableStaticRecalibration := w.CalCtx.enableStaticRecalibration,
            lockRelativePosition := w.CalCtx.lockRelativePosition }
          w.CalCtx.continuousCalibrationThreshold w.CalCtx.maxRelativeErrorThreshold
          w.CalCtx.ignoreOutliers).1 = false ∨
        (env.ComputeIncremental
          { window with
            enableStaticRecalibration := w.CalCtx.enableStaticRecalibration,
            lockRelativePosition := w.CalCtx.lockRelativePosition }
          w.CalCtx.continuousCalibrationThreshold w.CalCtx.maxRelativeErrorThreshold
          w.CalCtx.ignoreOutliers).2.2.isValid = false) :
    ∃ w', CalibrationTick N env time w = some w' ∧
      w'.CalCtx.state = CalibrationState.Continuous ∧
      w'.CalCtx.calibratedRotation = w.CalCtx.calibratedRotation ∧
      w'.CalCtx.calibratedTranslation = w.CalCtx.calibratedTranslation ∧
      w'.CalCtx.refToTargetPose = w.CalCtx.refToTargetPose ∧
      w'.CalCtx.relativePosCalibrated = w.CalCtx.relativePosCalibrated ∧
      w'.CalCtx.validProfile = w.CalCtx.validProfile ∧
      w'.CalCtx.hasAppliedCalibrationResult = w.CalCtx.hasAppliedCalibrationResult ∧
      w'.calibration.samples = window.samples ∧
      w'.samples = w.samples ++ [sample] ∧
      w'.savedProfiles = w.savedProfiles := by
  have hn : w.CalCtx.state ≠ CalibrationState.None := by rw [hc]; decide
  have he : w.CalCtx.state ≠ CalibrationState.Editing := by rw [hc]; decide
  have hb : w.CalCtx.state ≠ CalibrationState.Begin := by rw [hc]; decide
  obtain ⟨w5, c, a, x, y, z, ms, lr, lt, di, e, t, s, ch, htick, hw5⟩ :=
    tick_collecting N env time w w3 hvr hgate hread hmove hn he hb
  have e_cal : w5.calibration = w.calibration := by rw [hw5]
  have e_smp : w5.samples = w.samples := by rw [hw5]
  have e_st : w5.CalCtx.state = w.CalCtx.state := by rw [hw5]
  have e_ref : w5.CalCtx.referenceID = w.CalCtx.referenceID := by rw [hw5]
  have e_tgt : w5.CalCtx.targetID = w.CalCtx.targetID := by rw [hw5]
  have e_drv : w5.CalCtx.driverPoses = w3.CalCtx.driverPoses := by rw [hw5]
  have e_cnt : w5.CalCtx.sampleCount = w.CalCtx.sampleCount := by rw [hw5]
  have e_off : w5.CalCtx.continuousCalibrationOffset = w.CalCtx.continuousCalibrationOffset := by
    rw [hw5]
  obtain ⟨wpush, wfull, ms2, c2, hcol, hwp, hwf⟩ := tickCollect_valid N env w5 reference target
    (by rw [e_drv, e_ref]; exact href) (by rw [e_drv, e_tgt]; exact htarget) hrv htv sample
    (by rw [e_st, if_pos (Or.inl hc), e_off]; exact hsample)
  rw [htick, hcol]
  by_cases hcount : (w5.calibration.PushSample sample).SampleCount < w5.CalCtx.sampleCount
  · rw [if_pos hcount]
    have hwin : window = w.calibration.PushSample sample := by
      rw [hwindow]
      apply dropExcess_of_le
      rw [e_cal, e_cnt] at hcount
      exact le_of_lt hcount
    refine ⟨wpush, rfl, ?_, ?_, ?_, ?_, ?_, ?_, ?_, ?_, ?_, ?_⟩
    · rw [hwp, hw5]; exact hc
    · rw [hwp, hw5]
    · rw [hwp, hw5]
    · rw [hwp, hw5]
    · rw [hwp, hw5]
    · rw [hwp, hw5]
    · rw [hwp, hw5]
    · rw [hwp, hwin, ← e_cal]
    · rw [hwp, ← e_smp]
    · rw [hwp, hw5]
  · rw [if_neg hcount]
    have f_cal : wfull.calibration = window := by
      rw [hwf, hwindow, ← e_cal, ← e_cnt]
    have f_st : wfull.CalCtx.state = CalibrationState.Continuous := by
      rw [hwf]; exact e_st.trans hc
    have f_es : wfull.CalCtx.enableStaticRecalibration = w.CalCtx.enableStaticRecalibration := by
      rw [hwf, hw5]
    have f_lk : wfull.CalCtx.lockRelativePosition = w.CalCtx.lockRelativePosition := by
      rw [hwf, hw5]
    have f_thr : wfull.CalCtx.continuousCalibrationThreshold
        = w.CalCtx.continuousCalibrationThreshold := by rw [hwf, hw5]
    have f_err : wfull.CalCtx.maxRelativeErrorThreshold = w.CalCtx.maxRelativeErrorThreshold := by
      rw [hwf, hw5]
    have f_ign : wfull.CalCtx.ignoreOutliers = w.CalCtx.ignoreOutliers := by rw [hwf, hw5]
    obtain ⟨ms3, c3, es, lk, est, hsolve⟩ := tickSolve_continuous_rejected N env wfull f_st
      (by rw [f_cal, f_es, f_lk, f_thr, f_err, f_ign]; exact hfail)
    refine ⟨_, rfl, ?_, ?_, ?_, ?_, ?_, ?_, ?_, ?_, ?_, ?_⟩
    · rw [hsolve]; exact f_st
    · rw [hsolve, hwf, hw5]
    · rw [hsolve, hwf, hw5]
    · rw [hsolve, hwf, hw5]
    · rw [hsolve, hwf, hw5]
    · rw [hsolve, hwf, hw5]
    · rw [hsolve, hwf, hw5]
    · rw [hsolve]
      show wfull.calibration.samples = window.samples
      rw [f_cal]
    · rw [hsolve, hwf, ← e_smp]
    · rw [hsolve, hwf, hw5]

end ContinuousRejectedClaim

section StandbyClaim
variable {α : Type} [LinearOrderedField α]

/-- A tick that is not skipped, in a collecting state other than `Continuous`, with a driver
pose that is not valid: the state becomes `None` and nothing is pushed. -/
theorem CalibrationTick_collect_invalid (N : Numerics α) (env : TickEnv α) (time : α)
    (w w3 : World α) (reference target : DriverPose α)
    (hvr : env.vrSystem = true) (hgate : ¬ (time - w.CalCtx.timeLastTick) < 1 / 20)
    (hmove : hmdStalled { w with CalCtx := { w.CalCtx with devicePoses := env.rawPoses } }
      = false)
    (hn : w.CalCtx.state ≠ CalibrationState.None)
    (he : w.CalCtx.state ≠ CalibrationState.Editing)
    (hb : w.CalCtx.state ≠ CalibrationState.Begin)
    (hnc : w.CalCtx.state ≠ CalibrationState.Continuous)
    (hread : tickReadPoses env (tickPrologue time w) = some w3)
    (href : arrayAt w3.CalCtx.driverPoses w.CalCtx.referenceID = some reference)
    (htarget : arrayAt w3.CalCtx.driverPoses w.CalCtx.targetID = some target)
    (hinv : reference.poseIsValid = false ∨ target.poseIsValid = false) :
    ∃ w', CalibrationTick N env time w = some w' ∧ w'.CalCtx.state = CalibrationState.None ∧
      w'.calibration = w.calibration ∧ w'.samples = w.samples := by
  obtain ⟨w5, c, a, x, y, z, ms, lr, lt, di, e, t, s, ch, htick, hw5⟩ :=
    tick_collecting N env time w w3 hvr hgate hread hmove hn he hb
  have e_cal : w5.calibration = w.calibration := by rw [hw5]
  have e_smp : w5.samples = w.samples := by rw [hw5]
  have e_st : w5.CalCtx.state = w.CalCtx.state := by rw [hw5]
  have e_ref : w5.CalCtx.referenceID = w.CalCtx.referenceID := by rw [hw5]
  have e_tgt : w5.CalCtx.targetID = w.CalCtx.targetID := by rw [hw5]
  have e_drv : w5.CalCtx.driverPoses = w3.CalCtx.driverPoses := by rw [hw5]
  obtain ⟨w', h1, h2, h3, h4, -⟩ := tickCollect_invalid N env w5 reference target
    (by rw [e_drv, e_ref]; exact href) (by rw [e_drv, e_tgt]; exact htarget) hinv
    (by rw [e_st]; exact hnc)
  exact ⟨w', htick.trans h1, h2, h3.trans e_cal, h4.trans e_smp⟩

/-- A tick that is not skipped, in a collecting state, with both driver poses valid and a
window that the new Sample does not fill: the Sample is pushed into the window and into
`samples`, and the state stays. -/
theorem CalibrationTick_collect_push (N : Numerics α) (env : TickEnv α) (time : α)
    (w w3 : World α) (reference target : DriverPose α) (sample : Sample α)
    (hvr : env.vrSystem = true) (hgate : ¬ (time - w.CalCtx.timeLastTick) < 1 / 20)
    (hmove : hmdStalled { w with CalCtx := { w.CalCtx with devicePoses := env.rawPoses } }
      = false)
    (hn : w.CalCtx.state ≠ CalibrationState.None)
    (he : w.CalCtx.state ≠ CalibrationState.Editing)
    (hb : w.CalCtx.state ≠ CalibrationState.Begin)
    (hread : tickReadPoses env (tickPrologue time w) = some w3)
    (href : arrayAt w3.CalCtx.driverPoses w.CalCtx.referenceID = some reference)
    (htarget : arrayAt w3.CalCtx.driverPoses w.CalCtx.targetID = some target)
    (hrv : reference.poseIsValid = true) (htv : target.poseIsValid = true)
    (hsample : sample = Sample.make
        (ConvertPose
          (if w.CalCtx.state = CalibrationState.Continuous ∨
              w.CalCtx.state = CalibrationState.ContinuousStandby then
            { reference with vecPosition :=
                ![reference.vecPosition 0 + w.CalCtx.continuousCalibrationOffset 0,
                  reference.vecPosition 1 + w.CalCtx.continuousCalibrationOffset 1,
                  reference.vecPosition 2 + w.CalCtx.continuousCalibrationOffset 2] }
          else reference))
        (ConvertPose target) env.glfwGetTime)
    (hroom : w.calibration.SampleCount + 1 < w.CalCtx.sampleCount) :
    ∃ w', CalibrationTick N env time w = some w' ∧ w'.CalCtx.state = w.CalCtx.state ∧
      w'.calibration.samples = w.calibration.samples ++ [sample] ∧
      w'.samples = w.samples ++ [sample] := by
  obtain ⟨w5, c, a, x, y, z, ms, lr, lt, di, e, t, s, ch, htick, hw5⟩ :=
    tick_collecting N env time w w3 hvr hgate hread hmove hn he hb
  have e_cal : w5.calibration = w.calibration := by rw [hw5]
  have e_smp : w5.samples = w.samples := by rw [hw5]
  have e_st : w5.CalCtx.state = w.CalCtx.state := by rw [hw5]
  have e_ref : w5.CalCtx.referenceID = w.CalCtx.referenceID := by rw [hw5]
  have e_tgt : w5.CalCtx.targetID = w.CalCtx.targetID := by rw [hw5]
  have e_drv : w5.CalCtx.driverPoses = w3.CalCtx.driverPoses := by rw [hw5]
  have e_cnt : w5.CalCtx.sampleCount = w.CalCtx.sampleCount := by rw [hw5]
  have e_off : w5.CalCtx.continuousCalibrationOffset = w.CalCtx.continuousCalibrationOffset := by
    rw [hw5]
  obtain ⟨wpush, wfull, ms2, c2, hcol, hwp, -⟩ := tickCollect_valid N env w5 reference target
    (by rw [e_drv, e_ref]; exact href) (by rw [e_drv, e_tgt]; exact htarget) hrv htv sample
    (by rw [e_st, e_off]; exact hsample)
  have hcount : (w5.calibration.PushSample sample).SampleCount < w5.CalCtx.sampleCount := by
    rw [e_cal, e_cnt]
    simp only [CalibrationCalc.SampleCount, CalibrationCalc.PushSample, List.length_append,
      List.length_singleton] at hroom ⊢
    exact hroom
  rw [htick, hcol, if_pos hcount]
  refine ⟨wpush, rfl, ?_, ?_, ?_⟩
  · rw [hwp]; exact e_st
  · rw [hwp, ← e_cal]; rfl
  · rw [hwp, ← e_smp]

/-- A tick that is not skipped, in a collecting state other than `Continuous`, with both driver
poses valid and a window that the new Sample fills: the one-shot solve runs, the window and
`samples` are emptied and the state becomes `None`. -/
theorem CalibrationTick_collect_solve (N : Numerics α) (env : TickEnv α) (time : α)
    (w w3 : World α) (reference target : DriverPose α) (sample : Sample α)
    (hvr : env.vrSystem = true) (hgate : ¬ (time - w.CalCtx.timeLastTick) < 1 / 20)
    (hmove : hmdStalled { w with CalCtx := { w.CalCtx with devicePoses := env.rawPoses } }
      = false)
    (hn : w.CalCtx.state ≠ CalibrationState.None)
    (he : w.CalCtx.state ≠ CalibrationState.Editing)
    (hb : w.CalCtx.state ≠ CalibrationState.Begin)
    (hnc : w.CalCtx.state ≠ CalibrationState.Continuous)
    (hread : tickReadPoses env (tickPrologue time w) = some w3)
    (href : arrayAt w3.CalCtx.driverPoses w.CalCtx.referenceID = some reference)
    (htarget : arrayAt w3.CalCtx.driverPoses w.CalCtx.targetID = some target)
    (hrv : reference.poseIsValid = true) (htv : target.poseIsValid = true)
    (hsample : sample = Sample.make
        (ConvertPose
          (if w.CalCtx.state = CalibrationState.Continuous ∨
              w.CalCtx.state = CalibrationState.ContinuousStandby then
            { reference with vecPosition :=
                ![reference.vecPosition 0 + w.CalCtx.continuousCalibrationOffset 0,
                  reference.vecPosition 1 + w.CalCtx.continuousCalibrationOffset 1,
                  reference.vecPosition 2 + w.CalCtx.continuousCalibrationOffset 2] }
          else reference))
        (ConvertPose target) env.glfwGetTime)
    (hinv : w.calibration.SampleCount ≤ w.samples.length)
    (hfull : w.CalCtx.sampleCount ≤ w.calibration.SampleCount + 1) :
    ∃ w', CalibrationTick N env time w = some w' ∧ w'.CalCtx.state = CalibrationState.None ∧
      w'.calibration.samples = [] ∧ w'.samples = [] := by
  obtain ⟨w5, c, a, x, y, z, ms, lr, lt, di, e, t, s, ch, htick, hw5⟩ :=
    tick_collecting N env time w w3 hvr hgate hread hmove hn he hb
  have e_cal : w5.calibration = w.calibration := by rw [hw5]
  have e_smp : w5.samples = w.samples := by rw [hw5]
  have e_st : w5.CalCtx.state = w.CalCtx.state := by rw [hw5]
  have e_ref : w5.CalCtx.referenceID = w.CalCtx.referenceID := by rw [hw5]
  have e_tgt : w5.CalCtx.targetID = w.CalCtx.targetID := by rw [hw5]
  have e_drv : w5.CalCtx.driverPoses = w3.CalCtx.driverPoses := by rw [hw5]
  have e_cnt : w5.CalCtx.sampleCount = w.CalCtx.sampleCount := by rw [hw5]
  have e_off : w5.CalCtx.continuousCalibrationOffset = w.CalCtx.continuousCalibrationOffset := by
    rw [hw5]
  obtain ⟨wpush, wfull, ms2, c2, hcol, -, hwf⟩ := tickCollect_valid N env w5 reference target
    (by rw [e_drv, e_ref]; exact href) (by rw [e_drv, e_tgt]; exact htarget) hrv htv sample
    (by rw [e_st, e_off]; exact hsample)
  have f_st : wfull.CalCtx.state = w.CalCtx.state := by rw [hwf]; exact e_st
  have f_cnt : wfull.CalCtx.sampleCount = w.CalCtx.sampleCount := by rw [hwf]; exact e_cnt
  have f_len : wfull.samples.length = w.samples.length + 1 := by
    rw [hwf]
    show (w5.samples ++ [sample]).length = _
    rw [List.length_append, List.length_singleton, e_smp]
  have hcount : ¬ (w5.calibration.PushSample sample).SampleCount < w5.CalCtx.sampleCount := by
    rw [e_cal, e_cnt]
    simp only [CalibrationCalc.SampleCount, CalibrationCalc.PushSample, List.length_append,
      List.length_singleton, not_lt] at hfull ⊢
    exact hfull
  rw [htick, hcol, if_neg hcount]
  have hlen : wfull.samples.length ≥ wfull.CalCtx.sampleCount := by
    simp only [CalibrationCalc.SampleCount] at hinv hfull
    rw [f_len, f_cnt]
    omega
  obtain ⟨a1, a2, a3, -, -⟩ := tickSolve_oneshot N env wfull (by rw [f_st]; exact hnc) hlen
  exact ⟨_, rfl, a1, a2, a3⟩

end StandbyClaim

section StandbyClaim2
variable {α : Type} [LinearOrderedField α]

/-- A tick that is not skipped, in a collecting state, with both driver poses valid, has a
result. -/
theorem CalibrationTick_collect_valid_isSome (N : Numerics α) (env : TickEnv α) (time : α)
    (w w3 : World α) (reference target : DriverPose α)
    (hvr : env.vrSystem = true) (hgate : ¬ (time - w.CalCtx.timeLastTick) < 1 / 20)
    (hmove : hmdStalled { w with CalCtx := { w.CalCtx with devicePoses := env.rawPoses } }
      = false)
    (hn : w.CalCtx.state ≠ CalibrationState.None)
    (he : w.CalCtx.state ≠ CalibrationState.Editing)
    (hb : w.CalCtx.state ≠ CalibrationState.Begin)
    (hread : tickReadPoses env (tickPrologue time w) = some w3)
    (href : arrayAt w3.CalCtx.driverPoses w.CalCtx.referenceID = some reference)
    (htarget : arrayAt w3.CalCtx.driverPoses w.CalCtx.targetID = some target)
    (hrv : reference.poseIsValid = true) (htv : target.poseIsValid = true) :
    ∃ w', CalibrationTick N env time w = some w' := by
  obtain ⟨w5, c, a, x, y, z, ms, lr, lt, di, e, t, s, ch, htick, hw5⟩ :=
    tick_collecting N env time w w3 hvr hgate hread hmove hn he hb
  have e_ref : w5.CalCtx.referenceID = w.CalCtx.referenceID := by rw [hw5]
  have e_tgt : w5.CalCtx.targetID = w.CalCtx.targetID := by rw [hw5]
  have e_drv : w5.CalCtx.driverPoses = w3.CalCtx.driverPoses := by rw [hw5]
  obtain ⟨wpush, wfull, ms2, c2, hcol, -, -⟩ := tickCollect_valid N env w5 reference target
    (by rw [e_drv, e_ref]; exact href) (by rw [e_drv, e_tgt]; exact htarget) hrv htv _ rfl
  exact ⟨_, htick.trans hcol⟩

/-- C16 (amended): in the state `ContinuousStandby` the collection of Samples is not
suppressed. A tick that is not skipped runs the periodic scan and then collects a Sample as
the one-shot states do, the reference moved by `continuousCalibrationOffset`: when the
reference or the target driver pose is not valid, the state becomes `None` and nothing is
pushed; when both are valid the Sample is pushed into the window and into `samples`, and the
state is still `ContinuousStandby` only while the window is not yet full; once the window holds
the configured count the one-shot solve runs, the window is emptied and the state becomes
`None`. Here `w3` are the globals after lines 491-512, whose `driverPoses` the tick collects
from, and `sample` is the Sample of lines 296-307. -/
theorem CalibrationTick_standby_collects (N : Numerics α) (env : TickEnv α) (time : α)
    (w w3 : World α) (reference target : DriverPose α) (sample : Sample α)
    (hvr : env.vrSystem = true) (hgate : ¬ (time - w.CalCtx.timeLastTick) < 1 / 20)
    (hmove : hmdStalled { w with CalCtx := { w.CalCtx with devicePoses := env.rawPoses } }
      = false)
    (hs : w.CalCtx.state = CalibrationState.ContinuousStandby)
    (hread : tickReadPoses env (tickPrologue time w) = some w3)
    (href : arrayAt w3.CalCtx.driverPoses w.CalCtx.referenceID = some reference)
    (htarget : arrayAt w3.CalCtx.driverPoses w.CalCtx.targetID = some target)
    (hsample : sample = Sample.make
      (ConvertPose
        { reference with vecPosition :=
            ![reference.vecPosition 0 + w.CalCtx.continuousCalibrationOffset 0,
              reference.vecPosition 1 + w.CalCtx.continuousCalibrationOffset 1,
              reference.vecPosition 2 + w.CalCtx.continuousCalibrationOffset 2] })
      (ConvertPose target) env.glfwGetTime) :
    ∃ w', CalibrationTick N env time w = some w' ∧
      ((reference.poseIsValid = false ∨ target.poseIsValid = false) →
        w'.CalCtx.state = CalibrationState.None ∧ w'.calibration = w.calibration ∧
          w'.samples = w.samples) ∧
      (reference.poseIsValid = true → target.poseIsValid = true →
        w.calibration.SampleCount + 1 < w.CalCtx.sampleCount →
        w'.CalCtx.state = CalibrationState.ContinuousStandby ∧
          w'.calibration.samples = w.calibration.samples ++ [sample] ∧
          w'.samples = w.samples ++ [sample]) ∧
      (reference.poseIsValid = true → target.poseIsValid = true →
        w.CalCtx.sampleCount ≤ w.calibration.SampleCount + 1 →
        w.calibration.SampleCount ≤ w.samples.length →
        w'.CalCtx.state = CalibrationState.None ∧ w'.calibration.samples = [] ∧
          w'.samples = []) := by
  have hn : w.CalCtx.state ≠ CalibrationState.None := by rw [hs]; decide
  have he : w.CalCtx.state ≠ CalibrationState.Editing := by rw [hs]; decide
  have hb : w.CalCtx.state ≠ CalibrationState.Begin := by rw [hs]; decide
  have hnc : w.CalCtx.state ≠ CalibrationState.Continuous := by rw [hs]; decide
  have hsample' : sample = Sample.make
      (ConvertPose
        (if w.CalCtx.state = CalibrationState.Continuous ∨
            w.CalCtx.state = CalibrationState.ContinuousStandby then
          { reference with vecPosition :=
              ![reference.vecPosition 0 + w.CalCtx.continuousCalibrationOffset 0,
                reference.vecPosition 1 + w.CalCtx.continuousCalibrationOffset 1,
                reference.vecPosition 2 + w.CalCtx.continuousCalibrationOffset 2] }
        else reference))
      (ConvertPose target) env.glfwGetTime := by
    rw [if_pos (Or.inr hs)]; exact hsample
  by_cases hval : reference.poseIsValid = true ∧ target.poseIsValid = true
  · obtain ⟨hrv, htv⟩ := hval
    have hnot : ¬ (reference.poseIsValid = false ∨ target.poseIsValid = false) := by
      rw [hrv, htv]; simp
    by_cases hroom : w.calibration.SampleCount + 1 < w.CalCtx.sampleCount
    · obtain ⟨w', h1, h2, h3, h4⟩ := CalibrationTick_collect_push N env time w w3 reference
        target sample hvr hgate hmove hn he hb hread href htarget hrv htv hsample' hroom
      refine ⟨w', h1, fun h => absurd h hnot, fun _ _ _ => ⟨h2.trans hs, h3, h4⟩, ?_⟩
      intro _ _ hfull _
      omega
    · by_cases hinv : w.calibration.SampleCount ≤ w.samples.length
      · obtain ⟨w', h1, h2, h3, h4⟩ := CalibrationTick_collect_solve N env time w w3 reference
          target sample hvr hgate hmove hn he hb hnc hread href htarget hrv htv hsample' hinv
          (by omega)
        exact ⟨w', h1, fun h => absurd h hnot, fun _ _ h => absurd h hroom,
          fun _ _ _ _ => ⟨h2, h3, h4⟩⟩
      · obtain ⟨w', h1⟩ := CalibrationTick_collect_valid_isSome N env time w w3 reference
          target hvr hgate hmove hn he hb hread href htarget hrv htv
        exact ⟨w', h1, fun h => absurd h hnot, fun _ _ h => absurd h hroom,
          fun _ _ _ h => absurd h hinv⟩
  · have hinvalid : reference.poseIsValid = false ∨ target.poseIsValid = false := by
      cases hr : reference.poseIsValid
      · exact Or.inl rfl
      · cases ht : target.poseIsValid
        · exact Or.inr rfl
        · exact absurd ⟨hr, ht⟩ hval
    obtain ⟨w', h1, h2, h3, h4⟩ := CalibrationTick_collect_invalid N env time w w3 reference
      target hvr hgate hmove hn he hb hnc hread href htarget hinvalid
    refine ⟨w', h1, fun _ => ⟨h2, h3, h4⟩, ?_, ?_⟩
    · intro hrv htv
      exact absurd ⟨hrv, htv⟩ hval
    · intro hrv htv
      exact absurd ⟨hrv, htv⟩ hval

end StandbyClaim2

section WindowInvariant
variable {α : Type} [LinearOrderedField α]

theorem dropExcess_length_le_aux (n : Nat) :
    ∀ (k : Nat) (c : CalibrationCalc α), c.SampleCount = k →
      (dropExcess n c).SampleCount ≤ c.SampleCount := by
  intro k
  induction k using Nat.strong_induction_on with
  | _ k ih =>
    intro c hk
    by_cases h : c.SampleCount > n
    · have hle : c.ShiftSample.SampleCount ≤ c.SampleCount := by
        simp only [CalibrationCalc.SampleCount, CalibrationCalc.ShiftSample, List.length_tail]
        omega
      have hlt : c.ShiftSample.SampleCount < k := by
        rw [← hk]
        simp only [CalibrationCalc.SampleCount, CalibrationCalc.ShiftSample,
          List.length_tail] at h ⊢
        omega
      have hstep : dropExcess n c = dropExcess n c.ShiftSample := by
        rw [dropExcess, dif_pos h]
      rw [hstep]
      exact le_trans (ih _ hlt c.ShiftSample rfl) hle
    · have hstep : dropExcess n c = c := by
        rw [dropExcess, dif_neg h]
      rw [hstep]

/-- The loop of lines 676-679 does not lengthen the window. -/
theorem dropExcess_length_le (n : Nat) (c : CalibrationCalc α) :
    (dropExcess n c).SampleCount ≤ c.SampleCount :=
  dropExcess_length_le_aux n _ c rfl

/-- The drop stride keeps `samples` at least as long as the window. -/
theorem dropStride_window_le (n : Nat) :
    ∀ w : World α, w.calibration.SampleCount ≤ w.samples.length →
      (dropStride n w).calibration.SampleCount ≤ (dropStride n w).samples.length := by
  induction n with
  | zero => intro w h; exact h
  | succ n ih =>
    intro w h
    unfold dropStride
    split
    · exact h
    · apply ih
      simp only [CalibrationCalc.SampleCount, CalibrationCalc.ShiftSample,
        List.length_tail] at h ⊢
      omega

/-- The solve of lines 681-746 keeps `samples` at least as long as the window. -/
theorem tickSolve_window_le (N : Numerics α) (env : TickEnv α) (w : World α)
    (h : w.calibration.SampleCount ≤ w.samples.length) :
    (tickSolve N env w).calibration.SampleCount ≤ (tickSolve N env w).samples.length := by
  have hcompute : (tickCompute env (w.Log LogMsg.newline)).2.calibration.SampleCount
        = w.calibration.SampleCount ∧
      (tickCompute env (w.Log LogMsg.newline)).2.samples = w.samples := by
    unfold tickCompute
    simp only
    split
    · exact ⟨rfl, rfl⟩
    · exact ⟨rfl, rfl⟩
  unfold tickSolve
  split
  · simp only
    split
    · -- accepted
      obtain ⟨e, s, ch, h5⟩ := ScanAndApplyProfile_eq N env
        (tickStoreResult (tickCompute env (w.Log LogMsg.newline)).2)
      unfold tickAccept
      simp only
      split
      · apply dropStride_window_le
        rw [h5]
        show (tickCompute env (w.Log LogMsg.newline)).2.calibration.SampleCount
          ≤ (tickCompute env (w.Log LogMsg.newline)).2.samples.length
        rw [hcompute.1, hcompute.2]
        exact h
      · exact Nat.zero_le _
    · -- rejected
      unfold tickReject
      split
      · exact Nat.zero_le _
      · rw [hcompute.1, hcompute.2]
        exact h
  · exact h

/-- The collection of lines 656-746 keeps `samples` at least as long as the window. -/
theorem tickCollect_window_le (N : Numerics α) (env : TickEnv α) (w w' : World α)
    (h : w.calibration.SampleCount ≤ w.samples.length)
    (hw : tickCollect N env w = some w') :
    w'.calibration.SampleCount ≤ w'.samples.length := by
  unfold tickCollect at hw
  cases hcs : CollectSample env w.CalCtx with
  | none => rw [hcs] at hw; simp at hw
  | some r =>
    rw [hcs] at hw
    simp only [Option.map_some', Option.some.injEq] at hw
    rw [← hw]
    split
    · exact h
    · have hpush : (w.calibration.PushSample r.2).SampleCount ≤ (w.samples ++ [r.2]).length := by
        simp only [CalibrationCalc.SampleCount, CalibrationCalc.PushSample, List.length_append,
          List.length_singleton] at h ⊢
        omega
      split
      · exact hpush
      · apply tickSolve_window_le
        exact le_trans (dropExcess_length_le _ _) hpush

theorem tickScan_window_le (N : Numerics α) (env : TickEnv α) (time i : α) (v : World α)
    (hv : v.calibration.SampleCount ≤ v.samples.length) :
    (tickScan N env time i v).calibration.SampleCount
      ≤ (tickScan N env time i v).samples.length := by
  obtain ⟨e, t, s, ch, h6⟩ := tickScan_eq N env time i v
  rw [h6]; exact hv

/-- The work of the current state (lines 565-746) keeps `samples` at least as long as the
window. -/
theorem tickStateWork_window_le (N : Numerics α) (env : TickEnv α) (time : α) (w5 w' : World α)
    (h : w5.calibration.SampleCount ≤ w5.samples.length)
    (hw : tickStateWork N env time w5 = some w') :
    w'.calibration.SampleCount ≤ w'.samples.length := by
  have key : ∀ w6 : World α, w6.calibration.SampleCount ≤ w6.samples.length →
      (if w6.CalCtx.state = CalibrationState.None then
        some (tickScan N env time 1
          { w6 with CalCtx := { w6.CalCtx with wantedUpdateInterval := 1 } })
      else if w6.CalCtx.state = CalibrationState.Editing then
        some (tickScan N env time (1 / 10)
          { w6 with CalCtx := { w6.CalCtx with wantedUpdateInterval := 1 / 10 } })
      else if w6.CalCtx.state = CalibrationState.Begin then tickBegin env w6
      else tickCollect N env w6) = some w' →
      w'.calibration.SampleCount ≤ w'.samples.length := by
    intro w6 h6 hw6
    split at hw6
    · rw [← Option.some.inj hw6]
      exact tickScan_window_le N env time 1 _ h6
    · split at hw6
      · rw [← Option.some.inj hw6]
        exact tickScan_window_le N env time _ _ h6
      · split at hw6
        · rename_i hbegin
          obtain ⟨b1, b2, -, -⟩ := tickBegin_spec env w6 w' hbegin hw6
          rw [b1, b2]
          exact h6
        · exact tickCollect_window_le N env w6 w' h6 hw6
  refine key _ ?_ hw
  split
  · exact tickScan_window_le N env time 1 _ h
  · exact h

/-- The list `samples` of line 665 is never shorter than the window of the estimator: a tick
keeps it so, whatever the state. Both are empty when the process starts. -/
theorem CalibrationTick_window_le (N : Numerics α) (env : TickEnv α) (time : α) (w w' : World α)
    (h : w.calibration.SampleCount ≤ w.samples.length)
    (hw : CalibrationTick N env time w = some w') :
    w'.calibration.SampleCount ≤ w'.samples.length := by
  unfold CalibrationTick at hw
  split at hw
  · rw [← Option.some.inj hw]; exact h
  · split at hw
    · rw [← Option.some.inj hw]; exact h
    · obtain ⟨w3, hr, -⟩ := tickReadPoses_some env (tickPrologue time w)
      obtain ⟨c, a, x, y, z, h4⟩ := tick_entry env time w w3 hr
      obtain ⟨c3, a3, h3⟩ := tickReadPoses_prologue_eq env time w w3 hr
      obtain ⟨ms, c5, lr, lt, di, h5⟩ := tickDiagnostic_eq (tickStoreHmd w3)
      conv_rhs at h5 => rw [h4]
      rw [hr, Option.some_bind] at hw
      unfold tickDispatch at hw
      split at hw
      · rw [← Option.some.inj hw, h3]; exact h
      · have h5i : (tickDiagnostic (tickStoreHmd w3)).calibration.SampleCount
            ≤ (tickDiagnostic (tickStoreHmd w3)).samples.length := by
          rw [h5]; exact h
        exact tickStateWork_window_le N env time _ w' h5i hw

/-- Starting a calibration empties the window and leaves `samples` alone. -/
theorem StartCalibration_window_le (env : TickEnv α) (w : World α) :
    (StartCalibration env w).calibration.SampleCount ≤ (StartCalibration env w).samples.length :=
  Nat.zero_le _

theorem StartContinuousCalibration_window_le (env : TickEnv α) (w : World α) :
    (StartContinuousCalibration env w).calibration.SampleCount
      ≤ (StartContinuousCalibration env w).samples.length := by
  unfold StartContinuousCalibration
  simp only
  split <;> exact Nat.zero_le _

end WindowInvariant

section Unmapped
variable {α : Type} [LinearOrderedField α]

/-- A reader that has nothing mapped leaves `driverPoses` as it is (line 291). -/
theorem tickReadPoses_prologue_unmapped (env : TickEnv α) (time : α) (w : World α)
    (hm : w.shmem.mapped = false) :
    ∃ w3, tickReadPoses env (tickPrologue time w) = some w3 ∧
      w3.CalCtx.driverPoses = w.CalCtx.driverPoses := by
  obtain ⟨c, a, hp⟩ := tickPrologue_eq time w
  rw [hp]
  unfold tickReadPoses ReadNewPoses
  simp only [hm, Bool.not_false, ↓reduceIte, Option.map_some']
  exact ⟨_, rfl, rfl⟩

/-- The collection of lines 656-746 reads outside `driverPoses` when the reference id is not an
index of the array. -/
theorem tickCollect_out_of_range (N : Numerics α) (env : TickEnv α) (w : World α)
    (href : arrayAt w.CalCtx.driverPoses w.CalCtx.referenceID = none) :
    tickCollect N env w = none := by
  unfold tickCollect CollectSample
  rw [href]
  rfl

/-- A collecting tick whose reference id is not an index of `driverPoses` has no defined
result. -/
theorem CalibrationTick_out_of_range (N : Numerics α) (env : TickEnv α) (time : α) (w : World α)
    (hvr : env.vrSystem = true) (hgate : ¬ (time - w.CalCtx.timeLastTick) < 1 / 20)
    (hmove : hmdStalled { w with CalCtx := { w.CalCtx with devicePoses := env.rawPoses } }
      = false)
    (hn : w.CalCtx.state ≠ CalibrationState.None)
    (he : w.CalCtx.state ≠ CalibrationState.Editing)
    (hb : w.CalCtx.state ≠ CalibrationState.Begin)
    (href : ¬ (0 ≤ w.CalCtx.referenceID ∧ w.CalCtx.referenceID < 64)) :
    CalibrationTick N env time w = none := by
  obtain ⟨w3, hread, -⟩ := tickReadPoses_some env (tickPrologue time w)
  obtain ⟨w5, c, a, x, y, z, ms, lr, lt, di, e, t, s, ch, htick, hw5⟩ :=
    tick_collecting N env time w w3 hvr hgate hread hmove hn he hb
  have e_ref : w5.CalCtx.referenceID = w.CalCtx.referenceID := by rw [hw5]
  rw [htick]
  apply tickCollect_out_of_range
  unfold arrayAt
  rw [e_ref, (deviceSlot_eq_none _).mpr href]
  rfl

/-- The function `StartContinuousCalibration` always ends in the state `Continuous`; it writes
neither device id. -/
theorem StartContinuousCalibration_selection (env : TickEnv α) (w : World α) :
    (StartContinuousCalibration env w).CalCtx.selection
      = (CalibrationState.Continuous, w.CalCtx.referenceID, w.CalCtx.targetID) := by
  unfold StartContinuousCalibration
  simp only
  split
  · rw [World_Log_selection]; rfl
  · rw [World_Log_selection]; rfl

/-- What `AssignTargets` returns: false exactly when an id is outside `[0, 64)`. -/
theorem AssignTargets_eq_false_iff (CalCtx : CalibrationContext α) :
    AssignTargets CalCtx = false ↔
      ¬ ((0 ≤ CalCtx.referenceID ∧ CalCtx.referenceID < 64) ∧
        (0 ≤ CalCtx.targetID ∧ CalCtx.targetID < 64)) := by
  unfold AssignTargets
  simp only [k_unMaxTrackedDeviceCount, Nat.cast_ofNat, ge_iff_le]
  split
  · rename_i h
    constructor
    · intro _ hc; omega
    · intro _; rfl
  · split
    · rename_i h1 h2
      constructor
      · intro _ hc; omega
      · intro _; rfl
    · rename_i h1 h2
      constructor
      · intro h; simp at h
      · intro hc; exfalso; apply hc; omega

end Unmapped

/-! ## Theorems: the tick and the scan on concrete inputs -/

/-- C14, on the globals `exampleWorld` one hundredth of a second after the last tick. -/
theorem CalibrationTick_time_gated_witness :
    (1 / 100 - exampleWorld.CalCtx.timeLastTick : ℚ) < 1 / 20 ∧
      CalibrationTick ratNumerics exampleEnv (1 / 100) exampleWorld = some exampleWorld :=
  have h : (1 / 100 - exampleWorld.CalCtx.timeLastTick : ℚ) < 1 / 20 := by
    norm_num [exampleWorld, exampleContext]
  ⟨h, (CalibrationTick_time_gated ratNumerics exampleEnv (1 / 100) exampleWorld h).1⟩

/-- C15, on the globals `exampleWorld` with a runtime that reports the HMD at the origin. -/
theorem CalibrationTick_hmd_stalled_witness :
    ∃ w', CalibrationTick ratNumerics stalledEnv 1 exampleWorld = some w' ∧
      w'.CalCtx.state = exampleWorld.CalCtx.state ∧ w'.sent = exampleWorld.sent :=
  have hgate : ¬ (1 - exampleWorld.CalCtx.timeLastTick : ℚ) < 1 / 20 := by
    norm_num [exampleWorld, exampleContext]
  (CalibrationTick_hmd_stalled ratNumerics stalledEnv 1 exampleWorld rfl hgate rfl
    (Or.inl ⟨rfl, rfl, rfl⟩)).imp fun _ h => ⟨h.1, h.2.1, h.2.2.2.2.2.2.2.2.2.2.2.2.2.2.2.1⟩

theorem worldIn_gate (state : CalibrationState) (n : Nat) :
    ¬ (1 - (worldIn state n).CalCtx.timeLastTick : ℚ) < 1 / 20 := by
  norm_num [worldIn, contextIn, exampleContext]

/-- C11, on the globals `worldIn Begin 100` with both devices tracked and no jitter: the tick
ends in the state `Rotation` with the window untouched. -/
theorem CalibrationTick_begin_witness :
    ∃ w', CalibrationTick ratNumerics trackingEnv 1 (worldIn CalibrationState.Begin 100) = some w' ∧
      w'.CalCtx.state = CalibrationState.Rotation ∧
      w'.calibration = (worldIn CalibrationState.Begin 100).calibration :=
  have hmove : hmdStalled
      { worldIn CalibrationState.Begin 100 with
        CalCtx := { (worldIn CalibrationState.Begin 100).CalCtx with
          devicePoses := trackingEnv.rawPoses } } = false := by
    simp [hmdStalled, worldIn, contextIn, exampleContext, trackingEnv]
  have hthm := CalibrationTick_begin ratNumerics trackingEnv 1 (worldIn CalibrationState.Begin 100)
    rfl (worldIn_gate _ _) hmove rfl
  have hex := hthm.2 (Or.inr (by decide)) (Or.inr (by decide))
  hex.imp fun w' hw' =>
    ⟨hw', (hthm.1 w' hw').2.2.1
      ⟨by decide, by decide, ⟨_, rfl, rfl⟩, ⟨_, rfl, rfl⟩,
        by norm_num [worldIn, contextIn, exampleContext, trackingEnv, exampleEnv],
        by norm_num [worldIn, contextIn, exampleContext, trackingEnv, exampleEnv]⟩,
      (hthm.1 w' hw').1⟩

theorem worldIn_not_stalled (state : CalibrationState) (n : Nat) :
    hmdStalled
      { worldIn state n with
        CalCtx := { (worldIn state n).CalCtx with devicePoses := exampleEnv.rawPoses } }
      = false := rfl

theorem worldIn_read (state : CalibrationState) (n : Nat) :
    ∃ w3, tickReadPoses exampleEnv (tickPrologue 1 (worldIn state n)) = some w3 ∧
      arrayAt w3.CalCtx.driverPoses (worldIn state n).CalCtx.referenceID
        = some exampleDriverPose ∧
      arrayAt w3.CalCtx.driverPoses (worldIn state n).CalCtx.targetID
        = some exampleDriverPose := by
  obtain ⟨w3, h1, h2⟩ := tickReadPoses_prologue_unmapped exampleEnv 1 (worldIn state n) rfl
  exact ⟨w3, h1, by rw [h2]; rfl, by rw [h2]; rfl⟩

/-- C12, on the globals `worldIn Rotation 1`, whose window the first Sample fills, with a
solver that fails: the tick ends in the state `None` with an empty window, and `validProfile`
is as before. -/
theorem CalibrationTick_oneshot_solve_witness :
    ∃ w', CalibrationTick ratNumerics exampleEnv 1 (worldIn CalibrationState.Rotation 1)
        = some w' ∧
      w'.CalCtx.state = CalibrationState.None ∧ w'.calibration.samples = [] ∧
      w'.CalCtx.validProfile = (worldIn CalibrationState.Rotation 1).CalCtx.validProfile := by
  obtain ⟨w3, hread, href, htarget⟩ := worldIn_read CalibrationState.Rotation 1
  obtain ⟨w', h1, h2, h3, -, -, h6⟩ :=
    CalibrationTick_oneshot_solve ratNumerics exampleEnv 1 (worldIn CalibrationState.Rotation 1)
      w3 exampleDriverPose exampleDriverPose rfl (worldIn_gate _ _) (worldIn_not_stalled _ _)
      (Or.inl rfl) hread href htarget rfl rfl (Nat.le_refl 0) (Nat.le_refl 1)
  exact ⟨w', h1, h2, h3, h6 (by simp [exampleEnv])⟩

/-- C13, on the globals `worldIn Continuous 1` with a solver that fails: the tick leaves the
profile as it was and keeps the Sample it has pushed. -/
theorem CalibrationTick_continuous_rejected_witness :
    ∃ w', CalibrationTick ratNumerics exampleEnv 1 (worldIn CalibrationState.Continuous 1)
        = some w' ∧
      w'.CalCtx.state = CalibrationState.Continuous ∧
      w'.CalCtx.validProfile = (worldIn CalibrationState.Continuous 1).CalCtx.validProfile ∧
      w'.samples.length = 1 := by
  obtain ⟨w3, hread, href, htarget⟩ := worldIn_read CalibrationState.Continuous 1
  obtain ⟨w', h1, h2, -, -, -, -, h7, -, -, h10, -⟩ :=
    CalibrationTick_continuous_rejected ratNumerics exampleEnv 1
      (worldIn CalibrationState.Continuous 1) w3 exampleDriverPose exampleDriverPose _ _ rfl
      (worldIn_gate _ _) (worldIn_not_stalled _ _) rfl hread href htarget rfl rfl rfl rfl
      (Or.inl rfl)
  exact ⟨w', h1, h2, h7, by rw [h10]; rfl⟩

/-- C16, the claim as stated fails in both of its parts. On the globals
`worldIn ContinuousStandby 100`, whose driver poses are valid, the tick pushes a Sample into
the empty window. On the globals `standbyLostWorld`, whose target driver pose is not valid, the
tick leaves the state `ContinuousStandby` for `None`. -/
theorem CalibrationTick_standby_counterexample :
    (worldIn CalibrationState.ContinuousStandby 100).calibration.samples = [] ∧
      (∃ w', CalibrationTick ratNumerics exampleEnv 1
          (worldIn CalibrationState.ContinuousStandby 100) = some w' ∧
        w'.calibration.samples.length = 1) ∧
      standbyLostWorld.CalCtx.state = CalibrationState.ContinuousStandby ∧
      (∃ w', CalibrationTick ratNumerics exampleEnv 1 standbyLostWorld = some w' ∧
        w'.CalCtx.state = CalibrationState.None) := by
  refine ⟨rfl, ?_, rfl, ?_⟩
  · obtain ⟨w3, hread, href, htarget⟩ := worldIn_read CalibrationState.ContinuousStandby 100
    obtain ⟨w', h1, -, h3, -⟩ :=
      CalibrationTick_collect_push ratNumerics exampleEnv 1
        (worldIn CalibrationState.ContinuousStandby 100) w3 exampleDriverPose exampleDriverPose
        _ rfl (worldIn_gate _ _) (worldIn_not_stalled _ _) (by decide) (by decide) (by decide)
        hread href htarget rfl rfl rfl (by decide)
    exact ⟨w', h1, by rw [h3]; rfl⟩
  · obtain ⟨w3, hread, hdrv⟩ := tickReadPoses_prologue_unmapped exampleEnv 1 standbyLostWorld rfl
    have hgate : ¬ (1 - standbyLostWorld.CalCtx.timeLastTick : ℚ) < 1 / 20 := by
      norm_num [standbyLostWorld, exampleContext]
    obtain ⟨w', h1, h2, -⟩ :=
      CalibrationTick_collect_invalid ratNumerics exampleEnv 1 standbyLostWorld w3
        exampleDriverPose lostDriverPose rfl hgate rfl (by decide) (by decide) (by decide)
        (by decide) hread (by rw [hdrv]; rfl) (by rw [hdrv]; rfl) (Or.inr rfl)
    exact ⟨w', h1, h2⟩

/-- C16 (amended), on the globals `worldIn ContinuousStandby 100`: the Sample is pushed and the
state is still `ContinuousStandby`. -/
theorem CalibrationTick_standby_collects_witness :
    ∃ w', CalibrationTick ratNumerics exampleEnv 1
        (worldIn CalibrationState.ContinuousStandby 100) = some w' ∧
      w'.CalCtx.state = CalibrationState.ContinuousStandby ∧
      w'.calibration.samples.length = 1 := by
  obtain ⟨w3, hread, href, htarget⟩ := worldIn_read CalibrationState.ContinuousStandby 100
  obtain ⟨w', h1, -, h3, -⟩ :=
    CalibrationTick_standby_collects ratNumerics exampleEnv 1
      (worldIn CalibrationState.ContinuousStandby 100) w3 exampleDriverPose exampleDriverPose
      _ rfl (worldIn_gate _ _) (worldIn_not_stalled _ _) rfl hread href htarget rfl
  obtain ⟨h4, h5, -⟩ := h3 rfl rfl (by decide)
  exact ⟨w', h1, h4, by rw [h5]; rfl⟩

/-- C17, on the globals `profiledWorld` in the state `Continuous` with the devices of
`deviceEnv "lighthouse"`: the request sent to the device 1 has `lerp` set and `quash` clear. -/
theorem ScanAndApplyProfile_lerp_quash_witness :
    (-2 ^ 31 ≤ profiledWorld.CalCtx.targetID ∧ profiledWorld.CalCtx.targetID < 2 ^ 31) ∧
      ∃ new, (ScanAndApplyProfile ratNumerics (deviceEnv "lighthouse") profiledWorld).sent
          = profiledWorld.sent ++ new ∧
        ∀ p, Request.setDeviceTransform p ∈ new →
          (p.enabled = true → p.lerp = true ∧ p.quash = false) ∧
          (p.enabled = false → p.lerp = false ∧ p.quash = false) :=
  have ht : -2 ^ 31 ≤ profiledWorld.CalCtx.targetID ∧ profiledWorld.CalCtx.targetID < 2 ^ 31 := by
    decide
  ⟨ht, (ScanAndApplyProfile_lerp_quash ratNumerics (deviceEnv "lighthouse") profiledWorld ht).imp
    fun _ h => ⟨h.1, fun p hp =>
      ⟨fun he => ⟨((h.2 p hp).1 he).1,
        by rw [((h.2 p hp).1 he).2]; simp [profiledWorld, exampleContext]⟩, (h.2 p hp).2.1⟩⟩⟩

/-- C18, on the globals `profiledWorld` with an HMD of the tracking system "oculus", which is
not the reference tracking system "lighthouse": calibration ends disabled and the two present
devices are sent the zero/identity request. -/
theorem ScanAndApplyProfile_hmd_mismatch_witness :
    (deviceEnv "oculus").devicePresent 0 = true ∧
      (deviceEnv "oculus").trackingSystemName 0 = some "oculus" ∧
      "oculus" ≠ profiledWorld.CalCtx.referenceTrackingSystem ∧
      (ScanAndApplyProfile ratNumerics (deviceEnv "oculus") profiledWorld).CalCtx.enabled = false ∧
      (ScanAndApplyProfile ratNumerics (deviceEnv "oculus") profiledWorld).sent
        = [Request.setAlignmentSpeedParams profiledWorld.CalCtx.alignmentSpeedParams,
           disableRequest 0, disableRequest 1] := by
  have hne : "oculus" ≠ profiledWorld.CalCtx.referenceTrackingSystem := by decide
  obtain ⟨h1, new, h2, h3, -⟩ := ScanAndApplyProfile_hmd_mismatch ratNumerics (deviceEnv "oculus")
    profiledWorld "oculus" rfl rfl hne
  refine ⟨rfl, rfl, hne, h1, ?_⟩
  rw [h2, h3]
  rfl

/-- C19, the claim as stated fails for the HMD: with a valid profile whose reference and target
tracking systems are both "lighthouse", an HMD of the tracking system "lighthouse" passes the
check of the reference tracking system and is of the target tracking system, yet the one
request it is sent is the zero/identity request with `enabled = false`. -/
theorem ScanAndApplyProfile_per_device_counterexample :
    sameSystemWorld.CalCtx.validProfile = true ∧
      (deviceEnv "lighthouse").devicePresent 0 = true ∧
      (deviceEnv "lighthouse").trackingSystemName 0
        = some sameSystemWorld.CalCtx.referenceTrackingSystem ∧
      (deviceEnv "lighthouse").trackingSystemName 0
        = some sameSystemWorld.CalCtx.targetTrackingSystem ∧
      ∃ new, (ScanAndApplyProfile ratNumerics (deviceEnv "lighthouse") sameSystemWorld).sent
          = sameSystemWorld.sent ++ new ∧
        requestsFor 0 new
          = [SetDeviceTransform.full 0 false (![0, 0, 0] : Vec3 ℚ)
              { w := 1, x := 0, y := 0, z := 0 } 1] ∧
        ∀ p ∈ requestsFor 0 new, p.enabled = false := by
  have hhmd : ∀ ts, (deviceEnv "lighthouse").devicePresent 0 = true →
      (deviceEnv "lighthouse").trackingSystemName 0 = some ts →
      ts = sameSystemWorld.CalCtx.referenceTrackingSystem := by
    intro ts _ h
    exact (Option.some.inj h).symm
  obtain ⟨new, h1, h2⟩ := ScanAndApplyProfile_requestsFor ratNumerics (deviceEnv "lighthouse")
    sameSystemWorld rfl hhmd 0 (by decide) rfl
  rw [if_neg (by simp)] at h2
  refine ⟨rfl, rfl, rfl, rfl, new, h1, h2, ?_⟩
  intro p hp
  rw [h2, List.mem_singleton] at hp
  rw [hp]
  rfl

/-- C19 (amended), on the globals `profiledWorld` with an HMD of the reference tracking system
and the device 1 of the target tracking system "oculus": the device 1 is sent one request,
with `enabled = true` and the calibrated scale. -/
theorem ScanAndApplyProfile_per_device_witness :
    ∃ new p, (ScanAndApplyProfile ratNumerics (deviceEnv "lighthouse") profiledWorld).sent
        = profiledWorld.sent ++ new ∧
      requestsFor 1 new = [p] ∧ p.enabled = true ∧
      p.scale = profiledWorld.CalCtx.calibratedScale := by
  have hhmd : ∀ ts, (deviceEnv "lighthouse").devicePresent 0 = true →
      (deviceEnv "lighthouse").trackingSystemName 0 = some ts →
      ts = profiledWorld.CalCtx.referenceTrackingSystem := by
    intro ts _ h
    exact (Option.some.inj h).symm
  obtain ⟨new, p, h1, h2, -, h4, -⟩ := ScanAndApplyProfile_per_device ratNumerics
    (deviceEnv "lighthouse") profiledWorld rfl hhmd 1 (by decide) rfl "oculus" rfl
  obtain ⟨h5, -, -, -, -, -, h6⟩ := h4 ⟨by decide, rfl⟩
  exact ⟨new, p, h1, h2, h5, h6⟩

/-- C20, the code at the failing input: with no device selected (both ids -1) `AssignTargets`
returns false, yet `StartContinuousCalibration` sets the state `Continuous`; the next tick then
indexes `driverPoses` with -1 in `CollectSample`, which has no defined result. -/
theorem StartContinuousCalibration_ignores_AssignTargets :
    unselectedWorld.CalCtx.referenceID = -1 ∧ unselectedWorld.CalCtx.targetID = -1 ∧
      AssignTargets unselectedWorld.CalCtx = false ∧
      (StartContinuousCalibration exampleEnv unselectedWorld).CalCtx.state
        = CalibrationState.Continuous ∧
      (StartContinuousCalibration exampleEnv unselectedWorld).CalCtx.referenceID = -1 ∧
      CalibrationTick ratNumerics exampleEnv 1
        (StartContinuousCalibration exampleEnv unselectedWorld) = none := by
  have hsel := StartContinuousCalibration_selection exampleEnv unselectedWorld
  have hst : (StartContinuousCalibration exampleEnv unselectedWorld).CalCtx.state
      = CalibrationState.Continuous := congrArg Prod.fst hsel
  have href : (StartContinuousCalibration exampleEnv unselectedWorld).CalCtx.referenceID = -1 :=
    congrArg (fun p => p.2.1) hsel
  refine ⟨rfl, rfl, rfl, hst, href, ?_⟩
  apply CalibrationTick_out_of_range
  · rfl
  · have : (StartContinuousCalibration exampleEnv unselectedWorld).CalCtx.timeLastTick = 0 := rfl
    rw [this]
    norm_num
  · rfl
  · rw [hst]; decide
  · rw [hst]; decide
  · rw [hst]; decide
  · rw [href]; decide

/-! ## Theorems: the axis and the angle of a rotation matrix -/

section Rodrigues
variable {α : Type} [LinearOrderedField α]

/-- The entries of the matrix of the Rodrigues formula. -/
theorem rodriguesRotation_entries (N : Numerics α) (a : Vec3 α) (theta : α) :
    rodriguesRotation N a theta 0 0 = N.cos theta + (1 - N.cos theta) * (a 0 * a 0) ∧
      rodriguesRotation N a theta 0 1 = (1 - N.cos theta) * (a 0 * a 1) - N.sin theta * a 2 ∧
      rodriguesRotation N a theta 0 2 = (1 - N.cos theta) * (a 0 * a 2) + N.sin theta * a 1 ∧
      rodriguesRotation N a theta 1 0 = (1 - N.cos theta) * (a 1 * a 0) + N.sin theta * a 2 ∧
      rodriguesRotation N a theta 1 1 = N.cos theta + (1 - N.cos theta) * (a 1 * a 1) ∧
      rodriguesRotation N a theta 1 2 = (1 - N.cos theta) * (a 1 * a 2) - N.sin theta * a 0 ∧
      rodriguesRotation N a theta 2 0 = (1 - N.cos theta) * (a 2 * a 0) - N.sin theta * a 1 ∧
      rodriguesRotation N a theta 2 1 = (1 - N.cos theta) * (a 2 * a 1) + N.sin theta * a 0 ∧
      rodriguesRotation N a theta 2 2 = N.cos theta + (1 - N.cos theta) * (a 2 * a 2) :=
  ⟨rfl, rfl, rfl, rfl, rfl, rfl, rfl, rfl, rfl⟩

/-- With a unit axis and `sin^2 + cos^2 = 1`, the matrix of the Rodrigues formula is a rotation
matrix: it is orthogonal. -/
theorem rodriguesRotation_orthogonal (N : Numerics α) (a : Vec3 α) (theta : α)
    (ha : squaredNorm a = 1)
    (hsc : N.sin theta * N.sin theta + N.cos theta * N.cos theta = 1) :
    rodriguesRotation N a theta * (rodriguesRotation N a theta).transpose = 1 := by
  simp only [squaredNorm] at ha
  obtain ⟨e00, e01, e02, e10, e11, e12, e20, e21, e22⟩ := rodriguesRotation_entries N a theta
  ext i j
  fin_cases i <;> fin_cases j
  · simp [Matrix.mul_apply, Fin.sum_univ_three, e00, e01, e02, e10, e11, e12, e20, e21, e22]
    linear_combination (1 - a 0 * a 0) * hsc
      + ((1 - N.cos theta) ^ 2 * (a 0 * a 0) + N.sin theta ^ 2) * ha
  · simp [Matrix.mul_apply, Fin.sum_univ_three, e00, e01, e02, e10, e11, e12, e20, e21, e22]
    linear_combination (- (a 0 * a 1)) * hsc + ((1 - N.cos theta) ^ 2 * (a 0 * a 1)) * ha
  · simp [Matrix.mul_apply, Fin.sum_univ_three, e00, e01, e02, e10, e11, e12, e20, e21, e22]
    linear_combination (- (a 0 * a 2)) * hsc + ((1 - N.cos theta) ^ 2 * (a 0 * a 2)) * ha
  · simp [Matrix.mul_apply, Fin.sum_univ_three, e00, e01, e02, e10, e11, e12, e20, e21, e22]
    linear_combination (- (a 1 * a 0)) * hsc + ((1 - N.cos theta) ^ 2 * (a 1 * a 0)) * ha
  · simp [Matrix.mul_apply, Fin.sum_univ_three, e00, e01, e02, e10, e11, e12, e20, e21, e22]
    linear_combination (1 - a 1 * a 1) * hsc
      + ((1 - N.cos theta) ^ 2 * (a 1 * a 1) + N.sin theta ^ 2) * ha
  · simp [Matrix.mul_apply, Fin.sum_univ_three, e00, e01, e02, e10, e11, e12, e20, e21, e22]
    linear_combination (- (a 1 * a 2)) * hsc + ((1 - N.cos theta) ^ 2 * (a 1 * a 2)) * ha
  · simp [Matrix.mul_apply, Fin.sum_univ_three, e00, e01, e02, e10, e11, e12, e20, e21, e22]
    linear_combination (- (a 2 * a 0)) * hsc + ((1 - N.cos theta) ^ 2 * (a 2 * a 0)) * ha
  · simp [Matrix.mul_apply, Fin.sum_univ_three, e00, e01, e02, e10, e11, e12, e20, e21, e22]
    linear_combination (- (a 2 * a 1)) * hsc + ((1 - N.cos theta) ^ 2 * (a 2 * a 1)) * ha
  · simp [Matrix.mul_apply, Fin.sum_univ_three, e00, e01, e02, e10, e11, e12, e20, e21, e22]
    linear_combination (1 - a 2 * a 2) * hsc
      + ((1 - N.cos theta) ^ 2 * (a 2 * a 2) + N.sin theta ^ 2) * ha

/-- The axis of the matrix of the Rodrigues formula. -/
theorem rodrigues_axis (N : Numerics α) (a : Vec3 α) (theta : α) :
    AxisFromRotationMatrix3 (rodriguesRotation N a theta) = fun i => 2 * N.sin theta * a i := by
  funext i
  fin_cases i
  · simp [AxisFromRotationMatrix3, rodriguesRotation]
    ring
  · simp [AxisFromRotationMatrix3, rodriguesRotation]
    ring
  · simp [AxisFromRotationMatrix3, rodriguesRotation]
    ring

/-- C22: for every axis `a` (of unit length or not) and every angle `theta`, with `R` the
matrix of the Rodrigues formula for the rotation about `a` by `theta`,
`AxisFromRotationMatrix3(R)` is `(R[2,1] - R[1,2], R[0,2] - R[2,0], R[1,0] - R[0,1])`, and this
vector is `2 sin(theta) a`, whatever the functions `sin` and `cos` are. -/
theorem AxisFromRotationMatrix3_rodrigues (N : Numerics α) (a : Vec3 α) (theta : α) :
    AxisFromRotationMatrix3 (rodriguesRotation N a theta)
        = ![rodriguesRotation N a theta 2 1 - rodriguesRotation N a theta 1 2,
            rodriguesRotation N a theta 0 2 - rodriguesRotation N a theta 2 0,
            rodriguesRotation N a theta 1 0 - rodriguesRotation N a theta 0 1] ∧
      AxisFromRotationMatrix3 (rodriguesRotation N a theta)
        = ![2 * N.sin theta * a 0, 2 * N.sin theta * a 1, 2 * N.sin theta * a 2] ∧
      ∀ i, AxisFromRotationMatrix3 (rodriguesRotation N a theta) i = 2 * N.sin theta * a i := by
  refine ⟨rfl, ?_, ?_⟩
  · rw [rodrigues_axis]
    funext i
    fin_cases i <;> rfl
  · intro i
    rw [rodrigues_axis]

/-- The argument of `acos` in terms of the trace. -/
theorem angleArgument_eq_trace (R : Mat3 α) : angleArgument R = (R.trace - 1) / 2 := by
  rw [Matrix.trace_fin_three]
  rfl

/-- C23 (amended): for every 3x3 matrix `R`, the value `AngleFromRotationMatrix3` passes to
`acos` is `(trace(R) - 1) / 2` itself, not clamped; it lies in `[-1, 1]` exactly when the trace
lies in `[-1, 3]`. -/
theorem AngleFromRotationMatrix3_argument (N : Numerics α) (R : Mat3 α) :
    AngleFromRotationMatrix3 N R = N.acos ((R.trace - 1) / 2) ∧
      angleArgument R = (R.trace - 1) / 2 ∧
      ((-1 ≤ angleArgument R ∧ angleArgument R ≤ 1) ↔ (-1 ≤ R.trace ∧ R.trace ≤ 3)) := by
  have h := angleArgument_eq_trace R
  refine ⟨by rw [← h]; rfl, h, ?_⟩
  rw [h]
  constructor
  · rintro ⟨h1, h2⟩
    constructor <;> linarith
  · rintro ⟨h1, h2⟩
    constructor <;> linarith

end Rodrigues

/-- C23, the claim as stated fails on a matrix whose trace is `3 + 1/1000`: the value passed to
`acos` is `2001/2000`, above 1, and not the clamped value 1. -/
theorem AngleFromRotationMatrix3_counterexample :
    slackMatrix.trace = 3 + 1 / 1000 ∧
      AngleFromRotationMatrix3 echoNumerics slackMatrix = 2001 / 2000 ∧
      ¬ (AngleFromRotationMatrix3 echoNumerics slackMatrix ≤ 1) ∧
      ¬ (-1 ≤ angleArgument slackMatrix ∧ angleArgument slackMatrix ≤ 1) := by
  have h : angleArgument slackMatrix = 2001 / 2000 := by
    simp [angleArgument, slackMatrix]
    norm_num
  have h2 : AngleFromRotationMatrix3 echoNumerics slackMatrix = 2001 / 2000 := h
  refine ⟨?_, h2, ?_, ?_⟩
  · rw [Matrix.trace_fin_three]
    simp [slackMatrix]
    norm_num
  · rw [h2]; norm_num
  · rw [h]; norm_num

/-! ## Theorems: the Kabsch rotation and the equations of a rigid attachment -/

section Kabsch
variable {α : Type} [LinearOrderedField α]

theorem kabschSign_eq_diagonal (U V : Mat3 α) :
    kabschSign U V
      = Matrix.diagonal ![1, 1, if det3 (U * V.transpose) < 0 then -1 else 1] := by
  unfold kabschSign
  split
  · ext i j
    fin_cases i <;> fin_cases j <;>
      simp [Matrix.diagonal_apply, Matrix.vecHead, Matrix.vecTail]
  · ext i j
    fin_cases i <;> fin_cases j <;> simp [Matrix.diagonal_apply, Matrix.one_apply]

theorem kabschSign_mul_self (U V : Mat3 α) : kabschSign U V * kabschSign U V = 1 := by
  unfold kabschSign
  split
  · ext i j
    fin_cases i <;> fin_cases j <;>
      simp [Matrix.mul_apply, Fin.sum_univ_three, Matrix.one_apply, Matrix.vecHead,
        Matrix.vecTail]
  · rw [Matrix.mul_one]

theorem kabschSign_transpose (U V : Mat3 α) : (kabschSign U V).transpose = kabschSign U V := by
  unfold kabschSign
  split
  · ext i j
    fin_cases i <;> fin_cases j <;>
      simp [Matrix.transpose_apply, Matrix.vecHead, Matrix.vecTail]
  · rw [Matrix.transpose_one]

theorem kabschSign_det (U V : Mat3 α) :
    (kabschSign U V).det = if det3 (U * V.transpose) < 0 then -1 else 1 := by
  unfold kabschSign
  split
  · rw [Matrix.det_fin_three]
    simp
  · rw [Matrix.det_one]

/-- The determinant of an orthogonal matrix is 1 or -1. -/
theorem det_sq_of_orthogonal (U : Mat3 α) (hU : U * U.transpose = 1) : U.det * U.det = 1 := by
  have h := congrArg Matrix.det hU
  rw [Matrix.det_mul, Matrix.det_transpose, Matrix.det_one] at h
  exact h

theorem kabschRotation_eq (U V : Mat3 α) :
    kabschRotation U V = U * kabschSign U V * V.transpose := by
  unfold kabschRotation
  rw [Matrix.transpose_mul, Matrix.transpose_mul, Matrix.transpose_transpose,
    kabschSign_transpose, Matrix.mul_assoc]

theorem kabschRotation_orthogonal (U V : Mat3 α) (hU : U * U.transpose = 1)
    (hV : V * V.transpose = 1) :
    kabschRotation U V * (kabschRotation U V).transpose = 1 := by
  have hV2 : V.transpose * V = 1 := (Matrix.mul_eq_one_comm).mp hV
  rw [kabschRotation_eq]
  rw [Matrix.transpose_mul, Matrix.transpose_mul, Matrix.transpose_transpose,
    kabschSign_transpose]
  calc U * kabschSign U V * V.transpose * (V * (kabschSign U V * U.transpose))
      = U * kabschSign U V * (V.transpose * V) * (kabschSign U V * U.transpose) := by
        simp only [Matrix.mul_assoc]
    _ = U * (kabschSign U V * kabschSign U V) * U.transpose := by
        rw [hV2, Matrix.mul_one]
        simp only [Matrix.mul_assoc]
    _ = 1 := by rw [kabschSign_mul_self, Matrix.mul_one, hU]

theorem kabschRotation_det (U V : Mat3 α) (hU : U * U.transpose = 1)
    (hV : V * V.transpose = 1) : det3 (kabschRotation U V) = 1 := by
  have hu := det_sq_of_orthogonal U hU
  have hv := det_sq_of_orthogonal V hV
  have hd : det3 (U * V.transpose) = U.det * V.det := by
    rw [det3_eq_det, Matrix.det_mul, Matrix.det_transpose]
  rw [det3_eq_det, kabschRotation_eq, Matrix.det_mul, Matrix.det_mul, Matrix.det_transpose,
    kabschSign_det, hd]
  have hsq : (U.det * V.det) * (U.det * V.det) = 1 := by
    calc (U.det * V.det) * (U.det * V.det) = (U.det * U.det) * (V.det * V.det) := by ring
      _ = 1 := by rw [hu, hv, mul_one]
  have hcases : U.det * V.det = 1 ∨ U.det * V.det = -1 := by
    have h0 : (U.det * V.det - 1) * (U.det * V.det + 1) = 0 := by
      linear_combination hsq
    rcases mul_eq_zero.mp h0 with h | h
    · exact Or.inl (by linear_combination h)
    · exact Or.inr (by linear_combination h)
  rcases hcases with h | h
  · have hn : ¬ (U.det * V.det < 0) := by rw [h]; norm_num
    rw [if_neg hn]
    linear_combination h
  · have hn : U.det * V.det < 0 := by rw [h]; norm_num
    rw [if_pos hn]
    linear_combination (-1 : α) * h

theorem det3_mul_transpose_comm (U V : Mat3 α) :
    det3 (U * V.transpose) = det3 (V * U.transpose) := by
  rw [det3_eq_det, det3_eq_det, Matrix.det_mul, Matrix.det_mul, Matrix.det_transpose,
    Matrix.det_transpose, mul_comm]

/-- C24: for all orthogonal 3x3 matrices `U` and `V`, the matrix `rot` that `CalibrateRotation`
builds from them (lines 209-216) is `(V D U^T)^T` with `D = diag(1, 1, d)`, `d = -1` exactly
when `det(U V^T) < 0` and `d = 1` otherwise; `rot` is orthogonal and `det(rot) = 1`; and the test
`det(U V^T) < 0` of the code is equivalent to the test `det(V U^T) < 0`. -/
theorem kabschRotation_proper (U V : Mat3 α) (hU : U * U.transpose = 1)
    (hV : V * V.transpose = 1) :
    kabschRotation U V
        = (V * Matrix.diagonal ![1, 1, if det3 (U * V.transpose) < 0 then -1 else 1]
            * U.transpose).transpose ∧
      kabschRotation U V * (kabschRotation U V).transpose = 1 ∧
      (kabschRotation U V).transpose * kabschRotation U V = 1 ∧
      det3 (kabschRotation U V) = 1 ∧
      (det3 (U * V.transpose) < 0 ↔ det3 (V * U.transpose) < 0) := by
  have ho := kabschRotation_orthogonal U V hU hV
  refine ⟨?_, ho, (Matrix.mul_eq_one_comm).mp ho, kabschRotation_det U V hU hV, ?_⟩
  · unfold kabschRotation
    rw [kabschSign_eq_diagonal]
  · rw [det3_mul_transpose_comm]

end Kabsch

theorem mirrorZ_orthogonal : mirrorZ * mirrorZ.transpose = 1 := by
  ext i j
  fin_cases i <;> fin_cases j <;>
    simp [mirrorZ, Matrix.mul_apply, Fin.sum_univ_three, Matrix.one_apply,
      Matrix.transpose_apply, Matrix.vecHead, Matrix.vecTail]

theorem quarterTurnZ_orthogonal : quarterTurnZ * quarterTurnZ.transpose = 1 := by
  ext i j
  fin_cases i <;> fin_cases j <;>
    simp [quarterTurnZ, Matrix.mul_apply, Fin.sum_univ_three, Matrix.one_apply,
      Matrix.transpose_apply, Matrix.vecHead, Matrix.vecTail]

/-- C24, on the reflection `mirrorZ` and the quarter turn `quarterTurnZ`, for which
`det(U V^T) = -1`: the matrix built has determinant 1. -/
theorem kabschRotation_proper_witness :
    mirrorZ * mirrorZ.transpose = 1 ∧ quarterTurnZ * quarterTurnZ.transpose = 1 ∧
      det3 (kabschRotation mirrorZ quarterTurnZ) = 1 :=
  ⟨mirrorZ_orthogonal, quarterTurnZ_orthogonal,
    (kabschRotation_proper mirrorZ quarterTurnZ mirrorZ_orthogonal
      quarterTurnZ_orthogonal).2.2.2.1⟩

section Rigid
variable {α : Type} [LinearOrderedField α]

/-- The two blocks that the loops of lines 229-245 push for a pair `j < i` are among the pairs
of `translationDeltas`: the reference block and the target block. -/
theorem mem_translationDeltas_blocks (samples : List (Sample α)) (i j : Nat) (si sj : Sample α)
    (hi : samples[i]? = some si) (hj : samples[j]? = some sj) (hji : j < i) :
    (sj.ref.rot.transpose.mulVec (sj.ref.trans - sj.target.trans)
        - si.ref.rot.transpose.mulVec (si.ref.trans - si.target.trans),
      sj.ref.rot.transpose - si.ref.rot.transpose) ∈ translationDeltas samples ∧
    (sj.target.rot.transpose.mulVec (sj.ref.trans - sj.target.trans)
        - si.target.rot.transpose.mulVec (si.ref.trans - si.target.trans),
      sj.target.rot.transpose - si.target.rot.transpose) ∈ translationDeltas samples := by
  unfold translationDeltas
  have hil : i < samples.length := by
    by_contra hc
    rw [List.getElem?_eq_none (by omega)] at hi
    exact Option.noConfusion hi
  constructor
  · rw [List.mem_flatMap]
    refine ⟨i, List.mem_range.mpr hil, ?_⟩
    rw [List.mem_flatMap]
    refine ⟨j, List.mem_range.mpr hji, ?_⟩
    simp [hi, hj]
  · rw [List.mem_flatMap]
    refine ⟨i, List.mem_range.mpr hil, ?_⟩
    rw [List.mem_flatMap]
    refine ⟨j, List.mem_range.mpr hji, ?_⟩
    simp [hi, hj]

/-- The equation of a block for a rigid attachment: with `Q = R^T`, `Q R = 1` and
`d = t + R c` for both Samples, `(Q_j - Q_i) t = Q_j d_j - Q_i d_i`. -/
theorem rigid_block (Ri Rj : Mat3 α) (di dj t c : Vec3 α)
    (hRi : Ri.transpose * Ri = 1) (hRj : Rj.transpose * Rj = 1)
    (hdi : di = t + Ri.mulVec c) (hdj : dj = t + Rj.mulVec c) :
    (Rj.transpose - Ri.transpose).mulVec t
      = Rj.transpose.mulVec dj - Ri.transpose.mulVec di := by
  rw [hdi, hdj, Matrix.mulVec_add, Matrix.mulVec_add, Matrix.mulVec_mulVec, Matrix.mulVec_mulVec,
    hRi, hRj, Matrix.one_mulVec, Matrix.sub_mulVec]
  abel

/-- The pairs of `translationDeltas` are the reference block and the target block of each pair
`j < i`, in the order of the loops. -/
theorem translationDeltas_eq_blocks (samples : List (Sample α)) :
    translationDeltas samples
      = (List.range samples.length).flatMap fun i =>
          (List.range i).flatMap fun j =>
            match samples[i]?, samples[j]? with
            | some si, some sj => [referenceBlock si sj, targetBlock si sj]
            | _, _ => [] := rfl

/-- C25: for every list of Samples and all vectors `t`, `cA` and `cB`: if the reference
rotations are orthogonal and `ref_i.trans - target_i.trans = t + R_i cA` for every Sample (a
rigid attachment), then for every pair `j < i` the reference block `(CA, dQA)` is among the
pairs that `CalibrateTranslation` stacks, its three rows are rows of the stacked system, and `t`
satisfies its equation `(Q_j - Q_i) t = Q_j (ref_j.trans - target_j.trans)
- Q_i (ref_i.trans - target_i.trans)` with `Q = R^T` exactly; and the same holds for the target
block when the target rotations are orthogonal and the relation holds with them. The stacked
system is the one `CalibrateTranslation` hands to the solver. -/
theorem CalibrateTranslation_rigid_attachment (N : Numerics α) (samples : List (Sample α))
    (t cA cB : Vec3 α) :
    (CalibrateTranslation N samples).2
        = (fun k => N.lstsq (stackedCoefficients (translationDeltas samples))
            (stackedConstants (translationDeltas samples)) k * 100) ∧
      ((∀ s ∈ samples, s.ref.rot * s.ref.rot.transpose = 1 ∧
          s.ref.trans - s.target.trans = t + s.ref.rot.mulVec cA) →
        ∀ (i j : Nat) (si sj : Sample α), samples[i]? = some si → samples[j]? = some sj →
          j < i →
          referenceBlock si sj ∈ translationDeltas samples ∧
          (sj.ref.rot.transpose - si.ref.rot.transpose).mulVec t
            = sj.ref.rot.transpose.mulVec (sj.ref.trans - sj.target.trans)
              - si.ref.rot.transpose.mulVec (si.ref.trans - si.target.trans) ∧
          ∀ k : Fin 3,
            ((referenceBlock si sj).2 k, (referenceBlock si sj).1 k)
                ∈ (stackedCoefficients (translationDeltas samples)).zip
                    (stackedConstants (translationDeltas samples)) ∧
              dot3 ((referenceBlock si sj).2 k) t = (referenceBlock si sj).1 k) ∧
      ((∀ s ∈ samples, s.target.rot * s.target.rot.transpose = 1 ∧
          s.ref.trans - s.target.trans = t + s.target.rot.mulVec cB) →
        ∀ (i j : Nat) (si sj : Sample α), samples[i]? = some si → samples[j]? = some sj →
          j < i →
          targetBlock si sj ∈ translationDeltas samples ∧
          (sj.target.rot.transpose - si.target.rot.transpose).mulVec t
            = sj.target.rot.transpose.mulVec (sj.ref.trans - sj.target.trans)
              - si.target.rot.transpose.mulVec (si.ref.trans - si.target.trans) ∧
          ∀ k : Fin 3,
            ((targetBlock si sj).2 k, (targetBlock si sj).1 k)
                ∈ (stackedCoefficients (translationDeltas samples)).zip
                    (stackedConstants (translationDeltas samples)) ∧
              dot3 ((targetBlock si sj).2 k) t = (targetBlock si sj).1 k) := by
  refine ⟨rfl, ?_, ?_⟩
  · intro h i j si sj hi hj hji
    have hmi : si ∈ samples := List.getElem?_mem hi
    have hmj : sj ∈ samples := List.getElem?_mem hj
    have hm := (mem_translationDeltas_blocks samples i j si sj hi hj hji).1
    have heq := rigid_block si.ref.rot sj.ref.rot _ _ t cA
      ((Matrix.mul_eq_one_comm).mp (h si hmi).1) ((Matrix.mul_eq_one_comm).mp (h sj hmj).1)
      (h si hmi).2 (h sj hmj).2
    refine ⟨hm, heq, ?_⟩
    intro k
    refine ⟨(mem_zip_stacked _ _).mpr ⟨_, hm, k, rfl⟩, ?_⟩
    rw [dot3_row_eq_mulVec]
    exact congrFun heq k
  · intro h i j si sj hi hj hji
    have hmi : si ∈ samples := List.getElem?_mem hi
    have hmj : sj ∈ samples := List.getElem?_mem hj
    have hm := (mem_translationDeltas_blocks samples i j si sj hi hj hji).2
    have heq := rigid_block si.target.rot sj.target.rot _ _ t cB
      ((Matrix.mul_eq_one_comm).mp (h si hmi).1) ((Matrix.mul_eq_one_comm).mp (h sj hmj).1)
      (h si hmi).2 (h sj hmj).2
    refine ⟨hm, heq, ?_⟩
    intro k
    refine ⟨(mem_zip_stacked _ _).mpr ⟨_, hm, k, rfl⟩, ?_⟩
    rw [dot3_row_eq_mulVec]
    exact congrFun heq k

end Rigid

theorem rigidSamples_rigid :
    ∀ s ∈ rigidSamples, s.ref.rot * s.ref.rot.transpose = 1 ∧
      s.ref.trans - s.target.trans = ![1, 2, 3] + s.ref.rot.mulVec ![1, 0, 0] := by
  intro s h
  simp only [rigidSamples, List.mem_cons, List.mem_singleton, List.not_mem_nil, or_false] at h
  rcases h with rfl | rfl
  · refine ⟨by simp [Sample.make], ?_⟩
    funext k
    fin_cases k <;>
      simp [Sample.make, Matrix.mulVec, Matrix.dotProduct, Fin.sum_univ_three,
        Matrix.one_apply]
    norm_num
  · refine ⟨quarterTurnZ_orthogonal, ?_⟩
    funext k
    fin_cases k <;>
      simp [Sample.make, quarterTurnZ, Matrix.mulVec, Matrix.dotProduct,
        Fin.sum_univ_three, Matrix.vecHead, Matrix.vecTail]
    norm_num

theorem rigidSamples_rigid_target :
    ∀ s ∈ rigidSamples, s.target.rot * s.target.rot.transpose = 1 ∧
      s.ref.trans - s.target.trans = ![1, 2, 3] + s.target.rot.mulVec ![1, 0, 0] := by
  intro s h
  have h2 := rigidSamples_rigid s h
  simp only [rigidSamples, List.mem_cons, List.mem_singleton, List.not_mem_nil, or_false] at h
  rcases h with rfl | rfl
  · exact h2
  · exact h2

/-- C25, on the two Samples `rigidSamples` with `t = (1, 2, 3)` and `c = (1, 0, 0)`: `t`
satisfies the equation of the reference block and of the target block of the pair (0, 1). -/
theorem CalibrateTranslation_rigid_attachment_witness :
    (∀ s ∈ rigidSamples, s.ref.rot * s.ref.rot.transpose = 1 ∧
      s.ref.trans - s.target.trans = ![1, 2, 3] + s.ref.rot.mulVec ![1, 0, 0]) ∧
    (∀ s ∈ rigidSamples, s.target.rot * s.target.rot.transpose = 1 ∧
      s.ref.trans - s.target.trans = ![1, 2, 3] + s.target.rot.mulVec ![1, 0, 0]) ∧
    (∀ k : Fin 3,
      dot3 ((referenceBlock
          (Sample.make { rot := quarterTurnZ, trans := ![1, 3, 3] }
            { rot := quarterTurnZ, trans := ![0, 0, 0] } 1)
          (Sample.make { rot := 1, trans := ![2, 2, 3] } { rot := 1, trans := ![0, 0, 0] } 0)).2 k)
        ![1, 2, 3]
      = (referenceBlock
          (Sample.make { rot := quarterTurnZ, trans := ![1, 3, 3] }
            { rot := quarterTurnZ, trans := ![0, 0, 0] } 1)
          (Sample.make { rot := 1, trans := ![2, 2, 3] } { rot := 1, trans := ![0, 0, 0] } 0)).1 k) ∧
    (∀ k : Fin 3,
      dot3 ((targetBlock
          (Sample.make { rot := quarterTurnZ, trans := ![1, 3, 3] }
            { rot := quarterTurnZ, trans := ![0, 0, 0] } 1)
          (Sample.make { rot := 1, trans := ![2, 2, 3] } { rot := 1, trans := ![0, 0, 0] } 0)).2 k)
        ![1, 2, 3]
      = (targetBlock
          (Sample.make { rot := quarterTurnZ, trans := ![1, 3, 3] }
            { rot := quarterTurnZ, trans := ![0, 0, 0] } 1)
          (Sample.make { rot := 1, trans := ![2, 2, 3] } { rot := 1, trans := ![0, 0, 0] } 0)).1 k) :=
  ⟨rigidSamples_rigid, rigidSamples_rigid_target,
    fun k => (((CalibrateTranslation_rigid_attachment ratNumerics rigidSamples ![1, 2, 3]
      ![1, 0, 0] ![1, 0, 0]).2.1 rigidSamples_rigid 1 0 _ _ rfl rfl (by decide)).2.2 k).2,
    fun k => (((CalibrateTranslation_rigid_attachment ratNumerics rigidSamples ![1, 2, 3]
      ![1, 0, 0] ![1, 0, 0]).2.2 rigidSamples_rigid_target 1 0 _ _ rfl rfl (by decide)).2.2 k).2⟩

/-! ## Theorems: the records the callback is given, and a cursor above the index -/

section Delivered
variable {P σ : Type}

/-- The callback is invoked on the records that the recording callback collects, in order:
what `deliver` does with any callback is what it does with the recording one, followed by the
callback folded over the recorded list. -/
theorem foldl_deliver_callback (callback : σ → AugmentedPose P → σ) (s : σ)
    (recs : List (AugmentedPose P)) :
    ∀ (lastPose : Fin k_unMaxTrackedDeviceCount → AugmentedPose P)
      (out : List (AugmentedPose P)),
      recs.foldl (deliver callback) (lastPose, out.foldl callback s)
        = ((recs.foldl (deliver recordCallback) (lastPose, out)).1,
            (recs.foldl (deliver recordCallback) (lastPose, out)).2.foldl callback s) := by
  induction recs with
  | nil => intro lastPose out; rfl
  | cons a recs ih =>
    intro lastPose out
    rw [List.foldl_cons, List.foldl_cons]
    by_cases hex : ∃ d, deviceSlot a.deviceId = some d ∧
        timespec.lt (lastPose d).sample_time a.sample_time
    · obtain ⟨d, hd, hn⟩ := hex
      rw [deliver_of_newer _ _ _ _ d hd hn, deliver_of_newer _ _ _ _ d hd hn]
      have h : callback (out.foldl callback s) a = (recordCallback out a).foldl callback s := by
        simp [recordCallback, List.foldl_append]
      rw [h]
      exact ih _ _
    · rw [deliver_of_not_newer, deliver_of_not_newer]
      · exact ih _ _
      · intro d hd hn
        exact hex ⟨d, hd, hn⟩
      · intro d hd hn
        exact hex ⟨d, hd, hn⟩

/-- Every record that `deliver` hands to the recording callback has a device id in
`[0, 64)`. -/
theorem foldl_deliver_deviceId (recs : List (AugmentedPose P)) :
    ∀ (acc : (Fin k_unMaxTrackedDeviceCount → AugmentedPose P) × List (AugmentedPose P)),
      (∀ r ∈ acc.2, 0 ≤ r.deviceId ∧ r.deviceId < (k_unMaxTrackedDeviceCount : Int)) →
      ∀ r ∈ (recs.foldl (deliver recordCallback) acc).2,
        0 ≤ r.deviceId ∧ r.deviceId < (k_unMaxTrackedDeviceCount : Int) := by
  induction recs with
  | nil => intro acc h; exact h
  | cons a recs ih =>
    intro acc h
    rw [List.foldl_cons]
    apply ih
    by_cases hex : ∃ d, deviceSlot a.deviceId = some d ∧
        timespec.lt (acc.1 d).sample_time a.sample_time
    · obtain ⟨d, hd, hn⟩ := hex
      have hstep : deliver recordCallback acc a
          = (Function.update acc.1 d a, recordCallback acc.2 a) :=
        deliver_of_newer recordCallback acc.1 acc.2 a d hd hn
      rw [hstep]
      intro r hr
      simp only [recordCallback, List.mem_append, List.mem_singleton] at hr
      rcases hr with hr | rfl
      · exact h r hr
      · exact ((deviceSlot_eq_some _ _).mp hd).1
    · have hstep : deliver recordCallback acc a = acc :=
        deliver_of_not_newer recordCallback acc.1 acc.2 a (fun d hd hn => hex ⟨d, hd, hn⟩)
      rw [hstep]
      exact h

/-- The positions that `ReadNewPoses` examines and the cursor it leaves depend on neither the
callback nor its state. -/
theorem ReadNewPoses_examined_eq (callback : σ → AugmentedPose P → σ) (data : ShmemData P)
    (self : DriverPoseShmem P) (s : σ) :
    (ReadNewPoses callback data self s).examined
        = (ReadNewPoses recordCallback data self []).examined ∧
      (ReadNewPoses callback data self s).self.cursor
        = (ReadNewPoses recordCallback data self []).self.cursor ∧
      (ReadNewPoses callback data self s).self.mapped
        = (ReadNewPoses recordCallback data self []).self.mapped := by
  by_cases hm : self.mapped = true
  · by_cases hs : readStart data self ≤ data.index % UINT64_RANGE
    · rw [ReadNewPoses_eq callback data self s hm hs,
        ReadNewPoses_eq recordCallback data self [] hm hs]
      exact ⟨rfl, rfl, rfl⟩
    · rw [ReadNewPoses_eq_of_gt callback data self s hm (by omega),
        ReadNewPoses_eq_of_gt recordCallback data self [] hm (by omega)]
      exact ⟨rfl, rfl, rfl⟩
  · have h1 : ReadNewPoses callback data self s = { self := self, cb := s, examined := [] } := by
      unfold ReadNewPoses
      simp [hm]
    have h2 : ReadNewPoses recordCallback data self []
        = { self := self, cb := [], examined := [] } := by
      unfold ReadNewPoses
      simp [hm]
    rw [h1, h2]
    exact ⟨rfl, rfl, rfl⟩

/-- Whatever the callback, `ReadNewPoses` invokes it on exactly the records that the recording
callback collects, in their order, and leaves the same `lastPose`. -/
theorem ReadNewPoses_callback (callback : σ → AugmentedPose P → σ) (data : ShmemData P)
    (self : DriverPoseShmem P) (s : σ) :
    (ReadNewPoses callback data self s).cb
        = (ReadNewPoses recordCallback data self []).cb.foldl callback s ∧
      (ReadNewPoses callback data self s).self.lastPose
        = (ReadNewPoses recordCallback data self []).self.lastPose := by
  have h1 := ReadNewPoses_fold callback data self s
  have h2 := ReadNewPoses_fold recordCallback data self []
  rw [(ReadNewPoses_examined_eq callback data self s).1] at h1
  have h3 := foldl_deliver_callback callback s
    ((ReadNewPoses recordCallback data self []).examined.map fun e => data.poses e.2)
    self.lastPose []
  rw [List.foldl_nil, ← h2] at h3
  rw [h3] at h1
  exact ⟨congrArg Prod.snd h1, congrArg Prod.fst h1⟩

/-- Every record that `ReadNewPoses` passes to its callback has a device id in `[0, 64)`. -/
theorem delivered_deviceId (data : ShmemData P) (self : DriverPoseShmem P) :
    ∀ r ∈ (ReadNewPoses recordCallback data self []).cb,
      0 ≤ r.deviceId ∧ r.deviceId < (k_unMaxTrackedDeviceCount : Int) := by
  have h2 := ReadNewPoses_fold recordCallback data self []
  have h := foldl_deliver_deviceId
    ((ReadNewPoses recordCallback data self []).examined.map fun e => data.poses e.2)
    (self.lastPose, []) (by intro r hr; exact absurd hr (List.not_mem_nil r))
  rw [← h2] at h
  exact h

/-- A reader whose cursor is above the index, away from the top of the counter range
(`cursor + 65536 < 2^64`): `ReadNewPoses` does not invoke the callback, examines no position
and leaves the reader as it is. -/
theorem ReadNewPoses_cursor_above (callback : σ → AugmentedPose P → σ) (data : ShmemData P)
    (self : DriverPoseShmem P) (s : σ) (hc : data.index % UINT64_RANGE < self.cursor)
    (hno : self.cursor + BUFFERED_SAMPLES < UINT64_RANGE) :
    ReadNewPoses callback data self s = { self := self, cb := s, examined := [] } := by
  by_cases hm : self.mapped = true
  · have h2 : (self.cursor + BUFFERED_SAMPLES) % UINT64_RANGE = self.cursor + BUFFERED_SAMPLES :=
      Nat.mod_eq_of_lt hno
    have hs : readStart data self = self.cursor := by
      unfold readStart
      rw [h2, if_neg (by omega)]
    rw [ReadNewPoses_eq_of_gt callback data self s hm (by rw [hs]; exact hc), hs]
  · unfold ReadNewPoses
    simp [hm]

/-- A sequence of reads of a reader whose cursor is above the index of every snapshot, away
from the top of the counter range: no record is delivered and the reader stays as it is. -/
theorem readAll_cursor_above (datas : List (ShmemData P)) (self : DriverPoseShmem P)
    (out : List (AugmentedPose P))
    (hc : ∀ data ∈ datas, data.index % UINT64_RANGE < self.cursor)
    (hno : self.cursor + BUFFERED_SAMPLES < UINT64_RANGE) :
    readAll datas (self, out) = (self, out) := by
  induction datas with
  | nil => rfl
  | cons data datas ih =>
    have hstep : readAll (data :: datas) (self, out)
        = readAll datas ((ReadNewPoses recordCallback data self out).self,
            (ReadNewPoses recordCallback data self out).cb) := rfl
    rw [hstep, ReadNewPoses_cursor_above recordCallback data self out
      (hc data (List.mem_cons_self _ _)) hno]
    exact ih (fun d hd => hc d (List.mem_cons_of_mem _ hd))

/-- After the writer has re-created the segment (`Create` sets the index to 0), a reader with
a cursor above 0, away from the top of the counter range, is not given any record. -/
theorem ReadNewPoses_after_Create (callback : σ → AugmentedPose P → σ) (data : ShmemData P)
    (self : DriverPoseShmem P) (s : σ) (hpos : 0 < self.cursor)
    (hno : self.cursor + BUFFERED_SAMPLES < UINT64_RANGE) :
    ReadNewPoses callback data.Create self s = { self := self, cb := s, examined := [] } :=
  ReadNewPoses_cursor_above callback data.Create self s
    (by simp only [ShmemData.Create, Nat.zero_mod]; exact hpos) hno

end Delivered

section TickCallback
variable {α : Type} [LinearOrderedField α]

/-- The guard of the callback of the tick admits the id 64, which is not an index of
`driverPoses`. -/
theorem tickCallback_sixty_four (driverPoses : Fin k_unMaxTrackedDeviceCount → DriverPose α)
    (time : timespec) (pose : DriverPose α) :
    tickCallback (some driverPoses) { sample_time := time, deviceId := 64, pose := pose }
      = none := by
  have h : deviceSlot 64 = none := by
    rw [deviceSlot_eq_none]
    simp [k_unMaxTrackedDeviceCount]
  simp [tickCallback, h, k_unMaxTrackedDeviceCount]

/-- C26: every record that `ReadNewPoses` passes to its callback has `deviceId` in `[0, 64)`:
whatever the callback, it is invoked on exactly the records the recording callback collects, and
each of these has an id in `[0, 64)`. Therefore the write `ctx.driverPoses[deviceId]` of the
callback of `CalibrationTick` is always inside the array: the reading of the poses has a result
for every segment and all globals. The guard of the callback alone would not ensure it: it
admits a record with the id 64, on which the callback writes outside the array. -/
theorem ReadNewPoses_deviceId_in_range {P σ : Type} (callback : σ → AugmentedPose P → σ)
    (data : ShmemData P) (self : DriverPoseShmem P) (s : σ) (env : TickEnv α) (w : World α)
    (driverPoses : Fin k_unMaxTrackedDeviceCount → DriverPose α) (time : timespec)
    (pose : DriverPose α) :
    (ReadNewPoses callback data self s).cb
        = (ReadNewPoses recordCallback data self []).cb.foldl callback s ∧
      (∀ r ∈ (ReadNewPoses recordCallback data self []).cb,
        0 ≤ r.deviceId ∧ r.deviceId < 64) ∧
      (∀ r ∈ (ReadNewPoses recordCallback env.shmemData w.shmem []).cb,
        ∃ d : Fin k_unMaxTrackedDeviceCount, (d.val : Int) = r.deviceId ∧
          tickCallback (some driverPoses) r = some (Function.update driverPoses d r.pose)) ∧
      (∃ w', tickReadPoses env w = some w') ∧
      ((0 : Int) ≤ 64 ∧ (64 : Int) ≤ (k_unMaxTrackedDeviceCount : Int)) ∧
      tickCallback (some driverPoses) { sample_time := time, deviceId := 64, pose := pose }
        = none := by
  refine ⟨(ReadNewPoses_callback callback data self s).1, ?_, ?_, ?_, ?_,
    tickCallback_sixty_four driverPoses time pose⟩
  · intro r hr
    have h := delivered_deviceId data self r hr
    simp only [k_unMaxTrackedDeviceCount] at h
    exact_mod_cast h
  · intro r hr
    have h := delivered_deviceId env.shmemData w.shmem r hr
    cases hd : deviceSlot r.deviceId with
    | none => exact absurd h ((deviceSlot_eq_none _).mp hd)
    | some d =>
      exact ⟨d, ((deviceSlot_eq_some _ _).mp hd).2, tickCallback_some driverPoses r d hd⟩
  · obtain ⟨w', h, -⟩ := tickReadPoses_some env w
    exact ⟨w', h⟩
  · simp [k_unMaxTrackedDeviceCount]

end TickCallback

section Reachable
variable {P σ : Type}

/-- After `Create`, which sets the index to 0, and fewer than `2^64` writes, the index is the
number of records written. -/
theorem writeAll_Create_index (reqs : List (WriteRequest P)) (data : ShmemData P)
    (h : reqs.length < UINT64_RANGE) : (writeAll reqs data.Create).index = reqs.length := by
  have h1 := writeAll_index reqs data.Create (by simp only [ShmemData.Create]; omega)
  rw [h1]
  simp only [ShmemData.Create]
  omega

/-- The method `Open` sets the cursor to the index, or leaves it as it is: a bound on the
cursor and on the index is a bound on the cursor after it. -/
theorem Open_cursor_le (segment : Option (ShmemData P)) (self : DriverPoseShmem P) (M : Nat)
    (hidx : ∀ data, segment = some data → data.index ≤ M) (hcur : self.cursor ≤ M) :
    (self.Open segment).1.cursor ≤ M := by
  cases segment with
  | none => exact hcur
  | some data => exact hidx data rfl

/-- The method `ReadNewPoses` leaves the cursor at a value up to the larger of the cursor and
the index: a bound `M` with `M + 65536 < 2^64` on the cursor and on the index is a bound on the
cursor after it. So the sum `cursor + 65536` of line 296 does not wrap around while fewer than
`2^64 - 65536` records have been written since `Create`; reaching that count takes more than
`1.8 * 10^19` calls of `WritePose`. -/
theorem ReadNewPoses_cursor_le (callback : σ → AugmentedPose P → σ) (data : ShmemData P)
    (self : DriverPoseShmem P) (s : σ) (M : Nat) (hM : M + BUFFERED_SAMPLES < UINT64_RANGE)
    (hidx : data.index ≤ M) (hcur : self.cursor ≤ M) :
    (ReadNewPoses callback data self s).self.cursor ≤ M := by
  have hi : data.index % UINT64_RANGE = data.index := Nat.mod_eq_of_lt (by omega)
  by_cases hm : self.mapped = true
  · have hs := readStart_eq_max data self (by omega) (by omega)
    by_cases hle : readStart data self ≤ data.index % UINT64_RANGE
    · rw [ReadNewPoses_eq callback data self s hm hle, hi]
      exact hidx
    · rw [ReadNewPoses_eq_of_gt callback data self s hm (by omega), hs]
      simp only
      omega
  · have h1 : ReadNewPoses callback data self s = { self := self, cb := s, examined := [] } := by
      unfold ReadNewPoses
      simp [hm]
    rw [h1]
    exact hcur

/-- A reader whose cursor is at or above the index, away from the top of the counter range:
`ReadNewPoses` does not invoke the callback and leaves the reader as it is. -/
theorem ReadNewPoses_cursor_ge (callback : σ → AugmentedPose P → σ) (data : ShmemData P)
    (self : DriverPoseShmem P) (s : σ) (hc : data.index ≤ self.cursor)
    (hno : self.cursor + BUFFERED_SAMPLES < UINT64_RANGE) :
    ReadNewPoses callback data self s = { self := self, cb := s, examined := [] } := by
  have hi : data.index % UINT64_RANGE = data.index := Nat.mod_eq_of_lt (by omega)
  rcases Nat.lt_or_eq_of_le hc with hlt | heq
  · exact ReadNewPoses_cursor_above callback data self s (by rw [hi]; exact hlt) hno
  · by_cases hm : self.mapped = true
    · have hs := readStart_eq_max data self (by omega) hno
      have hs2 : readStart data self = self.cursor := by rw [hs]; omega
      rw [ReadNewPoses_eq callback data self s hm (by rw [hs2, hi, heq]), hs2, hi, heq,
        Nat.sub_self]
      rfl
    · unfold ReadNewPoses
      simp [hm]

/-- A sequence of reads of a reader whose cursor is at or above the index of every snapshot,
away from the top of the counter range: no record is delivered and the reader stays as it
is. -/
theorem readAll_cursor_ge (datas : List (ShmemData P)) (self : DriverPoseShmem P)
    (out : List (AugmentedPose P)) (hc : ∀ data ∈ datas, data.index ≤ self.cursor)
    (hno : self.cursor + BUFFERED_SAMPLES < UINT64_RANGE) :
    readAll datas (self, out) = (self, out) := by
  induction datas with
  | nil => rfl
  | cons data datas ih =>
    have hstep : readAll (data :: datas) (self, out)
        = readAll datas ((ReadNewPoses recordCallback data self out).self,
            (ReadNewPoses recordCallback data self out).cb) := rfl
    rw [hstep, ReadNewPoses_cursor_ge recordCallback data self out
      (hc data (List.mem_cons_self _ _)) hno]
    exact ih (fun d hd => hc d (List.mem_cons_of_mem _ hd))

/-- C27: if the cursor of the reader is greater than the shared index, `ReadNewPoses` invokes
the callback zero times (the state of the callback is unchanged, and the recording callback
records nothing), examines no position and leaves the reader, with its cursor and `lastPose`,
as it is; over any sequence of reads, no record is delivered and the reader is unchanged while
the index does not exceed the cursor; and `Create` resets the index to 0, so this is the case
of every reader with a cursor above 0 after the writer has re-created the segment. The
hypothesis `hno` says that the `uint64_t` sum `cursor + 65536` of line 296 does not wrap
around; it holds in every state the code reaches with fewer than `2^64 - 65536` records written
since `Create`, because the index is written only by `Create` (line 242) and by the increment
of `WritePose` (line 280), and the cursor is only given 0 or values up to the index (lines 189,
273, 297 and 316). -/
theorem ReadNewPoses_cursor_above_index (callback : σ → AugmentedPose P → σ)
    (data : ShmemData P) (self : DriverPoseShmem P) (s : σ)
    (hc : data.index < self.cursor)
    (hno : self.cursor + BUFFERED_SAMPLES < UINT64_RANGE) :
    ReadNewPoses callback data self s = { self := self, cb := s, examined := [] } ∧
      (ReadNewPoses callback data self s).cb = s ∧
      (ReadNewPoses recordCallback data self []).cb = [] ∧
      (ReadNewPoses callback data self s).self.cursor = self.cursor ∧
      (ReadNewPoses callback data self s).self.lastPose = self.lastPose ∧
      (∀ (datas : List (ShmemData P)) (out : List (AugmentedPose P)),
        (∀ d ∈ datas, d.index ≤ self.cursor) → readAll datas (self, out) = (self, out)) ∧
      (data.Create.index = 0 ∧
        ReadNewPoses callback data.Create self s = { self := self, cb := s, examined := [] }) := by
  have h1 := ReadNewPoses_cursor_ge callback data self s (le_of_lt hc) hno
  have h2 := ReadNewPoses_cursor_ge recordCallback data self [] (le_of_lt hc) hno
  refine ⟨h1, by rw [h1], by rw [h2], by rw [h1], by rw [h1], ?_, rfl, ?_⟩
  · intro datas out hd
    exact readAll_cursor_ge datas self out hd hno
  · exact ReadNewPoses_cursor_ge callback data.Create self s (Nat.zero_le _) hno

end Reachable

/-- C27, on a reader with the cursor 5 and a segment with the index 3 whose slots hold a
record that is newer than `lastPose`: nothing is delivered and the cursor stays 5, for this
segment and after `Create`. -/
theorem ReadNewPoses_cursor_above_index_witness :
    (stampedSegment 3).index < (readerAt 5).cursor ∧
      (readerAt 5).cursor + BUFFERED_SAMPLES < UINT64_RANGE ∧
      (ReadNewPoses recordCallback (stampedSegment 3) (readerAt 5) []).cb = [] ∧
      (ReadNewPoses recordCallback (stampedSegment 3) (readerAt 5) []).self.cursor = 5 ∧
      (ReadNewPoses recordCallback (stampedSegment 70000).Create (readerAt 5) []).cb = [] :=
  have hc : (stampedSegment 3).index < (readerAt 5).cursor := by
    simp [stampedSegment, readerAt]
  have hno : (readerAt 5).cursor + BUFFERED_SAMPLES < UINT64_RANGE := by
    simp [readerAt, UINT64_RANGE, BUFFERED_SAMPLES]
  have hc2 : (stampedSegment 70000).Create.index < (readerAt 5).cursor := by
    simp [stampedSegment, readerAt, ShmemData.Create]
  ⟨hc, hno,
    (ReadNewPoses_cursor_above_index recordCallback (stampedSegment 3) (readerAt 5) []
      hc hno).2.2.1,
    (ReadNewPoses_cursor_above_index recordCallback (stampedSegment 3) (readerAt 5) []
      hc hno).2.2.2.1,
    (ReadNewPoses_cursor_above_index recordCallback (stampedSegment 70000).Create (readerAt 5) []
      hc2 hno).2.2.1⟩

section Wrapped

/-- Records equal to the one `lastPose` holds for their device are not delivered. -/
theorem foldl_deliver_replicate (n : Nat)
    (lastPose : Fin k_unMaxTrackedDeviceCount → AugmentedPose Unit)
    (out : List (AugmentedPose Unit)) (h : lastPose ⟨0, by decide⟩ = stampedRecord) :
    (List.replicate n stampedRecord).foldl (deliver recordCallback) (lastPose, out)
      = (lastPose, out) := by
  induction n with
  | zero => rfl
  | succ n ih =>
    rw [List.replicate_succ, List.foldl_cons, deliver_of_not_newer]
    · exact ih
    · intro d hd
      have hd0 : d = ⟨0, by decide⟩ := by
        have := ((deviceSlot_eq_some _ _).mp hd).2
        apply Fin.ext
        simp only [stampedRecord] at this
        exact_mod_cast this
      rw [hd0, h]
      exact timespec_lt_irrefl _

theorem ringRecords_stampedSegment (index start n : Nat) :
    ringRecords (stampedSegment index) start n = List.replicate n stampedRecord := by
  unfold ringRecords stampedSegment
  simp only
  rw [List.eq_replicate_iff]
  refine ⟨by simp, ?_⟩
  intro b hb
  rw [List.mem_map] at hb
  obtain ⟨k, -, rfl⟩ := hb
  rfl

/-- The model at the top of the `uint64_t` range, in a state that takes `2^64 - 1` writes to
reach: a reader with `cursor = 2^64 - 1` reads a segment whose index is 70000, below the
cursor. The sum `cursor + 65536` of line 296 wraps to 65535, the test "too far behind"
succeeds, the cursor is moved to `70000 - 65536 = 4464`, the 65536 positions up to the index
are examined, and the callback is invoked on the record of device 0: the cursor and `lastPose`
are both changed. -/
theorem ReadNewPoses_delivers_above_index :
    (readerAt (2 ^ 64 - 1)).mapped = true ∧
      (stampedSegment 70000).index < (readerAt (2 ^ 64 - 1)).cursor ∧
      (ReadNewPoses recordCallback (stampedSegment 70000) (readerAt (2 ^ 64 - 1)) []).cb
        = [stampedRecord] ∧
      (ReadNewPoses recordCallback (stampedSegment 70000)
        (readerAt (2 ^ 64 - 1)) []).self.cursor = 70000 ∧
      (readerAt (2 ^ 64 - 1)).lastPose ⟨0, by decide⟩ = zeroRecord ∧
      (ReadNewPoses recordCallback (stampedSegment 70000)
        (readerAt (2 ^ 64 - 1)) []).self.lastPose ⟨0, by decide⟩ = stampedRecord ∧
      (ReadNewPoses recordCallback (stampedSegment 70000)
        (readerAt (2 ^ 64 - 1)) []).examined.map Prod.fst = List.range' 4464 65536 := by
  have hs : readStart (stampedSegment 70000) (readerAt (2 ^ 64 - 1)) = 4464 := by
    simp [readStart, stampedSegment, readerAt, UINT64_RANGE, BUFFERED_SAMPLES]
  have hi : (stampedSegment 70000).index % UINT64_RANGE = 70000 := by
    simp [stampedSegment, UINT64_RANGE]
  have hr := ReadNewPoses_eq recordCallback (stampedSegment 70000)
    (readerAt (2 ^ 64 - 1)) [] rfl (by rw [hs, hi]; norm_num)
  rw [hs, hi] at hr
  have hn : 70000 - 4464 = 65535 + 1 := by norm_num
  have hd : deviceSlot stampedRecord.deviceId = some ⟨0, by decide⟩ := by
    rw [deviceSlot_eq_some]
    simp [stampedRecord, k_unMaxTrackedDeviceCount]
  have hfold : (ringRecords (stampedSegment 70000) 4464 (70000 - 4464)).foldl
      (deliver recordCallback) ((readerAt (2 ^ 64 - 1)).lastPose, [])
        = (Function.update (readerAt (2 ^ 64 - 1)).lastPose ⟨0, by decide⟩ stampedRecord,
            [stampedRecord]) := by
    rw [ringRecords_stampedSegment, hn, List.replicate_succ, List.foldl_cons,
      deliver_of_newer recordCallback _ _ _ ⟨0, by decide⟩ hd
        (by rw [timespec_lt_iff]; simp [readerAt, zeroRecord, stampedRecord])]
    exact foldl_deliver_replicate _ _ _ (by simp)
  rw [hfold] at hr
  refine ⟨rfl, ?_, ?_, ?_, rfl, ?_, ?_⟩
  · simp [stampedSegment, readerAt]
  · rw [hr]
  · rw [hr]
  · rw [hr]
    simp
  · rw [hr, examinedOf_positions]

end Wrapped

/-! ## Theorems: the drop stride of an accepted continuous update -/

section Stride
variable {α : Type} [LinearOrderedField α]

theorem drop_succ_tail {X : Type} (n : Nat) (l : List X) : l.tail.drop n = l.drop (n + 1) := by
  cases l with
  | nil => simp
  | cons a l => rfl

/-- The loop of lines 722-726 on a list `samples` that holds at least `n` elements: exactly the
`n` oldest elements leave `samples`, and the `n` oldest Samples leave the window. -/
theorem dropStride_eq (n : Nat) :
    ∀ w : World α, n ≤ w.samples.length →
      dropStride n w = { w with samples := w.samples.drop n,
                                calibration := { w.calibration with
                                  samples := w.calibration.samples.drop n } } := by
  induction n with
  | zero => intro w _; rfl
  | succ n ih =>
    intro w h
    have hne : w.samples.isEmpty = false := by
      cases hs : w.samples with
      | nil => rw [hs] at h; simp at h
      | cons a l => rfl
    unfold dropStride
    rw [hne]
    simp only [Bool.false_eq_true, ↓reduceIte]
    rw [ih _ (by simp only [List.length_tail]; omega)]
    simp only [CalibrationCalc.ShiftSample, drop_succ_tail]

theorem dropExcess_samples_aux (n : Nat) :
    ∀ (k : Nat) (c : CalibrationCalc α), c.SampleCount = k →
      (dropExcess n c).samples = c.samples.drop (c.SampleCount - n) := by
  intro k
  induction k using Nat.strong_induction_on with
  | _ k ih =>
    intro c hk
    by_cases h : c.SampleCount > n
    · have hlen : c.ShiftSample.SampleCount = c.SampleCount - 1 := by
        simp only [CalibrationCalc.SampleCount, CalibrationCalc.ShiftSample, List.length_tail]
      have hlt : c.ShiftSample.SampleCount < k := by
        rw [hlen, ← hk]
        omega
      have hstep : dropExcess n c = dropExcess n c.ShiftSample := by
        rw [dropExcess, dif_pos h]
      rw [hstep, ih _ hlt c.ShiftSample rfl, hlen]
      have h1 : c.SampleCount - n = (c.SampleCount - 1 - n) + 1 := by omega
      rw [h1, ← drop_succ_tail]
      rfl
    · have hstep : dropExcess n c = c := by
        rw [dropExcess, dif_neg h]
      rw [hstep]
      have h0 : c.SampleCount - n = 0 := by omega
      rw [h0, List.drop_zero]

/-- The loop of lines 676-679 leaves the newest `n` Samples of the window. -/
theorem dropExcess_samples (n : Nat) (c : CalibrationCalc α) :
    (dropExcess n c).samples = c.samples.drop (c.SampleCount - n) :=
  dropExcess_samples_aux n _ c rfl

/-- A window that holds at least the configured count holds exactly that count after the loop
of lines 676-679. -/
theorem dropExcess_length (n : Nat) (c : CalibrationCalc α) (h : n ≤ c.SampleCount) :
    (dropExcess n c).samples.length = n := by
  rw [dropExcess_samples, List.length_drop]
  simp only [CalibrationCalc.SampleCount] at h ⊢
  omega

/-- An accepted solve in the state `Continuous` (lines 701-727): `validProfile` is set, the
state stays, and the drop stride removes the `sampleCount / 10` oldest elements of `samples`
and of the window, when `samples` holds that many. -/
theorem tickAccept_continuous_window (N : Numerics α) (env : TickEnv α) (w : World α)
    (hc : w.CalCtx.state = CalibrationState.Continuous)
    (hlen : w.CalCtx.sampleCount / 10 ≤ w.samples.length) :
    (tickAccept N env w).CalCtx.state = CalibrationState.Continuous ∧
      (tickAccept N env w).CalCtx.validProfile = true ∧
      (tickAccept N env w).CalCtx.hasAppliedCalibrationResult = true ∧
      (tickAccept N env w).calibration.samples
        = w.calibration.samples.drop (w.CalCtx.sampleCount / 10) ∧
      (tickAccept N env w).samples = w.samples.drop (w.CalCtx.sampleCount / 10) ∧
      (tickAccept N env w).savedProfiles = w.savedProfiles + 1 := by
  obtain ⟨e, s, ch, h5⟩ := ScanAndApplyProfile_eq N env (tickStoreResult w)
  have h5s : (ScanAndApplyProfile N env (tickStoreResult w)).CalCtx.state = w.CalCtx.state := by
    rw [h5]; rfl
  obtain ⟨ms, c, h7⟩ := World_Log_eq
    ({ ScanAndApplyProfile N env (tickStoreResult w) with
        CalCtx := { (ScanAndApplyProfile N env (tickStoreResult w)).CalCtx with
          hasAppliedCalibrationResult := true } } : World α) LogMsg.continuousUpdated
  have hcount : (({ ScanAndApplyProfile N env (tickStoreResult w) with
        CalCtx := { (ScanAndApplyProfile N env (tickStoreResult w)).CalCtx with
          hasAppliedCalibrationResult := true } } : World α).Log
            LogMsg.continuousUpdated).CalCtx.sampleCount = w.CalCtx.sampleCount := by
    rw [h7, h5]; rfl
  have hsmp : (({ ScanAndApplyProfile N env (tickStoreResult w) with
        CalCtx := { (ScanAndApplyProfile N env (tickStoreResult w)).CalCtx with
          hasAppliedCalibrationResult := true } } : World α).Log
            LogMsg.continuousUpdated).samples = w.samples := by
    rw [h7, h5]; rfl
  unfold tickAccept
  simp only
  rw [if_pos (by rw [h5s]; exact hc), hcount,
    dropStride_eq _ _ (by rw [hsmp]; exact hlen), h7, h5]
  exact ⟨hc, rfl, rfl, rfl, rfl, rfl⟩

/-- The solve of lines 681-746 in the state `Continuous` when `ComputeIncremental` succeeds and
the estimate is valid. -/
theorem tickSolve_continuous_accepted (N : Numerics α) (env : TickEnv α) (w : World α)
    (hc : w.CalCtx.state = CalibrationState.Continuous)
    (hlen : w.samples.length ≥ w.CalCtx.sampleCount)
    (hacc : (env.ComputeIncremental
          { w.calibration with
            enableStaticRecalibration := w.CalCtx.enableStaticRecalibration,
            lockRelativePosition := w.CalCtx.lockRelativePosition }
          w.CalCtx.continuousCalibrationThreshold w.CalCtx.maxRelativeErrorThreshold
          w.CalCtx.ignoreOutliers).1 = true ∧
        (env.ComputeIncremental
          { w.calibration with
            enableStaticRecalibration := w.CalCtx.enableStaticRecalibration,
            lockRelativePosition := w.CalCtx.lockRelativePosition }
          w.CalCtx.continuousCalibrationThreshold w.CalCtx.maxRelativeErrorThreshold
          w.CalCtx.ignoreOutliers).2.2.isValid = true) :
    (tickSolve N env w).CalCtx.state = CalibrationState.Continuous ∧
      (tickSolve N env w).CalCtx.validProfile = true ∧
      (tickSolve N env w).CalCtx.hasAppliedCalibrationResult = true ∧
      (tickSolve N env w).calibration.samples
        = w.calibration.samples.drop (w.CalCtx.sampleCount / 10) ∧
      (tickSolve N env w).samples = w.samples.drop (w.CalCtx.sampleCount / 10) ∧
      (tickSolve N env w).savedProfiles = w.savedProfiles + 1 := by
  obtain ⟨ms, c, h1⟩ := World_Log_eq w LogMsg.newline
  have hc1 : (w.Log LogMsg.newline).CalCtx.state = CalibrationState.Continuous := by
    rw [World_Log_state]; exact hc
  have hcomp := tickCompute_incremental env (w.Log LogMsg.newline) hc1
  rw [h1] at hcomp
  unfold tickSolve
  rw [if_pos hlen]
  simp only
  rw [h1, hcomp]
  simp only
  rw [if_pos (by simp [hacc.1, hacc.2])]
  have h := tickAccept_continuous_window N env
    ({ w with CalCtx := { w.CalCtx with messages := ms, clearOnLog := c },
              calibration :=
                { samples := w.calibration.samples,
                  enableStaticRecalibration := w.CalCtx.enableStaticRecalibration,
                  lockRelativePosition := w.CalCtx.lockRelativePosition,
                  estimate := (env.ComputeIncremental
                    { w.calibration with
                      enableStaticRecalibration := w.CalCtx.enableStaticRecalibration,
                      lockRelativePosition := w.CalCtx.lockRelativePosition }
                    w.CalCtx.continuousCalibrationThreshold w.CalCtx.maxRelativeErrorThreshold
                    w.CalCtx.ignoreOutliers).2.2 } } : World α) hc
    (le_trans (Nat.div_le_self _ _) hlen)
  exact h

end Stride

section AcceptedClaim
variable {α : Type} [LinearOrderedField α]

/-- A tick in the state `Continuous` that is not skipped, collects a valid Sample that fills the
window, and whose incremental solve is accepted: the drop stride removes the `sampleCount / 10`
oldest Samples of the window on which the solve ran, and as many elements of `samples`. -/
theorem CalibrationTick_accepted_window (N : Numerics α) (env : TickEnv α) (time : α)
    (w w3 : World α) (reference target : DriverPose α) (sample : Sample α)
    (window : CalibrationCalc α)
    (hvr : env.vrSystem = true) (hgate : ¬ (time - w.CalCtx.timeLastTick) < 1 / 20)
    (hmove : hmdStalled { w with CalCtx := { w.CalCtx with devicePoses := env.rawPoses } }
      = false)
    (hc : w.CalCtx.state = CalibrationState.Continuous)
    (hread : tickReadPoses env (tickPrologue time w) = some w3)
    (href : arrayAt w3.CalCtx.driverPoses w.CalCtx.referenceID = some reference)
    (htarget : arrayAt w3.CalCtx.driverPoses w.CalCtx.targetID = some target)
    (hrv : reference.poseIsValid = true) (htv : target.poseIsValid = true)
    (hsample : sample = Sample.make
      (ConvertPose
        { reference with vecPosition :=
            ![reference.vecPosition 0 + w.CalCtx.continuousCalibrationOffset 0,
              reference.vecPosition 1 + w.CalCtx.continuousCalibrationOffset 1,
              reference.vecPosition 2 + w.CalCtx.continuousCalibrationOffset 2] })
      (ConvertPose target) env.glfwGetTime)
    (hinv : w.calibration.SampleCount ≤ w.samples.length)
    (hfull : w.CalCtx.sampleCount ≤ w.calibration.SampleCount + 1)
    (hwindow : window = dropExcess w.CalCtx.sampleCount (w.calibration.PushSample sample))
    (hacc : (env.ComputeIncremental
          { window with
            enableStaticRecalibration := w.CalCtx.enableStaticRecalibration,
            lockRelativePosition := w.CalCtx.lockRelativePosition }
          w.CalCtx.continuousCalibrationThreshold w.CalCtx.maxRelativeErrorThreshold
          w.CalCtx.ignoreOutliers).1 = true ∧
        (env.ComputeIncremental
          { window with
            enableStaticRecalibration := w.CalCtx.enableStaticRecalibration,
            lockRelativePosition := w.CalCtx.lockRelativePosition }
          w.CalCtx.continuousCalibrationThreshold w.CalCtx.maxRelativeErrorThreshold
          w.CalCtx.ignoreOutliers).2.2.isValid = true) :
    ∃ w', CalibrationTick N env time w = some w' ∧
      w'.CalCtx.state = CalibrationState.Continuous ∧
      w'.CalCtx.validProfile = true ∧
      window.samples.length = w.CalCtx.sampleCount ∧
      w'.calibration.samples = window.samples.drop (w.CalCtx.sampleCount / 10) ∧
      w'.calibration.samples.length = w.CalCtx.sampleCount - w.CalCtx.sampleCount / 10 ∧
      w'.samples = (w.samples ++ [sample]).drop (w.CalCtx.sampleCount / 10) := by
  have hn : w.CalCtx.state ≠ CalibrationState.None := by rw [hc]; decide
  have he : w.CalCtx.state ≠ CalibrationState.Editing := by rw [hc]; decide
  have hb : w.CalCtx.state ≠ CalibrationState.Begin := by rw [hc]; decide
  obtain ⟨w5, c, a, x, y, z, ms, lr, lt, di, e, t, s, ch, htick, hw5⟩ :=
    tick_collecting N env time w w3 hvr hgate hread hmove hn he hb
  have e_cal : w5.calibration = w.calibration := by rw [hw5]
  have e_smp : w5.samples = w.samples := by rw [hw5]
  have e_st : w5.CalCtx.state = w.CalCtx.state := by rw [hw5]
  have e_ref : w5.CalCtx.referenceID = w.CalCtx.referenceID := by rw [hw5]
  have e_tgt : w5.CalCtx.targetID = w.CalCtx.targetID := by rw [hw5]
  have e_drv : w5.CalCtx.driverPoses = w3.CalCtx.driverPoses := by rw [hw5]
  have e_cnt : w5.CalCtx.sampleCount = w.CalCtx.sampleCount := by rw [hw5]
  have e_off : w5.CalCtx.continuousCalibrationOffset = w.CalCtx.continuousCalibrationOffset := by
    rw [hw5]
  obtain ⟨wpush, wfull, ms2, c2, hcol, hwp, hwf⟩ := tickCollect_valid N env w5 reference target
    (by rw [e_drv, e_ref]; exact href) (by rw [e_drv, e_tgt]; exact htarget) hrv htv sample
    (by rw [e_st, if_pos (Or.inl hc), e_off]; exact hsample)
  have hpush : (w.calibration.PushSample sample).SampleCount = w.calibration.SampleCount + 1 := by
    simp only [CalibrationCalc.SampleCount, CalibrationCalc.PushSample, List.length_append,
      List.length_singleton]
  have hcount : ¬ (w5.calibration.PushSample sample).SampleCount < w5.CalCtx.sampleCount := by
    rw [e_cal, e_cnt, hpush]
    omega
  have hwlen : window.samples.length = w.CalCtx.sampleCount := by
    rw [hwindow]
    exact dropExcess_length _ _ (by rw [hpush]; exact hfull)
  rw [htick, hcol, if_neg hcount]
  have f_cal : wfull.calibration = window := by
    rw [hwf, hwindow, ← e_cal, ← e_cnt]
  have f_st : wfull.CalCtx.state = CalibrationState.Continuous := by
    rw [hwf]; exact e_st.trans hc
  have f_cnt : wfull.CalCtx.sampleCount = w.CalCtx.sampleCount := by rw [hwf, hw5]
  have f_smp : wfull.samples = w.samples ++ [sample] := by rw [hwf, ← e_smp]
  have f_es : wfull.CalCtx.enableStaticRecalibration = w.CalCtx.enableStaticRecalibration := by
    rw [hwf, hw5]
  have f_lk : wfull.CalCtx.lockRelativePosition = w.CalCtx.lockRelativePosition := by
    rw [hwf, hw5]
  have f_thr : wfull.CalCtx.continuousCalibrationThreshold
      = w.CalCtx.continuousCalibrationThreshold := by rw [hwf, hw5]
  have f_err : wfull.CalCtx.maxRelativeErrorThreshold = w.CalCtx.maxRelativeErrorThreshold := by
    rw [hwf, hw5]
  have f_ign : wfull.CalCtx.ignoreOutliers = w.CalCtx.ignoreOutliers := by rw [hwf, hw5]
  have f_len : wfull.samples.length ≥ wfull.CalCtx.sampleCount := by
    rw [f_smp, f_cnt, List.length_append, List.length_singleton]
    simp only [CalibrationCalc.SampleCount] at hinv hfull
    omega
  obtain ⟨s1, s2, -, s4, s5, -⟩ := tickSolve_continuous_accepted N env wfull f_st f_len
    (by rw [f_cal, f_es, f_lk, f_thr, f_err, f_ign]; exact hacc)
  rw [f_cal, f_cnt] at s4
  rw [f_smp, f_cnt] at s5
  refine ⟨_, rfl, s1, s2, hwlen, s4, ?_, s5⟩
  rw [s4, List.length_drop, hwlen]

/-- C21 (amended): for every accepted continuous update (a tick in the state `Continuous` that
is not skipped, collects a valid Sample, and in which `ComputeIncremental` returns true and
leaves a valid estimate) with configured `sampleCount` N and a full window (with the new Sample
the window holds at least N Samples, so that the solve runs on a window of exactly N), exactly
`N / 10` (integer division) of the oldest Samples are shifted out of the window, which keeps
`N - N / 10`; at least one Sample is shifted out exactly when `N >= 10`, and none when
`N < 10`: there is no floor of one Sample. The hypothesis `hinv` holds in every state the tick
can reach: `samples` is never shorter than the window. -/
theorem CalibrationTick_continuous_accepted (N : Numerics α) (env : TickEnv α) (time : α)
    (w w3 : World α) (reference target : DriverPose α) (sample : Sample α)
    (window : CalibrationCalc α)
    (hvr : env.vrSystem = true) (hgate : ¬ (time - w.CalCtx.timeLastTick) < 1 / 20)
    (hmove : hmdStalled { w with CalCtx := { w.CalCtx with devicePoses := env.rawPoses } }
      = false)
    (hc : w.CalCtx.state = CalibrationState.Continuous)
    (hread : tickReadPoses env (tickPrologue time w) = some w3)
    (href : arrayAt w3.CalCtx.driverPoses w.CalCtx.referenceID = some reference)
    (htarget : arrayAt w3.CalCtx.driverPoses w.CalCtx.targetID = some target)
    (hrv : reference.poseIsValid = true) (htv : target.poseIsValid = true)
    (hsample : sample = Sample.make
      (ConvertPose
        { reference with vecPosition :=
            ![reference.vecPosition 0 + w.CalCtx.continuousCalibrationOffset 0,
              reference.vecPosition 1 + w.CalCtx.continuousCalibrationOffset 1,
              reference.vecPosition 2 + w.CalCtx.continuousCalibrationOffset 2] })
      (ConvertPose target) env.glfwGetTime)
    (hinv : w.calibration.SampleCount ≤ w.samples.length)
    (hfull : w.CalCtx.sampleCount ≤ w.calibration.SampleCount + 1)
    (hwindow : window = dropExcess w.CalCtx.sampleCount (w.calibration.PushSample sample))
    (hacc : (env.ComputeIncremental
          { window with
            enableStaticRecalibration := w.CalCtx.enableStaticRecalibration,
            lockRelativePosition := w.CalCtx.lockRelativePosition }
          w.CalCtx.continuousCalibrationThreshold w.CalCtx.maxRelativeErrorThreshold
          w.CalCtx.ignoreOutliers).1 = true ∧
        (env.ComputeIncremental
          { window with
            enableStaticRecalibration := w.CalCtx.enableStaticRecalibration,
            lockRelativePosition := w.CalCtx.lockRelativePosition }
          w.CalCtx.continuousCalibrationThreshold w.CalCtx.maxRelativeErrorThreshold
          w.CalCtx.ignoreOutliers).2.2.isValid = true) :
    ∃ w', CalibrationTick N env time w = some w' ∧
      w'.CalCtx.state = CalibrationState.Continuous ∧
      window.samples.length = w.CalCtx.sampleCount ∧
      w'.calibration.samples = window.samples.drop (w.CalCtx.sampleCount / 10) ∧
      w'.calibration.samples.length + w.CalCtx.sampleCount / 10 = window.samples.length ∧
      w'.samples = (w.samples ++ [sample]).drop (w.CalCtx.sampleCount / 10) ∧
      (1 ≤ w.CalCtx.sampleCount / 10 ↔ 10 ≤ w.CalCtx.sampleCount) ∧
      (w.CalCtx.sampleCount < 10 → w'.calibration.samples = window.samples) := by
  obtain ⟨w', h1, h2, -, h4, h5, h6, h7⟩ := CalibrationTick_accepted_window N env time w w3
    reference target sample window hvr hgate hmove hc hread href htarget hrv htv hsample hinv
    hfull hwindow hacc
  refine ⟨w', h1, h2, h4, h5, ?_, h7, ?_, ?_⟩
  · rw [h6, h4]
    have := Nat.div_le_self w.CalCtx.sampleCount 10
    omega
  · omega
  · intro hlt
    rw [h5, Nat.div_eq_of_lt hlt, List.drop_zero]

end AcceptedClaim

theorem acceptingEnv_read (w : World ℚ) (hm : w.shmem.mapped = false) :
    ∃ w3, tickReadPoses acceptingEnv (tickPrologue 1 w) = some w3 ∧
      w3.CalCtx.driverPoses = w.CalCtx.driverPoses :=
  tickReadPoses_prologue_unmapped acceptingEnv 1 w hm

/-- C21, the claim as stated fails for a configured count below 10: on the globals
`worldIn Continuous 1`, whose window the first Sample fills, with a solver that succeeds and
leaves a valid estimate, the update is accepted and no Sample is shifted out of the window,
which holds one Sample before the drop stride and after it. -/
theorem CalibrationTick_continuous_accepted_counterexample :
    (worldIn CalibrationState.Continuous 1).CalCtx.sampleCount = 1 ∧
      ∃ w', CalibrationTick ratNumerics acceptingEnv 1 (worldIn CalibrationState.Continuous 1)
          = some w' ∧
        w'.CalCtx.state = CalibrationState.Continuous ∧ w'.CalCtx.validProfile = true ∧
        w'.calibration.samples.length = 1 ∧
        w'.calibration.samples
          = (dropExcess 1 ((worldIn CalibrationState.Continuous 1).calibration.PushSample
              (Sample.make
                (ConvertPose
                  { exampleDriverPose with vecPosition :=
                      ![exampleDriverPose.vecPosition 0 + 0, exampleDriverPose.vecPosition 1 + 0,
                        exampleDriverPose.vecPosition 2 + 0] })
                (ConvertPose exampleDriverPose) 1))).samples := by
  refine ⟨rfl, ?_⟩
  obtain ⟨w3, hread, hdrv⟩ := acceptingEnv_read (worldIn CalibrationState.Continuous 1) rfl
  obtain ⟨w', h1, h2, h3, h4, h5, h6, -⟩ :=
    CalibrationTick_accepted_window ratNumerics acceptingEnv 1
      (worldIn CalibrationState.Continuous 1) w3 exampleDriverPose exampleDriverPose _ _ rfl
      (worldIn_gate _ _) rfl rfl hread (by rw [hdrv]; rfl) (by rw [hdrv]; rfl) rfl rfl rfl
      (Nat.le_refl 0) (Nat.le_refl 1) rfl ⟨rfl, rfl⟩
  refine ⟨w', h1, h2, h3, h6, ?_⟩
  rw [h5]
  rfl

theorem nineSamplesWorld_gate :
    ¬ (1 - nineSamplesWorld.CalCtx.timeLastTick : ℚ) < 1 / 20 := by
  norm_num [nineSamplesWorld, worldIn, contextIn, exampleContext]

/-- C21 (amended), on the globals `nineSamplesWorld` with the configured count 10: the tenth
Sample fills the window, the update is accepted, and one Sample is shifted out of the window,
which keeps nine. -/
theorem CalibrationTick_continuous_accepted_witness :
    ∃ w', CalibrationTick ratNumerics acceptingEnv 1 nineSamplesWorld = some w' ∧
      w'.CalCtx.state = CalibrationState.Continuous ∧
      w'.calibration.samples.length + 1 = 10 := by
  obtain ⟨w3, hread, hdrv⟩ := acceptingEnv_read nineSamplesWorld rfl
  obtain ⟨w', h1, h2, h3, -, h5, -⟩ :=
    CalibrationTick_continuous_accepted ratNumerics acceptingEnv 1 nineSamplesWorld w3
      exampleDriverPose exampleDriverPose _ _ rfl nineSamplesWorld_gate rfl rfl hread
      (by rw [hdrv]; rfl) (by rw [hdrv]; rfl) rfl rfl rfl
      (by simp [nineSamplesWorld, CalibrationCalc.SampleCount])
      (by simp [nineSamplesWorld, CalibrationCalc.SampleCount, worldIn, contextIn])
      rfl ⟨rfl, rfl⟩
  rw [h3] at h5
  exact ⟨w', h1, h2, h5⟩

end SpaceCalibrator
